import Mathlib

/-!
# Meter polling services: decoders, retrying reads and the polling cycle

A shallow embedding of the Modbus polling services of the repository
(`electric_meter.cpp`, `water_meter.cpp`, `inverter_reader.cpp`, `heat_meter.cpp`).

Conventions of the embedding.

* `int` values are `Int`; `uint8_t`, `uint16_t` and `uint32_t` values are `Nat`, reduced
  modulo `2^8`, `2^16`, `2^32` wherever the source converts to that type.  Loop counters never
  overflow in the source as long as `max_retry_count < 2^31 - 1`, and are unbounded here.
* A finite `double` is the rational number it holds.  Every `double` operation of the source
  is the exact operation followed by `binary64.nearest`, the rounding to the nearest binary64
  number with ties to even, subnormal numbers included; a decimal literal such as `0.1` is
  the rounding of its decimal value.  Infinities and NaN are not values of the model: a
  result of magnitude `2^1024` or more is outside it.  A `float` is represented by its
  IEEE-754 binary32 bit pattern.
* libmodbus and the system clock are the environment.  Their answers are given by a
  `Transport`: the answer to the `i`-th call of each library function.  Every call is counted
  and logged in the `Link`, which also holds the handle `ctx_` and the ownership of the
  `std::mutex` that guards it.
* `std::mutex` is not recursive.  A `lock_guard` on a mutex that the calling thread already
  owns never returns; an operation that reaches such a point has the outcome `blocked`.
-/

/-! ## Environment -/

/-- Value of `errno` for "connection reset by peer" on Linux. -/
def ECONNRESET : Int := 104

/-- Value of `errno` for "bad file descriptor" on Linux. -/
def EBADF : Int := 9

/-- One interaction of a reader with the mutex, the transport library or the scheduler. -/
inductive Event where
  | lock
  | relock
  | unlock
  | setSlave (slave : Int)
  | readRegisters (addr : Int) (nb : Int)
  | close
  | connect
  | sleep (ms : Nat)
  deriving DecidableEq, Repr

/-- Answer of one `modbus_read_registers` call: the return code, the value of `errno` after the
call, and the contents of the destination buffer after the call (word `i` at index `i`). -/
structure ReadResponse where
  rc : Int
  errno : Int
  regs : Nat → Nat

/-- Behaviour of the transport library and of the clock, call by call.
`modbus_set_slave i` is the return code of the `i`-th `modbus_set_slave` call of a retry
loop (the calls whose return code the source tests) and `set_slave_errno i` the value of
`errno` after it.
`modbus_connect i` is the outcome of the `i`-th attempt to create a context, configure it and
connect it: `none` when `modbus_new_rtu`/`modbus_new_tcp` or `modbus_connect` fails,
`some sock` when the connection is established on socket `sock`. -/
structure Transport where
  modbus_read_registers : Nat → ReadResponse
  modbus_set_slave : Nat → Int
  set_slave_errno : Nat → Int
  modbus_connect : Nat → Option Int
  modbus_strerror : Int → String
  now : Nat → Nat

/-- The transport side of a reader object: the handle `ctx_` (`none` is `nullptr`, `some sock`
a context whose socket is `sock`), whether the mutex guarding it is owned, the number of calls
made so far to each library function, and the log of interactions in chronological order. -/
structure Link where
  ctx_ : Option Int
  mutex_owned : Bool
  reads : Nat
  slaves : Nat
  connects : Nat
  clocks : Nat
  trace : List Event
  deriving DecidableEq, Repr

/-- Result of running an operation: it returned `value` in state `state`, or it is blocked
forever in state `state` on a mutex its own thread owns. -/
inductive Outcome (σ : Type) (α : Type) where
  | returned (value : α) (state : σ)
  | blocked (state : σ)
  deriving DecidableEq, Repr

namespace Outcome

/-- The state in which the operation returned or blocked. -/
def state {σ α : Type} : Outcome σ α → σ
  | returned _ s => s
  | blocked s => s

/-- The returned value, if the operation returned. -/
def value? {σ α : Type} : Outcome σ α → Option α
  | returned a _ => some a
  | blocked _ => none

/-- Whether the operation returned to its caller. -/
def returns {σ α : Type} : Outcome σ α → Bool
  | returned _ _ => true
  | blocked _ => false

end Outcome

namespace Link

/-- Append an event to the log. -/
def emit (l : Link) (e : Event) : Link :=
  { l with trace := l.trace ++ [e] }

/-- Constructor of `std::lock_guard` on a mutex that is free. -/
def acquire (l : Link) : Link :=
  { l with mutex_owned := true, trace := l.trace ++ [Event.lock] }

/-- Destructor of `std::lock_guard`. -/
def release (l : Link) : Link :=
  { l with mutex_owned := false, trace := l.trace ++ [Event.unlock] }

/-- The calls `usleep` and `std::this_thread::sleep_for`. -/
def sleep (l : Link) (ms : Nat) : Link :=
  l.emit (Event.sleep ms)

/-- The sequence `modbus_close(ctx_); modbus_free(ctx_); ctx_ = nullptr;`. -/
def close (l : Link) : Link :=
  { l with ctx_ := none, trace := l.trace ++ [Event.close] }

/-- One sample of `std::chrono::system_clock::now()`. -/
def tick (l : Link) : Link :=
  { l with clocks := l.clocks + 1 }

/-- Bookkeeping of one `modbus_set_slave` call. -/
def didSetSlave (l : Link) (slave : Int) : Link :=
  { l with slaves := l.slaves + 1, trace := l.trace ++ [Event.setSlave slave] }

/-- Bookkeeping of one `modbus_read_registers` call. -/
def didRead (l : Link) (addr nb : Int) : Link :=
  { l with reads := l.reads + 1, trace := l.trace ++ [Event.readRegisters addr nb] }

/-- Creation of a new context, its configuration and `modbus_connect`, taken as one event: on
failure the context is freed and `ctx_` is `nullptr`.  The configuration calls, whose results
the source does not test (`modbus_set_response_timeout` and, in
`ElectricMeterReader::connectModbus`, `modbus_set_slave`), are part of this event and are
neither counted in `slaves` nor logged on their own;
`ElectricMeterReader.connectModbus.calls` lists them call by call. -/
def didConnect (l : Link) (answer : Option Int) : Link :=
  { l with ctx_ := answer, connects := l.connects + 1, trace := l.trace ++ [Event.connect] }

end Link

/-- Release of the `lock_guard` of an operation on `Link` when the operation returns. -/
def Outcome.unlockOnReturn {α : Type} : Outcome Link α → Outcome Link α
  | Outcome.returned a l => Outcome.returned a l.release
  | Outcome.blocked l => Outcome.blocked l

/-! ## Decoders -/

namespace binary64

/-- Nearest integer to a rational, a half going to the even neighbour. -/
def roundHalfEven (y : ℚ) : Int :=
  let f := Int.floor y
  let r := y - f
  if r < 1 / 2 then f else if 1 / 2 < r then f + 1 else if f % 2 = 0 then f else f + 1

/-- Exponent of the unit in the last place of the binary64 numbers around `x`: 52 below the
exponent of the leading bit of `x`, and `-1074` in the subnormal range. -/
def ulp (x : ℚ) : Int :=
  max (Int.log 2 |x|) (-1022) - 52

/-- Rounding of an exact result to binary64: to the nearest multiple of the unit in the last
place, ties to even.  Every `double` operation of the source ends with it. -/
def nearest (x : ℚ) : ℚ :=
  (roundHalfEven (x / 2 ^ ulp x) : ℚ) * 2 ^ ulp x

/-- The exact result `x` rounds to a finite binary64 number: its magnitude is below
`2^1024 - 2^970`, half a unit in the last place above the largest finite number.  An
operation of the source with such a result does not overflow. -/
def finite (x : ℚ) : Prop :=
  |x| < 2 ^ 1024 - 2 ^ 970

instance (x : ℚ) : Decidable (finite x) :=
  inferInstanceAs (Decidable (|x| < 2 ^ 1024 - 2 ^ 970))

end binary64

namespace std

/-- The function `std::round` on a `double`: nearest integer, halves away from zero.  The
result is a binary64 number whenever the argument is one. -/
def round (x : ℚ) : ℚ :=
  if 0 ≤ x then ((Rat.floor (x + 1 / 2) : Int) : ℚ) else (-(Rat.floor (-x + 1 / 2) : Int) : ℚ)

end std

/-- The expression `(static_cast<uint32_t>(regs[0]) << 16) | regs[1]` on two `uint16_t`
words, as a `uint32_t`. -/
def bigEndianWord32 (regs : Nat → Nat) : Nat :=
  ((((regs 0 % 65536) % 4294967296) <<< 16) % 4294967296) ||| (regs 1 % 65536)

/-- Value of a finite IEEE-754 binary32 bit pattern (`none` for infinities and NaN). -/
def ieee754Single (bits : Nat) : Option ℚ :=
  let sign : ℚ := if (bits / 2147483648) % 2 = 1 then -1 else 1
  let expo := (bits / 8388608) % 256
  let frac := bits % 8388608
  if expo = 255 then none
  else if expo = 0 then some (sign * (frac : ℚ) / 2 ^ 149)
  else some (sign * ((8388608 + frac : Nat) : ℚ) * 2 ^ expo / 2 ^ 150)

namespace WaterMeterReader

/-- `WaterMeterReader::bcdToDouble`.  `data` is the byte array; a byte index outside the array
(which the source does not check) reads as `0`.  The statement `multiplier *= 0.1` is one
rounded product per iteration, `result * 10 + value` a rounded product followed by a rounded
sum, and the returned `result * multiplier` one rounded product. -/
def bcdToDouble (data : List Nat) (integerDigits fractionalDigits : Int) : ℚ :=
  let multiplier : ℚ :=
    Nat.iterate (fun m => binary64.nearest (m * binary64.nearest (1 / 10)))
      fractionalDigits.toNat 1
  let result : ℚ :=
    (List.range (integerDigits + fractionalDigits).toNat).foldl
      (fun result i =>
        let byteIndex := i / 2
        let nibbleIndex := i % 2
        let value : Nat :=
          if nibbleIndex = 0 then ((data.getD byteIndex 0 % 256) >>> 4) &&& 0x0F
          else (data.getD byteIndex 0 % 256) &&& 0x0F
        binary64.nearest (binary64.nearest (result * 10) + (value : ℚ))) 0
  binary64.nearest (result * multiplier)

end WaterMeterReader

namespace ElectricMeterReader

/-- `ElectricMeterReader::parseFloatBigEndian`: the bit pattern of the returned `float`. -/
def parseFloatBigEndian (regs : Nat → Nat) : Nat :=
  bigEndianWord32 regs

end ElectricMeterReader

/-- The `k`-th 4-bit digit of a byte array as the decoder's contract describes it: digit `2j`
is the high half of byte `j`, digit `2j+1` its low half. -/
def nibble (data : List Nat) (k : Nat) : Nat :=
  if k % 2 = 0 then (data.getD (k / 2) 0 % 256) / 16 else (data.getD (k / 2) 0 % 256) % 16

/-! ## Water meter reader -/

/-- The record `WaterMeter` of `water_meter.h`. -/
structure WaterMeter where
  id : Int
  total_water : ℚ
  success : Bool
  retry_count : Int
  last_update : Nat
  deriving DecidableEq, Repr

namespace WaterMeterReader

/-- The fields of `Config` (`water_meter.h`) that the polling code reads. -/
structure Config where
  meter_addresses : List Int
  max_retry_count : Int
  deriving DecidableEq, Repr

/-- `WaterMeterReader::reconnectModbus`. -/
def reconnectModbus (t : Transport) (l : Link) : Outcome Link Bool :=
  -- std::lock_guard<std::mutex> lock(modbus_mutex_);
  if l.mutex_owned then Outcome.blocked (l.emit Event.relock)
  else
    let l := l.acquire
    let l := if l.ctx_.isSome then l.close else l
    match t.modbus_connect l.connects with
    | none => Outcome.returned false (l.didConnect none).release
    | some sock => Outcome.returned true (l.didConnect (some sock)).release

/-- The conversion at the end of a successful attempt of `readSingleMeter`: the two registers
are split into four bytes, high byte first, and decoded as four integer and four fractional
BCD digits. -/
def readSingleMeter.decode (regs : Nat → Nat) : ℚ :=
  let regs0 := regs 0 % 65536
  let regs1 := regs 1 % 65536
  let data : List Nat :=
    [(regs0 >>> 8) &&& 0xFF, regs0 &&& 0xFF, (regs1 >>> 8) &&& 0xFF, regs1 &&& 0xFF]
  bcdToDouble data 4 4

/-- The retry loop of `WaterMeterReader::readSingleMeter`.  The first argument is the number of
iterations that the loop condition `retry <= config_.max_retry_count` still admits. -/
def readSingleMeter.loop (config_ : Config) (t : Transport) (slave_id : Int) :
    Nat → Int → WaterMeter → Link → Outcome Link WaterMeter
  | 0, _, result, l => Outcome.returned result l
  | fuel + 1, retry, result, l =>
    let rcSlave := t.modbus_set_slave l.slaves
    let l := l.didSetSlave slave_id
    if rcSlave ≠ 0 then
      if retry < config_.max_retry_count then
        readSingleMeter.loop config_ t slave_id fuel (retry + 1) result (l.sleep 100)
      else Outcome.returned result l
    else
      let resp := t.modbus_read_registers l.reads
      let l := l.didRead 0 2
      if resp.rc = -1 then
        if resp.errno = ECONNRESET ∨ resp.errno = EBADF then
          match reconnectModbus t l with
          | Outcome.blocked l1 => Outcome.blocked l1
          | Outcome.returned false l1 => Outcome.returned result l1
          | Outcome.returned true l1 =>
            if retry < config_.max_retry_count then
              readSingleMeter.loop config_ t slave_id fuel (retry + 1) result (l1.sleep 100)
            else Outcome.returned result l1
        else if retry < config_.max_retry_count then
          readSingleMeter.loop config_ t slave_id fuel (retry + 1) result (l.sleep 100)
        else Outcome.returned result l
      else
        Outcome.returned
          { result with
            total_water := readSingleMeter.decode resp.regs,
            success := true,
            retry_count := retry }
          l

/-- `WaterMeterReader::readSingleMeter`. -/
def readSingleMeter (config_ : Config) (t : Transport) (slave_id : Int) (l : Link) :
    Outcome Link WaterMeter :=
  -- std::lock_guard<std::mutex> lock(modbus_mutex_);
  if l.mutex_owned then Outcome.blocked (l.emit Event.relock)
  else
    let l := l.acquire
    let result : WaterMeter :=
      { id := slave_id, total_water := 0, success := false, retry_count := 0,
        last_update := t.now l.clocks }
    let l := l.tick
    if l.ctx_.isNone then
      match reconnectModbus t l with
      | Outcome.blocked l1 => Outcome.blocked l1
      | Outcome.returned false l1 => Outcome.returned result l1.release
      | Outcome.returned true l1 =>
        (readSingleMeter.loop config_ t slave_id (config_.max_retry_count + 1).toNat 0 result
          l1).unlockOnReturn
    else
      (readSingleMeter.loop config_ t slave_id (config_.max_retry_count + 1).toNat 0 result
        l).unlockOnReturn

end WaterMeterReader

/-! ## Inverter reader -/

/-- The record `InverterData` of `inverter_reader.h`. -/
structure InverterData where
  id : Int
  name : String
  generation : ℚ
  success : Bool
  retry_count : Int
  register_addr : Int
  multiplier : ℚ
  last_update : Nat
  deriving DecidableEq, Repr

namespace InverterReader

/-- The fields of `Config` (`inverter_reader.h`) that the polling code reads. -/
structure Config where
  inverters : List InverterData
  max_retry_count : Int
  deriving DecidableEq, Repr

/-- `InverterReader::reconnectModbus`. -/
def reconnectModbus (t : Transport) (l : Link) : Outcome Link Bool :=
  -- std::lock_guard<std::mutex> lock(modbus_mutex_);
  if l.mutex_owned then Outcome.blocked (l.emit Event.relock)
  else
    let l := l.acquire
    let l := if l.ctx_.isSome then l.close else l
    match t.modbus_connect l.connects with
    | none => Outcome.returned false (l.didConnect none).release
    | some sock => Outcome.returned true (l.didConnect (some sock)).release

/-- `InverterReader::findInverterConfig`. -/
def findInverterConfig (config_ : Config) (slave_id : Int) : Option InverterData :=
  config_.inverters.find? (fun inv => decide (inv.id = slave_id))

/-- The initial value of `result` in `InverterReader::readSingleInverter`, built at time
`now`. -/
def readSingleInverter.initial (config_ : Config) (slave_id register_addr : Int)
    (multiplier : ℚ) (now : Nat) : InverterData :=
  let inv_cfg := findInverterConfig config_ slave_id
  { id := slave_id,
    name := match inv_cfg with
      | some inv => inv.name
      | none => "Unknown",
    generation := 0, success := false, retry_count := 0, register_addr := register_addr,
    multiplier := multiplier, last_update := now }

/-- The retry loop of `InverterReader::readSingleInverter`.  The first argument is the number
of iterations that the loop condition `retry <= config_.max_retry_count` still admits. -/
def readSingleInverter.loop (config_ : Config) (t : Transport) (slave_id register_addr : Int)
    (multiplier : ℚ) : Nat → Int → InverterData → Link → Outcome Link InverterData
  | 0, _, result, l => Outcome.returned result l
  | fuel + 1, retry, result, l =>
    let rcSlave := t.modbus_set_slave l.slaves
    let l := l.didSetSlave slave_id
    if rcSlave ≠ 0 then
      if retry < config_.max_retry_count then
        readSingleInverter.loop config_ t slave_id register_addr multiplier fuel (retry + 1)
          result (l.sleep 100)
      else Outcome.returned result l
    else
      let resp := t.modbus_read_registers l.reads
      let l := l.didRead register_addr 2
      if resp.rc = -1 then
        if resp.errno = ECONNRESET ∨ resp.errno = EBADF then
          match reconnectModbus t l with
          | Outcome.blocked l1 => Outcome.blocked l1
          | Outcome.returned false l1 => Outcome.returned result l1
          | Outcome.returned true l1 =>
            if retry < config_.max_retry_count then
              readSingleInverter.loop config_ t slave_id register_addr multiplier fuel
                (retry + 1) result (l1.sleep 100)
            else Outcome.returned result l1
        else if retry < config_.max_retry_count then
          readSingleInverter.loop config_ t slave_id register_addr multiplier fuel (retry + 1)
            result (l.sleep 100)
        else Outcome.returned result l
      else
        let raw_value := bigEndianWord32 resp.regs
        let result :=
          { result with generation := binary64.nearest ((raw_value : ℚ) * multiplier) }
        let result :=
          { result with
            generation :=
              binary64.nearest
                (std.round (binary64.nearest (result.generation * 100)) / 100) }
        let value := bigEndianWord32 resp.regs
        Outcome.returned
          { result with generation := binary64.nearest ((value : ℚ) * multiplier),
                        success := true, retry_count := retry }
          l

/-- `InverterReader::readSingleInverter`. -/
def readSingleInverter (config_ : Config) (t : Transport) (slave_id register_addr : Int)
    (multiplier : ℚ) (l : Link) : Outcome Link InverterData :=
  -- std::lock_guard<std::mutex> lock(modbus_mutex_);
  if l.mutex_owned then Outcome.blocked (l.emit Event.relock)
  else
    let l := l.acquire
    let result : InverterData :=
      readSingleInverter.initial config_ slave_id register_addr multiplier (t.now l.clocks)
    let l := l.tick
    if l.ctx_.isNone then
      match reconnectModbus t l with
      | Outcome.blocked l1 => Outcome.blocked l1
      | Outcome.returned false l1 => Outcome.returned result l1.release
      | Outcome.returned true l1 =>
        (readSingleInverter.loop config_ t slave_id register_addr multiplier
          (config_.max_retry_count + 1).toNat 0 result l1).unlockOnReturn
    else
      (readSingleInverter.loop config_ t slave_id register_addr multiplier
        (config_.max_retry_count + 1).toNat 0 result l).unlockOnReturn

end InverterReader

/-! ## Heat meter reader -/

/-- The record `HeatMeterData` of `heat_meter.h`. -/
structure HeatMeterData where
  address : Int
  name : String
  accumulated_heat : Nat
  accumulated_heat_kwh : ℚ
  success : Bool
  retry_count : Int
  last_update : Nat
  error_message : String
  heat_accumulated_addr : Int
  heat_accumulated_len : Int
  multiplier : ℚ
  deriving DecidableEq, Repr

/-- The fields of `HeatMeterConfig` (`heat_meter.h`) that the polling code reads. -/
structure HeatMeterConfig where
  retry_count : Int
  meter_address : Int
  meter_name : String
  heat_accumulated_addr : Int
  heat_accumulated_len : Int
  multiplier : ℚ
  deriving DecidableEq, Repr

/-- The mutable members of a `HeatMeterReader`: the transport side (its mutex is
`data_mutex_`) and the stored record `meter_data_`. -/
structure HeatMeterReader where
  link : Link
  meter_data_ : HeatMeterData
  deriving DecidableEq, Repr

namespace HeatMeterReader

/-- `HeatMeterReader::reconnectModbus`. -/
def reconnectModbus (t : Transport) (l : Link) : Outcome Link Bool :=
  -- std::lock_guard<std::mutex> lock(data_mutex_);
  if l.mutex_owned then Outcome.blocked (l.emit Event.relock)
  else
    let l := l.acquire
    let l := if l.ctx_.isSome then l.close else l
    match t.modbus_connect l.connects with
    | none => Outcome.returned false (l.didConnect none).release
    | some sock => Outcome.returned true (l.didConnect (some sock)).release

/-- The retry loop of `HeatMeterReader::readHeatMeter`: it yields the value of `new_data` at
the exit of the loop.  The first argument is the number of iterations that the loop condition
`retry <= config_.retry_count` still admits. -/
def readHeatMeter.loop (config_ : HeatMeterConfig) (t : Transport) :
    Nat → Int → HeatMeterData → Link → Outcome Link HeatMeterData
  | 0, _, new_data, l => Outcome.returned new_data l
  | fuel + 1, retry, new_data, l =>
    let rcSlave := t.modbus_set_slave l.slaves
    let errnoSlave := t.set_slave_errno l.slaves
    let l := l.didSetSlave config_.meter_address
    if rcSlave ≠ 0 then
      let new_data :=
        { new_data with
          error_message := "Failed to set slave address: " ++ t.modbus_strerror errnoSlave }
      if retry < config_.retry_count then
        readHeatMeter.loop config_ t fuel (retry + 1) new_data (l.sleep 100)
      else Outcome.returned new_data l
    else
      let resp := t.modbus_read_registers l.reads
      let l := l.didRead config_.heat_accumulated_addr config_.heat_accumulated_len
      if resp.rc = config_.heat_accumulated_len then
        let raw_value := bigEndianWord32 resp.regs
        Outcome.returned
          { new_data with
            accumulated_heat := raw_value,
            accumulated_heat_kwh := binary64.nearest ((raw_value : ℚ) * config_.multiplier),
            success := true,
            retry_count := retry }
          l
      else
        let new_data :=
          { new_data with error_message := "Read failed: " ++ t.modbus_strerror resp.errno }
        if resp.errno = ECONNRESET ∨ resp.errno = EBADF then
          match reconnectModbus t l with
          | Outcome.blocked l1 => Outcome.blocked l1
          | Outcome.returned false l1 => Outcome.returned new_data l1
          | Outcome.returned true l1 =>
            if retry < config_.retry_count then
              readHeatMeter.loop config_ t fuel (retry + 1) new_data (l1.sleep 100)
            else readHeatMeter.loop config_ t fuel (retry + 1) new_data l1
        else if retry < config_.retry_count then
          readHeatMeter.loop config_ t fuel (retry + 1) new_data (l.sleep 100)
        else readHeatMeter.loop config_ t fuel (retry + 1) new_data l

/-- The initial value of `new_data` in `HeatMeterReader::readHeatMeter`, built at time
`now`. -/
def readHeatMeter.initial (config_ : HeatMeterConfig) (now : Nat) : HeatMeterData :=
  { address := config_.meter_address, name := config_.meter_name, accumulated_heat := 0,
    accumulated_heat_kwh := 0, success := false, retry_count := 0, last_update := now,
    error_message := "", heat_accumulated_addr := config_.heat_accumulated_addr,
    heat_accumulated_len := config_.heat_accumulated_len, multiplier := config_.multiplier }

/-- The end of `HeatMeterReader::readHeatMeter`, after the retry loop: `meter_data_` is
replaced by `new_data`, the flag `new_data.success` is returned and `data_mutex_` is released. -/
def readHeatMeter.finish (s : HeatMeterReader) :
    Outcome Link HeatMeterData → Outcome HeatMeterReader Bool
  | Outcome.blocked l1 => Outcome.blocked { s with link := l1 }
  | Outcome.returned new_data l1 =>
    Outcome.returned new_data.success { link := l1.release, meter_data_ := new_data }

/-- `HeatMeterReader::readHeatMeter`. -/
def readHeatMeter (config_ : HeatMeterConfig) (t : Transport) (s : HeatMeterReader) :
    Outcome HeatMeterReader Bool :=
  let new_data : HeatMeterData := readHeatMeter.initial config_ (t.now s.link.clocks)
  let l := s.link.tick
  -- std::lock_guard<std::mutex> lock(data_mutex_);
  if l.mutex_owned then Outcome.blocked { s with link := l.emit Event.relock }
  else
    let l := l.acquire
    if l.ctx_.isNone then
      match reconnectModbus t l with
      | Outcome.blocked l1 => Outcome.blocked { s with link := l1 }
      | Outcome.returned false l1 =>
        Outcome.returned false { link := l1.release, meter_data_ := new_data }
      | Outcome.returned true l1 =>
        readHeatMeter.finish s
          (readHeatMeter.loop config_ t (config_.retry_count + 1).toNat 0 new_data l1)
    else
      readHeatMeter.finish s
        (readHeatMeter.loop config_ t (config_.retry_count + 1).toNat 0 new_data l)

end HeatMeterReader

/-! ## Electric meter reader -/

/-- The record `ElectricMeter` of `electric_meter.h`; `power_value` is the bit pattern of the
`float`. -/
structure ElectricMeter where
  id : Int
  power_value : Nat
  success : Bool
  last_update : Nat
  deriving DecidableEq, Repr

/-- The fields of `ElectricConfig` (`electric_meter.h`) that the polling code reads. -/
structure ElectricConfig where
  meter_count : Int
  start_register : Int
  register_count : Int
  max_retry_count : Int
  max_reconnect_count : Int
  deriving DecidableEq, Repr

/-- The mutable members of an `ElectricMeterReader`: the transport side (its mutex is
`modbus_mutex_`), the store `meters_`, the flag `running_` and the two counters. -/
structure ElectricMeterReader where
  link : Link
  meters_ : List ElectricMeter
  running_ : Bool
  reconnect_count_ : Int
  current_retry_count_ : Int
  deriving DecidableEq, Repr

namespace ElectricMeterReader

/-- `ElectricMeterReader::shouldExit`. -/
def shouldExit (config_ : ElectricConfig) (s : ElectricMeterReader) : Bool :=
  decide (s.reconnect_count_ ≥ config_.max_reconnect_count)

/-- `ElectricMeterReader::connectModbus`, with the library calls from `modbus_new_tcp` to
`modbus_connect` as the single event `connect` (see `connectModbus.calls` for the calls one
by one). -/
def connectModbus (t : Transport) (s : ElectricMeterReader) :
    Outcome ElectricMeterReader Bool :=
  -- std::lock_guard<std::mutex> lock(modbus_mutex_);
  if s.link.mutex_owned then Outcome.blocked { s with link := s.link.emit Event.relock }
  else
    let l := s.link.acquire
    let l := if l.ctx_.isSome then l.close else l
    match t.modbus_connect l.connects with
    | none => Outcome.returned false { s with link := (l.didConnect none).release }
    | some sock => Outcome.returned true { s with link := (l.didConnect (some sock)).release }

/-- `ElectricMeterReader::disconnectModbus`. -/
def disconnectModbus (s : ElectricMeterReader) : Outcome ElectricMeterReader Unit :=
  -- std::lock_guard<std::mutex> lock(modbus_mutex_);
  if s.link.mutex_owned then Outcome.blocked { s with link := s.link.emit Event.relock }
  else
    let l := s.link.acquire
    let l := if l.ctx_.isSome then l.close else l
    Outcome.returned () { s with link := l.release }

/-- The retry loop of `ElectricMeterReader::performReadWithRetry`, up to the statement
`return false` that follows it.  The first argument is the number of iterations that the loop
condition `current_retry_count_ <= config_.max_retry_count` still admits; the last one is the
contents of the caller's buffer `registers`. -/
def performReadWithRetry.loop (config_ : ElectricConfig) (t : Transport) :
    Nat → ElectricMeterReader → (Nat → Nat) →
      Outcome ElectricMeterReader (Bool × (Nat → Nat))
  | 0, s, registers => Outcome.returned (false, registers) s
  | fuel + 1, s, _ =>
    let resp := t.modbus_read_registers s.link.reads
    let s := { s with link := s.link.didRead config_.start_register config_.register_count }
    if resp.rc = config_.register_count then
      Outcome.returned (true, resp.regs) { s with reconnect_count_ := 0 }
    else if s.current_retry_count_ < config_.max_retry_count then
      performReadWithRetry.loop config_ t fuel
        { s with link := s.link.sleep 500, current_retry_count_ := s.current_retry_count_ + 1 }
        resp.regs
    else
      performReadWithRetry.loop config_ t fuel
        { s with current_retry_count_ := s.current_retry_count_ + 1 } resp.regs

/-- `ElectricMeterReader::performReadWithRetry`: the returned flag and the contents of the
buffer `registers` at the return. -/
def performReadWithRetry (config_ : ElectricConfig) (t : Transport) (s : ElectricMeterReader)
    (registers : Nat → Nat) : Outcome ElectricMeterReader (Bool × (Nat → Nat)) :=
  -- std::lock_guard<std::mutex> lock(modbus_mutex_);
  if s.link.mutex_owned then Outcome.blocked { s with link := s.link.emit Event.relock }
  else
    let s := { s with link := s.link.acquire }
    if s.link.ctx_.isNone then
      Outcome.returned (false, registers) { s with link := s.link.release }
    else
      match performReadWithRetry.loop config_ t (config_.max_retry_count + 1).toNat
          { s with current_retry_count_ := 0 } registers with
      | Outcome.blocked s1 => Outcome.blocked s1
      | Outcome.returned v s1 => Outcome.returned v { s1 with link := s1.link.release }

/-- The loop of `readAllMeters` that builds `new_data` from the registers read: the entries
built so far and the transport side (each entry samples the clock). -/
def readAllMeters.parse (config_ : ElectricConfig) (t : Transport) (registers : Nat → Nat)
    (l : Link) : List ElectricMeter × Link :=
  (List.range config_.meter_count.toNat).foldl
    (fun (acc : List ElectricMeter × Link) (i : Nat) =>
      let reg_index : Nat := i * 2
      if ((reg_index : Int) + 1 < config_.register_count) then
        let power_value := parseFloatBigEndian (fun j => registers (reg_index + j))
        (acc.1 ++ [{ id := (i : Int) + 1, power_value := power_value, success := true,
                     last_update := t.now acc.2.clocks }], acc.2.tick)
      else acc)
    ([], l)

/-- The loop of `readAllMeters` that builds `error_data` after a failed read. -/
def readAllMeters.errorData (config_ : ElectricConfig) (t : Transport) (l : Link) :
    List ElectricMeter × Link :=
  (List.range config_.meter_count.toNat).foldl
    (fun (acc : List ElectricMeter × Link) (k : Nat) =>
      (acc.1 ++ [{ id := (k : Int) + 1, power_value := 0, success := false,
                   last_update := t.now acc.2.clocks }], acc.2.tick))
    ([], l)

/-- The part of `ElectricMeterReader::readAllMeters` that follows the connection check: the
read with retry and the replacement of `meters_`. -/
def readAllMeters.readAndStore (config_ : ElectricConfig) (t : Transport)
    (s : ElectricMeterReader) : Outcome ElectricMeterReader Bool :=
  match performReadWithRetry config_ t s (fun _ => 0) with
  | Outcome.blocked s1 => Outcome.blocked s1
  | Outcome.returned (true, registers) s1 =>
    let built := readAllMeters.parse config_ t registers s1.link
    Outcome.returned true { s1 with link := built.2, meters_ := built.1 }
  | Outcome.returned (false, _) s1 =>
    match disconnectModbus s1 with
    | Outcome.blocked s2 => Outcome.blocked s2
    | Outcome.returned _ s2 =>
      let built := readAllMeters.errorData config_ t s2.link
      Outcome.returned false { s2 with link := built.2, meters_ := built.1 }

/-- `ElectricMeterReader::readAllMeters`. -/
def readAllMeters (config_ : ElectricConfig) (t : Transport) (s : ElectricMeterReader) :
    Outcome ElectricMeterReader Bool :=
  if shouldExit config_ s then Outcome.returned false { s with running_ := false }
  else
    -- { std::lock_guard<std::mutex> lock(modbus_mutex_); need_connect = ...; }
    if s.link.mutex_owned then Outcome.blocked { s with link := s.link.emit Event.relock }
    else
      let need_connect : Bool :=
        match s.link.ctx_ with
        | none => true
        | some sock => decide (sock = -1)
      let s := { s with link := s.link.acquire.release }
      if need_connect then
        match connectModbus t s with
        | Outcome.blocked s1 => Outcome.blocked s1
        | Outcome.returned false s1 =>
          Outcome.returned false { s1 with reconnect_count_ := s1.reconnect_count_ + 1 }
        | Outcome.returned true s1 => readAllMeters.readAndStore config_ t s1
      else readAllMeters.readAndStore config_ t s

end ElectricMeterReader

/-! ## Stores, cursors and polling operations -/

/-- The mutable members of a `WaterMeterReader`: the transport side (its mutex is
`modbus_mutex_`), the store `meters_` and the cursor `current_meter_index_`. -/
structure WaterMeterReader where
  link : Link
  meters_ : List WaterMeter
  current_meter_index_ : Nat
  deriving DecidableEq, Repr

namespace WaterMeterReader

/-- The members of a `WaterMeterReader` after its constructor: no handle, an empty store and
the cursor at zero; nothing has happened on the transport side. -/
def construct : WaterMeterReader :=
  { link :=
      { ctx_ := none, mutex_owned := false, reads := 0, slaves := 0, connects := 0,
        clocks := 0, trace := [] },
    meters_ := [], current_meter_index_ := 0 }

/-- `WaterMeterReader::initialize`: the context is created and connected, and on success the
store gets one unsuccessful entry per configured address and the cursor is reset. -/
def init (config_ : Config) (t : Transport) (s : WaterMeterReader) :
    Outcome WaterMeterReader Bool :=
  let answer := t.modbus_connect s.link.connects
  let l := s.link.didConnect answer
  match answer with
  | none => Outcome.returned false { s with link := l }
  | some _ =>
    let built :=
      config_.meter_addresses.foldl
        (fun (acc : List WaterMeter × Link) (addr : Int) =>
          (acc.1 ++ [{ id := addr, total_water := 0, success := false, retry_count := 0,
                       last_update := t.now acc.2.clocks }], acc.2.tick))
        ([], l)
    Outcome.returned true { link := built.2, meters_ := built.1, current_meter_index_ := 0 }

/-- `WaterMeterReader::readNextMeter`.  A cursor outside the store, which the source does not
check and which does not occur after `initialize`, leaves the state as it is. -/
def readNextMeter (config_ : Config) (t : Transport) (s : WaterMeterReader) :
    Outcome WaterMeterReader Unit :=
  if s.meters_.isEmpty then Outcome.returned () s
  else
    match s.meters_[s.current_meter_index_]? with
    | none => Outcome.returned () s
    | some meter =>
      match readSingleMeter config_ t meter.id s.link with
      | Outcome.blocked l1 => Outcome.blocked { s with link := l1 }
      | Outcome.returned new_data l1 =>
        let meter :=
          { meter with
            total_water := new_data.total_water,
            success := new_data.success,
            retry_count := new_data.retry_count,
            last_update := new_data.last_update }
        Outcome.returned ()
          { link := l1,
            meters_ := s.meters_.set s.current_meter_index_ meter,
            current_meter_index_ := (s.current_meter_index_ + 1) % s.meters_.length }

/-- The state after `n` consecutive calls of `readNextMeter`, each on the state that the
previous one left, as the loop of `run` makes them. -/
def polls (config_ : Config) (t : Transport) : Nat → WaterMeterReader → WaterMeterReader
  | 0, s => s
  | n + 1, s => polls config_ t n (readNextMeter config_ t s).state

/-- The states of a water reader that a successful `initialize` followed by calls of
`readNextMeter` produces, the state in which a call is blocked included. -/
inductive Reachable (config_ : Config) (t : Transport) : WaterMeterReader → Prop where
  | start (s0 s : WaterMeterReader) :
      init config_ t s0 = Outcome.returned true s → s0.link.mutex_owned = false →
      Reachable config_ t s
  | poll (s : WaterMeterReader) :
      Reachable config_ t s → Reachable config_ t (readNextMeter config_ t s).state

end WaterMeterReader

/-- The mutable members of an `InverterReader`: the transport side (its mutex is
`modbus_mutex_`), the store `inverters_` and the cursor `current_inverter_index_`. -/
structure InverterReader where
  link : Link
  inverters_ : List InverterData
  current_inverter_index_ : Nat
  deriving DecidableEq, Repr

namespace InverterReader

/-- The entry that `InverterReader::loadConfig` builds for one inverter of the configuration
file, at time `now`. -/
def loadConfig.entry (address : Int) (name : String) (register_addr : Int) (multiplier : ℚ)
    (now : Nat) : InverterData :=
  { id := address, name := name, generation := 0, success := false, retry_count := 0,
    register_addr := register_addr, multiplier := multiplier, last_update := now }

/-- The members of an `InverterReader` after its constructor: no handle, an empty store and
the cursor at zero; nothing has happened on the transport side. -/
def construct : InverterReader :=
  { link :=
      { ctx_ := none, mutex_owned := false, reads := 0, slaves := 0, connects := 0,
        clocks := 0, trace := [] },
    inverters_ := [], current_inverter_index_ := 0 }

/-- `InverterReader::initialize`: the context is created and connected, and on success the
store is a copy of the configured entries and the cursor is reset. -/
def init (config_ : Config) (t : Transport) (s : InverterReader) :
    Outcome InverterReader Bool :=
  let answer := t.modbus_connect s.link.connects
  let l := s.link.didConnect answer
  match answer with
  | none => Outcome.returned false { s with link := l }
  | some _ =>
    let inverters_ :=
      config_.inverters.foldl (fun (acc : List InverterData) inv_cfg => acc ++ [inv_cfg]) []
    Outcome.returned true { link := l, inverters_ := inverters_, current_inverter_index_ := 0 }

/-- `InverterReader::readNextInverter`.  A cursor outside the store, which the source does not
check and which does not occur after `initialize`, leaves the state as it is. -/
def readNextInverter (config_ : Config) (t : Transport) (s : InverterReader) :
    Outcome InverterReader Unit :=
  if s.inverters_.isEmpty then Outcome.returned () s
  else
    match s.inverters_[s.current_inverter_index_]? with
    | none => Outcome.returned () s
    | some inverter =>
      match readSingleInverter config_ t inverter.id inverter.register_addr inverter.multiplier
          s.link with
      | Outcome.blocked l1 => Outcome.blocked { s with link := l1 }
      | Outcome.returned new_data l1 =>
        let inverter :=
          { inverter with
            generation := new_data.generation,
            success := new_data.success,
            retry_count := new_data.retry_count,
            last_update := new_data.last_update }
        Outcome.returned ()
          { link := l1,
            inverters_ := s.inverters_.set s.current_inverter_index_ inverter,
            current_inverter_index_ :=
              (s.current_inverter_index_ + 1) % s.inverters_.length }

/-- The state after `n` consecutive calls of `readNextInverter`, each on the state that the
previous one left, as the loop of `run` makes them. -/
def polls (config_ : Config) (t : Transport) : Nat → InverterReader → InverterReader
  | 0, s => s
  | n + 1, s => polls config_ t n (readNextInverter config_ t s).state

/-- The states of an inverter reader that a successful `initialize` followed by calls of
`readNextInverter` produces, the state in which a call is blocked included. -/
inductive Reachable (config_ : Config) (t : Transport) : InverterReader → Prop where
  | start (s0 s : InverterReader) :
      init config_ t s0 = Outcome.returned true s → s0.link.mutex_owned = false →
      Reachable config_ t s
  | poll (s : InverterReader) :
      Reachable config_ t s → Reachable config_ t (readNextInverter config_ t s).state

end InverterReader

namespace ElectricMeterReader

/-- The members of an `ElectricMeterReader` after its constructor: no handle, an empty store,
`running_ = false` and both counters at zero; nothing has happened on the transport side. -/
def construct : ElectricMeterReader :=
  { link :=
      { ctx_ := none, mutex_owned := false, reads := 0, slaves := 0, connects := 0,
        clocks := 0, trace := [] },
    meters_ := [], running_ := false, reconnect_count_ := 0, current_retry_count_ := 0 }

/-- `ElectricMeterReader::initialize`: the store gets one unsuccessful entry per meter, with
ids `1` to `meter_count`. -/
def init (config_ : ElectricConfig) (t : Transport) (s : ElectricMeterReader) :
    Outcome ElectricMeterReader Bool :=
  let built :=
    (List.range config_.meter_count.toNat).foldl
      (fun (acc : List ElectricMeter × Link) (k : Nat) =>
        (acc.1 ++ [{ id := (k : Int) + 1, power_value := 0, success := false,
                     last_update := t.now acc.2.clocks }], acc.2.tick))
      ([], s.link)
  Outcome.returned true { s with link := built.2, meters_ := built.1 }

/-- The state after `n` consecutive polling cycles, each one call of `readAllMeters` on the
state that the previous one left, as the loop of `run` makes them. -/
def cycles (config_ : ElectricConfig) (t : Transport) : Nat → ElectricMeterReader →
    ElectricMeterReader
  | 0, s => s
  | n + 1, s => cycles config_ t n (readAllMeters config_ t s).state

/-- The states of an electric reader that `initialize` followed by calls of `readAllMeters`
produces. -/
inductive Reachable (config_ : ElectricConfig) (t : Transport) : ElectricMeterReader → Prop where
  | start (s0 s : ElectricMeterReader) :
      init config_ t s0 = Outcome.returned true s → s0.link.mutex_owned = false →
      Reachable config_ t s
  | poll (s : ElectricMeterReader) :
      Reachable config_ t s → Reachable config_ t (readAllMeters config_ t s).state

end ElectricMeterReader

/-! ## Request handlers -/

/-- The JSON document that a request handler sends: its members `message`, `result` and
`timestamp`. -/
structure Response (μ : Type) where
  message : μ
  result : Int
  timestamp : Nat
  deriving DecidableEq, Repr

/-- The member `message` of the single-device routes: an error text or an array of numbers. -/
inductive Message where
  | text (s : String)
  | values (vs : List ℚ)
  deriving DecidableEq, Repr

namespace ElectricMeterReader

/-- The handler of the batch route that `ElectricMeterReader::setupHttpRoutes` registers, run
on the store contents `meters_` at time `now`.  An element is `none` when the `float` is not
finite. -/
def setupHttpRoutes.all (meters_ : List ElectricMeter) (now : Nat) :
    Response (List (Option ℚ)) :=
  let power_values :=
    meters_.foldl
      (fun (power_values : List (Option ℚ)) (meter : ElectricMeter) =>
        if meter.success then
          power_values ++
            [(ieee754Single meter.power_value).map
              (fun v => binary64.nearest (std.round (binary64.nearest (v * 100)) / 100))]
        else power_values ++ [some (-1)])
      []
  { message := power_values, result := 0, timestamp := now }

end ElectricMeterReader

namespace WaterMeterReader

/-- The handler of the batch route that `WaterMeterReader::setupHttpRoutes` registers, run on
the store contents `meters_` at time `now`. -/
def setupHttpRoutes.all (meters_ : List WaterMeter) (now : Nat) : Response (List ℚ) :=
  let water_values :=
    meters_.foldl
      (fun (water_values : List ℚ) (meter : WaterMeter) =>
        if meter.success then water_values ++ [meter.total_water]
        else water_values ++ [-1])
      []
  { message := water_values, result := 0, timestamp := now }

/-- The handler of the route `/api/collect/v1/waterMeter/totalT/:id`, run on the store
contents `meters_` at time `now`.  `id` is the outcome of
`std::stoi(req.path_params.at("id"))`: `none` when it throws. -/
def setupHttpRoutes.single (meters_ : List WaterMeter) (id : Option Int) (now : Nat) :
    Response Message :=
  match id with
  | none => { message := Message.text "error: invalid meter id", result := -1, timestamp := now }
  | some meter_id =>
    match meters_.find? (fun meter => decide (meter.id = meter_id)) with
    | some cached_data =>
      if cached_data.success then
        { message := Message.values [cached_data.total_water], result := 0, timestamp := now }
      else { message := Message.values [-1], result := 0, timestamp := now }
    | none => { message := Message.values [-1], result := -1, timestamp := now }

end WaterMeterReader

namespace InverterReader

/-- The handler of the batch route that `InverterReader::setupHttpRoutes` registers, run on
the store contents `inverters_` at time `now`. -/
def setupHttpRoutes.all (inverters_ : List InverterData) (now : Nat) : Response (List ℚ) :=
  let inverter_values :=
    inverters_.foldl
      (fun (inverter_values : List ℚ) (inverter : InverterData) =>
        if inverter.success then
          let rounded_value :=
            binary64.nearest (std.round (binary64.nearest (inverter.generation * 100)) / 100)
          inverter_values ++ [rounded_value]
        else inverter_values ++ [-1])
      []
  { message := inverter_values, result := 0, timestamp := now }

/-- The handler of the route `/api/collect/v1/inverter/totalT/:id`, run on the store contents
`inverters_` at time `now`.  `id` is the outcome of `std::stoi(req.path_params.at("id"))`:
`none` when it throws. -/
def setupHttpRoutes.single (inverters_ : List InverterData) (id : Option Int) (now : Nat) :
    Response Message :=
  match id with
  | none =>
    { message := Message.text "error: invalid inverter id", result := -1, timestamp := now }
  | some inverter_id =>
    match inverters_.find? (fun inv => decide (inv.id = inverter_id)) with
    | some cached_data =>
      if cached_data.success then
        let rounded_value :=
          binary64.nearest (std.round (binary64.nearest (cached_data.generation * 100)) / 100)
        { message := Message.values [rounded_value], result := 0, timestamp := now }
      else { message := Message.values [-1], result := 0, timestamp := now }
    | none => { message := Message.values [-1], result := -1, timestamp := now }

end InverterReader

namespace HeatMeterReader

/-- The handler of the batch route that `HeatMeterReader::setupHttpRoutes` registers, run on
the record `data` that `getCurrentData` returns, at time `now`. -/
def setupHttpRoutes.all (data : HeatMeterData) (now : Nat) : Response (List ℚ) :=
  let heat_values : List ℚ :=
    if data.success then
      let rounded_value :=
        binary64.nearest (std.round (binary64.nearest (data.accumulated_heat_kwh * 100)) / 100)
      [rounded_value]
    else [-1]
  { message := heat_values, result := if data.success then 0 else -1, timestamp := now }

end HeatMeterReader

/-! ## Default configurations and scripted scenarios -/

/-- Value of `errno` for a timed-out operation on Linux. -/
def ETIMEDOUT : Int := 110

/-- `WaterMeterReader::setDefaultConfig`, on the fields of the model. -/
def WaterMeterReader.setDefaultConfig : WaterMeterReader.Config :=
  { meter_addresses := [1, 2, 3, 4, 5, 6, 7, 8, 9], max_retry_count := 5 }

/-- `InverterReader::setDefaultConfig`, on the fields of the model; `now` is the time at
which the configuration is built. -/
def InverterReader.setDefaultConfig (now : Nat) : InverterReader.Config :=
  { inverters :=
      [{ id := 27, name := "photovoltaic_inverter_1", generation := 0, success := false,
         retry_count := 0, register_addr := 1670, multiplier := binary64.nearest (1 / 10),
         last_update := now },
       { id := 28, name := "photovoltaic_inverter_2", generation := 0, success := false,
         retry_count := 0, register_addr := 1670, multiplier := binary64.nearest (1 / 10),
         last_update := now },
       { id := 35, name := "huawei_Inverter", generation := 0, success := false,
         retry_count := 0, register_addr := 32106, multiplier := binary64.nearest (1 / 100),
         last_update := now }],
    max_retry_count := 3 }

/-- `HeatMeterReader::setDefaultConfig`, on the fields of the model. -/
def HeatMeterReader.setDefaultConfig : HeatMeterConfig :=
  { retry_count := 3, meter_address := 24, meter_name := "Heat_Meter_24",
    heat_accumulated_addr := 10, heat_accumulated_len := 2, multiplier := 1 }

/-- `ElectricMeterReader::setDefaultConfig`, on the fields of the model. -/
def ElectricMeterReader.setDefaultConfig : ElectricConfig :=
  { meter_count := 9, start_register := 0, register_count := 18, max_retry_count := 3,
    max_reconnect_count := 10 }

namespace Scenario

/-- Buffer contents given by a list of words; the words after the list are `0`. -/
def buffer (ws : List Nat) : Nat → Nat :=
  fun i => ws.getD i 0

/-- A scripted transport.  The first `nfail` reads return `-1` with `errno = err`; every later
read returns `rc` and leaves `regs` in the buffer.  Every `modbus_set_slave` succeeds, every
connection attempt has the outcome `conn`, and the clock shows the number of the sample. -/
def scripted (nfail : Nat) (err rc : Int) (regs : Nat → Nat) (conn : Option Int) : Transport :=
  { modbus_read_registers := fun i =>
      if i < nfail then { rc := -1, errno := err, regs := fun _ => 0 }
      else { rc := rc, errno := 0, regs := regs },
    modbus_set_slave := fun _ => 0,
    set_slave_errno := fun _ => 0,
    modbus_connect := fun _ => conn,
    modbus_strerror := fun _ => "error",
    now := fun i => i }

/-- A scripted transport whose first `nok` reads return `rc` and leave `regs` in the buffer,
and whose later reads return `-1` with `errno = err`; the rest is as in `scripted`. -/
def thenFailing (nok : Nat) (rc : Int) (regs : Nat → Nat) (err : Int) (conn : Option Int) :
    Transport :=
  { scripted 0 err rc regs conn with
    modbus_read_registers := fun i =>
      if i < nok then { rc := rc, errno := 0, regs := regs }
      else { rc := -1, errno := err, regs := fun _ => 0 } }

/-- A water reader configuration with two meters and no retry. -/
def twoMeters : WaterMeterReader.Config :=
  { meter_addresses := [5, 6], max_retry_count := 0 }

/-- An inverter reader configuration with two inverters, built as `loadConfig` builds them,
and no retry. -/
def twoInverters : InverterReader.Config :=
  { inverters :=
      [InverterReader.loadConfig.entry 27 "inverter_a" 1670 (binary64.nearest (1 / 10)) 0,
       InverterReader.loadConfig.entry 28 "inverter_b" 1670 (binary64.nearest (1 / 10)) 0],
    max_retry_count := 0 }

/-- An inverter reader configuration with one inverter whose multiplier is `0.001`, built as
`loadConfig` builds it, and no retry. -/
def milliInverter : InverterReader.Config :=
  { inverters :=
      [InverterReader.loadConfig.entry 27 "inverter_a" 1670 (binary64.nearest (1 / 1000)) 0],
    max_retry_count := 0 }

/-- A connected transport side on which nothing has happened yet. -/
def connected : Link :=
  { ctx_ := some 3, mutex_owned := false, reads := 0, slaves := 0, connects := 0, clocks := 0,
    trace := [] }

/-- An electric reader that is connected and whose store is still empty. -/
def electric : ElectricMeterReader :=
  { link := connected, meters_ := [], running_ := true, reconnect_count_ := 0,
    current_retry_count_ := 0 }

/-- A heat reader that is connected and holds a successful record of 7 kWh. -/
def heat : HeatMeterReader :=
  { link := connected,
    meter_data_ :=
      { address := 24, name := "Heat_Meter_24", accumulated_heat := 7,
        accumulated_heat_kwh := 7, success := true, retry_count := 0, last_update := 0,
        error_message := "", heat_accumulated_addr := 10, heat_accumulated_len := 2,
        multiplier := 1 } }

end Scenario

/-! ## The heat reader's stored record -/

namespace HeatMeterReader

/-- `HeatMeterReader::initialize`: the context is created and connected, and on success
`meter_data_` becomes an unsuccessful record with value zero for the configured meter. -/
def init (config_ : HeatMeterConfig) (t : Transport) (s : HeatMeterReader) :
    Outcome HeatMeterReader Bool :=
  let answer := t.modbus_connect s.link.connects
  let l := s.link.didConnect answer
  match answer with
  | none => Outcome.returned false { s with link := l }
  | some _ =>
    Outcome.returned true
      { link := l.tick,
        meter_data_ :=
          { address := config_.meter_address, name := config_.meter_name,
            accumulated_heat := 0, accumulated_heat_kwh := 0, success := false,
            retry_count := 0, last_update := t.now l.clocks, error_message := "",
            heat_accumulated_addr := config_.heat_accumulated_addr,
            heat_accumulated_len := config_.heat_accumulated_len,
            multiplier := config_.multiplier } }

/-- The states of a heat reader that a successful `initialize` followed by calls of
`readHeatMeter` produces, the state in which a call is blocked included. -/
inductive Reachable (config_ : HeatMeterConfig) (t : Transport) : HeatMeterReader → Prop where
  | start (s0 s : HeatMeterReader) :
      init config_ t s0 = Outcome.returned true s → s0.link.mutex_owned = false →
      Reachable config_ t s
  | poll (s : HeatMeterReader) :
      Reachable config_ t s → Reachable config_ t (readHeatMeter config_ t s).state

end HeatMeterReader

/-! ## The polling loop of the electric reader -/

namespace std

/-- The conversion `std::chrono::duration_cast<std::chrono::milliseconds>` of a duration counted
in nanoseconds, the period of `steady_clock`: division by `10^6` truncated toward zero. -/
def duration_cast_milliseconds (ns : Int) : Int :=
  Int.tdiv ns 1000000

end std

namespace ElectricMeterReader

/-- The members that `ElectricMeterReader::run` works on: the reader, `last_read_time_` (a
`steady_clock` time point, in nanoseconds), the number of samples of `steady_clock::now()`
taken so far, and the log of the times sampled at the top of the iterations that started a
cycle. -/
structure Poller where
  reader : ElectricMeterReader
  last_read_time_ : Int
  steady_samples : Nat
  cycle_starts : List Int
  deriving DecidableEq, Repr

/-- The body of the loop of `ElectricMeterReader::run`.  `read_interval_ms` is
`config_.read_interval_ms`, and `steady i` is the value of the `i`-th sample of
`steady_clock::now()`. -/
def run.body (config_ : ElectricConfig) (read_interval_ms : Int) (t : Transport)
    (steady : Nat → Int) (p : Poller) : Outcome Poller Unit :=
  let now := steady p.steady_samples
  let p := { p with steady_samples := p.steady_samples + 1 }
  let elapsed := std.duration_cast_milliseconds (now - p.last_read_time_)
  if elapsed ≥ read_interval_ms then
    let p := { p with cycle_starts := p.cycle_starts ++ [now] }
    match readAllMeters config_ t p.reader with
    | Outcome.blocked s1 => Outcome.blocked { p with reader := s1 }
    | Outcome.returned _ s1 =>
      Outcome.returned ()
        { p with reader := { s1 with link := s1.link.sleep 100 }, last_read_time_ := now }
  else
    Outcome.returned () { p with reader := { p.reader with link := p.reader.link.sleep 100 } }

/-- The loop `while (running_)` of `ElectricMeterReader::run`, cut after at most the given
number of iterations. -/
def run.loop (config_ : ElectricConfig) (read_interval_ms : Int) (t : Transport)
    (steady : Nat → Int) : Nat → Poller → Outcome Poller Unit
  | 0, p => Outcome.returned () p
  | fuel + 1, p =>
    if p.reader.running_ then
      match run.body config_ read_interval_ms t steady p with
      | Outcome.blocked p1 => Outcome.blocked p1
      | Outcome.returned _ p1 => run.loop config_ read_interval_ms t steady fuel p1
    else Outcome.returned () p

end ElectricMeterReader

/-! ## Ownership of the mutex at the delays -/

/-- For each delay in a log, in order, whether the mutex was owned when the delay was
executed; the first argument tells whether the mutex is owned where the log begins. -/
def lockAtSleeps : Bool → List Event → List Bool
  | _, [] => []
  | _, Event.lock :: es => lockAtSleeps true es
  | _, Event.unlock :: es => lockAtSleeps false es
  | held, Event.sleep _ :: es => held :: lockAtSleeps held es
  | held, _ :: es => lockAtSleeps held es

/-! ## Connection set-up, library call by library call -/

/-- One call of the transport library made while a connection is set up. -/
inductive LibraryCall where
  | modbus_new_rtu (device : String) (baud : Int) (parity : Char) (data_bit stop_bit : Int)
  | modbus_new_tcp (ip : String) (port : Int)
  | modbus_set_response_timeout
  | modbus_set_byte_timeout
  | modbus_set_slave (slave : Int)
  | modbus_connect
  | modbus_close
  | modbus_free
  deriving DecidableEq, Repr

/-- Answers of the system and of the transport library to the calls made while a connection
is set up.  `modbus_new_rtu` and `modbus_new_tcp` tell whether a context is returned;
`stoi s` is the value of `std::stoi(s)`, `none` when it throws. -/
structure Libraries where
  stat : String → Int
  inet_pton : String → Int
  stoi : String → Option Int
  modbus_new_rtu : String → Int → Char → Int → Int → Bool
  modbus_new_tcp : String → Int → Bool
  modbus_set_slave : Int → Int
  modbus_connect : Int
  modbus_strerror : String

namespace ModbusBase

/-- The enumeration `ModbusBase::ConnectionType`. -/
inductive ConnectionType where
  | RTU
  | TCP
  deriving DecidableEq, Repr

/-- The expressions `conn_str.find(':')`, `conn_str.substr(0, colon_pos)` and
`conn_str.substr(colon_pos + 1)`: the text before the first colon, and the text after it when
there is a colon. -/
def splitAtColon (conn_str : String) : String × Option String :=
  match conn_str.toList.span (fun c => decide (c ≠ ':')) with
  | (ip, []) => (String.mk ip, none)
  | (ip, _ :: rest) => (String.mk ip, some (String.mk rest))

/-- `ModbusBase::validateConnectionParams` (`common/modbus_base.h`; the class `ModbusBase` is
enclosed in a block comment there and no reader uses it). -/
def validateConnectionParams (sys : Libraries) (type : ConnectionType) (conn_str : String)
    (baudrate : Int) (parity : Char) (data_bit stop_bit : Int) : Bool :=
  if conn_str.isEmpty then false
  else
    match type with
    | ConnectionType.RTU =>
      if sys.stat conn_str ≠ 0 then false
      else if ¬ ([1200, 2400, 4800, 9600, 19200, 38400, 57600, 115200] : List Int).contains
          baudrate then false
      else if data_bit < 5 ∨ data_bit > 8 then false
      else if stop_bit < 1 ∨ stop_bit > 2 then false
      else if parity ≠ 'N' ∧ parity ≠ 'O' ∧ parity ≠ 'E' then false
      else true
    | ConnectionType.TCP =>
      let ip := (splitAtColon conn_str).1
      if sys.inet_pton ip ≠ 1 then false
      else
        match (splitAtColon conn_str).2 with
        | none => true
        | some portText =>
          match sys.stoi portText with
          | none => false
          | some port => if port < 1 ∨ port > 65535 then false else true

end ModbusBase

/-- The members of a `ModbusBase` object that `connect` works on: whether `m_ctx` holds a
context, `m_connected`, whether `m_mutex` is owned, and the log of library calls made. -/
structure ModbusBase where
  m_ctx : Bool
  m_connected : Bool
  mutex_owned : Bool
  calls : List LibraryCall
  deriving DecidableEq, Repr

namespace ModbusBase

/-- The `try` block of `ModbusBase::connect`: the state reached, and the message of the
exception thrown inside the block, if any. -/
def connect.attempt (sys : Libraries) (type : ConnectionType) (connection_str : String)
    (slave_id baudrate : Int) (parity : Char) (data_bit stop_bit : Int) (s : ModbusBase) :
    ModbusBase × Option String :=
  let created : Option (ModbusBase) :=
    match type with
    | ConnectionType.RTU =>
      some { s with
        m_ctx := sys.modbus_new_rtu connection_str baudrate parity data_bit stop_bit,
        calls := s.calls ++
          [LibraryCall.modbus_new_rtu connection_str baudrate parity data_bit stop_bit] }
    | ConnectionType.TCP =>
      match (splitAtColon connection_str).2 with
      | some portText =>
        match sys.stoi portText with
        | none => none
        | some port =>
          some { s with
            m_ctx := sys.modbus_new_tcp (splitAtColon connection_str).1 port,
            calls := s.calls ++
              [LibraryCall.modbus_new_tcp (splitAtColon connection_str).1 port] }
      | none =>
        some { s with
          m_ctx := sys.modbus_new_tcp connection_str 502,
          calls := s.calls ++ [LibraryCall.modbus_new_tcp connection_str 502] }
  match created with
  | none => (s, some "stoi")
  | some s =>
    if ¬ s.m_ctx then (s, some "Failed to create Modbus context")
    else
      let s := { s with calls := s.calls ++
        [LibraryCall.modbus_set_response_timeout, LibraryCall.modbus_set_byte_timeout] }
      let afterSlave : ModbusBase × Bool :=
        if slave_id ≥ 0 then
          ({ s with calls := s.calls ++ [LibraryCall.modbus_set_slave slave_id] },
            decide (sys.modbus_set_slave slave_id ≠ 0))
        else (s, false)
      if afterSlave.2 then (afterSlave.1, some "Failed to set slave ID")
      else
        let s := { afterSlave.1 with calls := afterSlave.1.calls ++ [LibraryCall.modbus_connect] }
        if sys.modbus_connect ≠ 0 then (s, some ("Connection failed: " ++ sys.modbus_strerror))
        else ({ s with m_connected := true }, none)

/-- `ModbusBase::connect` (`common/modbus_base.h`, inside the block comment): the result is
the message of the `ModbusBaseException` thrown, or `()` when the call returns.  When
`m_connected` holds at entry, `disconnect()` locks `m_mutex`, which `connect` owns. -/
def connect (sys : Libraries) (type : ConnectionType) (connection_str : String)
    (slave_id baudrate : Int) (parity : Char) (data_bit stop_bit : Int) (s : ModbusBase) :
    Outcome ModbusBase (Except String Unit) :=
  -- std::lock_guard<std::mutex> lock(m_mutex);
  if s.mutex_owned then Outcome.blocked s
  else
    let s := { s with mutex_owned := true }
    if s.m_connected then Outcome.blocked s
    else if ¬ validateConnectionParams sys type connection_str baudrate parity data_bit
        stop_bit then
      Outcome.returned (Except.error "Invalid connection parameters")
        { s with mutex_owned := false }
    else
      match connect.attempt sys type connection_str slave_id baudrate parity data_bit
          stop_bit s with
      | (s1, none) => Outcome.returned (Except.ok ()) { s1 with mutex_owned := false }
      | (s1, some what) =>
        let s1 :=
          if s1.m_ctx then
            { s1 with m_ctx := false, calls := s1.calls ++ [LibraryCall.modbus_free] }
          else s1
        Outcome.returned (Except.error ("Connection error: " ++ what))
          { s1 with mutex_owned := false }

end ModbusBase

namespace ElectricMeterReader

/-- `ElectricMeterReader::connectModbus`, library call by library call, on the configuration
fields `tcp_host`, `tcp_port` and `slave_id`: the returned flag, whether `ctx_` holds a
context afterwards, and the library calls made, in order.  `ctx_present` tells whether `ctx_`
holds a context at entry. -/
def connectModbus.calls (sys : Libraries) (tcp_host : String) (tcp_port slave_id : Int)
    (ctx_present : Bool) : Bool × Bool × List LibraryCall :=
  let closing : List LibraryCall :=
    if ctx_present then [LibraryCall.modbus_close, LibraryCall.modbus_free] else []
  let calls := closing ++ [LibraryCall.modbus_new_tcp tcp_host tcp_port]
  if ¬ sys.modbus_new_tcp tcp_host tcp_port then (false, false, calls)
  else
    let calls := calls ++
      [LibraryCall.modbus_set_response_timeout, LibraryCall.modbus_set_slave slave_id,
       LibraryCall.modbus_connect]
    if sys.modbus_connect = -1 then (false, false, calls ++ [LibraryCall.modbus_free])
    else (true, true, calls)

end ElectricMeterReader

/-! ## The electric store under concurrent access -/

namespace ElectricMeterReader

/-- Where the polling thread stands in the block of `readAllMeters` that replaces the store,
`{ std::unique_lock<std::shared_mutex> lock_meters(meters_mutex_); meters_ = new_data; }`:
before the lock, inside the assignment with `i` elements copied, before the release, or past
the block. -/
inductive ReplacePc where
  | locking
  | copying (i : Nat)
  | unlocking
  | finished
  deriving DecidableEq, Repr

/-- Where a request thread stands in the block of the batch handler that reads the store,
`{ std::shared_lock<std::shared_mutex> lock(meters_mutex_); for (const auto& meter : meters_)
... }`: before the lock, inside the loop with `j` elements visited, or past the block. -/
inductive RenderPc where
  | locking
  | visiting (j : Nat)
  | finished
  deriving DecidableEq, Repr

/-- The store `meters_`, the state of `meters_mutex_` (held exclusively, number of shared
holders), and the two threads: the polling thread with the vector `new_data` it assigns, and a
request thread with the array `power_values` it has built so far. -/
structure Shared where
  meters_ : List ElectricMeter
  exclusive : Bool
  sharers : Nat
  replace_pc : ReplacePc
  new_data : List ElectricMeter
  render_pc : RenderPc
  power_values : List (Option ℚ)

/-- The element that the batch handler pushes for one entry. -/
def setupHttpRoutes.element (meter : ElectricMeter) : Option ℚ :=
  if meter.success then
    (ieee754Single meter.power_value).map
      (fun v => binary64.nearest (std.round (binary64.nearest (v * 100)) / 100))
  else some (-1)

/-- One step of the polling thread.  The constructor of `unique_lock` proceeds only when
nobody holds `meters_mutex_`, with `guarded = false` standing for the same code without the
lock.  The assignment of the vector is taken element by element: element `i` is overwritten
or appended, and after the last one the surplus elements are dropped. -/
def Shared.replaceStep (guarded : Bool) (s : Shared) : Shared :=
  match s.replace_pc with
  | ReplacePc.locking =>
    if guarded ∧ (s.exclusive ∨ s.sharers ≠ 0) then s
    else { s with exclusive := guarded, replace_pc := ReplacePc.copying 0 }
  | ReplacePc.copying i =>
    match s.new_data[i]? with
    | some meter =>
      { s with
        meters_ := s.meters_.take i ++ [meter] ++ s.meters_.drop (i + 1),
        replace_pc := ReplacePc.copying (i + 1) }
    | none =>
      { s with meters_ := s.meters_.take s.new_data.length, replace_pc := ReplacePc.unlocking }
  | ReplacePc.unlocking => { s with exclusive := false, replace_pc := ReplacePc.finished }
  | ReplacePc.finished => s

/-- One step of the request thread.  The constructor of `shared_lock` proceeds only when
nobody holds `meters_mutex_` exclusively; each iteration of the loop visits one element, and
the lock is released when the loop ends. -/
def Shared.renderStep (guarded : Bool) (s : Shared) : Shared :=
  match s.render_pc with
  | RenderPc.locking =>
    if guarded ∧ s.exclusive then s
    else
      { s with
        sharers := if guarded then s.sharers + 1 else s.sharers,
        render_pc := RenderPc.visiting 0 }
  | RenderPc.visiting j =>
    match s.meters_[j]? with
    | some meter =>
      { s with
        power_values := s.power_values ++ [setupHttpRoutes.element meter],
        render_pc := RenderPc.visiting (j + 1) }
    | none =>
      { s with
        sharers := if guarded then s.sharers - 1 else s.sharers,
        render_pc := RenderPc.finished }
  | RenderPc.finished => s

/-- The state after a schedule: `true` lets the polling thread take a step, `false` the
request thread. -/
def Shared.run (guarded : Bool) : List Bool → Shared → Shared
  | [], s => s
  | true :: schedule, s => Shared.run guarded schedule (s.replaceStep guarded)
  | false :: schedule, s => Shared.run guarded schedule (s.renderStep guarded)

/-- The state in which the polling thread is about to replace `old` by `new_data` and a
request has just arrived. -/
def Shared.start (old new_data : List ElectricMeter) : Shared :=
  { meters_ := old, exclusive := false, sharers := 0, replace_pc := ReplacePc.locking,
    new_data := new_data, render_pc := RenderPc.locking, power_values := [] }

end ElectricMeterReader

namespace ElectricMeterReader

/-- What holds of the store, the mutex and the two threads at every moment of a run that
starts in `Shared.start old new_data`: the polling thread owns the mutex exactly while it
copies, the store is `old` before the copy, `new_data` after it and a prefix of `new_data`
followed by a suffix of `old` during it, and the request thread, while it visits, holds the
mutex shared and has rendered the elements it has passed. -/
def Shared.Consistent (old new_data : List ElectricMeter) (s : Shared) : Prop :=
  s.new_data = new_data ∧
  (match s.replace_pc with
    | ReplacePc.locking => s.exclusive = false ∧ s.meters_ = old
    | ReplacePc.copying i =>
      s.exclusive = true ∧ i ≤ new_data.length ∧ s.meters_ = new_data.take i ++ old.drop i
    | ReplacePc.unlocking => s.exclusive = true ∧ s.meters_ = new_data
    | ReplacePc.finished => s.exclusive = false ∧ s.meters_ = new_data) ∧
  (match s.render_pc with
    | RenderPc.locking => s.sharers = 0 ∧ s.power_values = []
    | RenderPc.visiting j =>
      s.sharers = 1 ∧ s.exclusive = false ∧
      s.power_values = (s.meters_.take j).map setupHttpRoutes.element
    | RenderPc.finished =>
      s.sharers = 0 ∧
      (s.power_values = old.map setupHttpRoutes.element ∨
        s.power_values = new_data.map setupHttpRoutes.element))

end ElectricMeterReader

namespace Scenario

/-- The value of a run of decimal digits continuing the value `acc`, `none` when a character
is not a digit. -/
def digits : List Char → Nat → Option Nat
  | [], acc => some acc
  | c :: cs, acc => if c.isDigit then digits cs (acc * 10 + (c.toNat - 48)) else none

/-- A system and library that know one host: `inet_pton` accepts `192.168.1.74` only, every
device path exists, `std::stoi` reads a non-empty run of decimal digits and throws on every
other text, the library creates a context for every non-empty address and every port, and
every connection attempt succeeds. -/
def libraries : Libraries :=
  { stat := fun _ => 0,
    inet_pton := fun ip => if ip = "192.168.1.74" then 1 else 0,
    stoi := fun s =>
      match s.toList with
      | [] => none
      | c :: cs => (digits (c :: cs) 0).map Int.ofNat,
    modbus_new_rtu := fun _ _ _ _ _ => true,
    modbus_new_tcp := fun ip _ => !ip.isEmpty,
    modbus_set_slave := fun _ => 0,
    modbus_connect := 0,
    modbus_strerror := "error" }

/-- A `ModbusBase` object after its constructor. -/
def modbusBase : ModbusBase :=
  { m_ctx := false, m_connected := false, mutex_owned := false, calls := [] }

end Scenario

/-! ## Bit-level facts -/

theorem and_15_eq_mod (x : Nat) : x &&& 15 = x % 16 :=
  Nat.and_pow_two_sub_one_eq_mod x 4

theorem and_255_eq_mod (x : Nat) : x &&& 255 = x % 256 :=
  Nat.and_pow_two_sub_one_eq_mod x 8

theorem and_65535_eq_mod (x : Nat) : x &&& 65535 = x % 65536 :=
  Nat.and_pow_two_sub_one_eq_mod x 16

theorem shl16_or_eq (a b : Nat) (hb : b < 65536) : (a <<< 16) ||| b = a * 65536 + b := by
  have h := Nat.mul_add_lt_is_or (show b < 2 ^ 16 by simpa using hb) a
  rw [Nat.shiftLeft_eq, Nat.mul_comm a (2 ^ 16), ← h]

theorem bigEndianWord32_eq (regs : Nat → Nat) :
    bigEndianWord32 regs = (regs 0 % 65536) * 65536 + regs 1 % 65536 := by
  unfold bigEndianWord32
  have h0 : regs 0 % 65536 < 65536 := Nat.mod_lt _ (by norm_num)
  have h1 : regs 1 % 65536 < 65536 := Nat.mod_lt _ (by norm_num)
  rw [Nat.mod_eq_of_lt (show regs 0 % 65536 < 4294967296 by omega),
    Nat.mod_eq_of_lt (show (regs 0 % 65536) <<< 16 < 4294967296 by
      rw [Nat.shiftLeft_eq]; omega)]
  exact shl16_or_eq _ _ h1

theorem bigEndianWord32_lt (regs : Nat → Nat) : bigEndianWord32 regs < 4294967296 := by
  rw [bigEndianWord32_eq]
  have h0 : regs 0 % 65536 < 65536 := Nat.mod_lt _ (by norm_num)
  have h1 : regs 1 % 65536 < 65536 := Nat.mod_lt _ (by norm_num)
  omega

/-! ## Rounding to binary64 -/

theorem roundHalfEven_of_near (y : ℚ) (k : Int) (h : |y - k| < 1 / 2) :
    binary64.roundHalfEven y = k := by
  rw [abs_lt] at h
  obtain ⟨h1, h2⟩ := h
  unfold binary64.roundHalfEven
  by_cases hk : (k : ℚ) ≤ y
  · have hf : Int.floor y = k := Int.floor_eq_iff.mpr ⟨hk, by linarith⟩
    simp only [hf]
    rw [if_pos h2]
  · have hf : Int.floor y = k - 1 := by
      apply Int.floor_eq_iff.mpr
      push_cast
      constructor <;> linarith
    simp only [hf]
    push_cast
    rw [if_neg (by linarith), if_pos (by linarith)]
    ring

theorem roundHalfEven_tie (k : Int) :
    binary64.roundHalfEven ((k : ℚ) + 1 / 2) = if k % 2 = 0 then k else k + 1 := by
  unfold binary64.roundHalfEven
  have hf : Int.floor ((k : ℚ) + 1 / 2) = k :=
    Int.floor_eq_iff.mpr ⟨by linarith, by linarith⟩
  simp only [hf]
  rw [if_neg (by simp), if_neg (by simp)]

theorem roundHalfEven_intCast (k : Int) : binary64.roundHalfEven (k : ℚ) = k :=
  roundHalfEven_of_near _ k (by simp)

theorem roundHalfEven_nonneg (y : ℚ) (h : 0 ≤ y) : 0 ≤ binary64.roundHalfEven y := by
  have hf : 0 ≤ Int.floor y := Int.floor_nonneg.mpr h
  unfold binary64.roundHalfEven
  simp only
  split_ifs <;> omega

theorem abs_roundHalfEven_sub_le (y : ℚ) : |(binary64.roundHalfEven y : ℚ) - y| ≤ 1 / 2 := by
  have h1 : (Int.floor y : ℚ) ≤ y := Int.floor_le y
  have h2 : y < Int.floor y + 1 := Int.lt_floor_add_one y
  unfold binary64.roundHalfEven
  simp only
  rw [abs_le]
  split_ifs with ha hb hc
  · constructor <;> linarith
  · push_cast; constructor <;> linarith
  · push_cast at ha hb ⊢; constructor <;> linarith
  · push_cast at ha hb ⊢; constructor <;> linarith

theorem binary64_log_eq (x : ℚ) (L : Int) (hL : (2 : ℚ) ^ L ≤ |x|) (hU : |x| < 2 ^ (L + 1)) :
    Int.log 2 |x| = L := by
  have hpos : 0 < |x| := lt_of_lt_of_le (by positivity) hL
  have h1 : L ≤ Int.log 2 |x| :=
    (Int.zpow_le_iff_le_log (by norm_num) hpos).mp (by simpa using hL)
  have h2 : Int.log 2 |x| < L + 1 :=
    (Int.lt_zpow_iff_log_lt (by norm_num) hpos).mp (by simpa using hU)
  omega

theorem nearest_zero : binary64.nearest 0 = 0 := by
  have h := roundHalfEven_intCast 0
  simp only [Int.cast_zero] at h
  unfold binary64.nearest
  rw [zero_div, h]
  simp

theorem nearest_nonneg (x : ℚ) (h : 0 ≤ x) : 0 ≤ binary64.nearest x := by
  unfold binary64.nearest
  have h1 : 0 ≤ x / 2 ^ binary64.ulp x := div_nonneg h (by positivity)
  have h2 := roundHalfEven_nonneg _ h1
  have h3 : (0 : ℚ) ≤ (binary64.roundHalfEven (x / 2 ^ binary64.ulp x) : ℚ) := by
    exact_mod_cast h2
  positivity

/-- Evaluation of a rounding: `x` has its leading bit at `2^L`, and `k` units in the last
place is the integer nearest to it. -/
theorem nearest_eq_of_near (x : ℚ) (L u k : Int) (hL : (2 : ℚ) ^ L ≤ |x|)
    (hU : |x| < 2 ^ (L + 1)) (hu : u = max L (-1022) - 52)
    (hk : |x / 2 ^ u - k| < 1 / 2) : binary64.nearest x = k * 2 ^ u := by
  have hulp : binary64.ulp x = u := by
    unfold binary64.ulp
    rw [binary64_log_eq x L hL hU, hu]
  unfold binary64.nearest
  rw [hulp, roundHalfEven_of_near _ k hk]

theorem nearest_ulp_le (m e : Int) (hm : |m| < 2 ^ 53) (he : -1074 ≤ e) (h0 : m ≠ 0) :
    binary64.ulp ((m : ℚ) * 2 ^ e) ≤ e := by
  unfold binary64.ulp
  have hpos : 0 < |(m : ℚ) * 2 ^ e| := by
    apply abs_pos.mpr
    have : (m : ℚ) ≠ 0 := by exact_mod_cast h0
    positivity
  have hlt : |(m : ℚ) * 2 ^ e| < (2 : ℚ) ^ (53 + e) := by
    rw [abs_mul, abs_of_pos (by positivity : (0 : ℚ) < 2 ^ e), zpow_add₀ (by norm_num)]
    apply mul_lt_mul_of_pos_right _ (by positivity)
    have h : ((|m| : Int) : ℚ) < 2 ^ 53 := by exact_mod_cast hm
    rw [Int.cast_abs] at h
    rw [show (53 : Int) = ((53 : Nat) : Int) from rfl, zpow_natCast]
    exact h
  have h2 : Int.log 2 |(m : ℚ) * 2 ^ e| < 53 + e :=
    (Int.lt_zpow_iff_log_lt (by norm_num) hpos).mp (by simpa using hlt)
  rcases max_cases (Int.log 2 |(m : ℚ) * 2 ^ e|) (-1022) with ⟨h, _⟩ | ⟨h, _⟩ <;> rw [h] <;> omega

/-- A number with at most 53 significant bits above the smallest subnormal is a binary64
number: rounding leaves it as it is. -/
theorem nearest_exact (m e : Int) (hm : |m| < 2 ^ 53) (he : -1074 ≤ e) :
    binary64.nearest ((m : ℚ) * 2 ^ e) = (m : ℚ) * 2 ^ e := by
  by_cases h0 : m = 0
  · subst h0; simp [nearest_zero]
  have hu := nearest_ulp_le m e hm he h0
  unfold binary64.nearest
  generalize binary64.ulp ((m : ℚ) * 2 ^ e) = u at hu
  obtain ⟨n, hn⟩ : ∃ n : Nat, e = u + n := ⟨(e - u).toNat, by omega⟩
  have hx : (m : ℚ) * 2 ^ e / 2 ^ u = ((m * 2 ^ n : Int) : ℚ) := by
    rw [hn, zpow_add₀ (by norm_num), zpow_natCast]
    push_cast
    field_simp
    ring
  rw [hx, roundHalfEven_intCast, hn, zpow_add₀ (by norm_num), zpow_natCast]
  push_cast
  ring

theorem nearest_intCast (n : Int) (h : |n| < 2 ^ 53) : binary64.nearest (n : ℚ) = n := by
  have := nearest_exact n 0 h (by norm_num)
  simpa using this

theorem nearest_natCast (n : Nat) (h : n < 2 ^ 53) : binary64.nearest (n : ℚ) = n := by
  have := nearest_intCast (n : Int) (by rw [abs_of_nonneg (by positivity)]; exact_mod_cast h)
  simpa using this

theorem abs_nearest_sub_le (x : ℚ) :
    |binary64.nearest x - x| ≤ 2 ^ binary64.ulp x / 2 := by
  unfold binary64.nearest
  have h := abs_roundHalfEven_sub_le (x / 2 ^ binary64.ulp x)
  have hp : (0 : ℚ) < 2 ^ binary64.ulp x := by positivity
  have hx : (binary64.roundHalfEven (x / 2 ^ binary64.ulp x) : ℚ) * 2 ^ binary64.ulp x - x =
      ((binary64.roundHalfEven (x / 2 ^ binary64.ulp x) : ℚ) - x / 2 ^ binary64.ulp x) *
        2 ^ binary64.ulp x := by
    field_simp
  rw [hx, abs_mul, abs_of_pos hp]
  calc _ ≤ 1 / 2 * 2 ^ binary64.ulp x := mul_le_mul_of_nonneg_right h hp.le
    _ = _ := by ring

/-- Evaluation of the rounding of a positive number. -/
theorem nearest_eq_of_near_pos (x : ℚ) (L u k : Int) (hL : (2 : ℚ) ^ L ≤ x)
    (hU : x < 2 ^ (L + 1)) (hu : u = max L (-1022) - 52)
    (h1 : (k : ℚ) - 1 / 2 < x / 2 ^ u) (h2 : x / 2 ^ u < k + 1 / 2) :
    binary64.nearest x = k * 2 ^ u := by
  have hpos : 0 < x := lt_of_lt_of_le (by positivity) hL
  apply nearest_eq_of_near x L u k (by rwa [abs_of_pos hpos]) (by rwa [abs_of_pos hpos]) hu
  rw [abs_lt]
  constructor <;> linarith

/-- In the normal range the rounding error is at most `2^-53` of the exact value. -/
theorem abs_nearest_sub_le_rel (x : ℚ) (hx : (2 : ℚ) ^ (-1022 : Int) ≤ |x|) :
    |binary64.nearest x - x| ≤ |x| / 2 ^ 53 := by
  have hpos : 0 < |x| := lt_of_lt_of_le (by positivity) hx
  have hL : (2 : ℚ) ^ Int.log 2 |x| ≤ |x| := by
    have := Int.zpow_log_le_self (b := 2) (by norm_num) hpos
    simpa using this
  have hlow : (-1022 : Int) ≤ Int.log 2 |x| :=
    (Int.zpow_le_iff_le_log (by norm_num) hpos).mp (by simpa using hx)
  have hulp : binary64.ulp x = Int.log 2 |x| - 52 := by
    unfold binary64.ulp
    rw [max_eq_left hlow]
  have h := abs_nearest_sub_le x
  rw [hulp] at h
  have e : (2 : ℚ) ^ (Int.log 2 |x| - 52) / 2 = 2 ^ Int.log 2 |x| / 2 ^ 53 := by
    rw [zpow_sub₀ (by norm_num)]
    rw [show (52 : Int) = ((52 : Nat) : Int) from rfl, zpow_natCast]
    rw [div_div]
    norm_num
  rw [e] at h
  exact h.trans (div_le_div_of_nonneg_right hL (by positivity))

theorem nearest_tenth :
    binary64.nearest (1 / 10) = 3602879701896397 / 36028797018963968 := by
  rw [nearest_eq_of_near_pos (1 / 10) (-4) (-56) 7205759403792794 (by norm_num) (by norm_num)
    (by norm_num) (by norm_num) (by norm_num)]
  norm_num

/-- Evaluation of the rounding of a positive number half way between two binary64 numbers:
the neighbour with the even last place is taken. -/
theorem nearest_eq_of_tie_pos (x : ℚ) (L u k : Int) (hL : (2 : ℚ) ^ L ≤ x)
    (hU : x < 2 ^ (L + 1)) (hu : u = max L (-1022) - 52)
    (hk : x / 2 ^ u = (k : ℚ) - 1 / 2 ∨ x / 2 ^ u = (k : ℚ) + 1 / 2) (heven : k % 2 = 0) :
    binary64.nearest x = k * 2 ^ u := by
  have hpos : 0 < x := lt_of_lt_of_le (by positivity) hL
  have hulp : binary64.ulp x = u := by
    unfold binary64.ulp
    rw [binary64_log_eq x L (by rwa [abs_of_pos hpos]) (by rwa [abs_of_pos hpos]), hu]
  unfold binary64.nearest
  rw [hulp]
  rcases hk with hk | hk
  · have h := roundHalfEven_tie (k - 1)
    have hodd : ¬ (k - 1) % 2 = 0 := by omega
    rw [if_neg hodd] at h
    have hx : x / 2 ^ u = ((k - 1 : Int) : ℚ) + 1 / 2 := by rw [hk]; push_cast; ring
    rw [hx, h]
    simp
  · have h := roundHalfEven_tie k
    rw [if_pos heven] at h
    rw [hk, h]

/-- The product `3 * 0.1` in binary64 lies half way between two binary64 numbers and goes to
the even one: `0.30000000000000004`. -/
theorem nearest_three_tenths :
    binary64.nearest (3 * (3602879701896397 / 36028797018963968)) =
      1351079888211149 / 4503599627370496 := by
  rw [nearest_eq_of_tie_pos _ (-2) (-54) 5404319552844596 (by norm_num) (by norm_num)
    (by norm_num) (Or.inl (by norm_num)) (by norm_num)]
  norm_num

theorem roundHalfEven_mono (a b : ℚ) (h : a ≤ b) :
    binary64.roundHalfEven a ≤ binary64.roundHalfEven b := by
  by_contra hlt
  push_neg at hlt
  have h1 := abs_roundHalfEven_sub_le a
  have h2 := abs_roundHalfEven_sub_le b
  rw [abs_le] at h1 h2
  have h3 : (binary64.roundHalfEven b : ℚ) + 1 ≤ binary64.roundHalfEven a := by
    exact_mod_cast hlt
  have hab : a = b := le_antisymm h (by linarith [h1.2, h2.1])
  rw [hab] at hlt
  exact lt_irrefl _ hlt

theorem ulp_mono (x y : ℚ) (hx : 0 < x) (h : x ≤ y) : binary64.ulp x ≤ binary64.ulp y := by
  unfold binary64.ulp
  have hy : 0 < y := lt_of_lt_of_le hx h
  have hl : Int.log 2 |x| ≤ Int.log 2 |y| := by
    rw [abs_of_pos hx, abs_of_pos hy]
    exact Int.log_mono_right hx h
  have := max_le_max hl (le_refl (-1022 : Int))
  omega

/-- Rounding to binary64 is monotone on the non-negative numbers. -/
theorem nearest_mono (x y : ℚ) (hx : 0 ≤ x) (h : x ≤ y) :
    binary64.nearest x ≤ binary64.nearest y := by
  rcases eq_or_lt_of_le hx with h0 | hpos
  · rw [← h0, nearest_zero]
    exact nearest_nonneg y (hx.trans h)
  have hy : 0 < y := lt_of_lt_of_le hpos h
  have hu := ulp_mono x y hpos h
  rcases eq_or_lt_of_le hu with he | hl
  · unfold binary64.nearest
    rw [he]
    have hp : (0 : ℚ) < 2 ^ binary64.ulp y := by positivity
    have hm := roundHalfEven_mono (x / 2 ^ binary64.ulp y) (y / 2 ^ binary64.ulp y)
      (div_le_div_of_nonneg_right h hp.le)
    have hc : (binary64.roundHalfEven (x / 2 ^ binary64.ulp y) : ℚ) ≤
        binary64.roundHalfEven (y / 2 ^ binary64.ulp y) := by exact_mod_cast hm
    exact mul_le_mul_of_nonneg_right hc hp.le
  · have hxl : x < 2 ^ (Int.log 2 x + 1) := Int.lt_zpow_succ_log_self (by norm_num) x
    have hyl : (2 : ℚ) ^ Int.log 2 y ≤ y := by
      have := Int.zpow_log_le_self (b := 2) (by norm_num) hy
      simpa using this
    have hux : binary64.ulp x = max (Int.log 2 x) (-1022) - 52 := by
      unfold binary64.ulp
      rw [abs_of_pos hpos]
    have huy : binary64.ulp y = max (Int.log 2 y) (-1022) - 52 := by
      unfold binary64.ulp
      rw [abs_of_pos hy]
    have hlog : Int.log 2 x + 1 ≤ Int.log 2 y ∧ -1022 < Int.log 2 y := by
      rw [hux, huy] at hl
      rcases max_cases (Int.log 2 x) (-1022) with ⟨h1, _⟩ | ⟨h1, _⟩ <;>
        rcases max_cases (Int.log 2 y) (-1022) with ⟨h2, _⟩ | ⟨h2, _⟩ <;>
        rw [h1, h2] at hl <;> constructor <;> omega
    have huy2 : binary64.ulp y = Int.log 2 y - 52 := by
      rw [huy, max_eq_left (by omega)]
    have hxM : x ≤ 2 ^ Int.log 2 y :=
      hxl.le.trans (zpow_le_zpow_right₀ (by norm_num) hlog.1)
    -- the power of two between them is a binary64 number on both grids
    have h1 : binary64.nearest x ≤ 2 ^ Int.log 2 y := by
      unfold binary64.nearest
      have hux2 : binary64.ulp x ≤ Int.log 2 y := by omega
      generalize binary64.ulp x = u at hux2
      obtain ⟨n, hn⟩ : ∃ n : Nat, Int.log 2 y = u + n := ⟨(Int.log 2 y - u).toNat, by omega⟩
      have hp : (0 : ℚ) < 2 ^ u := by positivity
      have hM : (2 : ℚ) ^ Int.log 2 y / 2 ^ u = ((2 ^ n : Int) : ℚ) := by
        rw [hn, zpow_add₀ (by norm_num), zpow_natCast]
        push_cast
        field_simp
      have hm := roundHalfEven_mono (x / 2 ^ u) ((2 : ℚ) ^ Int.log 2 y / 2 ^ u)
        (div_le_div_of_nonneg_right hxM hp.le)
      rw [hM, roundHalfEven_intCast] at hm
      have hc : (binary64.roundHalfEven (x / 2 ^ u) : ℚ) ≤ ((2 ^ n : Int) : ℚ) := by
        exact_mod_cast hm
      calc (binary64.roundHalfEven (x / 2 ^ u) : ℚ) * 2 ^ u
          ≤ ((2 ^ n : Int) : ℚ) * 2 ^ u := mul_le_mul_of_nonneg_right hc hp.le
        _ = 2 ^ Int.log 2 y := by
          rw [hn, zpow_add₀ (by norm_num), zpow_natCast]
          push_cast
          ring
    have h2 : (2 : ℚ) ^ Int.log 2 y ≤ binary64.nearest y := by
      unfold binary64.nearest
      rw [huy2]
      have hp : (0 : ℚ) < 2 ^ (Int.log 2 y - 52) := by positivity
      have hM : (2 : ℚ) ^ Int.log 2 y / 2 ^ (Int.log 2 y - 52) = ((2 ^ 52 : Int) : ℚ) := by
        rw [zpow_sub₀ (by norm_num), show (52 : Int) = ((52 : Nat) : Int) from rfl, zpow_natCast]
        push_cast
        field_simp
        norm_num
      have hm := roundHalfEven_mono ((2 : ℚ) ^ Int.log 2 y / 2 ^ (Int.log 2 y - 52))
        (y / 2 ^ (Int.log 2 y - 52)) (div_le_div_of_nonneg_right hyl hp.le)
      rw [hM, roundHalfEven_intCast] at hm
      have hc : ((2 ^ 52 : Int) : ℚ) ≤ (binary64.roundHalfEven (y / 2 ^ (Int.log 2 y - 52)) : ℚ) := by
        exact_mod_cast hm
      calc (2 : ℚ) ^ Int.log 2 y = ((2 ^ 52 : Int) : ℚ) * 2 ^ (Int.log 2 y - 52) := by
            rw [zpow_sub₀ (by norm_num), show (52 : Int) = ((52 : Nat) : Int) from rfl,
              zpow_natCast]
            push_cast
            field_simp
            norm_num
            ring
        _ ≤ _ := mul_le_mul_of_nonneg_right hc hp.le
    exact h1.trans h2

/-! ## The BCD decoder -/

theorem bcd_digit_eq_nibble (data : List Nat) (i : Nat) :
    (if i % 2 = 0 then ((data.getD (i / 2) 0 % 256) >>> 4) &&& 0x0F
      else (data.getD (i / 2) 0 % 256) &&& 0x0F) = nibble data i := by
  unfold nibble
  have hb : data.getD (i / 2) 0 % 256 < 256 := Nat.mod_lt _ (by norm_num)
  split
  · rw [and_15_eq_mod, Nat.shiftRight_eq_div_pow]
    apply Nat.mod_eq_of_lt
    norm_num
    omega
  · rw [and_15_eq_mod]

theorem nibble_le (data : List Nat) (k : Nat) : nibble data k ≤ 15 := by
  unfold nibble
  have hb : data.getD (k / 2) 0 % 256 < 256 := Nat.mod_lt _ (by norm_num)
  split <;> omega

theorem horner_nat_eq_sum (g : Nat → Nat) (n : Nat) :
    (List.range n).foldl (fun result i => result * 10 + g i) 0 =
      ∑ k in Finset.range n, g k * 10 ^ (n - 1 - k) := by
  induction n with
  | zero => simp
  | succ n ih =>
    rw [List.range_succ, List.foldl_append, ih, Finset.sum_range_succ]
    simp only [List.foldl_cons, List.foldl_nil]
    rw [Finset.sum_mul]
    congr 1
    · apply Finset.sum_congr rfl
      intro k hk
      have hk' : k < n := Finset.mem_range.mp hk
      have : n + 1 - 1 - k = (n - 1 - k) + 1 := by omega
      rw [this, pow_succ, mul_assoc]
    · simp

/-- Digits of at most 15 each, `n` of them, accumulate to less than `(5/3) * 10^n`. -/
theorem horner_nat_bound (g : Nat → Nat) (hg : ∀ k, g k ≤ 15) (n : Nat) :
    9 * (List.range n).foldl (fun result i => result * 10 + g i) 0 + 15 ≤ 15 * 10 ^ n := by
  induction n with
  | zero => simp
  | succ n ih =>
    rw [List.range_succ, List.foldl_append]
    simp only [List.foldl_cons, List.foldl_nil]
    have := hg n
    rw [pow_succ]
    omega

/-- Up to 15 digits the accumulation `result = result * 10 + value` of `bcdToDouble` is exact:
every intermediate value is an integer below `2^53`. -/
theorem horner_rounded_exact (g : Nat → Nat) (hg : ∀ k, g k ≤ 15) (n : Nat) (hn : n ≤ 15) :
    (List.range n).foldl
        (fun (result : ℚ) i => binary64.nearest (binary64.nearest (result * 10) + (g i : ℚ))) 0 =
      (((List.range n).foldl (fun result i => result * 10 + g i) 0 : Nat) : ℚ) := by
  induction n with
  | zero => simp
  | succ n ih =>
    rw [List.range_succ, List.foldl_append, List.foldl_append, ih (by omega)]
    simp only [List.foldl_cons, List.foldl_nil]
    have hb := horner_nat_bound g hg n
    have hp : 10 ^ n ≤ 10 ^ 14 := Nat.pow_le_pow_right (by norm_num) (by omega)
    have hgn := hg n
    generalize (List.range n).foldl (fun result i => result * 10 + g i) 0 = h at hb ⊢
    have h1 : binary64.nearest ((h : ℚ) * 10) = ((h * 10 : Nat) : ℚ) := by
      have := nearest_natCast (h * 10) (by norm_num at hp ⊢; omega)
      rw [← this]; push_cast; rfl
    rw [h1]
    have h2 : binary64.nearest (((h * 10 : Nat) : ℚ) + (g n : ℚ)) = ((h * 10 + g n : Nat) : ℚ) := by
      have := nearest_natCast (h * 10 + g n) (by norm_num at hp ⊢; omega)
      rw [← this]; push_cast; rfl
    rw [h2]

theorem bcdToDouble_eq (data : List Nat) (integerDigits fractionalDigits : Int)
    (h : (integerDigits + fractionalDigits).toNat ≤ 15) :
    WaterMeterReader.bcdToDouble data integerDigits fractionalDigits =
      binary64.nearest
        (((∑ k in Finset.range (integerDigits + fractionalDigits).toNat,
            nibble data k * 10 ^ ((integerDigits + fractionalDigits).toNat - 1 - k) : Nat) : ℚ) *
          Nat.iterate (fun m => binary64.nearest (m * binary64.nearest (1 / 10)))
            fractionalDigits.toNat 1) := by
  unfold WaterMeterReader.bcdToDouble
  simp only [bcd_digit_eq_nibble]
  rw [horner_rounded_exact (nibble data) (nibble_le data) _ h, horner_nat_eq_sum]
/-- The product `0.1 * 0.1` in binary64: `0.010000000000000002`. -/
theorem nearest_tenth_sq :
    binary64.nearest (3602879701896397 / 36028797018963968 * (3602879701896397 / 36028797018963968)) =
      1441151880758559 / 144115188075855872 := by
  rw [nearest_eq_of_near_pos _ (-7) (-59) 5764607523034236 (by norm_num) (by norm_num)
    (by norm_num) (by norm_num) (by norm_num)]
  norm_num

/-- The product `0.010000000000000002 * 0.1` in binary64: `0.0010000000000000002`. -/
theorem nearest_tenth_cube :
    binary64.nearest (1441151880758559 / 144115188075855872 * (3602879701896397 / 36028797018963968)) =
      4611686018427389 / 4611686018427387904 := by
  rw [nearest_eq_of_near_pos _ (-10) (-62) 4611686018427389 (by norm_num) (by norm_num)
    (by norm_num) (by norm_num) (by norm_num)]
  norm_num

/-- The product `0.0010000000000000002 * 0.1` in binary64: `0.00010000000000000003`. -/
theorem nearest_tenth_fourth :
    binary64.nearest (4611686018427389 / 4611686018427387904 * (3602879701896397 / 36028797018963968)) =
      7378697629483823 / 73786976294838206464 := by
  rw [nearest_eq_of_near_pos _ (-14) (-66) 7378697629483823 (by norm_num) (by norm_num)
    (by norm_num) (by norm_num) (by norm_num)]
  norm_num

/-- The binary64 number `0.1` is its own rounding. -/
theorem nearest_tenth_fixed :
    binary64.nearest (3602879701896397 / 36028797018963968) =
      3602879701896397 / 36028797018963968 := by
  rw [nearest_eq_of_near_pos _ (-4) (-56) 7205759403792794 (by norm_num) (by norm_num)
    (by norm_num) (by norm_num) (by norm_num)]
  norm_num

/-- Four applications of a function, written out. -/
theorem iterate_four (f : ℚ → ℚ) (x : ℚ) : Nat.iterate f 4 x = f (f (f (f x))) := rfl

/-- The multiplier of `bcdToDouble` for four fractional digits, `1.0` multiplied four times by
`0.1`: the binary64 number `0.00010000000000000003`, not the one nearest to `1/10000`. -/
theorem bcd_multiplier_four :
    Nat.iterate (fun m => binary64.nearest (m * binary64.nearest (1 / 10))) 4 1 =
      7378697629483823 / 73786976294838206464 := by
  rw [iterate_four, nearest_tenth, one_mul, nearest_tenth_fixed, nearest_tenth_sq,
    nearest_tenth_cube, nearest_tenth_fourth]

/-- The product `12345678 * 0.00010000000000000003` in binary64: `1234.5678000000005`. -/
theorem nearest_bcd_12345678 :
    binary64.nearest (12345678 * (7378697629483823 / 73786976294838206464)) =
      5429686605511343 / 4398046511104 := by
  rw [nearest_eq_of_near_pos _ (10) (-42) 5429686605511343 (by norm_num) (by norm_num)
    (by norm_num) (by norm_num) (by norm_num)]
  norm_num

/-- The product `99999999 * 0.00010000000000000003` in binary64: `9999.999900000003`. -/
theorem nearest_bcd_99999999 :
    binary64.nearest (99999999 * (7378697629483823 / 73786976294838206464)) =
      1374389520976105 / 137438953472 := by
  rw [nearest_eq_of_near_pos _ (13) (-39) 5497558083904420 (by norm_num) (by norm_num)
    (by norm_num) (by norm_num) (by norm_num)]
  norm_num

/-- The binary64 number nearest to `1234.5678`. -/
theorem nearest_12345678_div :
    binary64.nearest (12345678 / 10000) = 5429686605511341 / 4398046511104 := by
  rw [nearest_eq_of_near_pos _ (10) (-42) 5429686605511341 (by norm_num) (by norm_num)
    (by norm_num) (by norm_num) (by norm_num)]
  norm_num

/-- The binary64 number nearest to `9999.9999`. -/
theorem nearest_99999999_div :
    binary64.nearest (99999999 / 10000) = 5497558083904419 / 549755813888 := by
  rw [nearest_eq_of_near_pos _ (13) (-39) 5497558083904419 (by norm_num) (by norm_num)
    (by norm_num) (by norm_num) (by norm_num)]
  norm_num

/-- The product `260 * 0.1` in binary64: `26`. -/
theorem nearest_260_tenths :
    binary64.nearest (260 * (3602879701896397 / 36028797018963968)) = 26 := by
  rw [nearest_eq_of_near_pos _ (4) (-48) 7318349394477056 (by norm_num) (by norm_num)
    (by norm_num) (by norm_num) (by norm_num)]
  norm_num


/-- C1. `bcdToDouble` accumulates the raw 4-bit digits (high half of each byte first, digits
above 9 with their raw value) without error as long as there are at most 15 of them, and
returns the binary64 product of that positional sum with a multiplier obtained from `1.0` by
`fractionalDigits` rounded multiplications by `0.1`; it does not divide by
`10 ^ fractionalDigits`.  For the bytes `{0x12, 0x34, 0x56, 0x78}` with 4 + 4 digits the
result is `5429686605511343 / 2^42` (printed `1234.5678000000005`), which is neither `12345678 / 10000`
nor the binary64 number nearest to it, `5429686605511341 / 2^42`. -/
theorem bcdToDouble_multiplies_by_rounded_tenths :
    (∀ (data : List Nat) (integerDigits fractionalDigits : Int),
      0 ≤ integerDigits → 0 ≤ fractionalDigits →
      integerDigits + fractionalDigits ≤ 2 * (data.length : Int) →
      integerDigits + fractionalDigits ≤ 15 →
      WaterMeterReader.bcdToDouble data integerDigits fractionalDigits =
        binary64.nearest
          (((∑ k in Finset.range (integerDigits + fractionalDigits).toNat,
              nibble data k * 10 ^ ((integerDigits + fractionalDigits).toNat - 1 - k) : Nat) : ℚ) *
            Nat.iterate (fun m => binary64.nearest (m * binary64.nearest (1 / 10)))
              fractionalDigits.toNat 1)) ∧
    WaterMeterReader.bcdToDouble [0x12, 0x34, 0x56, 0x78] 4 4 =
      5429686605511343 / 4398046511104 ∧
    (5429686605511343 / 4398046511104 : ℚ) ≠ 12345678 / 10000 ∧
    binary64.nearest (12345678 / 10000) = 5429686605511341 / 4398046511104 ∧
    WaterMeterReader.bcdToDouble [0x1F, 0xA0] 2 1 = 26 := by
  refine ⟨fun data i f _ _ _ h => bcdToDouble_eq data i f (by omega), ?_, by norm_num,
    nearest_12345678_div, ?_⟩
  · rw [bcdToDouble_eq _ _ _ (by decide)]
    have hs : (∑ k in Finset.range ((4 : Int) + 4).toNat,
        nibble [0x12, 0x34, 0x56, 0x78] k * 10 ^ (((4 : Int) + 4).toNat - 1 - k)) =
        12345678 := by
      decide
    rw [hs]
    have hf : (4 : Int).toNat = 4 := rfl
    rw [hf, bcd_multiplier_four]
    exact_mod_cast nearest_bcd_12345678
  · rw [bcdToDouble_eq _ _ _ (by decide)]
    have hs : (∑ k in Finset.range ((2 : Int) + 1).toNat,
        nibble [0x1F, 0xA0] k * 10 ^ (((2 : Int) + 1).toNat - 1 - k)) = 260 := by
      decide
    rw [hs]
    have hf : (1 : Int).toNat = 1 := rfl
    rw [hf, Function.iterate_one, nearest_tenth, one_mul, nearest_tenth_fixed]
    exact_mod_cast nearest_260_tenths

theorem bcdToDouble_multiplies_by_rounded_tenths_witness :
    WaterMeterReader.bcdToDouble [0x12, 0x34, 0x56, 0x78] 4 4 =
      binary64.nearest
        (((∑ k in Finset.range ((4 : Int) + 4).toNat,
            nibble [0x12, 0x34, 0x56, 0x78] k * 10 ^ (((4 : Int) + 4).toNat - 1 - k) : Nat) : ℚ) *
          Nat.iterate (fun m => binary64.nearest (m * binary64.nearest (1 / 10)))
            (4 : Int).toNat 1) :=
  bcdToDouble_multiplies_by_rounded_tenths.1 [0x12, 0x34, 0x56, 0x78] 4 4 (by decide)
    (by decide) (by decide) (by decide)

/-- The conversion of `readSingleMeter` in closed form: the eight hexadecimal digits of the two
registers, most significant first, read as a decimal number, times the multiplier
`0.00010000000000000003` of four fractional digits, rounded to binary64. -/
theorem water_decode_eq (regs : Nat → Nat) :
    WaterMeterReader.readSingleMeter.decode regs =
      binary64.nearest
        ((((regs 0 % 65536 / 4096 % 16) * 10000000 + (regs 0 % 65536 / 256 % 16) * 1000000 +
          (regs 0 % 65536 / 16 % 16) * 100000 + (regs 0 % 65536 % 16) * 10000 +
          (regs 1 % 65536 / 4096 % 16) * 1000 + (regs 1 % 65536 / 256 % 16) * 100 +
          (regs 1 % 65536 / 16 % 16) * 10 + regs 1 % 65536 % 16 : Nat) : ℚ) *
          (7378697629483823 / 73786976294838206464)) := by
  unfold WaterMeterReader.readSingleMeter.decode
  rw [bcdToDouble_eq _ _ _ (by decide)]
  simp only [and_255_eq_mod, Nat.shiftRight_eq_div_pow]
  have e0 : nibble [regs 0 % 65536 / 2 ^ 8 % 256, regs 0 % 65536 % 256,
      regs 1 % 65536 / 2 ^ 8 % 256, regs 1 % 65536 % 256] 0 = regs 0 % 65536 / 4096 % 16 := by
    simp [nibble]; omega
  have e1 : nibble [regs 0 % 65536 / 2 ^ 8 % 256, regs 0 % 65536 % 256,
      regs 1 % 65536 / 2 ^ 8 % 256, regs 1 % 65536 % 256] 1 = regs 0 % 65536 / 256 % 16 := by
    simp [nibble]; omega
  have e2 : nibble [regs 0 % 65536 / 2 ^ 8 % 256, regs 0 % 65536 % 256,
      regs 1 % 65536 / 2 ^ 8 % 256, regs 1 % 65536 % 256] 2 = regs 0 % 65536 / 16 % 16 := by
    simp [nibble]; omega
  have e3 : nibble [regs 0 % 65536 / 2 ^ 8 % 256, regs 0 % 65536 % 256,
      regs 1 % 65536 / 2 ^ 8 % 256, regs 1 % 65536 % 256] 3 = regs 0 % 65536 % 16 := by
    simp [nibble]; omega
  have e4 : nibble [regs 0 % 65536 / 2 ^ 8 % 256, regs 0 % 65536 % 256,
      regs 1 % 65536 / 2 ^ 8 % 256, regs 1 % 65536 % 256] 4 = regs 1 % 65536 / 4096 % 16 := by
    simp [nibble]; omega
  have e5 : nibble [regs 0 % 65536 / 2 ^ 8 % 256, regs 0 % 65536 % 256,
      regs 1 % 65536 / 2 ^ 8 % 256, regs 1 % 65536 % 256] 5 = regs 1 % 65536 / 256 % 16 := by
    simp [nibble]; omega
  have e6 : nibble [regs 0 % 65536 / 2 ^ 8 % 256, regs 0 % 65536 % 256,
      regs 1 % 65536 / 2 ^ 8 % 256, regs 1 % 65536 % 256] 6 = regs 1 % 65536 / 16 % 16 := by
    simp [nibble]; omega
  have e7 : nibble [regs 0 % 65536 / 2 ^ 8 % 256, regs 0 % 65536 % 256,
      regs 1 % 65536 / 2 ^ 8 % 256, regs 1 % 65536 % 256] 7 = regs 1 % 65536 % 16 := by
    simp [nibble]; omega
  have h8 : ((4 : Int) + 4).toNat = 8 := by decide
  have h4 : (4 : Int).toNat = 4 := by decide
  rw [h8, h4, bcd_multiplier_four]
  simp only [Finset.sum_range_succ, Finset.sum_range_zero, e0, e1, e2, e3, e4, e5, e6, e7]
  congr 2
  norm_num

/-- The four bytes that `readSingleMeter` hands to the decoder are the bytes of
`(regs[0] << 16) | regs[1]`, most significant first. -/
theorem water_decode_bytes (regs : Nat → Nat) :
    WaterMeterReader.readSingleMeter.decode regs =
      WaterMeterReader.bcdToDouble
        [bigEndianWord32 regs / 16777216 % 256, bigEndianWord32 regs / 65536 % 256,
         bigEndianWord32 regs / 256 % 256, bigEndianWord32 regs % 256] 4 4 := by
  unfold WaterMeterReader.readSingleMeter.decode
  simp only [and_255_eq_mod, Nat.shiftRight_eq_div_pow, bigEndianWord32_eq]
  have b0 : regs 0 % 65536 / 2 ^ 8 % 256 =
      (regs 0 % 65536 * 65536 + regs 1 % 65536) / 16777216 % 256 := by omega
  have b1 : regs 0 % 65536 % 256 =
      (regs 0 % 65536 * 65536 + regs 1 % 65536) / 65536 % 256 := by omega
  have b2 : regs 1 % 65536 / 2 ^ 8 % 256 =
      (regs 0 % 65536 * 65536 + regs 1 % 65536) / 256 % 256 := by omega
  have b3 : regs 1 % 65536 % 256 =
      (regs 0 % 65536 * 65536 + regs 1 % 65536) % 256 := by omega
  rw [← b0, ← b1, ← b2, ← b3]

theorem water_decode_nonneg (regs : Nat → Nat) :
    0 ≤ WaterMeterReader.readSingleMeter.decode regs := by
  rw [water_decode_eq]
  exact nearest_nonneg _ (by positivity)

/-- With decimal digits in all eight positions the conversion of `readSingleMeter` stays at or
below the value of eight nines, `1374389520976105 / 2^37` (printed `9999.999900000003`). -/
theorem water_decode_le_of_digits (regs : Nat → Nat)
    (h : ∀ i, i < 2 → ∀ s, s < 4 → regs i % 65536 / 16 ^ s % 16 ≤ 9) :
    WaterMeterReader.readSingleMeter.decode regs ≤ 1374389520976105 / 137438953472 := by
  rw [water_decode_eq, ← nearest_bcd_99999999]
  apply nearest_mono _ _ (by positivity)
  apply mul_le_mul_of_nonneg_right _ (by norm_num)
  have a3 := h 0 (by decide) 3 (by decide)
  have a2 := h 0 (by decide) 2 (by decide)
  have a1 := h 0 (by decide) 1 (by decide)
  have a0 := h 0 (by decide) 0 (by decide)
  have b3 := h 1 (by decide) 3 (by decide)
  have b2 := h 1 (by decide) 2 (by decide)
  have b1 := h 1 (by decide) 1 (by decide)
  have b0 := h 1 (by decide) 0 (by decide)
  norm_num at a3 a2 a1 a0 b3 b2 b1 b0
  have hD : (regs 0 % 65536 / 4096 % 16) * 10000000 + (regs 0 % 65536 / 256 % 16) * 1000000 +
      (regs 0 % 65536 / 16 % 16) * 100000 + (regs 0 % 65536 % 16) * 10000 +
      (regs 1 % 65536 / 4096 % 16) * 1000 + (regs 1 % 65536 / 256 % 16) * 100 +
      (regs 1 % 65536 / 16 % 16) * 10 + regs 1 % 65536 % 16 ≤ 99999999 := by
    omega
  exact_mod_cast hD

@[simp] theorem Link.emit_fields (l : Link) (e : Event) :
    (l.emit e).ctx_ = l.ctx_ ∧ (l.emit e).mutex_owned = l.mutex_owned ∧
    (l.emit e).reads = l.reads ∧ (l.emit e).slaves = l.slaves ∧
    (l.emit e).connects = l.connects ∧ (l.emit e).clocks = l.clocks :=
  ⟨rfl, rfl, rfl, rfl, rfl, rfl⟩

@[simp] theorem Link.acquire_fields (l : Link) :
    l.acquire.ctx_ = l.ctx_ ∧ l.acquire.mutex_owned = true ∧
    l.acquire.reads = l.reads ∧ l.acquire.slaves = l.slaves ∧
    l.acquire.connects = l.connects ∧ l.acquire.clocks = l.clocks :=
  ⟨rfl, rfl, rfl, rfl, rfl, rfl⟩

@[simp] theorem Link.release_fields (l : Link) :
    l.release.ctx_ = l.ctx_ ∧ l.release.mutex_owned = false ∧
    l.release.reads = l.reads ∧ l.release.slaves = l.slaves ∧
    l.release.connects = l.connects ∧ l.release.clocks = l.clocks :=
  ⟨rfl, rfl, rfl, rfl, rfl, rfl⟩

@[simp] theorem Link.sleep_fields (l : Link) (ms : Nat) :
    (l.sleep ms).ctx_ = l.ctx_ ∧ (l.sleep ms).mutex_owned = l.mutex_owned ∧
    (l.sleep ms).reads = l.reads ∧ (l.sleep ms).slaves = l.slaves ∧
    (l.sleep ms).connects = l.connects ∧ (l.sleep ms).clocks = l.clocks :=
  ⟨rfl, rfl, rfl, rfl, rfl, rfl⟩

@[simp] theorem Link.close_fields (l : Link) :
    l.close.ctx_ = none ∧ l.close.mutex_owned = l.mutex_owned ∧
    l.close.reads = l.reads ∧ l.close.slaves = l.slaves ∧
    l.close.connects = l.connects ∧ l.close.clocks = l.clocks :=
  ⟨rfl, rfl, rfl, rfl, rfl, rfl⟩

@[simp] theorem Link.tick_fields (l : Link) :
    l.tick.ctx_ = l.ctx_ ∧ l.tick.mutex_owned = l.mutex_owned ∧
    l.tick.reads = l.reads ∧ l.tick.slaves = l.slaves ∧
    l.tick.connects = l.connects ∧ l.tick.clocks = l.clocks + 1 ∧ l.tick.trace = l.trace :=
  ⟨rfl, rfl, rfl, rfl, rfl, rfl, rfl⟩

@[simp] theorem Link.didSetSlave_fields (l : Link) (slave : Int) :
    (l.didSetSlave slave).ctx_ = l.ctx_ ∧ (l.didSetSlave slave).mutex_owned = l.mutex_owned ∧
    (l.didSetSlave slave).reads = l.reads ∧ (l.didSetSlave slave).slaves = l.slaves + 1 ∧
    (l.didSetSlave slave).connects = l.connects ∧ (l.didSetSlave slave).clocks = l.clocks :=
  ⟨rfl, rfl, rfl, rfl, rfl, rfl⟩

@[simp] theorem Link.didRead_fields (l : Link) (addr nb : Int) :
    (l.didRead addr nb).ctx_ = l.ctx_ ∧ (l.didRead addr nb).mutex_owned = l.mutex_owned ∧
    (l.didRead addr nb).reads = l.reads + 1 ∧ (l.didRead addr nb).slaves = l.slaves ∧
    (l.didRead addr nb).connects = l.connects ∧ (l.didRead addr nb).clocks = l.clocks :=
  ⟨rfl, rfl, rfl, rfl, rfl, rfl⟩

@[simp] theorem Link.didConnect_fields (l : Link) (answer : Option Int) :
    (l.didConnect answer).ctx_ = answer ∧ (l.didConnect answer).mutex_owned = l.mutex_owned ∧
    (l.didConnect answer).reads = l.reads ∧ (l.didConnect answer).slaves = l.slaves ∧
    (l.didConnect answer).connects = l.connects + 1 ∧
    (l.didConnect answer).clocks = l.clocks :=
  ⟨rfl, rfl, rfl, rfl, rfl, rfl⟩

@[simp] theorem Outcome.state_returned {σ α : Type} (a : α) (s : σ) :
    (Outcome.returned a s).state = s := rfl

@[simp] theorem Outcome.state_blocked {σ α : Type} (s : σ) :
    (Outcome.blocked s : Outcome σ α).state = s := rfl

/-! ## The water retry loop -/

theorem water_reconnect_owned (t : Transport) (l : Link) (h : l.mutex_owned = true) :
    WaterMeterReader.reconnectModbus t l = Outcome.blocked (l.emit Event.relock) := by
  simp [WaterMeterReader.reconnectModbus, h]

/-- Reads issued by the water retry loop never exceed the iterations left. -/
theorem water_loop_reads_le (cfg : WaterMeterReader.Config) (t : Transport) (slave : Int) :
    ∀ (fuel : Nat) (retry : Int) (result : WaterMeter) (l : Link), l.mutex_owned = true →
      (WaterMeterReader.readSingleMeter.loop cfg t slave fuel retry result l).state.reads
        ≤ l.reads + fuel := by
  intro fuel
  induction fuel with
  | zero =>
    intro retry result l _
    simp [WaterMeterReader.readSingleMeter.loop]
  | succ n ih =>
    intro retry result l ho
    have hr := water_reconnect_owned t ((l.didSetSlave slave).didRead 0 2) (by simpa using ho)
    have ih1 := ih (retry + 1) result ((l.didSetSlave slave).sleep 100) (by simpa using ho)
    have ih2 := ih (retry + 1) result (((l.didSetSlave slave).didRead 0 2).sleep 100)
      (by simpa using ho)
    simp only [Link.sleep_fields, Link.didSetSlave_fields, Link.didRead_fields] at ih1 ih2
    simp only [WaterMeterReader.readSingleMeter.loop, hr]
    split_ifs <;> simp <;> omega

theorem water_loop_step_ok (cfg : WaterMeterReader.Config) (t : Transport) (slave : Int)
    (fuel : Nat) (retry : Int) (result : WaterMeter) (l : Link)
    (hs : t.modbus_set_slave l.slaves = 0) (hrc : (t.modbus_read_registers l.reads).rc ≠ -1) :
    WaterMeterReader.readSingleMeter.loop cfg t slave (fuel + 1) retry result l =
      Outcome.returned
        { result with
          total_water := WaterMeterReader.readSingleMeter.decode (t.modbus_read_registers l.reads).regs,
          success := true,
          retry_count := retry }
        ((l.didSetSlave slave).didRead 0 2) := by
  simp [WaterMeterReader.readSingleMeter.loop, hs, hrc]

theorem water_loop_step_link (cfg : WaterMeterReader.Config) (t : Transport) (slave : Int)
    (fuel : Nat) (retry : Int) (result : WaterMeter) (l : Link) (ho : l.mutex_owned = true)
    (hs : t.modbus_set_slave l.slaves = 0) (hrc : (t.modbus_read_registers l.reads).rc = -1)
    (he : (t.modbus_read_registers l.reads).errno = ECONNRESET ∨
      (t.modbus_read_registers l.reads).errno = EBADF) :
    WaterMeterReader.readSingleMeter.loop cfg t slave (fuel + 1) retry result l =
      Outcome.blocked (((l.didSetSlave slave).didRead 0 2).emit Event.relock) := by
  have hr := water_reconnect_owned t ((l.didSetSlave slave).didRead 0 2) (by simpa using ho)
  simp [WaterMeterReader.readSingleMeter.loop, hs, hrc, he, hr]

theorem water_loop_step_last (cfg : WaterMeterReader.Config) (t : Transport) (slave : Int)
    (fuel : Nat) (retry : Int) (result : WaterMeter) (l : Link)
    (hs : t.modbus_set_slave l.slaves = 0) (hrc : (t.modbus_read_registers l.reads).rc = -1)
    (he : ¬ ((t.modbus_read_registers l.reads).errno = ECONNRESET ∨
      (t.modbus_read_registers l.reads).errno = EBADF))
    (hlast : ¬ retry < cfg.max_retry_count) :
    WaterMeterReader.readSingleMeter.loop cfg t slave (fuel + 1) retry result l =
      Outcome.returned result ((l.didSetSlave slave).didRead 0 2) := by
  simp [WaterMeterReader.readSingleMeter.loop, hs, hrc, he, hlast]

theorem water_loop_step_retry (cfg : WaterMeterReader.Config) (t : Transport) (slave : Int)
    (fuel : Nat) (retry : Int) (result : WaterMeter) (l : Link)
    (hs : t.modbus_set_slave l.slaves = 0) (hrc : (t.modbus_read_registers l.reads).rc = -1)
    (he : ¬ ((t.modbus_read_registers l.reads).errno = ECONNRESET ∨
      (t.modbus_read_registers l.reads).errno = EBADF))
    (hmore : retry < cfg.max_retry_count) :
    WaterMeterReader.readSingleMeter.loop cfg t slave (fuel + 1) retry result l =
      WaterMeterReader.readSingleMeter.loop cfg t slave fuel (retry + 1) result
        (((l.didSetSlave slave).didRead 0 2).sleep 100) := by
  simp [WaterMeterReader.readSingleMeter.loop, hs, hrc, he, hmore]

/-- After `k` attempts whose read fails with an error that is not link-level, the water retry
loop is at its attempt number `retry + k`, having issued `k` reads. -/
theorem water_loop_skip (cfg : WaterMeterReader.Config) (t : Transport) (slave : Int) :
    ∀ (k fuel : Nat) (retry : Int) (result : WaterMeter) (l : Link),
      l.mutex_owned = true → k < fuel → retry + fuel = cfg.max_retry_count + 1 →
      (∀ i, i < k → t.modbus_set_slave (l.slaves + i) = 0 ∧
        (t.modbus_read_registers (l.reads + i)).rc = -1 ∧
        ¬ ((t.modbus_read_registers (l.reads + i)).errno = ECONNRESET ∨
          (t.modbus_read_registers (l.reads + i)).errno = EBADF)) →
      ∃ lk : Link,
        WaterMeterReader.readSingleMeter.loop cfg t slave fuel retry result l =
          WaterMeterReader.readSingleMeter.loop cfg t slave (fuel - k) (retry + k) result lk ∧
        lk.reads = l.reads + k ∧ lk.slaves = l.slaves + k ∧ lk.mutex_owned = true ∧
        lk.ctx_ = l.ctx_ ∧ lk.connects = l.connects ∧ lk.clocks = l.clocks := by
  intro k
  induction k with
  | zero =>
    intro fuel retry result l ho _ _ _
    exact ⟨l, by simp, by simp, by simp, ho, rfl, rfl, rfl⟩
  | succ k ih =>
    intro fuel retry result l ho hk hfuel hfail
    obtain ⟨f, rfl⟩ : ∃ f, fuel = f + 1 := ⟨fuel - 1, by omega⟩
    obtain ⟨hs, hrc, he⟩ := hfail 0 (by omega)
    simp only [Nat.add_zero] at hs hrc he
    have hmore : retry < cfg.max_retry_count := by omega
    rw [water_loop_step_retry cfg t slave f retry result l hs hrc he hmore]
    obtain ⟨lk, heq, h1, h2, h3, h4, h5, h6⟩ :=
      ih f (retry + 1) result (((l.didSetSlave slave).didRead 0 2).sleep 100)
        (by simpa using ho) (by omega) (by push_cast at hfuel ⊢; omega)
        (by
          intro i hi
          have := hfail (i + 1) (by omega)
          simpa [Nat.add_assoc, Nat.add_comm 1 i] using this)
    refine ⟨lk, ?_, ?_, ?_, h3, ?_, ?_, ?_⟩
    · rw [heq]
      have e1 : f + 1 - (k + 1) = f - k := by omega
      have e2 : retry + 1 + (k : Int) = retry + ((k + 1 : Nat) : Int) := by push_cast; ring
      rw [e1, e2]
    · simp at h1; omega
    · simp at h2; omega
    · simpa using h4
    · simpa using h5
    · simpa using h6

/-- A successful record comes from a read whose return code is not `-1`, the last one issued,
and carries the decoded registers of that read. -/
theorem water_loop_success_inv (cfg : WaterMeterReader.Config) (t : Transport) (slave : Int) :
    ∀ (fuel : Nat) (retry : Int) (result : WaterMeter) (l : Link) (r : WaterMeter) (l1 : Link),
      l.mutex_owned = true → result.success = false →
      WaterMeterReader.readSingleMeter.loop cfg t slave fuel retry result l =
        Outcome.returned r l1 →
      r.success = true →
      l.reads < l1.reads ∧ (t.modbus_read_registers (l1.reads - 1)).rc ≠ -1 ∧
      r.total_water =
        WaterMeterReader.readSingleMeter.decode (t.modbus_read_registers (l1.reads - 1)).regs ∧
      retry ≤ r.retry_count := by
  intro fuel
  induction fuel with
  | zero =>
    intro retry result l r l1 _ hres h hr
    simp only [WaterMeterReader.readSingleMeter.loop, Outcome.returned.injEq] at h
    rw [← h.1, hres] at hr
    exact absurd hr (by decide)
  | succ n ih =>
    intro retry result l r l1 ho hres h hr
    have hrec := water_reconnect_owned t ((l.didSetSlave slave).didRead 0 2) (by simpa using ho)
    have ih1 := ih (retry + 1) result ((l.didSetSlave slave).sleep 100) r l1
      (by simpa using ho) hres
    have ih2 := ih (retry + 1) result (((l.didSetSlave slave).didRead 0 2).sleep 100) r l1
      (by simpa using ho) hres
    simp only [Link.sleep_fields, Link.didSetSlave_fields, Link.didRead_fields] at ih1 ih2
    simp only [WaterMeterReader.readSingleMeter.loop, hrec] at h
    split_ifs at h with h1 h2 h3 h4 h5
    · obtain ⟨a, b, c, d⟩ := ih1 h hr
      exact ⟨a, b, c, by omega⟩
    · simp only [Outcome.returned.injEq] at h
      rw [← h.1, hres] at hr
      exact absurd hr (by decide)
    · obtain ⟨a, b, c, d⟩ := ih2 h hr
      exact ⟨by omega, b, c, by omega⟩
    · simp only [Outcome.returned.injEq] at h
      rw [← h.1, hres] at hr
      exact absurd hr (by decide)
    · simp only [Outcome.returned.injEq] at h
      obtain ⟨hr1, hl1⟩ := h
      subst hl1
      subst hr1
      simp only [Link.didSetSlave_fields, Link.didRead_fields, Nat.add_sub_cancel] at h3 ⊢
      exact ⟨by omega, h3, trivial, le_refl _⟩

theorem water_read_unfold (cfg : WaterMeterReader.Config) (t : Transport) (slave : Int)
    (l : Link) (hfree : l.mutex_owned = false) (hctx : l.ctx_.isSome = true) :
    WaterMeterReader.readSingleMeter cfg t slave l =
      (WaterMeterReader.readSingleMeter.loop cfg t slave (cfg.max_retry_count + 1).toNat 0
        { id := slave, total_water := 0, success := false, retry_count := 0,
          last_update := t.now l.clocks } l.acquire.tick).unlockOnReturn := by
  have hn : l.ctx_.isNone = false := by
    cases h : l.ctx_ <;> simp_all
  simp [WaterMeterReader.readSingleMeter, hfree, hn]

/-- Whatever the transport does, one call of `readSingleMeter` issues at most
`max_retry_count + 1` reads. -/
theorem water_read_reads_le (cfg : WaterMeterReader.Config) (t : Transport) (slave : Int)
    (l : Link) :
    (WaterMeterReader.readSingleMeter cfg t slave l).state.reads
      ≤ l.reads + (cfg.max_retry_count + 1).toNat := by
  cases ho : l.mutex_owned with
  | true => simp [WaterMeterReader.readSingleMeter, ho]
  | false =>
    cases hc : l.ctx_ with
    | none =>
      have hrec := water_reconnect_owned t l.acquire.tick (by simp)
      simp [WaterMeterReader.readSingleMeter, ho, hc, hrec]
    | some sock =>
      rw [water_read_unfold cfg t slave l ho (by simp [hc])]
      have hle := water_loop_reads_le cfg t slave (cfg.max_retry_count + 1).toNat 0
        { id := slave, total_water := 0, success := false, retry_count := 0,
          last_update := t.now l.clocks } l.acquire.tick (by simp)
      simp only [Link.tick_fields, Link.acquire_fields] at hle
      generalize WaterMeterReader.readSingleMeter.loop cfg t slave
        (cfg.max_retry_count + 1).toNat 0 _ _ = o at hle ⊢
      cases o <;> simpa [Outcome.unlockOnReturn] using hle

/-- Early stop of `readSingleMeter`: `k` failed reads (not link-level) and then a read that
does not return `-1`. -/
theorem water_read_success_after (cfg : WaterMeterReader.Config) (t : Transport) (slave : Int)
    (l : Link) (k : Nat) (hfree : l.mutex_owned = false) (hctx : l.ctx_.isSome = true)
    (hk : (k : Int) ≤ cfg.max_retry_count)
    (hslave : ∀ i, i ≤ k → t.modbus_set_slave (l.slaves + i) = 0)
    (hfail : ∀ i, i < k → (t.modbus_read_registers (l.reads + i)).rc = -1 ∧
      ¬ ((t.modbus_read_registers (l.reads + i)).errno = ECONNRESET ∨
        (t.modbus_read_registers (l.reads + i)).errno = EBADF))
    (hok : (t.modbus_read_registers (l.reads + k)).rc ≠ -1) :
    ∃ l1 : Link,
      WaterMeterReader.readSingleMeter cfg t slave l =
        Outcome.returned
          { id := slave,
            total_water :=
              WaterMeterReader.readSingleMeter.decode (t.modbus_read_registers (l.reads + k)).regs,
            success := true, retry_count := k, last_update := t.now l.clocks } l1 ∧
      l1.reads = l.reads + k + 1 ∧ l1.mutex_owned = false ∧ l1.ctx_ = l.ctx_ := by
  rw [water_read_unfold cfg t slave l hfree hctx]
  obtain ⟨lk, heq, h1, h2, h3, h4, _, _⟩ :=
    water_loop_skip cfg t slave k (cfg.max_retry_count + 1).toNat 0
      { id := slave, total_water := 0, success := false, retry_count := 0,
        last_update := t.now l.clocks } l.acquire.tick (by simp) (by omega) (by omega)
      (by
        intro i hi
        simp only [Link.tick_fields, Link.acquire_fields]
        exact ⟨hslave i (by omega), hfail i hi⟩)
  simp only [Link.tick_fields, Link.acquire_fields] at h1 h2 h4
  obtain ⟨f, hf⟩ : ∃ f, (cfg.max_retry_count + 1).toNat - k = f + 1 :=
    ⟨(cfg.max_retry_count + 1).toNat - k - 1, by omega⟩
  rw [heq, hf, water_loop_step_ok cfg t slave f _ _ lk (by rw [h2]; exact hslave k (le_refl k))
    (by rw [h1]; exact hok)]
  refine ⟨((lk.didSetSlave slave).didRead 0 2).release, ?_, ?_, ?_, ?_⟩
  · simp [Outcome.unlockOnReturn, h1]
  · simp [h1]
  · simp
  · simp [h4]

/-- Exhaustion of `readSingleMeter`: every read fails with an error that is not link-level. -/
theorem water_read_all_fail (cfg : WaterMeterReader.Config) (t : Transport) (slave : Int)
    (l : Link) (hfree : l.mutex_owned = false) (hctx : l.ctx_.isSome = true)
    (hmax : 0 ≤ cfg.max_retry_count)
    (hfail : ∀ i, i < (cfg.max_retry_count + 1).toNat →
      t.modbus_set_slave (l.slaves + i) = 0 ∧
      (t.modbus_read_registers (l.reads + i)).rc = -1 ∧
      ¬ ((t.modbus_read_registers (l.reads + i)).errno = ECONNRESET ∨
        (t.modbus_read_registers (l.reads + i)).errno = EBADF)) :
    ∃ l1 : Link,
      WaterMeterReader.readSingleMeter cfg t slave l =
        Outcome.returned
          { id := slave, total_water := 0, success := false, retry_count := 0,
            last_update := t.now l.clocks } l1 ∧
      l1.reads = l.reads + (cfg.max_retry_count + 1).toNat ∧ l1.mutex_owned = false ∧
      l1.ctx_ = l.ctx_ := by
  rw [water_read_unfold cfg t slave l hfree hctx]
  obtain ⟨n, hn⟩ : ∃ n, (cfg.max_retry_count + 1).toNat = n + 1 :=
    ⟨(cfg.max_retry_count + 1).toNat - 1, by omega⟩
  obtain ⟨lk, heq, h1, h2, h3, h4, _, _⟩ :=
    water_loop_skip cfg t slave n (cfg.max_retry_count + 1).toNat 0
      { id := slave, total_water := 0, success := false, retry_count := 0,
        last_update := t.now l.clocks } l.acquire.tick (by simp) (by omega) (by omega)
      (by
        intro i hi
        simp only [Link.tick_fields, Link.acquire_fields]
        exact hfail i (by omega))
  simp only [Link.tick_fields, Link.acquire_fields] at h1 h2 h4
  obtain ⟨hs, hrc, he⟩ := hfail n (by omega)
  have hf : (cfg.max_retry_count + 1).toNat - n = 0 + 1 := by omega
  rw [heq, hf, water_loop_step_last cfg t slave 0 _ _ lk (by rw [h2]; exact hs)
    (by rw [h1]; exact hrc) (by rw [h1]; exact he) (by omega)]
  refine ⟨((lk.didSetSlave slave).didRead 0 2).release, ?_, ?_, ?_, ?_⟩
  · simp [Outcome.unlockOnReturn]
  · simp [h1]; omega
  · simp
  · simp [h4]

/-- A read that fails with a link-level error makes `readSingleMeter` call `reconnectModbus`
while it owns `modbus_mutex_`: the call blocks, and the read was the last one. -/
theorem water_read_link_blocks (cfg : WaterMeterReader.Config) (t : Transport) (slave : Int)
    (l : Link) (k : Nat) (hfree : l.mutex_owned = false) (hctx : l.ctx_.isSome = true)
    (hk : (k : Int) ≤ cfg.max_retry_count)
    (hslave : ∀ i, i ≤ k → t.modbus_set_slave (l.slaves + i) = 0)
    (hfail : ∀ i, i < k → (t.modbus_read_registers (l.reads + i)).rc = -1 ∧
      ¬ ((t.modbus_read_registers (l.reads + i)).errno = ECONNRESET ∨
        (t.modbus_read_registers (l.reads + i)).errno = EBADF))
    (hrc : (t.modbus_read_registers (l.reads + k)).rc = -1)
    (hlink : (t.modbus_read_registers (l.reads + k)).errno = ECONNRESET ∨
      (t.modbus_read_registers (l.reads + k)).errno = EBADF) :
    ∃ l1 : Link,
      WaterMeterReader.readSingleMeter cfg t slave l = Outcome.blocked l1 ∧
      l1.reads = l.reads + k + 1 ∧ l1.connects = l.connects := by
  rw [water_read_unfold cfg t slave l hfree hctx]
  obtain ⟨lk, heq, h1, h2, h3, h4, h5, _⟩ :=
    water_loop_skip cfg t slave k (cfg.max_retry_count + 1).toNat 0
      { id := slave, total_water := 0, success := false, retry_count := 0,
        last_update := t.now l.clocks } l.acquire.tick (by simp) (by omega) (by omega)
      (by
        intro i hi
        simp only [Link.tick_fields, Link.acquire_fields]
        exact ⟨hslave i (by omega), hfail i hi⟩)
  simp only [Link.tick_fields, Link.acquire_fields] at h1 h2 h4 h5
  obtain ⟨f, hf⟩ : ∃ f, (cfg.max_retry_count + 1).toNat - k = f + 1 :=
    ⟨(cfg.max_retry_count + 1).toNat - k - 1, by omega⟩
  rw [heq, hf, water_loop_step_link cfg t slave f _ _ lk h3
    (by rw [h2]; exact hslave k (le_refl k)) (by rw [h1]; exact hrc) (by rw [h1]; exact hlink)]
  exact ⟨_, rfl, by simp [h1], by simp [h5]⟩

/-- A successful record returned by `readSingleMeter` comes from the last read issued, whose
return code is not `-1`. -/
theorem water_read_success_inv (cfg : WaterMeterReader.Config) (t : Transport) (slave : Int)
    (l : Link) (r : WaterMeter) (l1 : Link)
    (h : WaterMeterReader.readSingleMeter cfg t slave l = Outcome.returned r l1)
    (hr : r.success = true) :
    l.reads < l1.reads ∧ (t.modbus_read_registers (l1.reads - 1)).rc ≠ -1 ∧
    r.total_water =
      WaterMeterReader.readSingleMeter.decode (t.modbus_read_registers (l1.reads - 1)).regs := by
  cases ho : l.mutex_owned with
  | true => simp [WaterMeterReader.readSingleMeter, ho] at h
  | false =>
    cases hc : l.ctx_ with
    | none =>
      have hrec := water_reconnect_owned t l.acquire.tick (by simp)
      simp [WaterMeterReader.readSingleMeter, ho, hc, hrec] at h
    | some sock =>
      rw [water_read_unfold cfg t slave l ho (by simp [hc])] at h
      cases ho2 : WaterMeterReader.readSingleMeter.loop cfg t slave
          (cfg.max_retry_count + 1).toNat 0
          { id := slave, total_water := 0, success := false, retry_count := 0,
            last_update := t.now l.clocks } l.acquire.tick with
      | blocked l2 => simp [ho2, Outcome.unlockOnReturn] at h
      | returned r2 l2 =>
        simp only [ho2, Outcome.unlockOnReturn, Outcome.returned.injEq] at h
        obtain ⟨hr2, hl2⟩ := h
        subst hr2
        subst hl2
        obtain ⟨a, b, c, _⟩ := water_loop_success_inv cfg t slave _ _ _ _ _ _ (by simp) rfl ho2 hr
        simp only [Link.tick_fields, Link.acquire_fields] at a
        simp only [Link.release_fields]
        exact ⟨a, b, c⟩
/-! ## The inverter retry loop -/

theorem inverter_reconnect_owned (t : Transport) (l : Link) (h : l.mutex_owned = true) :
    InverterReader.reconnectModbus t l = Outcome.blocked (l.emit Event.relock) := by
  simp [InverterReader.reconnectModbus, h]

/-- Reads issued by the inverter retry loop never exceed the iterations left. -/
theorem inverter_loop_reads_le (cfg : InverterReader.Config) (t : Transport) (slave addr : Int) (m : ℚ) :
    ∀ (fuel : Nat) (retry : Int) (result : InverterData) (l : Link), l.mutex_owned = true →
      (InverterReader.readSingleInverter.loop cfg t slave addr m fuel retry result l).state.reads
        ≤ l.reads + fuel := by
  intro fuel
  induction fuel with
  | zero =>
    intro retry result l _
    simp [InverterReader.readSingleInverter.loop]
  | succ n ih =>
    intro retry result l ho
    have hr := inverter_reconnect_owned t ((l.didSetSlave slave).didRead addr 2) (by simpa using ho)
    have ih1 := ih (retry + 1) result ((l.didSetSlave slave).sleep 100) (by simpa using ho)
    have ih2 := ih (retry + 1) result (((l.didSetSlave slave).didRead addr 2).sleep 100)
      (by simpa using ho)
    simp only [Link.sleep_fields, Link.didSetSlave_fields, Link.didRead_fields] at ih1 ih2
    simp only [InverterReader.readSingleInverter.loop, hr]
    split_ifs <;> simp <;> omega

theorem inverter_loop_step_ok (cfg : InverterReader.Config) (t : Transport) (slave addr : Int)
    (m : ℚ)
    (fuel : Nat) (retry : Int) (result : InverterData) (l : Link)
    (hs : t.modbus_set_slave l.slaves = 0) (hrc : (t.modbus_read_registers l.reads).rc ≠ -1) :
    InverterReader.readSingleInverter.loop cfg t slave addr m (fuel + 1) retry result l =
      Outcome.returned
        { result with
          generation := binary64.nearest
            ((bigEndianWord32 (t.modbus_read_registers l.reads).regs : ℚ) * m),
          success := true,
          retry_count := retry }
        ((l.didSetSlave slave).didRead addr 2) := by
  simp [InverterReader.readSingleInverter.loop, hs, hrc]

theorem inverter_loop_step_link (cfg : InverterReader.Config) (t : Transport) (slave addr : Int)
    (m : ℚ)
    (fuel : Nat) (retry : Int) (result : InverterData) (l : Link) (ho : l.mutex_owned = true)
    (hs : t.modbus_set_slave l.slaves = 0) (hrc : (t.modbus_read_registers l.reads).rc = -1)
    (he : (t.modbus_read_registers l.reads).errno = ECONNRESET ∨
      (t.modbus_read_registers l.reads).errno = EBADF) :
    InverterReader.readSingleInverter.loop cfg t slave addr m (fuel + 1) retry result l =
      Outcome.blocked (((l.didSetSlave slave).didRead addr 2).emit Event.relock) := by
  have hr := inverter_reconnect_owned t ((l.didSetSlave slave).didRead addr 2) (by simpa using ho)
  simp [InverterReader.readSingleInverter.loop, hs, hrc, he, hr]

theorem inverter_loop_step_last (cfg : InverterReader.Config) (t : Transport) (slave addr : Int)
    (m : ℚ)
    (fuel : Nat) (retry : Int) (result : InverterData) (l : Link)
    (hs : t.modbus_set_slave l.slaves = 0) (hrc : (t.modbus_read_registers l.reads).rc = -1)
    (he : ¬ ((t.modbus_read_registers l.reads).errno = ECONNRESET ∨
      (t.modbus_read_registers l.reads).errno = EBADF))
    (hlast : ¬ retry < cfg.max_retry_count) :
    InverterReader.readSingleInverter.loop cfg t slave addr m (fuel + 1) retry result l =
      Outcome.returned result ((l.didSetSlave slave).didRead addr 2) := by
  simp [InverterReader.readSingleInverter.loop, hs, hrc, he, hlast]

theorem inverter_loop_step_retry (cfg : InverterReader.Config) (t : Transport) (slave addr : Int)
    (m : ℚ)
    (fuel : Nat) (retry : Int) (result : InverterData) (l : Link)
    (hs : t.modbus_set_slave l.slaves = 0) (hrc : (t.modbus_read_registers l.reads).rc = -1)
    (he : ¬ ((t.modbus_read_registers l.reads).errno = ECONNRESET ∨
      (t.modbus_read_registers l.reads).errno = EBADF))
    (hmore : retry < cfg.max_retry_count) :
    InverterReader.readSingleInverter.loop cfg t slave addr m (fuel + 1) retry result l =
      InverterReader.readSingleInverter.loop cfg t slave addr m fuel (retry + 1) result
        (((l.didSetSlave slave).didRead addr 2).sleep 100) := by
  simp [InverterReader.readSingleInverter.loop, hs, hrc, he, hmore]

/-- After `k` attempts whose read fails with an error that is not link-level, the inverter retry
loop is at its attempt number `retry + k`, having issued `k` reads. -/
theorem inverter_loop_skip (cfg : InverterReader.Config) (t : Transport) (slave addr : Int) (m : ℚ) :
    ∀ (k fuel : Nat) (retry : Int) (result : InverterData) (l : Link),
      l.mutex_owned = true → k < fuel → retry + fuel = cfg.max_retry_count + 1 →
      (∀ i, i < k → t.modbus_set_slave (l.slaves + i) = 0 ∧
        (t.modbus_read_registers (l.reads + i)).rc = -1 ∧
        ¬ ((t.modbus_read_registers (l.reads + i)).errno = ECONNRESET ∨
          (t.modbus_read_registers (l.reads + i)).errno = EBADF)) →
      ∃ lk : Link,
        InverterReader.readSingleInverter.loop cfg t slave addr m fuel retry result l =
          InverterReader.readSingleInverter.loop cfg t slave addr m (fuel - k) (retry + k) result lk ∧
        lk.reads = l.reads + k ∧ lk.slaves = l.slaves + k ∧ lk.mutex_owned = true ∧
        lk.ctx_ = l.ctx_ ∧ lk.connects = l.connects ∧ lk.clocks = l.clocks := by
  intro k
  induction k with
  | zero =>
    intro fuel retry result l ho _ _ _
    exact ⟨l, by simp, by simp, by simp, ho, rfl, rfl, rfl⟩
  | succ k ih =>
    intro fuel retry result l ho hk hfuel hfail
    obtain ⟨f, rfl⟩ : ∃ f, fuel = f + 1 := ⟨fuel - 1, by omega⟩
    obtain ⟨hs, hrc, he⟩ := hfail 0 (by omega)
    simp only [Nat.add_zero] at hs hrc he
    have hmore : retry < cfg.max_retry_count := by omega
    rw [inverter_loop_step_retry cfg t slave addr m f retry result l hs hrc he hmore]
    obtain ⟨lk, heq, h1, h2, h3, h4, h5, h6⟩ :=
      ih f (retry + 1) result (((l.didSetSlave slave).didRead addr 2).sleep 100)
        (by simpa using ho) (by omega) (by push_cast at hfuel ⊢; omega)
        (by
          intro i hi
          have := hfail (i + 1) (by omega)
          simpa [Nat.add_assoc, Nat.add_comm 1 i] using this)
    refine ⟨lk, ?_, ?_, ?_, h3, ?_, ?_, ?_⟩
    · rw [heq]
      have e1 : f + 1 - (k + 1) = f - k := by omega
      have e2 : retry + 1 + (k : Int) = retry + ((k + 1 : Nat) : Int) := by push_cast; ring
      rw [e1, e2]
    · simp at h1; omega
    · simp at h2; omega
    · simpa using h4
    · simpa using h5
    · simpa using h6

/-- A successful record comes from a read whose return code is not `-1`, the last one issued,
and carries the decoded registers of that read. -/
theorem inverter_loop_success_inv (cfg : InverterReader.Config) (t : Transport) (slave addr : Int) (m : ℚ) :
    ∀ (fuel : Nat) (retry : Int) (result : InverterData) (l : Link) (r : InverterData) (l1 : Link),
      l.mutex_owned = true → result.success = false →
      InverterReader.readSingleInverter.loop cfg t slave addr m fuel retry result l =
        Outcome.returned r l1 →
      r.success = true →
      l.reads < l1.reads ∧ (t.modbus_read_registers (l1.reads - 1)).rc ≠ -1 ∧
      r.generation = binary64.nearest
        ((bigEndianWord32 (t.modbus_read_registers (l1.reads - 1)).regs : ℚ) * m) ∧
      retry ≤ r.retry_count := by
  intro fuel
  induction fuel with
  | zero =>
    intro retry result l r l1 _ hres h hr
    simp only [InverterReader.readSingleInverter.loop, Outcome.returned.injEq] at h
    rw [← h.1, hres] at hr
    exact absurd hr (by decide)
  | succ n ih =>
    intro retry result l r l1 ho hres h hr
    have hrec := inverter_reconnect_owned t ((l.didSetSlave slave).didRead addr 2) (by simpa using ho)
    have ih1 := ih (retry + 1) result ((l.didSetSlave slave).sleep 100) r l1
      (by simpa using ho) hres
    have ih2 := ih (retry + 1) result (((l.didSetSlave slave).didRead addr 2).sleep 100) r l1
      (by simpa using ho) hres
    simp only [Link.sleep_fields, Link.didSetSlave_fields, Link.didRead_fields] at ih1 ih2
    simp only [InverterReader.readSingleInverter.loop, hrec] at h
    split_ifs at h with h1 h2 h3 h4 h5
    · obtain ⟨a, b, c, d⟩ := ih1 h hr
      exact ⟨a, b, c, by omega⟩
    · simp only [Outcome.returned.injEq] at h
      rw [← h.1, hres] at hr
      exact absurd hr (by decide)
    · obtain ⟨a, b, c, d⟩ := ih2 h hr
      exact ⟨by omega, b, c, by omega⟩
    · simp only [Outcome.returned.injEq] at h
      rw [← h.1, hres] at hr
      exact absurd hr (by decide)
    · simp only [Outcome.returned.injEq] at h
      obtain ⟨hr1, hl1⟩ := h
      subst hl1
      subst hr1
      simp only [Link.didSetSlave_fields, Link.didRead_fields, Nat.add_sub_cancel] at h3 ⊢
      exact ⟨by omega, h3, trivial, le_refl _⟩

theorem inverter_read_unfold (cfg : InverterReader.Config) (t : Transport) (slave addr : Int)
    (m : ℚ)
    (l : Link) (hfree : l.mutex_owned = false) (hctx : l.ctx_.isSome = true) :
    InverterReader.readSingleInverter cfg t slave addr m l =
      (InverterReader.readSingleInverter.loop cfg t slave addr m (cfg.max_retry_count + 1).toNat 0
        (InverterReader.readSingleInverter.initial cfg slave addr m (t.now l.clocks)) l.acquire.tick).unlockOnReturn := by
  have hn : l.ctx_.isNone = false := by
    cases h : l.ctx_ <;> simp_all
  simp [InverterReader.readSingleInverter, hfree, hn]

/-- Whatever the transport does, one call of `readSingleInverter` issues at most
`max_retry_count + 1` reads. -/
theorem inverter_read_reads_le (cfg : InverterReader.Config) (t : Transport) (slave addr : Int)
    (m : ℚ)
    (l : Link) :
    (InverterReader.readSingleInverter cfg t slave addr m l).state.reads
      ≤ l.reads + (cfg.max_retry_count + 1).toNat := by
  cases ho : l.mutex_owned with
  | true => simp [InverterReader.readSingleInverter, ho]
  | false =>
    cases hc : l.ctx_ with
    | none =>
      have hrec := inverter_reconnect_owned t l.acquire.tick (by simp)
      simp [InverterReader.readSingleInverter, ho, hc, hrec]
    | some sock =>
      rw [inverter_read_unfold cfg t slave addr m l ho (by simp [hc])]
      have hle := inverter_loop_reads_le cfg t slave addr m (cfg.max_retry_count + 1).toNat 0
        (InverterReader.readSingleInverter.initial cfg slave addr m (t.now l.clocks)) l.acquire.tick (by simp)
      simp only [Link.tick_fields, Link.acquire_fields] at hle
      generalize InverterReader.readSingleInverter.loop cfg t slave addr m
        (cfg.max_retry_count + 1).toNat 0 _ _ = o at hle ⊢
      cases o <;> simpa [Outcome.unlockOnReturn] using hle

/-- Early stop of `readSingleInverter`: `k` failed reads (not link-level) and then a read that
does not return `-1`. -/
theorem inverter_read_success_after (cfg : InverterReader.Config) (t : Transport) (slave addr : Int)
    (m : ℚ)
    (l : Link) (k : Nat) (hfree : l.mutex_owned = false) (hctx : l.ctx_.isSome = true)
    (hk : (k : Int) ≤ cfg.max_retry_count)
    (hslave : ∀ i, i ≤ k → t.modbus_set_slave (l.slaves + i) = 0)
    (hfail : ∀ i, i < k → (t.modbus_read_registers (l.reads + i)).rc = -1 ∧
      ¬ ((t.modbus_read_registers (l.reads + i)).errno = ECONNRESET ∨
        (t.modbus_read_registers (l.reads + i)).errno = EBADF))
    (hok : (t.modbus_read_registers (l.reads + k)).rc ≠ -1) :
    ∃ l1 : Link,
      InverterReader.readSingleInverter cfg t slave addr m l =
        Outcome.returned
          { InverterReader.readSingleInverter.initial cfg slave addr m (t.now l.clocks) with
            generation := binary64.nearest
              ((bigEndianWord32 (t.modbus_read_registers (l.reads + k)).regs : ℚ) * m),
            success := true, retry_count := k } l1 ∧
      l1.reads = l.reads + k + 1 ∧ l1.mutex_owned = false ∧ l1.ctx_ = l.ctx_ := by
  rw [inverter_read_unfold cfg t slave addr m l hfree hctx]
  obtain ⟨lk, heq, h1, h2, h3, h4, _, _⟩ :=
    inverter_loop_skip cfg t slave addr m k (cfg.max_retry_count + 1).toNat 0
      (InverterReader.readSingleInverter.initial cfg slave addr m (t.now l.clocks)) l.acquire.tick (by simp) (by omega) (by omega)
      (by
        intro i hi
        simp only [Link.tick_fields, Link.acquire_fields]
        exact ⟨hslave i (by omega), hfail i hi⟩)
  simp only [Link.tick_fields, Link.acquire_fields] at h1 h2 h4
  obtain ⟨f, hf⟩ : ∃ f, (cfg.max_retry_count + 1).toNat - k = f + 1 :=
    ⟨(cfg.max_retry_count + 1).toNat - k - 1, by omega⟩
  rw [heq, hf, inverter_loop_step_ok cfg t slave addr m f _ _ lk (by rw [h2]; exact hslave k (le_refl k))
    (by rw [h1]; exact hok)]
  refine ⟨((lk.didSetSlave slave).didRead addr 2).release, ?_, ?_, ?_, ?_⟩
  · simp [Outcome.unlockOnReturn, h1]
  · simp [h1]
  · simp
  · simp [h4]

/-- Exhaustion of `readSingleInverter`: every read fails with an error that is not link-level. -/
theorem inverter_read_all_fail (cfg : InverterReader.Config) (t : Transport) (slave addr : Int)
    (m : ℚ)
    (l : Link) (hfree : l.mutex_owned = false) (hctx : l.ctx_.isSome = true)
    (hmax : 0 ≤ cfg.max_retry_count)
    (hfail : ∀ i, i < (cfg.max_retry_count + 1).toNat →
      t.modbus_set_slave (l.slaves + i) = 0 ∧
      (t.modbus_read_registers (l.reads + i)).rc = -1 ∧
      ¬ ((t.modbus_read_registers (l.reads + i)).errno = ECONNRESET ∨
        (t.modbus_read_registers (l.reads + i)).errno = EBADF)) :
    ∃ l1 : Link,
      InverterReader.readSingleInverter cfg t slave addr m l =
        Outcome.returned
          (InverterReader.readSingleInverter.initial cfg slave addr m (t.now l.clocks)) l1 ∧
      l1.reads = l.reads + (cfg.max_retry_count + 1).toNat ∧ l1.mutex_owned = false ∧
      l1.ctx_ = l.ctx_ := by
  rw [inverter_read_unfold cfg t slave addr m l hfree hctx]
  obtain ⟨n, hn⟩ : ∃ n, (cfg.max_retry_count + 1).toNat = n + 1 :=
    ⟨(cfg.max_retry_count + 1).toNat - 1, by omega⟩
  obtain ⟨lk, heq, h1, h2, h3, h4, _, _⟩ :=
    inverter_loop_skip cfg t slave addr m n (cfg.max_retry_count + 1).toNat 0
      (InverterReader.readSingleInverter.initial cfg slave addr m (t.now l.clocks)) l.acquire.tick (by simp) (by omega) (by omega)
      (by
        intro i hi
        simp only [Link.tick_fields, Link.acquire_fields]
        exact hfail i (by omega))
  simp only [Link.tick_fields, Link.acquire_fields] at h1 h2 h4
  obtain ⟨hs, hrc, he⟩ := hfail n (by omega)
  have hf : (cfg.max_retry_count + 1).toNat - n = 0 + 1 := by omega
  rw [heq, hf, inverter_loop_step_last cfg t slave addr m 0 _ _ lk (by rw [h2]; exact hs)
    (by rw [h1]; exact hrc) (by rw [h1]; exact he) (by omega)]
  refine ⟨((lk.didSetSlave slave).didRead addr 2).release, ?_, ?_, ?_, ?_⟩
  · simp [Outcome.unlockOnReturn]
  · simp [h1]; omega
  · simp
  · simp [h4]

/-- A read that fails with a link-level error makes `readSingleInverter` call `reconnectModbus`
while it owns `modbus_mutex_`: the call blocks, and the read was the last one. -/
theorem inverter_read_link_blocks (cfg : InverterReader.Config) (t : Transport) (slave addr : Int)
    (m : ℚ)
    (l : Link) (k : Nat) (hfree : l.mutex_owned = false) (hctx : l.ctx_.isSome = true)
    (hk : (k : Int) ≤ cfg.max_retry_count)
    (hslave : ∀ i, i ≤ k → t.modbus_set_slave (l.slaves + i) = 0)
    (hfail : ∀ i, i < k → (t.modbus_read_registers (l.reads + i)).rc = -1 ∧
      ¬ ((t.modbus_read_registers (l.reads + i)).errno = ECONNRESET ∨
        (t.modbus_read_registers (l.reads + i)).errno = EBADF))
    (hrc : (t.modbus_read_registers (l.reads + k)).rc = -1)
    (hlink : (t.modbus_read_registers (l.reads + k)).errno = ECONNRESET ∨
      (t.modbus_read_registers (l.reads + k)).errno = EBADF) :
    ∃ l1 : Link,
      InverterReader.readSingleInverter cfg t slave addr m l = Outcome.blocked l1 ∧
      l1.reads = l.reads + k + 1 ∧ l1.connects = l.connects := by
  rw [inverter_read_unfold cfg t slave addr m l hfree hctx]
  obtain ⟨lk, heq, h1, h2, h3, h4, h5, _⟩ :=
    inverter_loop_skip cfg t slave addr m k (cfg.max_retry_count + 1).toNat 0
      (InverterReader.readSingleInverter.initial cfg slave addr m (t.now l.clocks)) l.acquire.tick (by simp) (by omega) (by omega)
      (by
        intro i hi
        simp only [Link.tick_fields, Link.acquire_fields]
        exact ⟨hslave i (by omega), hfail i hi⟩)
  simp only [Link.tick_fields, Link.acquire_fields] at h1 h2 h4 h5
  obtain ⟨f, hf⟩ : ∃ f, (cfg.max_retry_count + 1).toNat - k = f + 1 :=
    ⟨(cfg.max_retry_count + 1).toNat - k - 1, by omega⟩
  rw [heq, hf, inverter_loop_step_link cfg t slave addr m f _ _ lk h3
    (by rw [h2]; exact hslave k (le_refl k)) (by rw [h1]; exact hrc) (by rw [h1]; exact hlink)]
  exact ⟨_, rfl, by simp [h1], by simp [h5]⟩

/-- A successful record returned by `readSingleInverter` comes from the last read issued, whose
return code is not `-1`. -/
theorem inverter_read_success_inv (cfg : InverterReader.Config) (t : Transport) (slave addr : Int)
    (m : ℚ)
    (l : Link) (r : InverterData) (l1 : Link)
    (h : InverterReader.readSingleInverter cfg t slave addr m l = Outcome.returned r l1)
    (hr : r.success = true) :
    l.reads < l1.reads ∧ (t.modbus_read_registers (l1.reads - 1)).rc ≠ -1 ∧
    r.generation = binary64.nearest
      ((bigEndianWord32 (t.modbus_read_registers (l1.reads - 1)).regs : ℚ) * m) := by
  cases ho : l.mutex_owned with
  | true => simp [InverterReader.readSingleInverter, ho] at h
  | false =>
    cases hc : l.ctx_ with
    | none =>
      have hrec := inverter_reconnect_owned t l.acquire.tick (by simp)
      simp [InverterReader.readSingleInverter, ho, hc, hrec] at h
    | some sock =>
      rw [inverter_read_unfold cfg t slave addr m l ho (by simp [hc])] at h
      cases ho2 : InverterReader.readSingleInverter.loop cfg t slave addr m
          (cfg.max_retry_count + 1).toNat 0
          (InverterReader.readSingleInverter.initial cfg slave addr m (t.now l.clocks)) l.acquire.tick with
      | blocked l2 => simp [ho2, Outcome.unlockOnReturn] at h
      | returned r2 l2 =>
        simp only [ho2, Outcome.unlockOnReturn, Outcome.returned.injEq] at h
        obtain ⟨hr2, hl2⟩ := h
        subst hr2
        subst hl2
        obtain ⟨a, b, c, _⟩ := inverter_loop_success_inv cfg t slave addr m _ _ _ _ _ _ (by simp) rfl ho2 hr
        simp only [Link.tick_fields, Link.acquire_fields] at a
        simp only [Link.release_fields]
        exact ⟨a, b, c⟩

/-! ## The heat meter retry loop -/

theorem heat_reconnect_owned (t : Transport) (l : Link) (h : l.mutex_owned = true) :
    HeatMeterReader.reconnectModbus t l = Outcome.blocked (l.emit Event.relock) := by
  simp [HeatMeterReader.reconnectModbus, h]

theorem heat_loop_step_ok (cfg : HeatMeterConfig) (t : Transport)
    (fuel : Nat) (retry : Int) (nd : HeatMeterData) (l : Link)
    (hs : t.modbus_set_slave l.slaves = 0)
    (hrc : (t.modbus_read_registers l.reads).rc = cfg.heat_accumulated_len) :
    HeatMeterReader.readHeatMeter.loop cfg t (fuel + 1) retry nd l =
      Outcome.returned
        { nd with
          accumulated_heat := bigEndianWord32 (t.modbus_read_registers l.reads).regs,
          accumulated_heat_kwh :=
            binary64.nearest
              ((bigEndianWord32 (t.modbus_read_registers l.reads).regs : ℚ) * cfg.multiplier),
          success := true,
          retry_count := retry }
        ((l.didSetSlave cfg.meter_address).didRead cfg.heat_accumulated_addr
          cfg.heat_accumulated_len) := by
  simp [HeatMeterReader.readHeatMeter.loop, hs, hrc]

theorem heat_loop_step_link (cfg : HeatMeterConfig) (t : Transport)
    (fuel : Nat) (retry : Int) (nd : HeatMeterData) (l : Link) (ho : l.mutex_owned = true)
    (hs : t.modbus_set_slave l.slaves = 0)
    (hrc : (t.modbus_read_registers l.reads).rc ≠ cfg.heat_accumulated_len)
    (he : (t.modbus_read_registers l.reads).errno = ECONNRESET ∨
      (t.modbus_read_registers l.reads).errno = EBADF) :
    HeatMeterReader.readHeatMeter.loop cfg t (fuel + 1) retry nd l =
      Outcome.blocked
        (((l.didSetSlave cfg.meter_address).didRead cfg.heat_accumulated_addr
          cfg.heat_accumulated_len).emit Event.relock) := by
  have hr := heat_reconnect_owned t
    ((l.didSetSlave cfg.meter_address).didRead cfg.heat_accumulated_addr
      cfg.heat_accumulated_len) (by simpa using ho)
  simp [HeatMeterReader.readHeatMeter.loop, hs, hrc, he, hr]

theorem heat_loop_step_last (cfg : HeatMeterConfig) (t : Transport)
    (retry : Int) (nd : HeatMeterData) (l : Link)
    (hs : t.modbus_set_slave l.slaves = 0)
    (hrc : (t.modbus_read_registers l.reads).rc ≠ cfg.heat_accumulated_len)
    (he : ¬ ((t.modbus_read_registers l.reads).errno = ECONNRESET ∨
      (t.modbus_read_registers l.reads).errno = EBADF))
    (hlast : ¬ retry < cfg.retry_count) :
    HeatMeterReader.readHeatMeter.loop cfg t (0 + 1) retry nd l =
      Outcome.returned
        { nd with
          error_message :=
            "Read failed: " ++ t.modbus_strerror (t.modbus_read_registers l.reads).errno }
        ((l.didSetSlave cfg.meter_address).didRead cfg.heat_accumulated_addr
          cfg.heat_accumulated_len) := by
  simp [HeatMeterReader.readHeatMeter.loop, hs, hrc, he, hlast]

theorem heat_loop_step_retry (cfg : HeatMeterConfig) (t : Transport)
    (fuel : Nat) (retry : Int) (nd : HeatMeterData) (l : Link)
    (hs : t.modbus_set_slave l.slaves = 0)
    (hrc : (t.modbus_read_registers l.reads).rc ≠ cfg.heat_accumulated_len)
    (he : ¬ ((t.modbus_read_registers l.reads).errno = ECONNRESET ∨
      (t.modbus_read_registers l.reads).errno = EBADF))
    (hmore : retry < cfg.retry_count) :
    HeatMeterReader.readHeatMeter.loop cfg t (fuel + 1) retry nd l =
      HeatMeterReader.readHeatMeter.loop cfg t fuel (retry + 1)
        { nd with
          error_message :=
            "Read failed: " ++ t.modbus_strerror (t.modbus_read_registers l.reads).errno }
        (((l.didSetSlave cfg.meter_address).didRead cfg.heat_accumulated_addr
          cfg.heat_accumulated_len).sleep 100) := by
  simp [HeatMeterReader.readHeatMeter.loop, hs, hrc, he, hmore]

/-- After `k` attempts whose read fails with an error that is not link-level, the heat retry
loop is at its attempt number `retry + k`, having issued `k` reads; only the error message of
`new_data` has changed. -/
theorem heat_loop_skip (cfg : HeatMeterConfig) (t : Transport) :
    ∀ (k fuel : Nat) (retry : Int) (nd : HeatMeterData) (l : Link),
      l.mutex_owned = true → k < fuel → retry + fuel = cfg.retry_count + 1 →
      (∀ i, i < k → t.modbus_set_slave (l.slaves + i) = 0 ∧
        (t.modbus_read_registers (l.reads + i)).rc ≠ cfg.heat_accumulated_len ∧
        ¬ ((t.modbus_read_registers (l.reads + i)).errno = ECONNRESET ∨
          (t.modbus_read_registers (l.reads + i)).errno = EBADF)) →
      ∃ (lk : Link) (msg : String),
        HeatMeterReader.readHeatMeter.loop cfg t fuel retry nd l =
          HeatMeterReader.readHeatMeter.loop cfg t (fuel - k) (retry + k)
            { nd with error_message := msg } lk ∧
        lk.reads = l.reads + k ∧ lk.slaves = l.slaves + k ∧ lk.mutex_owned = true ∧
        lk.ctx_ = l.ctx_ ∧ lk.connects = l.connects ∧ lk.clocks = l.clocks := by
  intro k
  induction k with
  | zero =>
    intro fuel retry nd l ho _ _ _
    exact ⟨l, nd.error_message, by simp, by simp, by simp, ho, rfl, rfl, rfl⟩
  | succ k ih =>
    intro fuel retry nd l ho hk hfuel hfail
    obtain ⟨f, rfl⟩ : ∃ f, fuel = f + 1 := ⟨fuel - 1, by omega⟩
    obtain ⟨hs, hrc, he⟩ := hfail 0 (by omega)
    simp only [Nat.add_zero] at hs hrc he
    have hmore : retry < cfg.retry_count := by omega
    rw [heat_loop_step_retry cfg t f retry nd l hs hrc he hmore]
    obtain ⟨lk, msg, heq, h1, h2, h3, h4, h5, h6⟩ :=
      ih f (retry + 1)
        { nd with
          error_message :=
            "Read failed: " ++ t.modbus_strerror (t.modbus_read_registers l.reads).errno }
        (((l.didSetSlave cfg.meter_address).didRead cfg.heat_accumulated_addr
          cfg.heat_accumulated_len).sleep 100)
        (by simpa using ho) (by omega) (by push_cast at hfuel ⊢; omega)
        (by
          intro i hi
          have := hfail (i + 1) (by omega)
          simpa [Nat.add_assoc, Nat.add_comm 1 i] using this)
    refine ⟨lk, msg, ?_, ?_, ?_, h3, ?_, ?_, ?_⟩
    · rw [heq]
      have e1 : f + 1 - (k + 1) = f - k := by omega
      have e2 : retry + 1 + (k : Int) = retry + ((k + 1 : Nat) : Int) := by push_cast; ring
      rw [e1, e2]
    · simp at h1; omega
    · simp at h2; omega
    · simpa using h4
    · simpa using h5
    · simpa using h6

/-- A successful record produced by the heat retry loop comes from the last read issued,
whose return code is the configured register count, and carries the decoded value of it. -/
theorem heat_loop_success_inv (cfg : HeatMeterConfig) (t : Transport) :
    ∀ (fuel : Nat) (retry : Int) (nd : HeatMeterData) (l : Link) (r : HeatMeterData)
      (l1 : Link),
      l.mutex_owned = true → nd.success = false →
      HeatMeterReader.readHeatMeter.loop cfg t fuel retry nd l = Outcome.returned r l1 →
      r.success = true →
      l.reads < l1.reads ∧
      (t.modbus_read_registers (l1.reads - 1)).rc = cfg.heat_accumulated_len ∧
      r.accumulated_heat = bigEndianWord32 (t.modbus_read_registers (l1.reads - 1)).regs ∧
      r.accumulated_heat_kwh =
        binary64.nearest
          ((bigEndianWord32 (t.modbus_read_registers (l1.reads - 1)).regs : ℚ) * cfg.multiplier) ∧
      retry ≤ r.retry_count := by
  intro fuel
  induction fuel with
  | zero =>
    intro retry nd l r l1 _ hres h hr
    simp only [HeatMeterReader.readHeatMeter.loop, Outcome.returned.injEq] at h
    rw [← h.1, hres] at hr
    exact absurd hr (by decide)
  | succ n ih =>
    intro retry nd l r l1 ho hres h hr
    have hrec := heat_reconnect_owned t
      ((l.didSetSlave cfg.meter_address).didRead cfg.heat_accumulated_addr
        cfg.heat_accumulated_len) (by simpa using ho)
    simp only [HeatMeterReader.readHeatMeter.loop, hrec] at h
    split_ifs at h with h1 h2 h3 h4 h5
    · obtain ⟨a, b, c, d, e⟩ := ih _ _ _ r l1 (by simpa using ho) (by simpa using hres) h hr
      simp only [Link.sleep_fields, Link.didSetSlave_fields] at a
      exact ⟨a, b, c, d, by omega⟩
    · simp only [Outcome.returned.injEq] at h
      rw [← h.1] at hr
      simp [hres] at hr
    · simp only [Outcome.returned.injEq] at h
      obtain ⟨hr1, hl1⟩ := h
      subst hl1
      subst hr1
      simp only [Link.didSetSlave_fields, Link.didRead_fields, Nat.add_sub_cancel] at h3 ⊢
      exact ⟨by omega, h3, trivial, trivial, le_refl _⟩
    · obtain ⟨a, b, c, d, e⟩ := ih _ _ _ r l1 (by simpa using ho) (by simpa using hres) h hr
      simp only [Link.sleep_fields, Link.didSetSlave_fields, Link.didRead_fields] at a
      exact ⟨by omega, b, c, d, by omega⟩
    · obtain ⟨a, b, c, d, e⟩ := ih _ _ _ r l1 (by simpa using ho) (by simpa using hres) h hr
      simp only [Link.sleep_fields, Link.didSetSlave_fields, Link.didRead_fields] at a
      exact ⟨by omega, b, c, d, by omega⟩

theorem heat_read_unfold (cfg : HeatMeterConfig) (t : Transport) (s : HeatMeterReader)
    (hfree : s.link.mutex_owned = false) (hctx : s.link.ctx_.isSome = true) :
    HeatMeterReader.readHeatMeter cfg t s =
      HeatMeterReader.readHeatMeter.finish s
        (HeatMeterReader.readHeatMeter.loop cfg t (cfg.retry_count + 1).toNat 0
          (HeatMeterReader.readHeatMeter.initial cfg (t.now s.link.clocks))
          s.link.tick.acquire) := by
  have hn : s.link.ctx_.isNone = false := by
    cases h : s.link.ctx_ <;> simp_all
  simp [HeatMeterReader.readHeatMeter, hfree, hn]

/-- Exhaustion of `readHeatMeter`: every read fails with an error that is not link-level. -/
theorem heat_read_all_fail (cfg : HeatMeterConfig) (t : Transport) (s : HeatMeterReader)
    (hfree : s.link.mutex_owned = false) (hctx : s.link.ctx_.isSome = true)
    (hmax : 0 ≤ cfg.retry_count)
    (hfail : ∀ i, i < (cfg.retry_count + 1).toNat →
      t.modbus_set_slave (s.link.slaves + i) = 0 ∧
      (t.modbus_read_registers (s.link.reads + i)).rc ≠ cfg.heat_accumulated_len ∧
      ¬ ((t.modbus_read_registers (s.link.reads + i)).errno = ECONNRESET ∨
        (t.modbus_read_registers (s.link.reads + i)).errno = EBADF)) :
    ∃ (s1 : HeatMeterReader) (msg : String),
      HeatMeterReader.readHeatMeter cfg t s = Outcome.returned false s1 ∧
      s1.meter_data_ =
        { HeatMeterReader.readHeatMeter.initial cfg (t.now s.link.clocks) with
          error_message := msg } ∧
      s1.link.reads = s.link.reads + (cfg.retry_count + 1).toNat ∧
      s1.link.mutex_owned = false ∧ s1.link.ctx_ = s.link.ctx_ := by
  rw [heat_read_unfold cfg t s hfree hctx]
  obtain ⟨n, hn⟩ : ∃ n, (cfg.retry_count + 1).toNat = n + 1 :=
    ⟨(cfg.retry_count + 1).toNat - 1, by omega⟩
  obtain ⟨lk, msg, heq, h1, h2, h3, h4, _, _⟩ :=
    heat_loop_skip cfg t n (cfg.retry_count + 1).toNat 0
      (HeatMeterReader.readHeatMeter.initial cfg (t.now s.link.clocks)) s.link.tick.acquire
      (by simp) (by omega) (by omega)
      (by
        intro i hi
        simp only [Link.tick_fields, Link.acquire_fields]
        exact hfail i (by omega))
  simp only [Link.tick_fields, Link.acquire_fields] at h1 h2 h4
  obtain ⟨hs, hrc, he⟩ := hfail n (by omega)
  have hf : (cfg.retry_count + 1).toNat - n = 0 + 1 := by omega
  rw [heq, hf, heat_loop_step_last cfg t _ _ lk (by rw [h2]; exact hs)
    (by rw [h1]; exact hrc) (by rw [h1]; exact he) (by omega)]
  refine ⟨_, "Read failed: " ++ t.modbus_strerror (t.modbus_read_registers lk.reads).errno,
    rfl, rfl, ?_, ?_, ?_⟩
  · simp [h1]; omega
  · simp
  · simp [h4]

/-- A read that fails with a link-level error makes `readHeatMeter` call `reconnectModbus`
while it owns `data_mutex_`: the call blocks, and the read was the last one. -/
theorem heat_read_link_blocks (cfg : HeatMeterConfig) (t : Transport) (s : HeatMeterReader)
    (k : Nat) (hfree : s.link.mutex_owned = false) (hctx : s.link.ctx_.isSome = true)
    (hk : (k : Int) ≤ cfg.retry_count)
    (hfail : ∀ i, i < k → t.modbus_set_slave (s.link.slaves + i) = 0 ∧
      (t.modbus_read_registers (s.link.reads + i)).rc ≠ cfg.heat_accumulated_len ∧
      ¬ ((t.modbus_read_registers (s.link.reads + i)).errno = ECONNRESET ∨
        (t.modbus_read_registers (s.link.reads + i)).errno = EBADF))
    (hslave : t.modbus_set_slave (s.link.slaves + k) = 0)
    (hrc : (t.modbus_read_registers (s.link.reads + k)).rc ≠ cfg.heat_accumulated_len)
    (hlink : (t.modbus_read_registers (s.link.reads + k)).errno = ECONNRESET ∨
      (t.modbus_read_registers (s.link.reads + k)).errno = EBADF) :
    ∃ s1 : HeatMeterReader,
      HeatMeterReader.readHeatMeter cfg t s = Outcome.blocked s1 ∧
      s1.link.reads = s.link.reads + k + 1 ∧ s1.link.connects = s.link.connects ∧
      s1.meter_data_ = s.meter_data_ := by
  rw [heat_read_unfold cfg t s hfree hctx]
  obtain ⟨lk, msg, heq, h1, h2, h3, h4, h5, _⟩ :=
    heat_loop_skip cfg t k (cfg.retry_count + 1).toNat 0
      (HeatMeterReader.readHeatMeter.initial cfg (t.now s.link.clocks)) s.link.tick.acquire
      (by simp) (by omega) (by omega)
      (by
        intro i hi
        simp only [Link.tick_fields, Link.acquire_fields]
        exact hfail i hi)
  simp only [Link.tick_fields, Link.acquire_fields] at h1 h2 h4 h5
  obtain ⟨f, hf⟩ : ∃ f, (cfg.retry_count + 1).toNat - k = f + 1 :=
    ⟨(cfg.retry_count + 1).toNat - k - 1, by omega⟩
  rw [heq, hf, heat_loop_step_link cfg t f _ _ lk h3
    (by rw [h2]; exact hslave) (by rw [h1]; exact hrc) (by rw [h1]; exact hlink)]
  exact ⟨_, rfl, by simp [h1], by simp [h5], rfl⟩

/-- When `readHeatMeter` reports success, the stored record comes from the last read issued,
whose return code is the configured register count. -/
theorem heat_read_success_inv (cfg : HeatMeterConfig) (t : Transport) (s s1 : HeatMeterReader)
    (h : HeatMeterReader.readHeatMeter cfg t s = Outcome.returned true s1) :
    s.link.reads < s1.link.reads ∧
    (t.modbus_read_registers (s1.link.reads - 1)).rc = cfg.heat_accumulated_len ∧
    s1.meter_data_.success = true ∧
    s1.meter_data_.accumulated_heat =
      bigEndianWord32 (t.modbus_read_registers (s1.link.reads - 1)).regs ∧
    s1.meter_data_.accumulated_heat_kwh =
      binary64.nearest
        ((bigEndianWord32 (t.modbus_read_registers (s1.link.reads - 1)).regs : ℚ)
          * cfg.multiplier) := by
  cases ho : s.link.mutex_owned with
  | true => simp [HeatMeterReader.readHeatMeter, ho] at h
  | false =>
    cases hc : s.link.ctx_ with
    | none =>
      have hrec := heat_reconnect_owned t s.link.tick.acquire (by simp)
      simp [HeatMeterReader.readHeatMeter, ho, hc, hrec] at h
    | some sock =>
      rw [heat_read_unfold cfg t s ho (by simp [hc])] at h
      cases ho2 : HeatMeterReader.readHeatMeter.loop cfg t (cfg.retry_count + 1).toNat 0
          (HeatMeterReader.readHeatMeter.initial cfg (t.now s.link.clocks))
          s.link.tick.acquire with
      | blocked l2 => simp [ho2, HeatMeterReader.readHeatMeter.finish] at h
      | returned r2 l2 =>
        simp only [ho2, HeatMeterReader.readHeatMeter.finish, Outcome.returned.injEq] at h
        obtain ⟨hr2, hl2⟩ := h
        subst hl2
        obtain ⟨a, b, c, d, _⟩ :=
          heat_loop_success_inv cfg t _ _ _ _ _ _ (by simp) rfl ho2 hr2
        simp only [Link.tick_fields, Link.acquire_fields] at a
        simp only [Link.release_fields]
        exact ⟨a, b, hr2, c, d⟩

/-! ## The electric meter reader -/

/-- The retry loop of `performReadWithRetry` never blocks, issues at most one read per
iteration, and changes neither the store, the flag `running_`, the handle nor the mutex. -/
theorem electric_loop_frame (cfg : ElectricConfig) (t : Transport) :
    ∀ (fuel : Nat) (s : ElectricMeterReader) (regs : Nat → Nat),
      ∃ (v : Bool × (Nat → Nat)) (s1 : ElectricMeterReader),
        ElectricMeterReader.performReadWithRetry.loop cfg t fuel s regs = Outcome.returned v s1 ∧
        s1.link.reads ≤ s.link.reads + fuel ∧ s1.meters_ = s.meters_ ∧
        s1.running_ = s.running_ ∧ s1.link.ctx_ = s.link.ctx_ ∧
        s1.link.mutex_owned = s.link.mutex_owned ∧ s1.link.connects = s.link.connects ∧
        s1.link.clocks = s.link.clocks := by
  intro fuel
  induction fuel with
  | zero =>
    intro s regs
    exact ⟨_, _, rfl, by simp, rfl, rfl, rfl, rfl, rfl, rfl⟩
  | succ n ih =>
    intro s regs
    simp only [ElectricMeterReader.performReadWithRetry.loop]
    split_ifs with h1 h2
    · exact ⟨_, _, rfl, by simp, rfl, rfl, by simp, by simp, by simp, by simp⟩
    · obtain ⟨v, s1, heq, a, b, c, d, e, f, g⟩ := ih
        { s with
          link := (s.link.didRead cfg.start_register cfg.register_count).sleep 500,
          current_retry_count_ := s.current_retry_count_ + 1 }
        (t.modbus_read_registers s.link.reads).regs
      refine ⟨v, s1, heq, ?_, b, c, ?_, ?_, ?_, ?_⟩
      · simp at a; omega
      · simpa using d
      · simpa using e
      · simpa using f
      · simpa using g
    · obtain ⟨v, s1, heq, a, b, c, d, e, f, g⟩ := ih
        { s with
          link := s.link.didRead cfg.start_register cfg.register_count,
          current_retry_count_ := s.current_retry_count_ + 1 }
        (t.modbus_read_registers s.link.reads).regs
      refine ⟨v, s1, heq, ?_, b, c, ?_, ?_, ?_, ?_⟩
      · simp at a; omega
      · simpa using d
      · simpa using e
      · simpa using f
      · simpa using g

/-- When the retry loop of `performReadWithRetry` reports success, the buffer holds the
registers of the last read issued, whose return code is the configured register count, and the
reconnect counter is zero. -/
theorem electric_loop_success_inv (cfg : ElectricConfig) (t : Transport) :
    ∀ (fuel : Nat) (s : ElectricMeterReader) (regs buf : Nat → Nat) (s1 : ElectricMeterReader),
      ElectricMeterReader.performReadWithRetry.loop cfg t fuel s regs =
        Outcome.returned (true, buf) s1 →
      s.link.reads < s1.link.reads ∧
      buf = (t.modbus_read_registers (s1.link.reads - 1)).regs ∧
      (t.modbus_read_registers (s1.link.reads - 1)).rc = cfg.register_count ∧
      s1.reconnect_count_ = 0 := by
  intro fuel
  induction fuel with
  | zero =>
    intro s regs buf s1 h
    simp [ElectricMeterReader.performReadWithRetry.loop] at h
  | succ n ih =>
    intro s regs buf s1 h
    simp only [ElectricMeterReader.performReadWithRetry.loop] at h
    split_ifs at h with h1 h2
    · simp only [Outcome.returned.injEq, Prod.mk.injEq, true_and] at h
      obtain ⟨hb, hs⟩ := h
      subst hs
      subst hb
      simp only [Link.didRead_fields, Nat.add_sub_cancel]
      exact ⟨by omega, trivial, h1, trivial⟩
    · obtain ⟨a, b, c, d⟩ := ih _ _ buf s1 h
      simp only [Link.sleep_fields, Link.didRead_fields] at a
      exact ⟨by omega, b, c, d⟩
    · obtain ⟨a, b, c, d⟩ := ih _ _ buf s1 h
      simp only [Link.didRead_fields] at a
      exact ⟨by omega, b, c, d⟩

/-- When every read fails, the retry loop of `performReadWithRetry` issues one read per
iteration and reports failure, leaving the reconnect counter as it was. -/
theorem electric_loop_all_fail (cfg : ElectricConfig) (t : Transport) :
    ∀ (fuel : Nat) (s : ElectricMeterReader) (regs : Nat → Nat),
      (∀ i, i < fuel → (t.modbus_read_registers (s.link.reads + i)).rc ≠ cfg.register_count) →
      ∃ (buf : Nat → Nat) (s1 : ElectricMeterReader),
        ElectricMeterReader.performReadWithRetry.loop cfg t fuel s regs =
          Outcome.returned (false, buf) s1 ∧
        s1.link.reads = s.link.reads + fuel ∧ s1.reconnect_count_ = s.reconnect_count_ := by
  intro fuel
  induction fuel with
  | zero =>
    intro s regs _
    exact ⟨_, _, rfl, by simp, rfl⟩
  | succ n ih =>
    intro s regs hfail
    have h0 := hfail 0 (by omega)
    simp only [Nat.add_zero] at h0
    simp only [ElectricMeterReader.performReadWithRetry.loop, h0, if_false]
    split_ifs with h2
    · obtain ⟨buf, s1, heq, a, b⟩ := ih
        { s with
          link := (s.link.didRead cfg.start_register cfg.register_count).sleep 500,
          current_retry_count_ := s.current_retry_count_ + 1 }
        (t.modbus_read_registers s.link.reads).regs
        (by
          intro i hi
          have := hfail (i + 1) (by omega)
          simpa [Nat.add_assoc, Nat.add_comm 1 i] using this)
      exact ⟨buf, s1, heq, by simp at a; omega, by simpa using b⟩
    · obtain ⟨buf, s1, heq, a, b⟩ := ih
        { s with
          link := s.link.didRead cfg.start_register cfg.register_count,
          current_retry_count_ := s.current_retry_count_ + 1 }
        (t.modbus_read_registers s.link.reads).regs
        (by
          intro i hi
          have := hfail (i + 1) (by omega)
          simpa [Nat.add_assoc, Nat.add_comm 1 i] using this)
      exact ⟨buf, s1, heq, by simp at a; omega, by simpa using b⟩

/-- Entered with `modbus_mutex_` free, `performReadWithRetry` returns after at most
`max_retry_count + 1` reads, with the mutex free again and the store untouched. -/
theorem electric_perform_returns (cfg : ElectricConfig) (t : Transport)
    (s : ElectricMeterReader) (regs : Nat → Nat) (hfree : s.link.mutex_owned = false) :
    ∃ (v : Bool × (Nat → Nat)) (s1 : ElectricMeterReader),
      ElectricMeterReader.performReadWithRetry cfg t s regs = Outcome.returned v s1 ∧
      s1.link.reads ≤ s.link.reads + (cfg.max_retry_count + 1).toNat ∧
      s1.meters_ = s.meters_ ∧ s1.running_ = s.running_ ∧ s1.link.ctx_ = s.link.ctx_ ∧
      s1.link.mutex_owned = false ∧ s1.link.connects = s.link.connects ∧
      s1.link.clocks = s.link.clocks := by
  unfold ElectricMeterReader.performReadWithRetry
  simp only [hfree, Bool.false_eq_true, if_false]
  split_ifs with hc
  · exact ⟨_, _, rfl, by simp, rfl, rfl, by simp, by simp, by simp, by simp⟩
  · obtain ⟨v, s1, heq, a, b, c, d, e, f, g⟩ :=
      electric_loop_frame cfg t (cfg.max_retry_count + 1).toNat
        { s with link := s.link.acquire, current_retry_count_ := 0 } regs
    rw [heq]
    refine ⟨v, _, rfl, ?_, ?_, ?_, ?_, ?_, ?_, ?_⟩
    · simpa using a
    · simpa using b
    · simpa using c
    · simpa using d
    · simp
    · simpa using f
    · simpa using g

/-- When `performReadWithRetry` reports success, the buffer holds the registers of the last
read issued, whose return code is the configured register count. -/
theorem electric_perform_success_inv (cfg : ElectricConfig) (t : Transport)
    (s s1 : ElectricMeterReader) (regs buf : Nat → Nat)
    (h : ElectricMeterReader.performReadWithRetry cfg t s regs =
      Outcome.returned (true, buf) s1) :
    s.link.reads < s1.link.reads ∧
    buf = (t.modbus_read_registers (s1.link.reads - 1)).regs ∧
    (t.modbus_read_registers (s1.link.reads - 1)).rc = cfg.register_count ∧
    s1.reconnect_count_ = 0 := by
  cases ho : s.link.mutex_owned with
  | true => simp [ElectricMeterReader.performReadWithRetry, ho] at h
  | false =>
    cases hc : s.link.ctx_ with
    | none => simp [ElectricMeterReader.performReadWithRetry, ho, hc] at h
    | some sock =>
      cases hl : ElectricMeterReader.performReadWithRetry.loop cfg t
          (cfg.max_retry_count + 1).toNat
          { s with link := s.link.acquire, current_retry_count_ := 0 } regs with
      | blocked s2 => simp [ElectricMeterReader.performReadWithRetry, ho, hc, hl] at h
      | returned v s2 =>
        simp only [ElectricMeterReader.performReadWithRetry, ho, hc, hl, Bool.false_eq_true,
          if_false, Link.acquire_fields, Option.isNone_some, Outcome.returned.injEq] at h
        obtain ⟨hv, hs⟩ := h
        subst hs
        subst hv
        obtain ⟨a, b, c, d⟩ := electric_loop_success_inv cfg t _ _ _ _ _ hl
        simp only [Link.acquire_fields] at a
        simp only [Link.release_fields]
        exact ⟨a, b, c, d⟩

/-- With a handle present and every read failing, `performReadWithRetry` issues exactly
`max_retry_count + 1` reads and reports failure. -/
theorem electric_perform_all_fail (cfg : ElectricConfig) (t : Transport)
    (s : ElectricMeterReader) (regs : Nat → Nat) (hfree : s.link.mutex_owned = false)
    (hctx : s.link.ctx_.isSome = true)
    (hfail : ∀ i, i < (cfg.max_retry_count + 1).toNat →
      (t.modbus_read_registers (s.link.reads + i)).rc ≠ cfg.register_count) :
    ∃ (buf : Nat → Nat) (s1 : ElectricMeterReader),
      ElectricMeterReader.performReadWithRetry cfg t s regs = Outcome.returned (false, buf) s1 ∧
      s1.link.reads = s.link.reads + (cfg.max_retry_count + 1).toNat ∧
      s1.reconnect_count_ = s.reconnect_count_ := by
  have hn : s.link.ctx_.isNone = false := by
    cases h : s.link.ctx_ <;> simp_all
  unfold ElectricMeterReader.performReadWithRetry
  simp only [hfree, Bool.false_eq_true, if_false, Link.acquire_fields, hn]
  obtain ⟨buf, s1, heq, a, b⟩ :=
    electric_loop_all_fail cfg t (cfg.max_retry_count + 1).toNat
      { s with link := s.link.acquire, current_retry_count_ := 0 } regs
      (by simpa using hfail)
  rw [heq]
  exact ⟨buf, _, rfl, by simpa using a, by simpa using b⟩

/-- The entries that `readAllMeters` builds from the registers, when every meter has its two
registers inside the block read: entry `i` has id `i + 1`, is successful and holds the bit
pattern made of registers `2i` (high half) and `2i + 1`. -/
theorem electric_parse_eq (cfg : ElectricConfig) (t : Transport) (regs : Nat → Nat)
    (l : Link) (n : Nat) (hn : ∀ i, i < n → ((i * 2 : Nat) : Int) + 1 < cfg.register_count) :
    (List.range n).foldl
      (fun (acc : List ElectricMeter × Link) (i : Nat) =>
        if (((i * 2 : Nat) : Int) + 1 < cfg.register_count) then
          (acc.1 ++ [{ id := (i : Int) + 1,
                       power_value :=
                         ElectricMeterReader.parseFloatBigEndian (fun j => regs (i * 2 + j)),
                       success := true,
                       last_update := t.now acc.2.clocks }], acc.2.tick)
        else acc)
      ([], l) =
    ((List.range n).map (fun (i : Nat) =>
        ({ id := (i : Int) + 1,
           power_value := ElectricMeterReader.parseFloatBigEndian (fun j => regs (i * 2 + j)),
           success := true,
           last_update := t.now (l.clocks + i) } : ElectricMeter)),
      { l with clocks := l.clocks + n }) := by
  induction n with
  | zero => simp
  | succ n ih =>
    rw [List.range_succ, List.foldl_append, ih (fun i hi => hn i (by omega))]
    have hlast := hn n (by omega)
    simp only [List.foldl_cons, List.foldl_nil, hlast, if_true, List.map_append, List.map_cons,
      List.map_nil, Link.tick, Nat.add_assoc]

/-- When the second part of `readAllMeters` reports success, the read with retry succeeded and
the store holds the entries parsed from its buffer. -/
theorem electric_readAndStore_true_inv (cfg : ElectricConfig) (t : Transport)
    (s s' : ElectricMeterReader)
    (h : ElectricMeterReader.readAllMeters.readAndStore cfg t s = Outcome.returned true s') :
    ∃ (buf : Nat → Nat) (s1 : ElectricMeterReader),
      ElectricMeterReader.performReadWithRetry cfg t s (fun _ => 0) =
        Outcome.returned (true, buf) s1 ∧
      s'.meters_ = (ElectricMeterReader.readAllMeters.parse cfg t buf s1.link).1 ∧
      s'.link = (ElectricMeterReader.readAllMeters.parse cfg t buf s1.link).2 ∧
      s'.reconnect_count_ = s1.reconnect_count_ ∧ s'.running_ = s1.running_ := by
  unfold ElectricMeterReader.readAllMeters.readAndStore at h
  cases hp : ElectricMeterReader.performReadWithRetry cfg t s (fun _ => 0) with
  | blocked s1 => simp [hp] at h
  | returned v s1 =>
    obtain ⟨b, buf⟩ := v
    cases b with
    | true =>
      simp only [hp, Outcome.returned.injEq, true_and] at h
      subst h
      exact ⟨buf, s1, rfl, rfl, rfl, rfl, rfl⟩
    | false =>
      simp only [hp] at h
      cases hd : ElectricMeterReader.disconnectModbus s1 with
      | blocked s2 => simp [hd] at h
      | returned u s2 => simp [hd] at h

/-- Entered with `modbus_mutex_` free, `connectModbus` returns: it drops the old handle, makes
one connection attempt and keeps the new handle exactly when the attempt succeeded. -/
theorem electric_connect_spec (t : Transport) (s : ElectricMeterReader)
    (hfree : s.link.mutex_owned = false) :
    ElectricMeterReader.connectModbus t s =
      Outcome.returned (t.modbus_connect s.link.connects).isSome
        { s with
          link :=
            ((if s.link.ctx_.isSome then s.link.acquire.close else s.link.acquire).didConnect
              (t.modbus_connect s.link.connects)).release } := by
  unfold ElectricMeterReader.connectModbus
  have hc : (if s.link.ctx_.isSome = true then s.link.acquire.close
      else s.link.acquire).connects = s.link.connects := by
    split_ifs <;> simp
  simp only [hfree, Bool.false_eq_true, if_false, Link.acquire_fields, hc]
  cases t.modbus_connect s.link.connects <;> rfl

/-- When `readAllMeters` reports success, its second part ran, from a state with the same
number of reads issued. -/
theorem electric_readAll_true_inv (cfg : ElectricConfig) (t : Transport)
    (s s' : ElectricMeterReader)
    (h : ElectricMeterReader.readAllMeters cfg t s = Outcome.returned true s') :
    ∃ s0 : ElectricMeterReader,
      ElectricMeterReader.readAllMeters.readAndStore cfg t s0 = Outcome.returned true s' ∧
      s0.link.reads = s.link.reads := by
  cases he : ElectricMeterReader.shouldExit cfg s with
  | true => simp [ElectricMeterReader.readAllMeters, he] at h
  | false =>
    cases ho : s.link.mutex_owned with
    | true => simp [ElectricMeterReader.readAllMeters, he, ho] at h
    | false =>
      simp only [ElectricMeterReader.readAllMeters, he, ho, Bool.false_eq_true, if_false] at h
      split_ifs at h with hn
      · rw [electric_connect_spec t _ (by simp)] at h
        cases hc : t.modbus_connect s.link.connects with
        | none => simp [hc] at h
        | some sock =>
          simp only [Link.release_fields, Link.acquire_fields, hc, Option.isSome_some] at h
          refine ⟨_, h, ?_⟩
          simp only [Link.release_fields, Link.didConnect_fields]
          split_ifs <;> simp
      · exact ⟨_, h, by simp⟩

/-- The parsing loop of `readAllMeters` issues no read. -/
theorem electric_parse_reads (cfg : ElectricConfig) (t : Transport) (regs : Nat → Nat)
    (l : Link) (hm : cfg.meter_count = 9) (hr : cfg.register_count = 18) :
    (ElectricMeterReader.readAllMeters.parse cfg t regs l).2.reads = l.reads ∧
    (ElectricMeterReader.readAllMeters.parse cfg t regs l).1 =
      (List.range 9).map (fun (i : Nat) =>
        ({ id := (i : Int) + 1,
           power_value := ElectricMeterReader.parseFloatBigEndian (fun j => regs (i * 2 + j)),
           success := true,
           last_update := t.now (l.clocks + i) } : ElectricMeter)) := by
  unfold ElectricMeterReader.readAllMeters.parse
  have h9 : cfg.meter_count.toNat = 9 := by rw [hm]; rfl
  rw [h9, electric_parse_eq cfg t regs l 9 (by intro i hi; rw [hr]; push_cast; omega)]
  exact ⟨rfl, rfl⟩

/-- C2. A polling cycle of the electric reader that reports success leaves nine successful
entries with ids 1 to 9, and entry `i` holds, bit for bit, the pattern whose high half is
register `2i` and whose low half is register `2i + 1` of the block returned by the read (the
last read issued, which returned all 18 registers); nothing is rounded or filtered. -/
theorem readAllMeters_stores_bit_patterns (cfg : ElectricConfig) (t : Transport)
    (s s' : ElectricMeterReader) (hm : cfg.meter_count = 9) (hr : cfg.register_count = 18)
    (h : ElectricMeterReader.readAllMeters cfg t s = Outcome.returned true s') :
    s.link.reads < s'.link.reads ∧
    (t.modbus_read_registers (s'.link.reads - 1)).rc = 18 ∧
    s'.meters_.length = 9 ∧
    ∀ i : Nat, i < 9 →
      (s'.meters_.map (fun m => m.id))[i]? = some ((i : Int) + 1) ∧
      (s'.meters_.map (fun m => m.success))[i]? = some true ∧
      (s'.meters_.map (fun m => m.power_value))[i]? =
        some ((((t.modbus_read_registers (s'.link.reads - 1)).regs (2 * i) % 65536) <<< 16) |||
          ((t.modbus_read_registers (s'.link.reads - 1)).regs (2 * i + 1) % 65536)) := by
  obtain ⟨s0, h0, hreads⟩ := electric_readAll_true_inv cfg t s s' h
  obtain ⟨buf, s1, hp, hmeters, hlink, _, _⟩ := electric_readAndStore_true_inv cfg t s0 s' h0
  obtain ⟨a, hbuf, hrc, _⟩ := electric_perform_success_inv cfg t s0 s1 _ buf hp
  obtain ⟨pr, pm⟩ := electric_parse_reads cfg t buf s1.link hm hr
  have hreads' : s'.link.reads = s1.link.reads := by rw [hlink, pr]
  rw [hreads', hmeters, pm]
  refine ⟨by omega, by rw [hrc, hr], by simp, ?_⟩
  intro i hi
  have hword : ∀ k, ElectricMeterReader.parseFloatBigEndian (fun j => buf (k * 2 + j)) =
      ((buf (2 * k) % 65536) <<< 16) ||| (buf (2 * k + 1) % 65536) := by
    intro k
    unfold ElectricMeterReader.parseFloatBigEndian
    rw [bigEndianWord32_eq, shl16_or_eq _ _ (Nat.mod_lt _ (by norm_num))]
    simp [Nat.mul_comm]
  simp only [List.map_map, List.getElem?_map, List.getElem?_range hi, Option.map_some',
    Function.comp, hword, ← hbuf]
  exact ⟨trivial, trivial, trivial⟩

theorem readAllMeters_stores_bit_patterns_witness :
    ElectricMeterReader.readAllMeters ElectricMeterReader.setDefaultConfig
        (Scenario.scripted 0 0 18 (Scenario.buffer [0x447A, 0x0000]) none) Scenario.electric =
      Outcome.returned true
        (ElectricMeterReader.readAllMeters ElectricMeterReader.setDefaultConfig
          (Scenario.scripted 0 0 18 (Scenario.buffer [0x447A, 0x0000]) none)
          Scenario.electric).state ∧
    ((ElectricMeterReader.readAllMeters ElectricMeterReader.setDefaultConfig
        (Scenario.scripted 0 0 18 (Scenario.buffer [0x447A, 0x0000]) none)
        Scenario.electric).state.meters_.map (fun m => m.power_value))[0]? =
      some 0x447A0000 ∧
    ((ElectricMeterReader.readAllMeters ElectricMeterReader.setDefaultConfig
        (Scenario.scripted 0 0 18 (Scenario.buffer [0x447A, 0x0000]) none)
        Scenario.electric).state.meters_.map (fun m => m.success))[0]? = some true ∧
    ieee754Single 0x447A0000 = some 1000 := by
  have h : ElectricMeterReader.readAllMeters ElectricMeterReader.setDefaultConfig
        (Scenario.scripted 0 0 18 (Scenario.buffer [0x447A, 0x0000]) none) Scenario.electric =
      Outcome.returned true
        (ElectricMeterReader.readAllMeters ElectricMeterReader.setDefaultConfig
          (Scenario.scripted 0 0 18 (Scenario.buffer [0x447A, 0x0000]) none)
          Scenario.electric).state := by rfl
  have key := readAllMeters_stores_bit_patterns _ _ _ _ rfl rfl h
  refine ⟨h, ?_, (key.2.2.2 0 (by decide)).2.1, ?_⟩
  · rw [(key.2.2.2 0 (by decide)).2.2]
    rfl
  · simp [ieee754Single]
    norm_num

/-- C3. The word composition of `parseFloatBigEndian` is an exact round trip: a 32-bit pattern
split into its high and low 16-bit words is composed back to itself, the composition of two
16-bit words has them as its high and low halves, and so no two word pairs give the same
pattern. -/
theorem parseFloatBigEndian_roundtrip :
    (∀ p : Nat, p < 4294967296 →
      ElectricMeterReader.parseFloatBigEndian (Scenario.buffer [p >>> 16, p &&& 0xFFFF]) = p) ∧
    (∀ a b : Nat, a < 65536 → b < 65536 →
      ElectricMeterReader.parseFloatBigEndian (Scenario.buffer [a, b]) < 4294967296 ∧
      ElectricMeterReader.parseFloatBigEndian (Scenario.buffer [a, b]) >>> 16 = a ∧
      ElectricMeterReader.parseFloatBigEndian (Scenario.buffer [a, b]) &&& 0xFFFF = b) ∧
    (∀ a b c d : Nat, a < 65536 → b < 65536 → c < 65536 → d < 65536 →
      ElectricMeterReader.parseFloatBigEndian (Scenario.buffer [a, b]) =
        ElectricMeterReader.parseFloatBigEndian (Scenario.buffer [c, d]) →
      a = c ∧ b = d) := by
  have hval : ∀ a b : Nat, a < 65536 → b < 65536 →
      ElectricMeterReader.parseFloatBigEndian (Scenario.buffer [a, b]) = a * 65536 + b := by
    intro a b ha hb
    unfold ElectricMeterReader.parseFloatBigEndian
    rw [bigEndianWord32_eq]
    simp [Scenario.buffer, Nat.mod_eq_of_lt ha, Nat.mod_eq_of_lt hb]
  refine ⟨?_, ?_, ?_⟩
  · intro p hp
    rw [and_65535_eq_mod, Nat.shiftRight_eq_div_pow,
      hval _ _ (by norm_num; omega) (Nat.mod_lt _ (by norm_num))]
    norm_num
    omega
  · intro a b ha hb
    rw [hval a b ha hb, and_65535_eq_mod, Nat.shiftRight_eq_div_pow]
    norm_num
    omega
  · intro a b c d ha hb hc hd h
    rw [hval a b ha hb, hval c d hc hd] at h
    omega

theorem parseFloatBigEndian_roundtrip_witness :
    ElectricMeterReader.parseFloatBigEndian
        (Scenario.buffer [0x447A0000 >>> 16, 0x447A0000 &&& 0xFFFF]) = 0x447A0000 ∧
    (ElectricMeterReader.parseFloatBigEndian (Scenario.buffer [0x447A, 0x0000]) < 4294967296 ∧
      ElectricMeterReader.parseFloatBigEndian (Scenario.buffer [0x447A, 0x0000]) >>> 16
        = 0x447A ∧
      ElectricMeterReader.parseFloatBigEndian (Scenario.buffer [0x447A, 0x0000]) &&& 0xFFFF
        = 0x0000) :=
  ⟨parseFloatBigEndian_roundtrip.1 0x447A0000 (by decide),
    parseFloatBigEndian_roundtrip.2.1 0x447A 0x0000 (by decide) (by decide)⟩

/-- C4 (counterexample). Register words `0` and `3` and the multiplier `0.1` (the binary64
number `3602879701896397 / 2^55`): `readSingleInverter` stores
`1351079888211149 / 2^52` (printed `0.30000000000000004`), which is not three times the multiplier,
`10808639105689191 / 2^55`. -/
theorem stored_value_differs_from_exact_product :
    (InverterReader.readSingleInverter (InverterReader.setDefaultConfig 0)
        (Scenario.scripted 0 0 2 (Scenario.buffer [0x0000, 0x0003]) none) 27 1670
        (binary64.nearest (1 / 10)) Scenario.connected).value?.map (fun r => r.generation) =
      some (1351079888211149 / 4503599627370496) ∧
    ((0 * 65536 + 3 : Nat) : ℚ) * binary64.nearest (1 / 10) =
      10808639105689191 / 36028797018963968 ∧
    (1351079888211149 / 4503599627370496 : ℚ) ≠ 10808639105689191 / 36028797018963968 := by
  obtain ⟨l1, hrun, _⟩ :=
    inverter_read_success_after (InverterReader.setDefaultConfig 0)
      (Scenario.scripted 0 0 2 (Scenario.buffer [0x0000, 0x0003]) none) 27 1670
      (binary64.nearest (1 / 10)) Scenario.connected 0 rfl rfl (by decide) (by intro i _; rfl)
      (by intro i hi; omega) (by decide)
  refine ⟨?_, ?_, by norm_num⟩
  · rw [hrun]
    have hw : bigEndianWord32 ((Scenario.scripted 0 0 2 (Scenario.buffer [0x0000, 0x0003])
        none).modbus_read_registers (Scenario.connected.reads + 0)).regs = 3 := by
      decide
    simp only [Outcome.value?, Option.map_some', hw]
    rw [nearest_tenth]
    exact congrArg some nearest_three_tenths
  · rw [nearest_tenth]
    norm_num

/-- C4 (amended). A successful read of the inverter or of the heat meter stores the binary64
product of the unsigned 32-bit value `w0 * 65536 + w1` of the two register words and the
configured multiplier: the exact product rounded once to the nearest binary64 number, and
rounded in no other way (the two-decimal intermediate value of `readSingleInverter` is not
what is stored).  For a product that does not overflow and is at least `2^-1022` in
magnitude, the stored value differs from the exact product by at most `2^-53` of it, and it
is the exact product whenever that is a binary64 number. -/
theorem decoded_value_is_rounded_product :
    (∀ (cfg : InverterReader.Config) (t : Transport) (slave addr : Int) (m : ℚ) (l l1 : Link)
        (r : InverterData) (w0 w1 : Nat),
      w0 < 65536 → w1 < 65536 →
      binary64.finite (((w0 * 65536 + w1 : Nat) : ℚ) * m) →
      InverterReader.readSingleInverter cfg t slave addr m l = Outcome.returned r l1 →
      r.success = true →
      (t.modbus_read_registers (l1.reads - 1)).regs 0 = w0 →
      (t.modbus_read_registers (l1.reads - 1)).regs 1 = w1 →
      r.generation = binary64.nearest (((w0 * 65536 + w1 : Nat) : ℚ) * m) ∧
      w0 * 65536 + w1 < 4294967296 ∧
      ((2 : ℚ) ^ (-1022 : Int) ≤ |((w0 * 65536 + w1 : Nat) : ℚ) * m| →
        |r.generation - ((w0 * 65536 + w1 : Nat) : ℚ) * m| ≤
          |((w0 * 65536 + w1 : Nat) : ℚ) * m| / 2 ^ 53) ∧
      (∀ k e : Int, |k| < 2 ^ 53 → -1074 ≤ e →
        ((w0 * 65536 + w1 : Nat) : ℚ) * m = (k : ℚ) * 2 ^ e →
        r.generation = ((w0 * 65536 + w1 : Nat) : ℚ) * m)) ∧
    (∀ (cfg : HeatMeterConfig) (t : Transport) (s s1 : HeatMeterReader) (w0 w1 : Nat),
      w0 < 65536 → w1 < 65536 →
      binary64.finite (((w0 * 65536 + w1 : Nat) : ℚ) * cfg.multiplier) →
      HeatMeterReader.readHeatMeter cfg t s = Outcome.returned true s1 →
      (t.modbus_read_registers (s1.link.reads - 1)).regs 0 = w0 →
      (t.modbus_read_registers (s1.link.reads - 1)).regs 1 = w1 →
      s1.meter_data_.accumulated_heat_kwh =
        binary64.nearest (((w0 * 65536 + w1 : Nat) : ℚ) * cfg.multiplier) ∧
      s1.meter_data_.accumulated_heat = w0 * 65536 + w1 ∧
      w0 * 65536 + w1 < 4294967296 ∧
      ((2 : ℚ) ^ (-1022 : Int) ≤ |((w0 * 65536 + w1 : Nat) : ℚ) * cfg.multiplier| →
        |s1.meter_data_.accumulated_heat_kwh - ((w0 * 65536 + w1 : Nat) : ℚ) * cfg.multiplier| ≤
          |((w0 * 65536 + w1 : Nat) : ℚ) * cfg.multiplier| / 2 ^ 53) ∧
      (∀ k e : Int, |k| < 2 ^ 53 → -1074 ≤ e →
        ((w0 * 65536 + w1 : Nat) : ℚ) * cfg.multiplier = (k : ℚ) * 2 ^ e →
        s1.meter_data_.accumulated_heat_kwh =
          ((w0 * 65536 + w1 : Nat) : ℚ) * cfg.multiplier)) := by
  refine ⟨?_, ?_⟩
  · intro cfg t slave addr m l l1 r w0 w1 h0 h1 _ h hr e0 e1
    obtain ⟨_, _, hg⟩ := inverter_read_success_inv cfg t slave addr m l r l1 h hr
    rw [bigEndianWord32_eq, e0, e1, Nat.mod_eq_of_lt h0, Nat.mod_eq_of_lt h1] at hg
    refine ⟨hg, by omega, ?_, ?_⟩
    · intro hn
      rw [hg]
      exact abs_nearest_sub_le_rel _ hn
    · intro k e hk he hke
      rw [hg, hke]
      exact nearest_exact k e hk he
  · intro cfg t s s1 w0 w1 h0 h1 _ h e0 e1
    obtain ⟨_, _, _, ha, hk⟩ := heat_read_success_inv cfg t s s1 h
    rw [bigEndianWord32_eq, e0, e1, Nat.mod_eq_of_lt h0, Nat.mod_eq_of_lt h1] at hk ha
    refine ⟨hk, ha, by omega, ?_, ?_⟩
    · intro hn
      rw [hk]
      exact abs_nearest_sub_le_rel _ hn
    · intro k e hk' he hke
      rw [hk, hke]
      exact nearest_exact k e hk' he

theorem decoded_value_is_rounded_product_witness :
    (InverterReader.readSingleInverter (InverterReader.setDefaultConfig 0)
        (Scenario.scripted 0 0 2 (Scenario.buffer [0x0000, 0x0003]) none) 27 1670
        (binary64.nearest (1 / 10)) Scenario.connected).value?.map (fun r => r.generation) =
      some (binary64.nearest (((0 * 65536 + 3 : Nat) : ℚ) * binary64.nearest (1 / 10))) ∧
    (HeatMeterReader.readHeatMeter HeatMeterReader.setDefaultConfig
        (Scenario.scripted 0 0 2 (Scenario.buffer [0x0001, 0x0002]) none)
        Scenario.heat).state.meter_data_.accumulated_heat_kwh = 65538 := by
  obtain ⟨l1, hrun, hreads, _, _⟩ :=
    inverter_read_success_after (InverterReader.setDefaultConfig 0)
      (Scenario.scripted 0 0 2 (Scenario.buffer [0x0000, 0x0003]) none) 27 1670
      (binary64.nearest (1 / 10)) Scenario.connected 0 rfl rfl (by decide) (by intro i _; rfl)
      (by intro i hi; omega) (by decide)
  have hfin : binary64.finite (((0 * 65536 + 3 : Nat) : ℚ) * binary64.nearest (1 / 10)) := by
    unfold binary64.finite
    rw [nearest_tenth, abs_of_pos (by norm_num)]
    norm_num
  have hinv := (decoded_value_is_rounded_product.1 _ _ _ _ _ _ _ _ 0 3 (by decide)
    (by decide) hfin hrun rfl (by rw [hreads]; rfl) (by rw [hreads]; rfl)).1
  have hheat : HeatMeterReader.readHeatMeter HeatMeterReader.setDefaultConfig
        (Scenario.scripted 0 0 2 (Scenario.buffer [0x0001, 0x0002]) none) Scenario.heat =
      Outcome.returned true
        (HeatMeterReader.readHeatMeter HeatMeterReader.setDefaultConfig
          (Scenario.scripted 0 0 2 (Scenario.buffer [0x0001, 0x0002]) none)
          Scenario.heat).state := by
    rfl
  have hfin2 : binary64.finite
      (((1 * 65536 + 2 : Nat) : ℚ) * HeatMeterReader.setDefaultConfig.multiplier) := by
    unfold binary64.finite
    simp only [HeatMeterReader.setDefaultConfig]
    rw [abs_of_pos (by norm_num)]
    norm_num
  have hh := (decoded_value_is_rounded_product.2 _ _ _ _ 1 2 (by decide) (by decide) hfin2
    hheat rfl rfl).1
  refine ⟨?_, ?_⟩
  · rw [hrun]
    simp only [Outcome.value?, Option.map_some'] at hinv ⊢
    rw [hinv]
  · rw [hh]
    simp only [HeatMeterReader.setDefaultConfig]
    have := nearest_natCast 65538 (by norm_num)
    norm_num at this ⊢
    exact this

/-- Whatever the transport does and whoever owns the mutex, one call of
`performReadWithRetry` issues at most `max_retry_count + 1` reads. -/
theorem electric_perform_reads_le (cfg : ElectricConfig) (t : Transport)
    (s : ElectricMeterReader) (regs : Nat → Nat) :
    (ElectricMeterReader.performReadWithRetry cfg t s regs).state.link.reads
      ≤ s.link.reads + (cfg.max_retry_count + 1).toNat := by
  cases ho : s.link.mutex_owned with
  | true => simp [ElectricMeterReader.performReadWithRetry, ho]
  | false =>
    obtain ⟨v, s1, heq, a, _⟩ := electric_perform_returns cfg t s regs ho
    rw [heq]
    exact a

/-- C5. One call of a retrying read issues at most `max_retry_count + 1` register reads,
for every transport.  It does not always return: in the water and inverter readers a read that
fails with "connection reset" leads to `reconnectModbus`, which locks the mutex that the
caller holds, so the call blocks after its first read although the connection could be
re-established. -/
theorem retry_reads_bounded_reconnect_blocks :
    (∀ (cfg : WaterMeterReader.Config) (t : Transport) (slave : Int) (l : Link),
      (WaterMeterReader.readSingleMeter cfg t slave l).state.reads
        ≤ l.reads + (cfg.max_retry_count + 1).toNat) ∧
    (∀ (cfg : InverterReader.Config) (t : Transport) (slave addr : Int) (m : ℚ) (l : Link),
      (InverterReader.readSingleInverter cfg t slave addr m l).state.reads
        ≤ l.reads + (cfg.max_retry_count + 1).toNat) ∧
    (∀ (cfg : ElectricConfig) (t : Transport) (s : ElectricMeterReader) (regs : Nat → Nat),
      (ElectricMeterReader.performReadWithRetry cfg t s regs).state.link.reads
        ≤ s.link.reads + (cfg.max_retry_count + 1).toNat) ∧
    (∀ (cfg : ElectricConfig) (t : Transport) (s : ElectricMeterReader) (regs : Nat → Nat),
      s.link.mutex_owned = false → s.link.ctx_.isSome = true →
      (∀ i, i < (cfg.max_retry_count + 1).toNat →
        (t.modbus_read_registers (s.link.reads + i)).rc ≠ cfg.register_count) →
      (ElectricMeterReader.performReadWithRetry cfg t s regs).returns = true ∧
      (ElectricMeterReader.performReadWithRetry cfg t s regs).value?.map (fun v => v.1)
        = some false ∧
      (ElectricMeterReader.performReadWithRetry cfg t s regs).state.link.reads
        = s.link.reads + (cfg.max_retry_count + 1).toNat) ∧
    (WaterMeterReader.readSingleMeter WaterMeterReader.setDefaultConfig
        (Scenario.scripted 1 ECONNRESET 2 (Scenario.buffer [0x1234, 0x5678]) (some 4)) 1
        Scenario.connected).returns = false ∧
    (WaterMeterReader.readSingleMeter WaterMeterReader.setDefaultConfig
        (Scenario.scripted 1 ECONNRESET 2 (Scenario.buffer [0x1234, 0x5678]) (some 4)) 1
        Scenario.connected).state.reads = 1 ∧
    (InverterReader.readSingleInverter (InverterReader.setDefaultConfig 0)
        (Scenario.scripted 1 ECONNRESET 2 (Scenario.buffer [0x1234, 0x5678]) (some 4))
        27 1670 (1 / 10) Scenario.connected).returns = false ∧
    (InverterReader.readSingleInverter (InverterReader.setDefaultConfig 0)
        (Scenario.scripted 1 ECONNRESET 2 (Scenario.buffer [0x1234, 0x5678]) (some 4))
        27 1670 (1 / 10) Scenario.connected).state.reads = 1 := by
  obtain ⟨l1, hw, hwr, _⟩ :=
    water_read_link_blocks WaterMeterReader.setDefaultConfig
      (Scenario.scripted 1 ECONNRESET 2 (Scenario.buffer [0x1234, 0x5678]) (some 4)) 1
      Scenario.connected 0 rfl rfl (by decide) (by intro i _; rfl) (by intro i hi; omega)
      rfl (Or.inl rfl)
  obtain ⟨l2, hi, hir, _⟩ :=
    inverter_read_link_blocks (InverterReader.setDefaultConfig 0)
      (Scenario.scripted 1 ECONNRESET 2 (Scenario.buffer [0x1234, 0x5678]) (some 4))
      27 1670 (1 / 10) Scenario.connected 0 rfl rfl (by decide) (by intro i _; rfl)
      (by intro i hi; omega) rfl (Or.inl rfl)
  refine ⟨water_read_reads_le, inverter_read_reads_le, electric_perform_reads_le, ?_,
    ?_, ?_, ?_, ?_⟩
  · intro cfg t s regs hfree hctx hfail
    obtain ⟨buf, s1, heq, a, _⟩ := electric_perform_all_fail cfg t s regs hfree hctx hfail
    rw [heq]
    exact ⟨rfl, rfl, a⟩
  · rw [hw]; rfl
  · rw [hw]; exact hwr
  · rw [hi]; rfl
  · rw [hi]; exact hir

theorem retry_reads_bounded_reconnect_blocks_witness :
    (ElectricMeterReader.performReadWithRetry ElectricMeterReader.setDefaultConfig
        (Scenario.scripted 4 ETIMEDOUT 18 (Scenario.buffer []) none) Scenario.electric
        (Scenario.buffer [])).returns = true ∧
    (ElectricMeterReader.performReadWithRetry ElectricMeterReader.setDefaultConfig
        (Scenario.scripted 4 ETIMEDOUT 18 (Scenario.buffer []) none) Scenario.electric
        (Scenario.buffer [])).value?.map (fun v => v.1) = some false ∧
    (ElectricMeterReader.performReadWithRetry ElectricMeterReader.setDefaultConfig
        (Scenario.scripted 4 ETIMEDOUT 18 (Scenario.buffer []) none) Scenario.electric
        (Scenario.buffer [])).state.link.reads
      = Scenario.electric.link.reads + (ElectricMeterReader.setDefaultConfig.max_retry_count
          + 1).toNat :=
  retry_reads_bounded_reconnect_blocks.2.2.2.1 _ _ Scenario.electric _ rfl rfl (by decide)

/-- C6. Early stop on the first success: when the handle is present, the first `k` reads fail
with `-1` and an error that is neither "connection reset" nor "bad descriptor", and read
number `k + 1` does not return `-1`, `readSingleMeter` and `readSingleInverter` return a
record with `success = true` and `retry_count = k` after exactly `k + 1` reads. -/
theorem early_stop_on_first_success :
    (∀ (cfg : WaterMeterReader.Config) (t : Transport) (slave : Int) (l : Link) (k : Nat),
      l.mutex_owned = false → l.ctx_.isSome = true → (k : Int) ≤ cfg.max_retry_count →
      (∀ i, i ≤ k → t.modbus_set_slave (l.slaves + i) = 0) →
      (∀ i, i < k → (t.modbus_read_registers (l.reads + i)).rc = -1 ∧
        ¬ ((t.modbus_read_registers (l.reads + i)).errno = ECONNRESET ∨
          (t.modbus_read_registers (l.reads + i)).errno = EBADF)) →
      (t.modbus_read_registers (l.reads + k)).rc ≠ -1 →
      ∃ (r : WaterMeter) (l1 : Link),
        WaterMeterReader.readSingleMeter cfg t slave l = Outcome.returned r l1 ∧
        r.success = true ∧ r.retry_count = k ∧ l1.reads = l.reads + k + 1) ∧
    (∀ (cfg : InverterReader.Config) (t : Transport) (slave addr : Int) (m : ℚ) (l : Link)
        (k : Nat),
      l.mutex_owned = false → l.ctx_.isSome = true → (k : Int) ≤ cfg.max_retry_count →
      (∀ i, i ≤ k → t.modbus_set_slave (l.slaves + i) = 0) →
      (∀ i, i < k → (t.modbus_read_registers (l.reads + i)).rc = -1 ∧
        ¬ ((t.modbus_read_registers (l.reads + i)).errno = ECONNRESET ∨
          (t.modbus_read_registers (l.reads + i)).errno = EBADF)) →
      (t.modbus_read_registers (l.reads + k)).rc ≠ -1 →
      ∃ (r : InverterData) (l1 : Link),
        InverterReader.readSingleInverter cfg t slave addr m l = Outcome.returned r l1 ∧
        r.success = true ∧ r.retry_count = k ∧ l1.reads = l.reads + k + 1) := by
  refine ⟨?_, ?_⟩
  · intro cfg t slave l k hfree hctx hk hslave hfail hok
    obtain ⟨l1, h, hr, _⟩ := water_read_success_after cfg t slave l k hfree hctx hk hslave hfail hok
    exact ⟨_, l1, h, rfl, rfl, hr⟩
  · intro cfg t slave addr m l k hfree hctx hk hslave hfail hok
    obtain ⟨l1, h, hr, _⟩ :=
      inverter_read_success_after cfg t slave addr m l k hfree hctx hk hslave hfail hok
    exact ⟨_, l1, h, rfl, rfl, hr⟩

theorem early_stop_on_first_success_witness :
    (∃ (r : WaterMeter) (l1 : Link),
      WaterMeterReader.readSingleMeter
          { WaterMeterReader.setDefaultConfig with max_retry_count := 3 }
          (Scenario.scripted 2 ETIMEDOUT 2 (Scenario.buffer [0x1234, 0x5678]) none) 1
          Scenario.connected = Outcome.returned r l1 ∧
      r.success = true ∧ r.retry_count = (2 : Nat) ∧ l1.reads = Scenario.connected.reads + 2 + 1) ∧
    (∃ (r : InverterData) (l1 : Link),
      InverterReader.readSingleInverter (InverterReader.setDefaultConfig 0)
          (Scenario.scripted 2 ETIMEDOUT 2 (Scenario.buffer [0x1234, 0x5678]) none)
          27 1670 (1 / 10) Scenario.connected = Outcome.returned r l1 ∧
      r.success = true ∧ r.retry_count = (2 : Nat) ∧ l1.reads = Scenario.connected.reads + 2 + 1) :=
  ⟨early_stop_on_first_success.1 _ _ 1 Scenario.connected 2 rfl rfl (by decide)
      (by intro i _; rfl) (by decide) (by decide),
    early_stop_on_first_success.2 _ _ 27 1670 (1 / 10) Scenario.connected 2 rfl rfl (by decide)
      (by intro i _; rfl) (by decide) (by decide)⟩

/-- C7, the claim fails: a read that returns one word instead of the two requested is taken
as a success by `readSingleMeter` and by `readSingleInverter`. -/
theorem short_read_accepted :
    ((Scenario.scripted 0 0 1 (Scenario.buffer [0x1234, 0x5678]) none).modbus_read_registers
        0).rc = 1 ∧
    (WaterMeterReader.readSingleMeter WaterMeterReader.setDefaultConfig
        (Scenario.scripted 0 0 1 (Scenario.buffer [0x1234, 0x5678]) none) 1
        Scenario.connected).value?.map (fun r => r.success) = some true ∧
    (WaterMeterReader.readSingleMeter WaterMeterReader.setDefaultConfig
        (Scenario.scripted 0 0 1 (Scenario.buffer [0x1234, 0x5678]) none) 1
        Scenario.connected).state.reads = 1 ∧
    (InverterReader.readSingleInverter (InverterReader.setDefaultConfig 0)
        (Scenario.scripted 0 0 1 (Scenario.buffer [0x1234, 0x5678]) none) 27 1670 (1 / 10)
        Scenario.connected).value?.map (fun r => r.success) = some true ∧
    (InverterReader.readSingleInverter (InverterReader.setDefaultConfig 0)
        (Scenario.scripted 0 0 1 (Scenario.buffer [0x1234, 0x5678]) none) 27 1670 (1 / 10)
        Scenario.connected).state.reads = 1 := by
  obtain ⟨l1, hw, hwr, _⟩ :=
    water_read_success_after WaterMeterReader.setDefaultConfig
      (Scenario.scripted 0 0 1 (Scenario.buffer [0x1234, 0x5678]) none) 1
      Scenario.connected 0 rfl rfl (by decide) (by intro i _; rfl) (by intro i hi; omega)
      (by decide)
  obtain ⟨l2, hi, hir, _⟩ :=
    inverter_read_success_after (InverterReader.setDefaultConfig 0)
      (Scenario.scripted 0 0 1 (Scenario.buffer [0x1234, 0x5678]) none) 27 1670 (1 / 10)
      Scenario.connected 0 rfl rfl (by decide) (by intro i _; rfl) (by intro i hi; omega)
      (by decide)
  refine ⟨rfl, ?_, ?_, ?_, ?_⟩
  · rw [hw]; rfl
  · rw [hw]; exact hwr
  · rw [hi]; rfl
  · rw [hi]; exact hir

/-- C7, amended. `readSingleMeter` and `readSingleInverter` set `success = true` only for a
read whose return code is not `-1`, and they accept every such return code; `readHeatMeter`
and `performReadWithRetry` report success only for a read whose return code equals the
configured register count.  In each case the read is the last one issued. -/
theorem success_requires_accepted_return_code :
    (∀ (cfg : WaterMeterReader.Config) (t : Transport) (slave : Int) (l l1 : Link)
        (r : WaterMeter),
      WaterMeterReader.readSingleMeter cfg t slave l = Outcome.returned r l1 →
      r.success = true →
      l.reads < l1.reads ∧ (t.modbus_read_registers (l1.reads - 1)).rc ≠ -1) ∧
    (∀ (cfg : InverterReader.Config) (t : Transport) (slave addr : Int) (m : ℚ) (l l1 : Link)
        (r : InverterData),
      InverterReader.readSingleInverter cfg t slave addr m l = Outcome.returned r l1 →
      r.success = true →
      l.reads < l1.reads ∧ (t.modbus_read_registers (l1.reads - 1)).rc ≠ -1) ∧
    (∀ (cfg : WaterMeterReader.Config) (t : Transport) (slave : Int) (l : Link),
      l.mutex_owned = false → l.ctx_.isSome = true → 0 ≤ cfg.max_retry_count →
      t.modbus_set_slave l.slaves = 0 → (t.modbus_read_registers l.reads).rc ≠ -1 →
      (WaterMeterReader.readSingleMeter cfg t slave l).value?.map (fun r => r.success)
        = some true) ∧
    (∀ (cfg : InverterReader.Config) (t : Transport) (slave addr : Int) (m : ℚ) (l : Link),
      l.mutex_owned = false → l.ctx_.isSome = true → 0 ≤ cfg.max_retry_count →
      t.modbus_set_slave l.slaves = 0 → (t.modbus_read_registers l.reads).rc ≠ -1 →
      (InverterReader.readSingleInverter cfg t slave addr m l).value?.map (fun r => r.success)
        = some true) ∧
    (∀ (cfg : HeatMeterConfig) (t : Transport) (s s1 : HeatMeterReader),
      HeatMeterReader.readHeatMeter cfg t s = Outcome.returned true s1 →
      s.link.reads < s1.link.reads ∧ s1.meter_data_.success = true ∧
      (t.modbus_read_registers (s1.link.reads - 1)).rc = cfg.heat_accumulated_len) ∧
    (∀ (cfg : ElectricConfig) (t : Transport) (s s1 : ElectricMeterReader)
        (regs buf : Nat → Nat),
      ElectricMeterReader.performReadWithRetry cfg t s regs = Outcome.returned (true, buf) s1 →
      s.link.reads < s1.link.reads ∧
      (t.modbus_read_registers (s1.link.reads - 1)).rc = cfg.register_count) := by
  refine ⟨?_, ?_, ?_, ?_, ?_, ?_⟩
  · intro cfg t slave l l1 r h hr
    obtain ⟨a, b, _⟩ := water_read_success_inv cfg t slave l r l1 h hr
    exact ⟨a, b⟩
  · intro cfg t slave addr m l l1 r h hr
    obtain ⟨a, b, _⟩ := inverter_read_success_inv cfg t slave addr m l r l1 h hr
    exact ⟨a, b⟩
  · intro cfg t slave l hfree hctx hmax hs hrc
    obtain ⟨l1, h, _⟩ := water_read_success_after cfg t slave l 0 hfree hctx (by simpa using hmax)
      (by intro i hi; have : i = 0 := by omega
          subst this; simpa using hs)
      (by intro i hi; omega) (by simpa using hrc)
    rw [h]; rfl
  · intro cfg t slave addr m l hfree hctx hmax hs hrc
    obtain ⟨l1, h, _⟩ := inverter_read_success_after cfg t slave addr m l 0 hfree hctx
      (by simpa using hmax)
      (by intro i hi; have : i = 0 := by omega
          subst this; simpa using hs)
      (by intro i hi; omega) (by simpa using hrc)
    rw [h]; rfl
  · intro cfg t s s1 h
    obtain ⟨a, b, c, _⟩ := heat_read_success_inv cfg t s s1 h
    exact ⟨a, c, b⟩
  · intro cfg t s s1 regs buf h
    obtain ⟨a, _, c, _⟩ := electric_perform_success_inv cfg t s s1 regs buf h
    exact ⟨a, c⟩

theorem success_requires_accepted_return_code_witness :
    (WaterMeterReader.readSingleMeter WaterMeterReader.setDefaultConfig
        (Scenario.scripted 0 0 2 (Scenario.buffer [0x1234, 0x5678]) none) 1
        Scenario.connected).value?.map (fun r => r.success) = some true ∧
    (Scenario.heat.link.reads <
        (HeatMeterReader.readHeatMeter HeatMeterReader.setDefaultConfig
          (Scenario.scripted 0 0 2 (Scenario.buffer [0x0001, 0x0002]) none)
          Scenario.heat).state.link.reads ∧
      (HeatMeterReader.readHeatMeter HeatMeterReader.setDefaultConfig
          (Scenario.scripted 0 0 2 (Scenario.buffer [0x0001, 0x0002]) none)
          Scenario.heat).state.meter_data_.success = true ∧
      ((Scenario.scripted 0 0 2 (Scenario.buffer [0x0001, 0x0002]) none).modbus_read_registers
          ((HeatMeterReader.readHeatMeter HeatMeterReader.setDefaultConfig
            (Scenario.scripted 0 0 2 (Scenario.buffer [0x0001, 0x0002]) none)
            Scenario.heat).state.link.reads - 1)).rc =
        HeatMeterReader.setDefaultConfig.heat_accumulated_len) :=
  ⟨success_requires_accepted_return_code.2.2.1 _ _ 1 Scenario.connected rfl rfl (by decide)
      rfl (by decide),
    success_requires_accepted_return_code.2.2.2.2.1 HeatMeterReader.setDefaultConfig
      (Scenario.scripted 0 0 2 (Scenario.buffer [0x0001, 0x0002]) none) Scenario.heat _
      (by rfl)⟩

/-- C8, the claim fails: after six failed attempts (`max_retry_count = 5`) the record returned
by `readSingleMeter` has `retry_count = 0`, not the number of attempts. -/
theorem failed_record_retry_count_zero :
    WaterMeterReader.setDefaultConfig.max_retry_count + 1 = 6 ∧
    (WaterMeterReader.readSingleMeter WaterMeterReader.setDefaultConfig
        (Scenario.scripted 6 ETIMEDOUT 2 (Scenario.buffer [0x1234, 0x5678]) none) 1
        Scenario.connected).state.reads = 6 ∧
    (WaterMeterReader.readSingleMeter WaterMeterReader.setDefaultConfig
        (Scenario.scripted 6 ETIMEDOUT 2 (Scenario.buffer [0x1234, 0x5678]) none) 1
        Scenario.connected).value?.map (fun r => r.success) = some false ∧
    (WaterMeterReader.readSingleMeter WaterMeterReader.setDefaultConfig
        (Scenario.scripted 6 ETIMEDOUT 2 (Scenario.buffer [0x1234, 0x5678]) none) 1
        Scenario.connected).value?.map (fun r => r.retry_count) = some 0 := by
  obtain ⟨l1, h, hr, _⟩ :=
    water_read_all_fail WaterMeterReader.setDefaultConfig
      (Scenario.scripted 6 ETIMEDOUT 2 (Scenario.buffer [0x1234, 0x5678]) none) 1
      Scenario.connected rfl rfl (by decide) (by decide)
  refine ⟨by decide, ?_, ?_, ?_⟩
  · rw [h]; exact hr
  · rw [h]; rfl
  · rw [h]; rfl

/-- C8, amended. When the handle is present and every one of the `max_retry_count + 1` reads
fails with an error that is not link-level, `readSingleMeter`, `readSingleInverter` and
`readHeatMeter` issue exactly `max_retry_count + 1` reads and return, respectively store, a
record with `success = false` and `retry_count = 0`: the retry count is recorded on success
only. -/
theorem exhausted_reads_leave_retry_count_zero :
    (∀ (cfg : WaterMeterReader.Config) (t : Transport) (slave : Int) (l : Link),
      l.mutex_owned = false → l.ctx_.isSome = true → 0 ≤ cfg.max_retry_count →
      (∀ i, i < (cfg.max_retry_count + 1).toNat →
        t.modbus_set_slave (l.slaves + i) = 0 ∧
        (t.modbus_read_registers (l.reads + i)).rc = -1 ∧
        ¬ ((t.modbus_read_registers (l.reads + i)).errno = ECONNRESET ∨
          (t.modbus_read_registers (l.reads + i)).errno = EBADF)) →
      ∃ (r : WaterMeter) (l1 : Link),
        WaterMeterReader.readSingleMeter cfg t slave l = Outcome.returned r l1 ∧
        r.success = false ∧ r.retry_count = 0 ∧ r.total_water = 0 ∧
        l1.reads = l.reads + (cfg.max_retry_count + 1).toNat) ∧
    (∀ (cfg : InverterReader.Config) (t : Transport) (slave addr : Int) (m : ℚ) (l : Link),
      l.mutex_owned = false → l.ctx_.isSome = true → 0 ≤ cfg.max_retry_count →
      (∀ i, i < (cfg.max_retry_count + 1).toNat →
        t.modbus_set_slave (l.slaves + i) = 0 ∧
        (t.modbus_read_registers (l.reads + i)).rc = -1 ∧
        ¬ ((t.modbus_read_registers (l.reads + i)).errno = ECONNRESET ∨
          (t.modbus_read_registers (l.reads + i)).errno = EBADF)) →
      ∃ (r : InverterData) (l1 : Link),
        InverterReader.readSingleInverter cfg t slave addr m l = Outcome.returned r l1 ∧
        r.success = false ∧ r.retry_count = 0 ∧ r.generation = 0 ∧
        l1.reads = l.reads + (cfg.max_retry_count + 1).toNat) ∧
    (∀ (cfg : HeatMeterConfig) (t : Transport) (s : HeatMeterReader),
      s.link.mutex_owned = false → s.link.ctx_.isSome = true → 0 ≤ cfg.retry_count →
      (∀ i, i < (cfg.retry_count + 1).toNat →
        t.modbus_set_slave (s.link.slaves + i) = 0 ∧
        (t.modbus_read_registers (s.link.reads + i)).rc ≠ cfg.heat_accumulated_len ∧
        ¬ ((t.modbus_read_registers (s.link.reads + i)).errno = ECONNRESET ∨
          (t.modbus_read_registers (s.link.reads + i)).errno = EBADF)) →
      ∃ s1 : HeatMeterReader,
        HeatMeterReader.readHeatMeter cfg t s = Outcome.returned false s1 ∧
        s1.meter_data_.success = false ∧ s1.meter_data_.retry_count = 0 ∧
        s1.meter_data_.accumulated_heat_kwh = 0 ∧
        s1.link.reads = s.link.reads + (cfg.retry_count + 1).toNat) := by
  refine ⟨?_, ?_, ?_⟩
  · intro cfg t slave l hfree hctx hmax hfail
    obtain ⟨l1, h, hr, _⟩ := water_read_all_fail cfg t slave l hfree hctx hmax hfail
    exact ⟨_, l1, h, rfl, rfl, rfl, hr⟩
  · intro cfg t slave addr m l hfree hctx hmax hfail
    obtain ⟨l1, h, hr, _⟩ := inverter_read_all_fail cfg t slave addr m l hfree hctx hmax hfail
    exact ⟨_, l1, h, rfl, rfl, rfl, hr⟩
  · intro cfg t s hfree hctx hmax hfail
    obtain ⟨s1, msg, h, hd, hr, _⟩ := heat_read_all_fail cfg t s hfree hctx hmax hfail
    refine ⟨s1, h, ?_, ?_, ?_, hr⟩ <;> rw [hd] <;> rfl

theorem exhausted_reads_leave_retry_count_zero_witness :
    (∃ (r : WaterMeter) (l1 : Link),
      WaterMeterReader.readSingleMeter WaterMeterReader.setDefaultConfig
          (Scenario.scripted 6 ETIMEDOUT 2 (Scenario.buffer [0x1234, 0x5678]) none) 1
          Scenario.connected = Outcome.returned r l1 ∧
      r.success = false ∧ r.retry_count = 0 ∧ r.total_water = 0 ∧
      l1.reads = Scenario.connected.reads
        + (WaterMeterReader.setDefaultConfig.max_retry_count + 1).toNat) ∧
    (∃ s1 : HeatMeterReader,
      HeatMeterReader.readHeatMeter HeatMeterReader.setDefaultConfig
          (Scenario.scripted 4 ETIMEDOUT 2 (Scenario.buffer [0x0001, 0x0002]) none)
          Scenario.heat = Outcome.returned false s1 ∧
      s1.meter_data_.success = false ∧ s1.meter_data_.retry_count = 0 ∧
      s1.meter_data_.accumulated_heat_kwh = 0 ∧
      s1.link.reads = Scenario.heat.link.reads
        + (HeatMeterReader.setDefaultConfig.retry_count + 1).toNat) :=
  ⟨exhausted_reads_leave_retry_count_zero.1 _ _ 1 Scenario.connected rfl rfl (by decide)
      (by decide),
    exhausted_reads_leave_retry_count_zero.2.2 _ _ Scenario.heat rfl rfl (by decide)
      (by decide)⟩

/-- C10. Entered with the reconnect counter at or above `max_reconnect_count`,
`readAllMeters` clears `running_` and returns `false`; it makes no connection attempt and no
read (the transport side is untouched) and leaves the store and the counter as they were.  The
state it produces is again one in which the ceiling is reached. -/
theorem readAllMeters_reconnect_ceiling (cfg : ElectricConfig) (t : Transport)
    (s : ElectricMeterReader) (h : s.reconnect_count_ ≥ cfg.max_reconnect_count) :
    ElectricMeterReader.readAllMeters cfg t s =
      Outcome.returned false { s with running_ := false } ∧
    (ElectricMeterReader.readAllMeters cfg t s).state.link = s.link ∧
    (ElectricMeterReader.readAllMeters cfg t s).state.meters_ = s.meters_ ∧
    (ElectricMeterReader.readAllMeters cfg t s).state.reconnect_count_ = s.reconnect_count_ ∧
    (ElectricMeterReader.readAllMeters cfg t s).state.running_ = false ∧
    ElectricMeterReader.readAllMeters cfg t (ElectricMeterReader.readAllMeters cfg t s).state =
      ElectricMeterReader.readAllMeters cfg t s := by
  have hrun : ∀ s0 : ElectricMeterReader, s0.reconnect_count_ ≥ cfg.max_reconnect_count →
      ElectricMeterReader.readAllMeters cfg t s0 =
        Outcome.returned false { s0 with running_ := false } := by
    intro s0 h0
    have he : ElectricMeterReader.shouldExit cfg s0 = true := by
      simp [ElectricMeterReader.shouldExit, h0]
    simp [ElectricMeterReader.readAllMeters, he]
  rw [hrun s h]
  refine ⟨rfl, rfl, rfl, rfl, rfl, ?_⟩
  rw [Outcome.state_returned]
  exact hrun _ h

theorem readAllMeters_reconnect_ceiling_witness :
    ElectricMeterReader.readAllMeters ElectricMeterReader.setDefaultConfig
        (Scenario.scripted 0 0 18 (Scenario.buffer [0x447A, 0x0000]) (some 4))
        { Scenario.electric with reconnect_count_ := 10 } =
      Outcome.returned false
        { Scenario.electric with reconnect_count_ := 10, running_ := false } :=
  (readAllMeters_reconnect_ceiling ElectricMeterReader.setDefaultConfig
    (Scenario.scripted 0 0 18 (Scenario.buffer [0x447A, 0x0000]) (some 4))
    { Scenario.electric with reconnect_count_ := 10 } (by decide)).1

/-! ## Polling cycles of the electric reader -/

/-- When the retry loop of `performReadWithRetry` reports failure, every iteration issued a
read that did not return the configured register count, and the reconnect counter is as it
was. -/
theorem electric_loop_fail_inv (cfg : ElectricConfig) (t : Transport) :
    ∀ (fuel : Nat) (s : ElectricMeterReader) (regs buf : Nat → Nat) (s1 : ElectricMeterReader),
      ElectricMeterReader.performReadWithRetry.loop cfg t fuel s regs =
        Outcome.returned (false, buf) s1 →
      s1.link.reads = s.link.reads + fuel ∧ s1.reconnect_count_ = s.reconnect_count_ ∧
      ∀ i, i < fuel → (t.modbus_read_registers (s.link.reads + i)).rc ≠ cfg.register_count := by
  intro fuel
  induction fuel with
  | zero =>
    intro s regs buf s1 h
    simp only [ElectricMeterReader.performReadWithRetry.loop, Outcome.returned.injEq] at h
    obtain ⟨_, hs⟩ := h
    subst hs
    exact ⟨rfl, rfl, fun i hi => absurd hi (by omega)⟩
  | succ n ih =>
    intro s regs buf s1 h
    simp only [ElectricMeterReader.performReadWithRetry.loop] at h
    split_ifs at h with h1 h2
    · simp at h
    · obtain ⟨a, b, c⟩ := ih _ _ buf s1 h
      simp only [Link.sleep_fields, Link.didRead_fields] at a b c
      refine ⟨by omega, b, ?_⟩
      intro i hi
      cases i with
      | zero => simpa using h1
      | succ j =>
        have := c j (by omega)
        rwa [Nat.add_assoc, Nat.add_comm 1 j] at this
    · obtain ⟨a, b, c⟩ := ih _ _ buf s1 h
      simp only [Link.didRead_fields] at a b c
      refine ⟨by omega, b, ?_⟩
      intro i hi
      cases i with
      | zero => simpa using h1
      | succ j =>
        have := c j (by omega)
        rwa [Nat.add_assoc, Nat.add_comm 1 j] at this

/-- When read number `k + 1` is the first that returns the configured register count, the
retry loop of `performReadWithRetry` reports success after exactly `k + 1` reads, with the
registers of that read in the buffer. -/
theorem electric_loop_success_at (cfg : ElectricConfig) (t : Transport) :
    ∀ (k fuel : Nat) (s : ElectricMeterReader) (regs : Nat → Nat),
      k < fuel →
      (∀ i, i < k → (t.modbus_read_registers (s.link.reads + i)).rc ≠ cfg.register_count) →
      (t.modbus_read_registers (s.link.reads + k)).rc = cfg.register_count →
      ∃ s1 : ElectricMeterReader,
        ElectricMeterReader.performReadWithRetry.loop cfg t fuel s regs =
          Outcome.returned (true, (t.modbus_read_registers (s.link.reads + k)).regs) s1 ∧
        s1.link.reads = s.link.reads + k + 1 := by
  intro k
  induction k with
  | zero =>
    intro fuel s regs hk _ hok
    obtain ⟨f, rfl⟩ : ∃ f, fuel = f + 1 := ⟨fuel - 1, by omega⟩
    simp only [Nat.add_zero] at hok
    simp only [ElectricMeterReader.performReadWithRetry.loop, hok, if_true, Nat.add_zero]
    exact ⟨_, rfl, by simp⟩
  | succ k ih =>
    intro fuel s regs hk hfail hok
    obtain ⟨f, rfl⟩ : ∃ f, fuel = f + 1 := ⟨fuel - 1, by omega⟩
    have h0 := hfail 0 (by omega)
    simp only [Nat.add_zero] at h0
    simp only [ElectricMeterReader.performReadWithRetry.loop, h0, if_false]
    have e : s.link.reads + (k + 1) = s.link.reads + 1 + k := by omega
    split_ifs with h2
    · obtain ⟨s1, heq, a⟩ := ih f
        { s with
          link := (s.link.didRead cfg.start_register cfg.register_count).sleep 500,
          current_retry_count_ := s.current_retry_count_ + 1 }
        (t.modbus_read_registers s.link.reads).regs (by omega)
        (by
          intro i hi
          have := hfail (i + 1) (by omega)
          simpa [Nat.add_assoc, Nat.add_comm 1 i] using this)
        (by simpa [e] using hok)
      simp only [Link.sleep_fields, Link.didRead_fields] at heq a
      rw [e]
      exact ⟨s1, heq, by omega⟩
    · obtain ⟨s1, heq, a⟩ := ih f
        { s with
          link := s.link.didRead cfg.start_register cfg.register_count,
          current_retry_count_ := s.current_retry_count_ + 1 }
        (t.modbus_read_registers s.link.reads).regs (by omega)
        (by
          intro i hi
          have := hfail (i + 1) (by omega)
          simpa [Nat.add_assoc, Nat.add_comm 1 i] using this)
        (by simpa [e] using hok)
      simp only [Link.didRead_fields] at heq a
      rw [e]
      exact ⟨s1, heq, by omega⟩

/-- Entered with `modbus_mutex_` free, `disconnectModbus` returns with the handle released. -/
theorem electric_disconnect_spec (s : ElectricMeterReader) (hfree : s.link.mutex_owned = false) :
    ElectricMeterReader.disconnectModbus s =
      Outcome.returned ()
        { s with
          link := (if s.link.ctx_.isSome then s.link.acquire.close else s.link.acquire).release } := by
  simp [ElectricMeterReader.disconnectModbus, hfree]

/-- The entries that `readAllMeters` builds after a failed read and that `initialize` builds:
entry `k` has id `k + 1`, is unsuccessful and holds the value zero. -/
theorem electric_errorData_eq (t : Transport) (l : Link) (n : Nat) :
    (List.range n).foldl
      (fun (acc : List ElectricMeter × Link) (k : Nat) =>
        (acc.1 ++ [{ id := (k : Int) + 1, power_value := 0, success := false,
                     last_update := t.now acc.2.clocks }], acc.2.tick))
      ([], l) =
    ((List.range n).map (fun (k : Nat) =>
        ({ id := (k : Int) + 1, power_value := 0, success := false,
           last_update := t.now (l.clocks + k) } : ElectricMeter)),
      { l with clocks := l.clocks + n }) := by
  induction n with
  | zero => simp
  | succ n ih =>
    rw [List.range_succ, List.foldl_append, ih]
    simp only [List.foldl_cons, List.foldl_nil, List.map_append, List.map_cons,
      List.map_nil, Link.tick, Nat.add_assoc]

/-- When `performReadWithRetry` reports failure, the reconnect counter is as it was. -/
theorem electric_perform_fail_inv (cfg : ElectricConfig) (t : Transport)
    (s s1 : ElectricMeterReader) (regs buf : Nat → Nat)
    (h : ElectricMeterReader.performReadWithRetry cfg t s regs =
      Outcome.returned (false, buf) s1) :
    s1.reconnect_count_ = s.reconnect_count_ := by
  cases ho : s.link.mutex_owned with
  | true => simp [ElectricMeterReader.performReadWithRetry, ho] at h
  | false =>
    cases hc : s.link.ctx_ with
    | none =>
      simp only [ElectricMeterReader.performReadWithRetry, ho, hc, Bool.false_eq_true,
        if_false, Link.acquire_fields, Option.isNone_none, if_true,
        Outcome.returned.injEq] at h
      obtain ⟨_, hs⟩ := h
      subst hs
      rfl
    | some sock =>
      cases hl : ElectricMeterReader.performReadWithRetry.loop cfg t
          (cfg.max_retry_count + 1).toNat
          { s with link := s.link.acquire, current_retry_count_ := 0 } regs with
      | blocked s2 => simp [ElectricMeterReader.performReadWithRetry, ho, hc, hl] at h
      | returned v s2 =>
        simp only [ElectricMeterReader.performReadWithRetry, ho, hc, hl, Bool.false_eq_true,
          if_false, Link.acquire_fields, Option.isNone_some, Outcome.returned.injEq] at h
        obtain ⟨hv, hs⟩ := h
        subst hs
        subst hv
        exact (electric_loop_fail_inv cfg t _ _ _ _ _ hl).2.1

/-- The two ways in which the second part of `readAllMeters` ends when it is entered with
`modbus_mutex_` free: the read with retry succeeded and the store holds the parsed entries, or
it failed, the handle was released and the store holds the error entries. -/
theorem electric_readAndStore_cases (cfg : ElectricConfig) (t : Transport)
    (s : ElectricMeterReader) (hfree : s.link.mutex_owned = false) :
    (∃ (buf : Nat → Nat) (s1 : ElectricMeterReader),
      ElectricMeterReader.performReadWithRetry cfg t s (fun _ => 0) =
        Outcome.returned (true, buf) s1 ∧
      ElectricMeterReader.readAllMeters.readAndStore cfg t s =
        Outcome.returned true
          { s1 with
            link := (ElectricMeterReader.readAllMeters.parse cfg t buf s1.link).2,
            meters_ := (ElectricMeterReader.readAllMeters.parse cfg t buf s1.link).1 }) ∨
    (∃ (buf : Nat → Nat) (s1 : ElectricMeterReader),
      ElectricMeterReader.performReadWithRetry cfg t s (fun _ => 0) =
        Outcome.returned (false, buf) s1 ∧
      ElectricMeterReader.readAllMeters.readAndStore cfg t s =
        Outcome.returned false
          { s1 with
            link := (ElectricMeterReader.readAllMeters.errorData cfg t
              ((if s1.link.ctx_.isSome then s1.link.acquire.close
                else s1.link.acquire).release)).2,
            meters_ := (ElectricMeterReader.readAllMeters.errorData cfg t
              ((if s1.link.ctx_.isSome then s1.link.acquire.close
                else s1.link.acquire).release)).1 }) := by
  obtain ⟨v, s1, hp, _, _, _, _, hfree1, _, _⟩ :=
    electric_perform_returns cfg t s (fun _ => 0) hfree
  obtain ⟨b, buf⟩ := v
  cases b with
  | true =>
    left
    refine ⟨buf, s1, hp, ?_⟩
    simp [ElectricMeterReader.readAllMeters.readAndStore, hp]
  | false =>
    right
    refine ⟨buf, s1, hp, ?_⟩
    simp [ElectricMeterReader.readAllMeters.readAndStore, hp,
      electric_disconnect_spec s1 hfree1]

/-- Below the ceiling, with `modbus_mutex_` free and no live connection, a cycle whose
connection attempt fails ends at once: the reconnect counter is one higher and nothing else
but the transport log has changed. -/
theorem electric_readAll_connect_fail (cfg : ElectricConfig) (t : Transport)
    (s : ElectricMeterReader) (hfree : s.link.mutex_owned = false)
    (hno : s.link.ctx_ = none ∨ s.link.ctx_ = some (-1))
    (hlow : s.reconnect_count_ < cfg.max_reconnect_count)
    (hconn : t.modbus_connect s.link.connects = none) :
    ∃ s1 : ElectricMeterReader,
      ElectricMeterReader.readAllMeters cfg t s = Outcome.returned false s1 ∧
      s1.reconnect_count_ = s.reconnect_count_ + 1 ∧ s1.meters_ = s.meters_ ∧
      s1.running_ = s.running_ ∧ s1.link.reads = s.link.reads ∧
      s1.link.connects = s.link.connects + 1 ∧ s1.link.ctx_ = none ∧
      s1.link.mutex_owned = false ∧ s1.link.clocks = s.link.clocks := by
  have he : ElectricMeterReader.shouldExit cfg s = false := by
    simp [ElectricMeterReader.shouldExit, hlow]
  have hrun : ElectricMeterReader.readAllMeters cfg t s =
      Outcome.returned false
        { s with
          link :=
            ((if s.link.ctx_.isSome then s.link.acquire.release.acquire.close
              else s.link.acquire.release.acquire).didConnect none).release,
          reconnect_count_ := s.reconnect_count_ + 1 } := by
    have hc := electric_connect_spec t { s with link := s.link.acquire.release } (by simp)
    simp only [Link.release_fields, Link.acquire_fields, hconn, Option.isSome_none] at hc
    rcases hno with h | h <;>
      simp [ElectricMeterReader.readAllMeters, he, hfree, h, hc]
  refine ⟨_, hrun, rfl, rfl, rfl, ?_, ?_, ?_, ?_, ?_⟩
  · simp only [Link.release_fields, Link.didConnect_fields]
    split_ifs <;> simp
  · simp only [Link.release_fields, Link.didConnect_fields]
    split_ifs <;> simp
  · simp
  · simp
  · simp only [Link.release_fields, Link.didConnect_fields]
    split_ifs <;> simp

/-- Below the ceiling, with `modbus_mutex_` free and no live connection, a cycle whose
connection attempt succeeds goes on with the read on the new handle. -/
theorem electric_readAll_connect_ok (cfg : ElectricConfig) (t : Transport)
    (s : ElectricMeterReader) (sock : Int) (hfree : s.link.mutex_owned = false)
    (hno : s.link.ctx_ = none ∨ s.link.ctx_ = some (-1))
    (hlow : s.reconnect_count_ < cfg.max_reconnect_count)
    (hconn : t.modbus_connect s.link.connects = some sock) :
    ElectricMeterReader.readAllMeters cfg t s =
      ElectricMeterReader.readAllMeters.readAndStore cfg t
        { s with
          link :=
            ((if s.link.ctx_.isSome then s.link.acquire.release.acquire.close
              else s.link.acquire.release.acquire).didConnect (some sock)).release } := by
  have he : ElectricMeterReader.shouldExit cfg s = false := by
    simp [ElectricMeterReader.shouldExit, hlow]
  have hc := electric_connect_spec t { s with link := s.link.acquire.release } (by simp)
  simp only [Link.release_fields, Link.acquire_fields, hconn, Option.isSome_some] at hc
  rcases hno with h | h <;>
    simp [ElectricMeterReader.readAllMeters, he, hfree, h, hc]

/-- Below the ceiling, with `modbus_mutex_` free and a live connection, a cycle goes on with
the read at once. -/
theorem electric_readAll_live (cfg : ElectricConfig) (t : Transport)
    (s : ElectricMeterReader) (sock : Int) (hfree : s.link.mutex_owned = false)
    (hctx : s.link.ctx_ = some sock) (hsock : sock ≠ -1)
    (hlow : s.reconnect_count_ < cfg.max_reconnect_count) :
    ElectricMeterReader.readAllMeters cfg t s =
      ElectricMeterReader.readAllMeters.readAndStore cfg t
        { s with link := s.link.acquire.release } := by
  have he : ElectricMeterReader.shouldExit cfg s = false := by
    simp [ElectricMeterReader.shouldExit, hlow]
  simp [ElectricMeterReader.readAllMeters, he, hfree, hctx, hsock]

/-- A property that every step of a left fold keeps holds of the result of the fold. -/
theorem foldl_invariant {α β : Type} (P : β → Prop) (f : β → α → β)
    (hstep : ∀ b a, P b → P (f b a)) (xs : List α) (b : β) (hb : P b) : P (xs.foldl f b) := by
  induction xs generalizing b with
  | nil => exact hb
  | cons x xs ih => exact ih _ (hstep b x hb)

/-- The parsing loop of `readAllMeters`, for every configuration: it touches only the clock of
the transport side, and every entry it builds is successful. -/
theorem electric_parse_frame (cfg : ElectricConfig) (t : Transport) (regs : Nat → Nat)
    (l : Link) :
    (ElectricMeterReader.readAllMeters.parse cfg t regs l).2.reads = l.reads ∧
    (ElectricMeterReader.readAllMeters.parse cfg t regs l).2.ctx_ = l.ctx_ ∧
    (ElectricMeterReader.readAllMeters.parse cfg t regs l).2.mutex_owned = l.mutex_owned ∧
    (ElectricMeterReader.readAllMeters.parse cfg t regs l).2.connects = l.connects ∧
    (∀ m, m ∈ (ElectricMeterReader.readAllMeters.parse cfg t regs l).1 → m.success = true) := by
  unfold ElectricMeterReader.readAllMeters.parse
  apply foldl_invariant (fun (acc : List ElectricMeter × Link) =>
    acc.2.reads = l.reads ∧ acc.2.ctx_ = l.ctx_ ∧ acc.2.mutex_owned = l.mutex_owned ∧
    acc.2.connects = l.connects ∧ ∀ m, m ∈ acc.1 → m.success = true)
  · intro acc i h
    obtain ⟨a, b, c, d, e⟩ := h
    dsimp only
    split_ifs with hx
    · refine ⟨by simpa using a, by simpa using b, by simpa using c, by simpa using d, ?_⟩
      intro m hm
      simp only [List.mem_append, List.mem_singleton] at hm
      rcases hm with hm | hm
      · exact e m hm
      · rw [hm]
    · exact ⟨a, b, c, d, e⟩
  · exact ⟨rfl, rfl, rfl, rfl, by simp⟩

/-- The error entries and the transport side after the loop that builds them. -/
theorem electric_errorData_spec (cfg : ElectricConfig) (t : Transport) (l : Link) :
    ElectricMeterReader.readAllMeters.errorData cfg t l =
      ((List.range cfg.meter_count.toNat).map (fun (k : Nat) =>
          ({ id := (k : Int) + 1, power_value := 0, success := false,
             last_update := t.now (l.clocks + k) } : ElectricMeter)),
        { l with clocks := l.clocks + cfg.meter_count.toNat }) := by
  unfold ElectricMeterReader.readAllMeters.errorData
  exact electric_errorData_eq t l _

/-- With a handle present, when read number `k + 1` is the first that returns the configured
register count, `performReadWithRetry` reports success after exactly `k + 1` reads. -/
theorem electric_perform_success_at (cfg : ElectricConfig) (t : Transport)
    (s : ElectricMeterReader) (regs : Nat → Nat) (k : Nat)
    (hfree : s.link.mutex_owned = false) (hctx : s.link.ctx_.isSome = true)
    (hk : (k : Int) ≤ cfg.max_retry_count)
    (hfail : ∀ i, i < k →
      (t.modbus_read_registers (s.link.reads + i)).rc ≠ cfg.register_count)
    (hok : (t.modbus_read_registers (s.link.reads + k)).rc = cfg.register_count) :
    ∃ s1 : ElectricMeterReader,
      ElectricMeterReader.performReadWithRetry cfg t s regs =
        Outcome.returned (true, (t.modbus_read_registers (s.link.reads + k)).regs) s1 ∧
      s1.link.reads = s.link.reads + k + 1 := by
  have hn : s.link.ctx_.isNone = false := by
    cases h : s.link.ctx_ <;> simp_all
  unfold ElectricMeterReader.performReadWithRetry
  simp only [hfree, Bool.false_eq_true, if_false, Link.acquire_fields, hn]
  obtain ⟨s1, heq, a⟩ :=
    electric_loop_success_at cfg t k (cfg.max_retry_count + 1).toNat
      { s with link := s.link.acquire, current_retry_count_ := 0 } regs (by omega)
      (by simpa using hfail) (by simpa using hok)
  simp only [Link.acquire_fields] at heq a
  rw [heq]
  exact ⟨_, rfl, by simpa using a⟩

/-- A cycle whose read with retry fails on every attempt, entered with `modbus_mutex_` free and
a handle present: the cycle reports failure, the handle is released, the store holds the error
entries and the reconnect counter is as it was. -/
theorem electric_readAndStore_all_fail (cfg : ElectricConfig) (t : Transport)
    (s : ElectricMeterReader) (hfree : s.link.mutex_owned = false)
    (hctx : s.link.ctx_.isSome = true)
    (hfail : ∀ i, i < (cfg.max_retry_count + 1).toNat →
      (t.modbus_read_registers (s.link.reads + i)).rc ≠ cfg.register_count) :
    ∃ s1 : ElectricMeterReader,
      ElectricMeterReader.readAllMeters.readAndStore cfg t s = Outcome.returned false s1 ∧
      s1.reconnect_count_ = s.reconnect_count_ ∧ s1.link.ctx_ = none ∧
      s1.link.reads = s.link.reads + (cfg.max_retry_count + 1).toNat ∧
      s1.link.mutex_owned = false ∧ s1.running_ = s.running_ ∧
      s1.meters_ = (List.range cfg.meter_count.toNat).map (fun (k : Nat) =>
          ({ id := (k : Int) + 1, power_value := 0, success := false,
             last_update := t.now (s.link.clocks + k) } : ElectricMeter)) := by
  obtain ⟨buf, s1, hp, hreads, hcount⟩ :=
    electric_perform_all_fail cfg t s (fun _ => 0) hfree hctx hfail
  obtain ⟨v, s1', hp', _, _, hrun, _, hfree1, _, hclk⟩ :=
    electric_perform_returns cfg t s (fun _ => 0) hfree
  rw [hp] at hp'
  simp only [Outcome.returned.injEq] at hp'
  obtain ⟨_, hs⟩ := hp'
  subst hs
  rcases electric_readAndStore_cases cfg t s hfree with ⟨b2, s2, hp2, _⟩ | ⟨b2, s2, hp2, hrs⟩
  · rw [hp] at hp2
    simp at hp2
  · rw [hp] at hp2
    simp only [Outcome.returned.injEq, Prod.mk.injEq, true_and] at hp2
    obtain ⟨_, hs⟩ := hp2
    subst hs
    rw [hrs, electric_errorData_spec]
    refine ⟨_, rfl, hcount, ?_, ?_, ?_, hrun, ?_⟩
    · simp only [Link.release_fields]
      split_ifs with hc
      · simp
      · simpa using hc
    · simp only [Link.release_fields]
      split_ifs <;> simpa using hreads
    · simp
    · simp only [Link.release_fields]
      split_ifs <;> simp [hclk]

/-- C11. With `max_reconnect_count = N`, a reader without handle and with the reconnect
counter at zero goes through `N` consecutive cycles whose connection attempt fails: each makes
one attempt and no read, and afterwards the counter is `N`.  The cycle that follows clears
`running_`, returns `false` and leaves the transport side untouched: no connection attempt,
no read. -/
theorem reconnect_ceiling_after_failed_cycles (cfg : ElectricConfig) (t : Transport)
    (s : ElectricMeterReader) (N : Nat) (hmax : cfg.max_reconnect_count = N)
    (hfree : s.link.mutex_owned = false) (hctx : s.link.ctx_ = none)
    (hzero : s.reconnect_count_ = 0)
    (hconn : ∀ i, i < N → t.modbus_connect (s.link.connects + i) = none) :
    (ElectricMeterReader.cycles cfg t N s).reconnect_count_ = N ∧
    (ElectricMeterReader.cycles cfg t N s).link.connects = s.link.connects + N ∧
    (ElectricMeterReader.cycles cfg t N s).link.reads = s.link.reads ∧
    (ElectricMeterReader.cycles cfg t N s).running_ = s.running_ ∧
    ElectricMeterReader.readAllMeters cfg t (ElectricMeterReader.cycles cfg t N s) =
      Outcome.returned false
        { ElectricMeterReader.cycles cfg t N s with running_ := false } := by
  have key : ∀ (n : Nat) (s0 : ElectricMeterReader),
      s0.link.mutex_owned = false → s0.link.ctx_ = none →
      s0.reconnect_count_ + n ≤ cfg.max_reconnect_count →
      (∀ i, i < n → t.modbus_connect (s0.link.connects + i) = none) →
      (ElectricMeterReader.cycles cfg t n s0).reconnect_count_ = s0.reconnect_count_ + n ∧
      (ElectricMeterReader.cycles cfg t n s0).link.connects = s0.link.connects + n ∧
      (ElectricMeterReader.cycles cfg t n s0).link.reads = s0.link.reads ∧
      (ElectricMeterReader.cycles cfg t n s0).running_ = s0.running_ := by
    intro n
    induction n with
    | zero =>
      intro s0 _ _ _ _
      simp [ElectricMeterReader.cycles]
    | succ n ih =>
      intro s0 hf hc hle hcn
      obtain ⟨s1, hrun, h1, _, h3, h4, h5, h6, h7, _⟩ :=
        electric_readAll_connect_fail cfg t s0 hf (Or.inl hc) (by omega)
          (by simpa using hcn 0 (by omega))
      have := ih s1 h7 h6 (by rw [h1]; omega)
        (by
          intro i hi
          have := hcn (i + 1) (by omega)
          rw [h5]
          simpa [Nat.add_assoc, Nat.add_comm 1 i] using this)
      simp only [ElectricMeterReader.cycles, hrun, Outcome.state_returned]
      obtain ⟨a, b, c, d⟩ := this
      refine ⟨?_, ?_, ?_, ?_⟩
      · rw [a, h1]; push_cast; ring
      · rw [b, h5]; omega
      · rw [c, h4]
      · rw [d, h3]
  obtain ⟨a, b, c, d⟩ := key N s hfree hctx (by rw [hzero, hmax]; simp) hconn
  refine ⟨by rw [a, hzero]; simp, b, c, d, ?_⟩
  have he : ElectricMeterReader.shouldExit cfg (ElectricMeterReader.cycles cfg t N s) = true := by
    simp [ElectricMeterReader.shouldExit, a, hzero, hmax]
  simp [ElectricMeterReader.readAllMeters, he]

theorem reconnect_ceiling_after_failed_cycles_witness :
    (ElectricMeterReader.cycles ElectricMeterReader.setDefaultConfig
        (Scenario.scripted 0 0 18 (Scenario.buffer []) none) 10
        (ElectricMeterReader.init ElectricMeterReader.setDefaultConfig
          (Scenario.scripted 0 0 18 (Scenario.buffer []) none)
          ElectricMeterReader.construct).state).reconnect_count_ = (10 : Nat) ∧
    (ElectricMeterReader.readAllMeters ElectricMeterReader.setDefaultConfig
        (Scenario.scripted 0 0 18 (Scenario.buffer []) none)
        (ElectricMeterReader.cycles ElectricMeterReader.setDefaultConfig
          (Scenario.scripted 0 0 18 (Scenario.buffer []) none) 10
          (ElectricMeterReader.init ElectricMeterReader.setDefaultConfig
            (Scenario.scripted 0 0 18 (Scenario.buffer []) none)
            ElectricMeterReader.construct).state)).state.running_ = false := by
  have h := reconnect_ceiling_after_failed_cycles ElectricMeterReader.setDefaultConfig
    (Scenario.scripted 0 0 18 (Scenario.buffer []) none)
    (ElectricMeterReader.init ElectricMeterReader.setDefaultConfig
      (Scenario.scripted 0 0 18 (Scenario.buffer []) none)
      ElectricMeterReader.construct).state 10 rfl rfl rfl rfl (fun _ _ => rfl)
  refine ⟨h.1, ?_⟩
  rw [h.2.2.2.2]
  rfl

/-- C12 (counterexample). With a live connection and every read of the cycle failing with a
link-level error, the cycle fails and the reconnect counter stays at 2. -/
theorem read_failure_keeps_reconnect_count :
    (∀ i, i < 4 →
      ((Scenario.scripted 4 ECONNRESET 18 (Scenario.buffer []) (some 3)).modbus_read_registers
        (Scenario.connected.reads + i)).rc = -1 ∧
      ((Scenario.scripted 4 ECONNRESET 18 (Scenario.buffer []) (some 3)).modbus_read_registers
        (Scenario.connected.reads + i)).errno = ECONNRESET) ∧
    ({ Scenario.electric with reconnect_count_ := 2 } : ElectricMeterReader).link.ctx_ = some 3 ∧
    (ElectricMeterReader.readAllMeters ElectricMeterReader.setDefaultConfig
      (Scenario.scripted 4 ECONNRESET 18 (Scenario.buffer []) (some 3))
      { Scenario.electric with reconnect_count_ := 2 }).value? = some false ∧
    (ElectricMeterReader.readAllMeters ElectricMeterReader.setDefaultConfig
      (Scenario.scripted 4 ECONNRESET 18 (Scenario.buffer []) (some 3))
      { Scenario.electric with reconnect_count_ := 2 }).state.reconnect_count_ = 2 ∧
    (ElectricMeterReader.readAllMeters ElectricMeterReader.setDefaultConfig
      (Scenario.scripted 4 ECONNRESET 18 (Scenario.buffer []) (some 3))
      { Scenario.electric with reconnect_count_ := 2 }).state.link.reads = 4 := by
  refine ⟨?_, rfl, rfl, rfl, rfl⟩
  intro i hi
  interval_cases i <;> exact ⟨rfl, rfl⟩

/-- C12 (amended). A cycle below the reconnect ceiling in which the connection is established,
either live on entry or opened by this cycle, and in which every read fails, returns `false`
after `max_retry_count + 1` reads, releases the handle and leaves `reconnect_count_` as it
was. -/
theorem read_failure_cycle_keeps_reconnect_count (cfg : ElectricConfig) (t : Transport)
    (s : ElectricMeterReader) (hfree : s.link.mutex_owned = false)
    (hbelow : s.reconnect_count_ < cfg.max_reconnect_count)
    (hconn : (∃ sock : Int, s.link.ctx_ = some sock ∧ sock ≠ -1) ∨
      ((s.link.ctx_ = none ∨ s.link.ctx_ = some (-1)) ∧
        ∃ sock : Int, t.modbus_connect s.link.connects = some sock))
    (hfail : ∀ i, i < (cfg.max_retry_count + 1).toNat →
      (t.modbus_read_registers (s.link.reads + i)).rc ≠ cfg.register_count) :
    ∃ s1 : ElectricMeterReader,
      ElectricMeterReader.readAllMeters cfg t s = Outcome.returned false s1 ∧
      s1.reconnect_count_ = s.reconnect_count_ ∧
      s1.link.reads = s.link.reads + (cfg.max_retry_count + 1).toNat ∧
      s1.link.ctx_ = none ∧ s1.running_ = s.running_ := by
  rcases hconn with ⟨sock, hc, hne⟩ | ⟨hno, sock, hc⟩
  · rw [electric_readAll_live cfg t s sock hfree hc hne hbelow]
    obtain ⟨s1, h, a, b, c, _, e, _⟩ :=
      electric_readAndStore_all_fail cfg t { s with link := s.link.acquire.release }
        (by simp) (by simp [hc]) (by simpa using hfail)
    exact ⟨s1, h, by simpa using a, by simpa using c, b, by simpa using e⟩
  · rw [electric_readAll_connect_ok cfg t s sock hfree hno hbelow hc]
    obtain ⟨s1, h, a, b, c, _, e, _⟩ :=
      electric_readAndStore_all_fail cfg t
        { s with link := ((if s.link.ctx_.isSome then s.link.acquire.release.acquire.close
            else s.link.acquire.release.acquire).didConnect (some sock)).release }
        (by simp) (by simp [Link.didConnect]) (by
          intro i hi
          have := hfail i hi
          simp only [Link.release_fields, Link.didConnect_fields]
          split_ifs <;> simpa using this)
    refine ⟨s1, h, by simpa using a, ?_, b, by simpa using e⟩
    rw [c]
    simp only [Link.release_fields, Link.didConnect_fields]
    split_ifs <;> simp

theorem read_failure_cycle_keeps_reconnect_count_witness :
    ∃ s1 : ElectricMeterReader,
      ElectricMeterReader.readAllMeters ElectricMeterReader.setDefaultConfig
        (Scenario.scripted 4 ECONNRESET 18 (Scenario.buffer []) (some 3))
        { Scenario.electric with reconnect_count_ := 2 } = Outcome.returned false s1 ∧
      s1.reconnect_count_ = 2 ∧
      s1.link.reads = 0 + (ElectricMeterReader.setDefaultConfig.max_retry_count + 1).toNat ∧
      s1.link.ctx_ = none ∧ s1.running_ = true :=
  read_failure_cycle_keeps_reconnect_count ElectricMeterReader.setDefaultConfig
    (Scenario.scripted 4 ECONNRESET 18 (Scenario.buffer []) (some 3))
    { Scenario.electric with reconnect_count_ := 2 } rfl (by decide)
    (Or.inl ⟨3, rfl, by decide⟩)
    (by
      intro i hi
      have hi4 : i < 4 := hi
      interval_cases i <;> decide)

/-- C13. A cycle entered without a live connection and below the reconnect ceiling, whose
`connectModbus` fails, adds one to `reconnect_count_`, returns `false`, issues no register
read and leaves `meters_` as it was. -/
theorem failed_connect_counts_one_reconnect (cfg : ElectricConfig) (t : Transport)
    (s : ElectricMeterReader) (hfree : s.link.mutex_owned = false)
    (hno : s.link.ctx_ = none ∨ s.link.ctx_ = some (-1))
    (hbelow : s.reconnect_count_ < cfg.max_reconnect_count)
    (hconn : t.modbus_connect s.link.connects = none) :
    ∃ s1 : ElectricMeterReader,
      ElectricMeterReader.readAllMeters cfg t s = Outcome.returned false s1 ∧
      s1.reconnect_count_ = s.reconnect_count_ + 1 ∧
      s1.link.reads = s.link.reads ∧
      s1.meters_ = s.meters_ := by
  obtain ⟨s1, h, a, b, _, d, _⟩ := electric_readAll_connect_fail cfg t s hfree hno hbelow hconn
  exact ⟨s1, h, a, d, b⟩

theorem failed_connect_counts_one_reconnect_witness :
    ∃ s1 : ElectricMeterReader,
      ElectricMeterReader.readAllMeters ElectricMeterReader.setDefaultConfig
        (Scenario.scripted 0 0 18 (Scenario.buffer []) none)
        { Scenario.electric with link := Scenario.connected.close, reconnect_count_ := 4 } =
          Outcome.returned false s1 ∧
      s1.reconnect_count_ = 4 + 1 ∧
      s1.link.reads = 0 ∧
      s1.meters_ = Scenario.electric.meters_ :=
  failed_connect_counts_one_reconnect ElectricMeterReader.setDefaultConfig
    (Scenario.scripted 0 0 18 (Scenario.buffer []) none)
    { Scenario.electric with link := Scenario.connected.close, reconnect_count_ := 4 }
    rfl (Or.inl rfl) (by decide) rfl

/-- C14. A cycle that returns `true` leaves `reconnect_count_` at zero, whatever it was
before; and a cycle entered below the ceiling with a live connection, in which read number
`k + 1 ≤ max_retry_count + 1` is the first to return the configured register count, does
return `true`. -/
theorem successful_cycle_resets_reconnect_count (cfg : ElectricConfig) (t : Transport)
    (s : ElectricMeterReader) :
    (∀ s1 : ElectricMeterReader,
      ElectricMeterReader.readAllMeters cfg t s = Outcome.returned true s1 →
        s1.reconnect_count_ = 0) ∧
    (∀ (sock : Int) (k : Nat), s.link.mutex_owned = false → s.link.ctx_ = some sock →
      sock ≠ -1 → s.reconnect_count_ < cfg.max_reconnect_count →
      (k : Int) ≤ cfg.max_retry_count →
      (∀ i, i < k → (t.modbus_read_registers (s.link.reads + i)).rc ≠ cfg.register_count) →
      (t.modbus_read_registers (s.link.reads + k)).rc = cfg.register_count →
      ∃ s1 : ElectricMeterReader,
        ElectricMeterReader.readAllMeters cfg t s = Outcome.returned true s1 ∧
        s1.reconnect_count_ = 0 ∧ s1.link.reads = s.link.reads + k + 1) := by
  have first : ∀ s1 : ElectricMeterReader,
      ElectricMeterReader.readAllMeters cfg t s = Outcome.returned true s1 →
        s1.reconnect_count_ = 0 := by
    intro s1 h
    obtain ⟨s0, h0, _⟩ := electric_readAll_true_inv cfg t s s1 h
    obtain ⟨buf, s2, hp, hs1⟩ := electric_readAndStore_true_inv cfg t s0 s1 h0
    have := electric_perform_success_inv cfg t s0 s2 (fun _ => 0) buf hp
    obtain ⟨_, _, hc, _⟩ := hs1
    rw [hc]
    exact this.2.2.2
  refine ⟨first, ?_⟩
  intro sock k hfree hc hne hbelow hk hfail hok
  have hlive := electric_readAll_live cfg t s sock hfree hc hne hbelow
  obtain ⟨s1, hp, hr⟩ :=
    electric_perform_success_at cfg t { s with link := s.link.acquire.release } (fun _ => 0) k
      (by simp) (by simp [hc]) hk (by simpa using hfail) (by simpa using hok)
  rcases electric_readAndStore_cases cfg t { s with link := s.link.acquire.release } (by simp)
    with ⟨b2, s2, hp2, hrs⟩ | ⟨b2, s2, hp2, hrs⟩
  · rw [hp] at hp2
    simp only [Outcome.returned.injEq, Prod.mk.injEq, true_and] at hp2
    obtain ⟨_, hs⟩ := hp2
    subst hs
    rw [← hlive] at hrs
    refine ⟨_, hrs, first _ hrs, ?_⟩
    have := (electric_parse_frame cfg t b2 s1.link).1
    simp only [Link.release_fields, Link.acquire_fields] at hr
    simp only [this, hr]
  · rw [hp] at hp2
    simp at hp2

theorem successful_cycle_resets_reconnect_count_witness :
    ∃ s1 : ElectricMeterReader,
      ElectricMeterReader.readAllMeters ElectricMeterReader.setDefaultConfig
        (Scenario.scripted 2 ETIMEDOUT 18 (Scenario.buffer []) (some 3))
        { Scenario.electric with reconnect_count_ := 5 } = Outcome.returned true s1 ∧
      s1.reconnect_count_ = 0 ∧ s1.link.reads = 0 + 2 + 1 :=
  (successful_cycle_resets_reconnect_count ElectricMeterReader.setDefaultConfig
    (Scenario.scripted 2 ETIMEDOUT 18 (Scenario.buffer []) (some 3))
    { Scenario.electric with reconnect_count_ := 5 }).2 3 2 rfl rfl (by decide) (by decide)
    (by decide)
    (by
      intro i hi
      interval_cases i <;> decide)
    rfl

/-! ## Stores under polling -/

/-- The record that the water retry loop returns is the record it was given, or a successful
record with the same id and time stamp. -/
theorem water_loop_shape (cfg : WaterMeterReader.Config) (t : Transport) (slave : Int) :
    ∀ (fuel : Nat) (retry : Int) (result : WaterMeter) (l : Link) (r : WaterMeter) (l1 : Link),
      l.mutex_owned = true →
      WaterMeterReader.readSingleMeter.loop cfg t slave fuel retry result l =
        Outcome.returned r l1 →
      (r = result ∨ (r.success = true ∧ r.id = result.id ∧ r.last_update = result.last_update)) ∧
      l1.mutex_owned = true := by
  intro fuel
  induction fuel with
  | zero =>
    intro retry result l r l1 ho h
    simp only [WaterMeterReader.readSingleMeter.loop, Outcome.returned.injEq] at h
    exact ⟨Or.inl h.1.symm, by rw [← h.2]; exact ho⟩
  | succ n ih =>
    intro retry result l r l1 ho h
    have hrec := water_reconnect_owned t ((l.didSetSlave slave).didRead 0 2) (by simpa using ho)
    have ih1 := ih (retry + 1) result ((l.didSetSlave slave).sleep 100) r l1
      (by simpa using ho)
    have ih2 := ih (retry + 1) result (((l.didSetSlave slave).didRead 0 2).sleep 100) r l1
      (by simpa using ho)
    simp only [WaterMeterReader.readSingleMeter.loop, hrec] at h
    split_ifs at h with h1 h2 h3 h4 h5
    · exact ih1 h
    · simp only [Outcome.returned.injEq] at h
      exact ⟨Or.inl h.1.symm, by rw [← h.2]; simpa using ho⟩
    · exact ih2 h
    · simp only [Outcome.returned.injEq] at h
      exact ⟨Or.inl h.1.symm, by rw [← h.2]; simpa using ho⟩
    · simp only [Outcome.returned.injEq] at h
      obtain ⟨hr1, hl1⟩ := h
      subst hl1
      subst hr1
      exact ⟨Or.inr ⟨rfl, rfl, rfl⟩, by simpa using ho⟩

/-- A record returned by `readSingleMeter` carries the id asked for, and when it is
unsuccessful its value and its retry count are zero; the mutex is free afterwards. -/
theorem water_read_shape (cfg : WaterMeterReader.Config) (t : Transport) (slave : Int)
    (l : Link) (r : WaterMeter) (l1 : Link)
    (h : WaterMeterReader.readSingleMeter cfg t slave l = Outcome.returned r l1) :
    r.id = slave ∧ (r.success = false → r.total_water = 0 ∧ r.retry_count = 0) ∧
    l1.mutex_owned = false := by
  cases ho : l.mutex_owned with
  | true => simp [WaterMeterReader.readSingleMeter, ho] at h
  | false =>
    cases hc : l.ctx_ with
    | none =>
      have hrec := water_reconnect_owned t l.acquire.tick (by simp)
      simp [WaterMeterReader.readSingleMeter, ho, hc, hrec] at h
    | some sock =>
      rw [water_read_unfold cfg t slave l ho (by simp [hc])] at h
      cases ho2 : WaterMeterReader.readSingleMeter.loop cfg t slave
          (cfg.max_retry_count + 1).toNat 0
          { id := slave, total_water := 0, success := false, retry_count := 0,
            last_update := t.now l.clocks } l.acquire.tick with
      | blocked l2 => simp [ho2, Outcome.unlockOnReturn] at h
      | returned r2 l2 =>
        simp only [ho2, Outcome.unlockOnReturn, Outcome.returned.injEq] at h
        obtain ⟨hr2, hl2⟩ := h
        subst hr2
        subst hl2
        obtain ⟨hs, _⟩ := water_loop_shape cfg t slave _ _ _ _ _ _ (by simp) ho2
        rcases hs with hs | ⟨hs, hid, _⟩
        · subst hs
          exact ⟨rfl, fun _ => ⟨rfl, rfl⟩, by simp⟩
        · refine ⟨hid, ?_, by simp⟩
          intro hf
          rw [hs] at hf
          exact absurd hf (by decide)

/-- What one call of `readNextMeter` does to the state: nothing to the store and the cursor,
or the entry at the cursor takes the four fields of the record read and the cursor moves on. -/
theorem water_readNext_cases (cfg : WaterMeterReader.Config) (t : Transport)
    (s : WaterMeterReader) :
    ((WaterMeterReader.readNextMeter cfg t s).state.meters_ = s.meters_ ∧
      (WaterMeterReader.readNextMeter cfg t s).state.current_meter_index_ =
        s.current_meter_index_ ∧
      (s.current_meter_index_ < s.meters_.length →
        ∃ l1, WaterMeterReader.readNextMeter cfg t s = Outcome.blocked { s with link := l1 })) ∨
    (∃ (meter r : WaterMeter) (l1 : Link),
      s.meters_[s.current_meter_index_]? = some meter ∧
      WaterMeterReader.readSingleMeter cfg t meter.id s.link = Outcome.returned r l1 ∧
      WaterMeterReader.readNextMeter cfg t s =
        Outcome.returned ()
          { link := l1,
            meters_ := s.meters_.set s.current_meter_index_
              { meter with total_water := r.total_water, success := r.success,
                           retry_count := r.retry_count, last_update := r.last_update },
            current_meter_index_ := (s.current_meter_index_ + 1) % s.meters_.length }) := by
  unfold WaterMeterReader.readNextMeter
  by_cases he : s.meters_.isEmpty = true
  · left
    simp only [he, if_true, Outcome.state_returned, true_and]
    intro hlt
    have : s.meters_ = [] := by simpa using he
    rw [this] at hlt
    simp at hlt
  · simp only [he, Bool.false_eq_true, if_false]
    cases hm : s.meters_[s.current_meter_index_]? with
    | none =>
      left
      simp only [Outcome.state_returned, true_and]
      intro hlt
      rw [List.getElem?_eq_none_iff] at hm
      omega
    | some meter =>
      cases hr : WaterMeterReader.readSingleMeter cfg t meter.id s.link with
      | blocked l1 =>
        left
        simp only [hr]
        exact ⟨rfl, rfl, fun _ => ⟨l1, rfl⟩⟩
      | returned r l1 =>
        right
        refine ⟨meter, r, l1, rfl, hr, ?_⟩
        simp only [hr]

/-- The record that the inverter retry loop returns is the record it was given, or a successful
record with the same id, name, register address, multiplier and time stamp. -/
theorem inverter_loop_shape (cfg : InverterReader.Config) (t : Transport) (slave addr : Int)
    (m : ℚ) :
    ∀ (fuel : Nat) (retry : Int) (result : InverterData) (l : Link) (r : InverterData)
      (l1 : Link),
      l.mutex_owned = true →
      InverterReader.readSingleInverter.loop cfg t slave addr m fuel retry result l =
        Outcome.returned r l1 →
      (r = result ∨ (r.success = true ∧ r.id = result.id ∧ r.name = result.name ∧
        r.register_addr = result.register_addr ∧ r.multiplier = result.multiplier ∧
        r.last_update = result.last_update)) ∧
      l1.mutex_owned = true := by
  intro fuel
  induction fuel with
  | zero =>
    intro retry result l r l1 ho h
    simp only [InverterReader.readSingleInverter.loop, Outcome.returned.injEq] at h
    exact ⟨Or.inl h.1.symm, by rw [← h.2]; exact ho⟩
  | succ n ih =>
    intro retry result l r l1 ho h
    have hrec := inverter_reconnect_owned t ((l.didSetSlave slave).didRead addr 2)
      (by simpa using ho)
    have ih1 := ih (retry + 1) result ((l.didSetSlave slave).sleep 100) r l1
      (by simpa using ho)
    have ih2 := ih (retry + 1) result (((l.didSetSlave slave).didRead addr 2).sleep 100) r l1
      (by simpa using ho)
    simp only [InverterReader.readSingleInverter.loop, hrec] at h
    split_ifs at h with h1 h2 h3 h4 h5
    · exact ih1 h
    · simp only [Outcome.returned.injEq] at h
      exact ⟨Or.inl h.1.symm, by rw [← h.2]; simpa using ho⟩
    · exact ih2 h
    · simp only [Outcome.returned.injEq] at h
      exact ⟨Or.inl h.1.symm, by rw [← h.2]; simpa using ho⟩
    · simp only [Outcome.returned.injEq] at h
      obtain ⟨hr1, hl1⟩ := h
      subst hl1
      subst hr1
      exact ⟨Or.inr ⟨rfl, rfl, rfl, rfl, rfl, rfl⟩, by simpa using ho⟩

/-- A record returned by `readSingleInverter` carries the id, register address and multiplier
asked for, and when it is unsuccessful its value and its retry count are zero; the mutex is
free afterwards. -/
theorem inverter_read_shape (cfg : InverterReader.Config) (t : Transport) (slave addr : Int)
    (m : ℚ) (l : Link) (r : InverterData) (l1 : Link)
    (h : InverterReader.readSingleInverter cfg t slave addr m l = Outcome.returned r l1) :
    r.id = slave ∧ r.register_addr = addr ∧ r.multiplier = m ∧
    (r.success = false → r.generation = 0 ∧ r.retry_count = 0) ∧
    l1.mutex_owned = false := by
  cases ho : l.mutex_owned with
  | true => simp [InverterReader.readSingleInverter, ho] at h
  | false =>
    cases hc : l.ctx_ with
    | none =>
      have hrec := inverter_reconnect_owned t l.acquire.tick (by simp)
      simp [InverterReader.readSingleInverter, ho, hc, hrec] at h
    | some sock =>
      rw [inverter_read_unfold cfg t slave addr m l ho (by simp [hc])] at h
      cases ho2 : InverterReader.readSingleInverter.loop cfg t slave addr m
          (cfg.max_retry_count + 1).toNat 0
          (InverterReader.readSingleInverter.initial cfg slave addr m (t.now l.clocks))
          l.acquire.tick with
      | blocked l2 => simp [ho2, Outcome.unlockOnReturn] at h
      | returned r2 l2 =>
        simp only [ho2, Outcome.unlockOnReturn, Outcome.returned.injEq] at h
        obtain ⟨hr2, hl2⟩ := h
        subst hr2
        subst hl2
        obtain ⟨hs, _⟩ := inverter_loop_shape cfg t slave addr m _ _ _ _ _ _ (by simp) ho2
        rcases hs with hs | ⟨hs, hid, _, ha, hm, _⟩
        · subst hs
          exact ⟨rfl, rfl, rfl, fun _ => ⟨rfl, rfl⟩, by simp⟩
        · refine ⟨hid, ha, hm, ?_, by simp⟩
          intro hf
          rw [hs] at hf
          exact absurd hf (by decide)

/-- What one call of `readNextInverter` does to the state: nothing to the store and the
cursor, or the entry at the cursor takes the four fields of the record read and the cursor
moves on. -/
theorem inverter_readNext_cases (cfg : InverterReader.Config) (t : Transport)
    (s : InverterReader) :
    ((InverterReader.readNextInverter cfg t s).state.inverters_ = s.inverters_ ∧
      (InverterReader.readNextInverter cfg t s).state.current_inverter_index_ =
        s.current_inverter_index_ ∧
      (s.current_inverter_index_ < s.inverters_.length →
        ∃ l1, InverterReader.readNextInverter cfg t s =
          Outcome.blocked { s with link := l1 })) ∨
    (∃ (inverter r : InverterData) (l1 : Link),
      s.inverters_[s.current_inverter_index_]? = some inverter ∧
      InverterReader.readSingleInverter cfg t inverter.id inverter.register_addr
        inverter.multiplier s.link = Outcome.returned r l1 ∧
      InverterReader.readNextInverter cfg t s =
        Outcome.returned ()
          { link := l1,
            inverters_ := s.inverters_.set s.current_inverter_index_
              { inverter with generation := r.generation, success := r.success,
                              retry_count := r.retry_count, last_update := r.last_update },
            current_inverter_index_ :=
              (s.current_inverter_index_ + 1) % s.inverters_.length }) := by
  unfold InverterReader.readNextInverter
  by_cases he : s.inverters_.isEmpty = true
  · left
    simp only [he, if_true, Outcome.state_returned, true_and]
    intro hlt
    have : s.inverters_ = [] := by simpa using he
    rw [this] at hlt
    simp at hlt
  · simp only [he, Bool.false_eq_true, if_false]
    cases hm : s.inverters_[s.current_inverter_index_]? with
    | none =>
      left
      simp only [Outcome.state_returned, true_and]
      intro hlt
      rw [List.getElem?_eq_none_iff] at hm
      omega
    | some inverter =>
      cases hr : InverterReader.readSingleInverter cfg t inverter.id inverter.register_addr
          inverter.multiplier s.link with
      | blocked l1 =>
        left
        simp only [hr]
        exact ⟨rfl, rfl, fun _ => ⟨l1, rfl⟩⟩
      | returned r l1 =>
        right
        refine ⟨inverter, r, l1, rfl, hr, ?_⟩
        simp only [hr]

/-- Replacing the entry at position `i` by one that has the same image under `f` leaves the
list of images as it was. -/
theorem map_set_same {α β : Type} (f : α → β) (xs : List α) (i : Nat) (a b : α)
    (ha : xs[i]? = some a) (hab : f b = f a) : (xs.set i b).map f = xs.map f := by
  apply List.ext_getElem?
  intro j
  simp only [List.getElem?_map, List.getElem?_set]
  by_cases h1 : i = j
  · subst h1
    by_cases h2 : i < xs.length
    · simp [h2, ha, hab]
    · have := List.getElem?_eq_none_iff.mpr (show xs.length ≤ i by omega)
      rw [this] at ha
      exact absurd ha (by simp)
  · simp [h1]

/-- A left fold that appends one element per step: the result extends the list it started
from by one element per input, each related to its input by any relation the step ensures. -/
theorem foldl_push_spec {α β σ : Type} (g : σ → α → β) (step : σ → σ) (P : α → β → Prop)
    (inv : σ → Prop) (hg : ∀ l x, inv l → P x (g l x)) (hstep : ∀ l, inv l → inv (step l)) :
    ∀ (xs : List α) (acc : List β) (l : σ), inv l →
      ∃ ys : List β,
        (xs.foldl (fun (a : List β × σ) (x : α) => (a.1 ++ [g a.2 x], step a.2)) (acc, l)).1 =
          acc ++ ys ∧
        List.Forall₂ P xs ys ∧
        inv (xs.foldl (fun (a : List β × σ) (x : α) => (a.1 ++ [g a.2 x], step a.2))
          (acc, l)).2 := by
  intro xs
  induction xs with
  | nil =>
    intro acc l hl
    exact ⟨[], by simp, List.Forall₂.nil, hl⟩
  | cons x xs ih =>
    intro acc l hl
    obtain ⟨ys, h1, h2, h3⟩ := ih (acc ++ [g l x]) (step l) (hstep l hl)
    refine ⟨g l x :: ys, ?_, List.Forall₂.cons (hg l x hl) h2, ?_⟩
    · simp only [List.foldl_cons]
      rw [h1]
      simp
    · simpa only [List.foldl_cons] using h3

theorem forall2_map_eq {α β : Type} (f : β → α) (P : α → β → Prop)
    (hP : ∀ x y, P x y → f y = x) :
    ∀ (xs : List α) (ys : List β), List.Forall₂ P xs ys → ys.map f = xs := by
  intro xs ys h
  induction h with
  | nil => rfl
  | cons hxy _ ih => simp [hP _ _ hxy, ih]

theorem forall2_mem_right {α β : Type} (P : α → β → Prop) :
    ∀ (xs : List α) (ys : List β), List.Forall₂ P xs ys → ∀ y, y ∈ ys → ∃ x, x ∈ xs ∧ P x y := by
  intro xs ys h
  induction h with
  | nil => intro y hy; simp at hy
  | cons hxy _ ih =>
    intro y hy
    simp only [List.mem_cons] at hy
    rcases hy with hy | hy
    · subst hy
      exact ⟨_, by simp, hxy⟩
    · obtain ⟨x, hx, hp⟩ := ih y hy
      exact ⟨x, by simp [hx], hp⟩

/-- After a successful `initialize` the water store has one entry per configured address, in
order, every entry unsuccessful with value zero, and the cursor is at the first entry. -/
theorem water_init_spec (cfg : WaterMeterReader.Config) (t : Transport)
    (s0 s : WaterMeterReader) (h : WaterMeterReader.init cfg t s0 = Outcome.returned true s) :
    s.meters_.map (fun m => m.id) = cfg.meter_addresses ∧
    (∀ m, m ∈ s.meters_ → m.total_water = 0 ∧ m.success = false ∧ m.retry_count = 0) ∧
    s.current_meter_index_ = 0 ∧ s.link.mutex_owned = s0.link.mutex_owned ∧
    s.link.ctx_ = t.modbus_connect s0.link.connects ∧
    (t.modbus_connect s0.link.connects).isSome = true := by
  unfold WaterMeterReader.init at h
  cases hc : t.modbus_connect s0.link.connects with
  | none => simp [hc] at h
  | some sock =>
    simp only [hc, Outcome.returned.injEq, true_and] at h
    obtain ⟨ys, h1, h2, h3⟩ :=
      foldl_push_spec
        (fun (l : Link) (addr : Int) =>
          ({ id := addr, total_water := 0, success := false, retry_count := 0,
             last_update := t.now l.clocks } : WaterMeter))
        Link.tick
        (fun (addr : Int) (m : WaterMeter) =>
          m.id = addr ∧ m.total_water = 0 ∧ m.success = false ∧ m.retry_count = 0)
        (fun (l : Link) => l.mutex_owned = s0.link.mutex_owned ∧ l.ctx_ = some sock)
        (fun _ _ _ => ⟨rfl, rfl, rfl, rfl⟩)
        (fun l hl => by simpa using hl)
        cfg.meter_addresses [] (s0.link.didConnect (some sock)) (by simp [Link.didConnect])
    subst h
    simp only [List.nil_append] at h1
    refine ⟨?_, ?_, rfl, h3.1, h3.2, rfl⟩
    · simp only [h1]
      exact forall2_map_eq _ _ (fun _ _ hp => hp.1) _ _ h2
    · intro m hm
      simp only [h1] at hm
      obtain ⟨x, _, hp⟩ := forall2_mem_right _ _ _ h2 m hm
      exact hp.2

/-- What holds of every state of the water reader that polling reaches: the ids of the store
are the configured addresses in order, an unsuccessful entry has value zero, and the cursor
is inside the store unless the store is empty. -/
theorem water_reachable_inv (cfg : WaterMeterReader.Config) (t : Transport)
    (s : WaterMeterReader) (h : WaterMeterReader.Reachable cfg t s) :
    s.meters_.map (fun m => m.id) = cfg.meter_addresses ∧
    (∀ m, m ∈ s.meters_ → m.success = false → m.total_water = 0) ∧
    (s.meters_ = [] ∨ s.current_meter_index_ < s.meters_.length) := by
  induction h with
  | start s0 s hinit _ =>
    obtain ⟨a, b, c, _⟩ := water_init_spec cfg t s0 s hinit
    refine ⟨a, fun m hm _ => (b m hm).1, ?_⟩
    rw [c]
    cases s.meters_ with
    | nil => exact Or.inl rfl
    | cons x xs => exact Or.inr (by simp)
  | poll s _ ih =>
    obtain ⟨a, b, c⟩ := ih
    rcases water_readNext_cases cfg t s with ⟨h1, h2, _⟩ | ⟨meter, r, l1, hm, hr, hrun⟩
    · rw [h1, h2]
      exact ⟨a, b, c⟩
    · rw [hrun]
      simp only [Outcome.state_returned]
      have hlt : s.current_meter_index_ < s.meters_.length := by
        by_contra hge
        rw [List.getElem?_eq_none_iff.mpr (by omega)] at hm
        exact absurd hm (by simp)
      refine ⟨?_, ?_, ?_⟩
      · refine Eq.trans (map_set_same (fun m => m.id) s.meters_ _ meter _ hm ?_) a
        rfl
      · intro m hmem hs
        rcases List.mem_or_eq_of_mem_set hmem with hmem | heq
        · exact b m hmem hs
        · subst heq
          exact ((water_read_shape cfg t _ _ _ _ hr).2.1 hs).1
      · right
        rw [List.length_set]
        exact Nat.mod_lt _ (by omega)

theorem foldl_push_eq {α : Type} (xs acc : List α) :
    xs.foldl (fun (acc : List α) x => acc ++ [x]) acc = acc ++ xs := by
  induction xs generalizing acc with
  | nil => simp
  | cons x xs ih => simp [ih]

/-- After a successful `initialize` the inverter store is the list of configured entries and
the cursor is at the first entry. -/
theorem inverter_init_spec (cfg : InverterReader.Config) (t : Transport)
    (s0 s : InverterReader) (h : InverterReader.init cfg t s0 = Outcome.returned true s) :
    s.inverters_ = cfg.inverters ∧ s.current_inverter_index_ = 0 := by
  unfold InverterReader.init at h
  cases hc : t.modbus_connect s0.link.connects with
  | none => simp [hc] at h
  | some sock =>
    simp only [hc, Outcome.returned.injEq, true_and] at h
    subst h
    exact ⟨by simp [foldl_push_eq], rfl⟩

/-- What holds of every state of the inverter reader that polling reaches: ids, names,
register addresses and multipliers of the store are those of the configured entries in order,
an unsuccessful entry has value zero when that holds of the configured entries, and the cursor
is inside the store unless the store is empty. -/
theorem inverter_reachable_inv (cfg : InverterReader.Config) (t : Transport)
    (s : InverterReader) (h : InverterReader.Reachable cfg t s) :
    s.inverters_.map (fun m => (m.id, m.name, m.register_addr, m.multiplier)) =
      cfg.inverters.map (fun m => (m.id, m.name, m.register_addr, m.multiplier)) ∧
    ((∀ m, m ∈ cfg.inverters → m.success = false → m.generation = 0) →
      ∀ m, m ∈ s.inverters_ → m.success = false → m.generation = 0) ∧
    (s.inverters_ = [] ∨ s.current_inverter_index_ < s.inverters_.length) := by
  induction h with
  | start s0 s hinit _ =>
    obtain ⟨a, c⟩ := inverter_init_spec cfg t s0 s hinit
    refine ⟨by rw [a], by rw [a]; exact fun h => h, ?_⟩
    rw [c]
    cases s.inverters_ with
    | nil => exact Or.inl rfl
    | cons x xs => exact Or.inr (by simp)
  | poll s _ ih =>
    obtain ⟨a, b, c⟩ := ih
    rcases inverter_readNext_cases cfg t s with ⟨h1, h2, _⟩ | ⟨inverter, r, l1, hm, hr, hrun⟩
    · rw [h1, h2]
      exact ⟨a, b, c⟩
    · rw [hrun]
      simp only [Outcome.state_returned]
      have hlt : s.current_inverter_index_ < s.inverters_.length := by
        by_contra hge
        rw [List.getElem?_eq_none_iff.mpr (by omega)] at hm
        exact absurd hm (by simp)
      refine ⟨?_, ?_, ?_⟩
      · refine Eq.trans (map_set_same (fun m => (m.id, m.name, m.register_addr, m.multiplier))
          s.inverters_ _ inverter _ hm ?_) a
        rfl
      · intro hcfg m hmem hs
        rcases List.mem_or_eq_of_mem_set hmem with hmem | heq
        · exact b hcfg m hmem hs
        · subst heq
          exact ((inverter_read_shape cfg t _ _ _ _ _ _ hr).2.2.2.1 hs).1
      · right
        rw [List.length_set]
        exact Nat.mod_lt _ (by omega)

/-- What `readAllMeters` leaves after the connection check, entered with `modbus_mutex_` free:
the mutex is free again, and the store is the list parsed from a buffer or the list of error
entries. -/
theorem electric_readAndStore_store (cfg : ElectricConfig) (t : Transport)
    (s : ElectricMeterReader) (hfree : s.link.mutex_owned = false) :
    (ElectricMeterReader.readAllMeters.readAndStore cfg t s).state.link.mutex_owned = false ∧
    ((∃ (buf : Nat → Nat) (l : Link),
        (ElectricMeterReader.readAllMeters.readAndStore cfg t s).state.meters_ =
          (ElectricMeterReader.readAllMeters.parse cfg t buf l).1) ∨
      (∃ l : Link,
        (ElectricMeterReader.readAllMeters.readAndStore cfg t s).state.meters_ =
          (ElectricMeterReader.readAllMeters.errorData cfg t l).1)) := by
  obtain ⟨v, s1', hp', _, _, _, _, hfree1, _, _⟩ :=
    electric_perform_returns cfg t s (fun _ => 0) hfree
  rcases electric_readAndStore_cases cfg t s hfree with ⟨buf, s1, hp, hrs⟩ | ⟨buf, s1, hp, hrs⟩
  · rw [hp] at hp'
    simp only [Outcome.returned.injEq] at hp'
    obtain ⟨_, hs⟩ := hp'
    subst hs
    rw [hrs]
    simp only [Outcome.state_returned]
    exact ⟨by rw [(electric_parse_frame cfg t buf s1.link).2.2.1]; exact hfree1,
      Or.inl ⟨buf, s1.link, rfl⟩⟩
  · rw [hrs]
    simp only [Outcome.state_returned]
    refine ⟨?_, Or.inr ⟨_, rfl⟩⟩
    rw [electric_errorData_spec]
    simp

/-- What one polling cycle leaves, entered with `modbus_mutex_` free: the mutex is free again,
and the store is as it was, or the list parsed from a buffer, or the list of error entries. -/
theorem electric_readAll_store (cfg : ElectricConfig) (t : Transport)
    (s : ElectricMeterReader) (hfree : s.link.mutex_owned = false) :
    (ElectricMeterReader.readAllMeters cfg t s).state.link.mutex_owned = false ∧
    ((ElectricMeterReader.readAllMeters cfg t s).state.meters_ = s.meters_ ∨
      (∃ (buf : Nat → Nat) (l : Link),
        (ElectricMeterReader.readAllMeters cfg t s).state.meters_ =
          (ElectricMeterReader.readAllMeters.parse cfg t buf l).1) ∨
      (∃ l : Link,
        (ElectricMeterReader.readAllMeters cfg t s).state.meters_ =
          (ElectricMeterReader.readAllMeters.errorData cfg t l).1)) := by
  by_cases hlow : s.reconnect_count_ < cfg.max_reconnect_count
  · have hno_case : (s.link.ctx_ = none ∨ s.link.ctx_ = some (-1)) →
        (ElectricMeterReader.readAllMeters cfg t s).state.link.mutex_owned = false ∧
        ((ElectricMeterReader.readAllMeters cfg t s).state.meters_ = s.meters_ ∨
          (∃ (buf : Nat → Nat) (l : Link),
            (ElectricMeterReader.readAllMeters cfg t s).state.meters_ =
              (ElectricMeterReader.readAllMeters.parse cfg t buf l).1) ∨
          (∃ l : Link,
            (ElectricMeterReader.readAllMeters cfg t s).state.meters_ =
              (ElectricMeterReader.readAllMeters.errorData cfg t l).1)) := by
      intro hno
      cases hc : t.modbus_connect s.link.connects with
      | none =>
        obtain ⟨s1, hrun, _, hm, _, _, _, _, hf, _⟩ :=
          electric_readAll_connect_fail cfg t s hfree hno hlow hc
        rw [hrun]
        exact ⟨hf, Or.inl hm⟩
      | some sock =>
        rw [electric_readAll_connect_ok cfg t s sock hfree hno hlow hc]
        obtain ⟨a, b⟩ := electric_readAndStore_store cfg t
          { s with
            link :=
              ((if s.link.ctx_.isSome then s.link.acquire.release.acquire.close
                else s.link.acquire.release.acquire).didConnect (some sock)).release }
          (by simp)
        exact ⟨a, Or.inr b⟩
    cases hctx : s.link.ctx_ with
    | none => exact hno_case (Or.inl hctx)
    | some sock =>
      by_cases hs : sock = -1
      · subst hs
        exact hno_case (Or.inr hctx)
      · rw [electric_readAll_live cfg t s sock hfree hctx hs hlow]
        obtain ⟨a, b⟩ := electric_readAndStore_store cfg t
          { s with link := s.link.acquire.release } (by simp)
        exact ⟨a, Or.inr b⟩
  · have he : ElectricMeterReader.shouldExit cfg s = true := by
      simp only [ElectricMeterReader.shouldExit, decide_eq_true_eq]
      omega
    simp only [ElectricMeterReader.readAllMeters, he, if_true, Outcome.state_returned]
    exact ⟨hfree, Or.inl trivial⟩

/-- The store and the transport side after `initialize` of the electric reader. -/
theorem electric_init_spec (cfg : ElectricConfig) (t : Transport) (s : ElectricMeterReader) :
    ElectricMeterReader.init cfg t s =
      Outcome.returned true
        { s with
          link := { s.link with clocks := s.link.clocks + cfg.meter_count.toNat },
          meters_ := (List.range cfg.meter_count.toNat).map (fun (k : Nat) =>
            ({ id := (k : Int) + 1, power_value := 0, success := false,
               last_update := t.now (s.link.clocks + k) } : ElectricMeter)) } := by
  unfold ElectricMeterReader.init
  rw [electric_errorData_eq t s.link _]

/-- The entries parsed from a buffer when the block read covers two registers per meter. -/
theorem electric_parse_ids (cfg : ElectricConfig) (t : Transport) (regs : Nat → Nat)
    (l : Link) (hreg : 2 * cfg.meter_count ≤ cfg.register_count) :
    (ElectricMeterReader.readAllMeters.parse cfg t regs l).1.map (fun m => m.id) =
      (List.range cfg.meter_count.toNat).map (fun (k : Nat) => (k : Int) + 1) := by
  unfold ElectricMeterReader.readAllMeters.parse
  rw [electric_parse_eq cfg t regs l _ (by intro i hi; push_cast; omega)]
  simp [Function.comp_def]

/-- What holds of every state of the electric reader that polling reaches: the mutex is free,
an unsuccessful entry holds the bit pattern zero, and when the block read covers two registers
per meter the ids of the store are `1` to `meter_count` in order. -/
theorem electric_reachable_inv (cfg : ElectricConfig) (t : Transport)
    (s : ElectricMeterReader) (h : ElectricMeterReader.Reachable cfg t s) :
    s.link.mutex_owned = false ∧
    (∀ m, m ∈ s.meters_ → m.success = false → m.power_value = 0) ∧
    (2 * cfg.meter_count ≤ cfg.register_count →
      s.meters_.map (fun m => m.id) =
        (List.range cfg.meter_count.toNat).map (fun (k : Nat) => (k : Int) + 1)) := by
  induction h with
  | start s0 s hinit hfree =>
    rw [electric_init_spec] at hinit
    simp only [Outcome.returned.injEq, true_and] at hinit
    subst hinit
    refine ⟨hfree, ?_, ?_⟩
    · intro m hm _
      simp only [List.mem_map] at hm
      obtain ⟨k, _, hk⟩ := hm
      rw [← hk]
    · intro _
      simp [Function.comp_def]
  | poll s _ ih =>
    obtain ⟨a, b, c⟩ := ih
    obtain ⟨hf, hcases⟩ := electric_readAll_store cfg t s a
    refine ⟨hf, ?_, ?_⟩
    · rcases hcases with h1 | ⟨buf, l, h1⟩ | ⟨l, h1⟩
      · rw [h1]; exact b
      · intro m hm hs
        rw [h1] at hm
        have := (electric_parse_frame cfg t buf l).2.2.2.2 m hm
        rw [this] at hs
        exact absurd hs (by decide)
      · intro m hm _
        rw [h1, electric_errorData_spec] at hm
        simp only [List.mem_map] at hm
        obtain ⟨k, _, hk⟩ := hm
        rw [← hk]
    · intro hreg
      rcases hcases with h1 | ⟨buf, l, h1⟩ | ⟨l, h1⟩
      · rw [h1]; exact c hreg
      · rw [h1]
        exact electric_parse_ids cfg t buf l hreg
      · rw [h1, electric_errorData_spec]
        simp [Function.comp_def]

theorem electric_cycles_reachable (cfg : ElectricConfig) (t : Transport) :
    ∀ (n : Nat) (s : ElectricMeterReader), ElectricMeterReader.Reachable cfg t s →
      ElectricMeterReader.Reachable cfg t (ElectricMeterReader.cycles cfg t n s) := by
  intro n
  induction n with
  | zero => intro s h; exact h
  | succ n ih => intro s h; exact ih _ (ElectricMeterReader.Reachable.poll s h)

theorem ieee754Single_zero : ieee754Single 0 = some 0 := by
  simp [ieee754Single]

/-- C17. In every state that polling reaches after `initialize`, the store has one entry per
configured device, in configuration order: the ids of the water store are
`config_.meter_addresses`, those of the inverter store are the ids of `config_.inverters`, and
when `register_count` is at least `2 * meter_count` (as with 9 meters and 18 registers) those
of the electric store are `1` to `meter_count`, after successful and after failed cycles. -/
theorem store_keeps_configured_devices :
    (∀ (cfg : WaterMeterReader.Config) (t : Transport) (s : WaterMeterReader),
      WaterMeterReader.Reachable cfg t s →
      s.meters_.map (fun m => m.id) = cfg.meter_addresses ∧
      s.meters_.length = cfg.meter_addresses.length) ∧
    (∀ (cfg : InverterReader.Config) (t : Transport) (s : InverterReader),
      InverterReader.Reachable cfg t s →
      s.inverters_.map (fun m => m.id) = cfg.inverters.map (fun m => m.id) ∧
      s.inverters_.length = cfg.inverters.length) ∧
    (∀ (cfg : ElectricConfig) (t : Transport) (s : ElectricMeterReader),
      2 * cfg.meter_count ≤ cfg.register_count →
      ElectricMeterReader.Reachable cfg t s →
      s.meters_.map (fun m => m.id) =
        (List.range cfg.meter_count.toNat).map (fun (k : Nat) => (k : Int) + 1) ∧
      s.meters_.length = cfg.meter_count.toNat) := by
  refine ⟨?_, ?_, ?_⟩
  · intro cfg t s h
    have := (water_reachable_inv cfg t s h).1
    exact ⟨this, by simpa using congrArg List.length this⟩
  · intro cfg t s h
    have := (inverter_reachable_inv cfg t s h).1
    have h2 := congrArg (List.map (fun (p : Int × String × Int × ℚ) => p.1)) this
    simp only [List.map_map, Function.comp_def] at h2
    exact ⟨h2, by simpa using congrArg List.length h2⟩
  · intro cfg t s hreg h
    have := (electric_reachable_inv cfg t s h).2.2 hreg
    exact ⟨this, by simpa using congrArg List.length this⟩

theorem store_keeps_configured_devices_witness :
    (ElectricMeterReader.cycles ElectricMeterReader.setDefaultConfig
        (Scenario.scripted 4 ETIMEDOUT 18 (Scenario.buffer []) (some 3)) 1
        (ElectricMeterReader.init ElectricMeterReader.setDefaultConfig
          (Scenario.scripted 4 ETIMEDOUT 18 (Scenario.buffer []) (some 3))
          ElectricMeterReader.construct).state).meters_.map (fun m => m.success) =
      List.replicate 9 false ∧
    (ElectricMeterReader.cycles ElectricMeterReader.setDefaultConfig
        (Scenario.scripted 4 ETIMEDOUT 18 (Scenario.buffer []) (some 3)) 2
        (ElectricMeterReader.init ElectricMeterReader.setDefaultConfig
          (Scenario.scripted 4 ETIMEDOUT 18 (Scenario.buffer []) (some 3))
          ElectricMeterReader.construct).state).meters_.map (fun m => m.success) =
      List.replicate 9 true ∧
    (ElectricMeterReader.cycles ElectricMeterReader.setDefaultConfig
        (Scenario.scripted 4 ETIMEDOUT 18 (Scenario.buffer []) (some 3)) 2
        (ElectricMeterReader.init ElectricMeterReader.setDefaultConfig
          (Scenario.scripted 4 ETIMEDOUT 18 (Scenario.buffer []) (some 3))
          ElectricMeterReader.construct).state).meters_.map (fun m => m.id) =
      (List.range (9 : Int).toNat).map (fun (k : Nat) => (k : Int) + 1) ∧
    (List.range (9 : Int).toNat).map (fun (k : Nat) => (k : Int) + 1) =
      [1, 2, 3, 4, 5, 6, 7, 8, 9] :=
  ⟨rfl, rfl,
    (store_keeps_configured_devices.2.2 ElectricMeterReader.setDefaultConfig
      (Scenario.scripted 4 ETIMEDOUT 18 (Scenario.buffer []) (some 3)) _ (by decide)
      (electric_cycles_reachable _ _ 2 _
        (ElectricMeterReader.Reachable.start ElectricMeterReader.construct _ rfl rfl))).1,
    by decide⟩

/-! ## Responses of the request handlers -/

/-- A left fold that appends one rendered element per entry builds the list of the rendered
entries, in order. -/
theorem foldl_render_eq {α β : Type} (c : α → Bool) (a b : α → β) (xs : List α)
    (acc : List β) :
    xs.foldl (fun (acc : List β) (x : α) => if c x = true then acc ++ [a x] else acc ++ [b x])
      acc = acc ++ xs.map (fun x => if c x = true then a x else b x) := by
  induction xs generalizing acc with
  | nil => simp
  | cons x xs ih =>
    simp only [List.foldl_cons, List.map_cons]
    rw [ih]
    split_ifs <;> simp

/-- Evaluation of `std::round` at a number that is not negative. -/
theorem std_round_eq_of_nonneg (x : ℚ) (n : Int) (h0 : 0 ≤ x) (h1 : (n : ℚ) ≤ x + 1 / 2)
    (h2 : x + 1 / 2 < n + 1) : std.round x = n := by
  unfold std.round
  rw [if_pos h0]
  have h : Int.floor (x + 1 / 2) = n := Int.floor_eq_iff.mpr ⟨h1, h2⟩
  exact_mod_cast congrArg (fun k : Int => (k : ℚ)) h

/-- A number of at most 24 significant bits, scaled by a power of two not below `2^-149` and
multiplied by 100, has at most 29 significant bits: it is a binary64 number. -/
theorem nearest_scaled_times_hundred (sgn : ℚ) (hs : sgn = 1 ∨ sgn = -1) (M : Nat)
    (hM : M < 16777216) (e : Int) (he : -149 ≤ e) :
    binary64.nearest (sgn * (M : ℚ) * 2 ^ e * 100) = sgn * (M : ℚ) * 2 ^ e * 100 := by
  have e2 : (2 : ℚ) ^ (e + 2) = 2 ^ e * 4 := by
    rw [zpow_add₀ (by norm_num)]
    norm_num
  rcases hs with hs | hs
  · have := nearest_exact ((25 * M : Nat) : Int) (e + 2)
      (by rw [abs_of_nonneg (by positivity)]; norm_cast; omega) (by omega)
    rw [e2] at this
    have hx : sgn * (M : ℚ) * 2 ^ e * 100 = (((25 * M : Nat) : Int) : ℚ) * (2 ^ e * 4) := by
      rw [hs]; push_cast; ring
    rw [hx, this]
  · have := nearest_exact (-((25 * M : Nat) : Int)) (e + 2)
      (by rw [abs_neg, abs_of_nonneg (by positivity)]; norm_cast; omega) (by omega)
    rw [e2] at this
    have hx : sgn * (M : ℚ) * 2 ^ e * 100 = ((-((25 * M : Nat) : Int) : Int) : ℚ) * (2 ^ e * 4) := by
      rw [hs]; push_cast; ring
    rw [hx, this]

/-- The product of a `float` with `100.0` is exact in binary64: a `float` has 24 significant
bits and `100 = 25 * 4`. -/
theorem nearest_single_times_hundred (bits : Nat) (v : ℚ) (h : ieee754Single bits = some v) :
    binary64.nearest (v * 100) = v * 100 := by
  unfold ieee754Single at h
  have hf : bits % 8388608 < 8388608 := Nat.mod_lt _ (by norm_num)
  have hsgn : (if (bits / 2147483648) % 2 = 1 then (-1 : ℚ) else 1) = 1 ∨
      (if (bits / 2147483648) % 2 = 1 then (-1 : ℚ) else 1) = -1 := by
    split_ifs <;> simp
  simp only at h
  generalize (if (bits / 2147483648) % 2 = 1 then (-1 : ℚ) else 1) = sgn at h hsgn
  by_cases h255 : bits / 8388608 % 256 = 255
  · simp [h255] at h
  · rw [if_neg h255] at h
    by_cases h0 : bits / 8388608 % 256 = 0
    · rw [if_pos h0] at h
      simp only [Option.some.injEq] at h
      have := nearest_scaled_times_hundred sgn hsgn (bits % 8388608) (by omega) (-149)
        (by norm_num)
      have hv : v = sgn * ((bits % 8388608 : Nat) : ℚ) * 2 ^ (-149 : Int) := by
        rw [← h, zpow_neg, show (149 : Int) = ((149 : Nat) : Int) from rfl, zpow_natCast]
        rfl
      rw [hv]
      exact this
    · rw [if_neg h0] at h
      simp only [Option.some.injEq] at h
      have := nearest_scaled_times_hundred sgn hsgn (8388608 + bits % 8388608) (by omega)
        (((bits / 8388608 % 256 : Nat) : Int) - 150) (by omega)
      have hv : v = sgn * ((8388608 + bits % 8388608 : Nat) : ℚ) *
          2 ^ (((bits / 8388608 % 256 : Nat) : Int) - 150) := by
        rw [← h, zpow_sub₀ (by norm_num), zpow_natCast,
          show (150 : Int) = ((150 : Nat) : Int) from rfl, zpow_natCast]
        ring
      rw [hv]
      exact this

theorem electric_all_message (meters_ : List ElectricMeter) (now : Nat) :
    (ElectricMeterReader.setupHttpRoutes.all meters_ now).message =
      meters_.map (fun m =>
        if m.success = true then
          (ieee754Single m.power_value).map
            (fun v => binary64.nearest (std.round (binary64.nearest (v * 100)) / 100))
        else some (-1)) := by
  unfold ElectricMeterReader.setupHttpRoutes.all
  exact (foldl_render_eq (fun (m : ElectricMeter) => m.success)
    (fun m => (ieee754Single m.power_value).map
      (fun v => binary64.nearest (std.round (binary64.nearest (v * 100)) / 100)))
    (fun _ => some (-1)) meters_ []).trans (by simp)

theorem inverter_all_message (inverters_ : List InverterData) (now : Nat) :
    (InverterReader.setupHttpRoutes.all inverters_ now).message =
      inverters_.map (fun m =>
        if m.success = true then
          binary64.nearest (std.round (binary64.nearest (m.generation * 100)) / 100)
        else -1) := by
  unfold InverterReader.setupHttpRoutes.all
  exact (foldl_render_eq (fun (m : InverterData) => m.success)
    (fun m => binary64.nearest (std.round (binary64.nearest (m.generation * 100)) / 100))
    (fun _ => (-1 : ℚ)) inverters_ []).trans (by simp)

/-- The binary64 number `0.001`. -/
theorem nearest_thousandth :
    binary64.nearest (1 / 1000) = 1152921504606847 / 1152921504606846976 := by
  rw [nearest_eq_of_near_pos _ (-10) (-62) 4611686018427388 (by norm_num) (by norm_num)
    (by norm_num) (by norm_num) (by norm_num)]
  norm_num

/-- The binary64 number `0.001` is its own rounding. -/
theorem nearest_thousandth_fixed :
    binary64.nearest (1152921504606847 / 1152921504606846976) =
      1152921504606847 / 1152921504606846976 := by
  rw [nearest_eq_of_near_pos _ (-10) (-62) 4611686018427388 (by norm_num) (by norm_num)
    (by norm_num) (by norm_num) (by norm_num)]
  norm_num

/-- The product `15 * 0.001` in binary64 lies half way between two binary64 numbers and goes to
the even one, the binary64 number `0.015`, which is below `15/1000`. -/
theorem nearest_fifteen_thousandths :
    binary64.nearest (15 * (1152921504606847 / 1152921504606846976)) =
      1080863910568919 / 72057594037927936 := by
  rw [nearest_eq_of_tie_pos _ (-7) (-59) 8646911284551352 (by norm_num) (by norm_num)
    (by norm_num) (Or.inr (by norm_num)) (by norm_num)]
  norm_num

/-- The product `0.015 * 100.0` in binary64 is `1.5`, although the exact product is below it. -/
theorem nearest_fifteen_thousandths_times_hundred :
    binary64.nearest (1080863910568919 / 72057594037927936 * 100) = 3 / 2 := by
  rw [nearest_eq_of_near_pos _ (0) (-52) 6755399441055744 (by norm_num) (by norm_num)
    (by norm_num) (by norm_num) (by norm_num)]
  norm_num

/-- The binary64 number `0.02`. -/
theorem nearest_two_hundredths :
    binary64.nearest (2 / 100) = 5764607523034235 / 288230376151711744 := by
  rw [nearest_eq_of_near_pos _ (-6) (-58) 5764607523034235 (by norm_num) (by norm_num)
    (by norm_num) (by norm_num) (by norm_num)]
  norm_num

/-- The binary64 number `0.01`. -/
theorem nearest_one_hundredth :
    binary64.nearest (1 / 100) = 5764607523034235 / 576460752303423488 := by
  rw [nearest_eq_of_near_pos _ (-7) (-59) 5764607523034235 (by norm_num) (by norm_num)
    (by norm_num) (by norm_num) (by norm_num)]
  norm_num

/-- The product `0.001 * 100.0` in binary64 is the binary64 number `0.1`. -/
theorem nearest_thousandth_times_hundred :
    binary64.nearest (1152921504606847 / 1152921504606846976 * 100) =
      3602879701896397 / 36028797018963968 := by
  rw [nearest_eq_of_near_pos _ (-4) (-56) 7205759403792794 (by norm_num) (by norm_num)
    (by norm_num) (by norm_num) (by norm_num)]
  norm_num


/-- The product `145 * 0.001` in binary64: the binary64 number `0.145`, which is below `145/1000`. -/
theorem nearest_145_thousandths :
    binary64.nearest (145 * (1152921504606847 / 1152921504606846976)) =
      5224175567749775 / 36028797018963968 := by
  rw [nearest_eq_of_near_pos _ (-3) (-55) 5224175567749775 (by norm_num) (by norm_num)
    (by norm_num) (by norm_num) (by norm_num)]
  norm_num

/-- The product `0.145 * 100.0` in binary64: `14.499999999999998`. -/
theorem nearest_145_thousandths_times_hundred :
    binary64.nearest (5224175567749775 / 36028797018963968 * 100) =
      8162774324609023 / 562949953421312 := by
  rw [nearest_eq_of_near_pos _ (3) (-49) 8162774324609023 (by norm_num) (by norm_num)
    (by norm_num) (by norm_num) (by norm_num)]
  norm_num

/-- The binary64 number `0.14`. -/
theorem nearest_fourteen_hundredths :
    binary64.nearest (14 / 100) = 1261007895663739 / 9007199254740992 := by
  rw [nearest_eq_of_near_pos _ (-3) (-55) 5044031582654956 (by norm_num) (by norm_num)
    (by norm_num) (by norm_num) (by norm_num)]
  norm_num

/-- The binary64 number `0.15`. -/
theorem nearest_fifteen_hundredths :
    binary64.nearest (15 / 100) = 5404319552844595 / 36028797018963968 := by
  rw [nearest_eq_of_near_pos _ (-3) (-55) 5404319552844595 (by norm_num) (by norm_num)
    (by norm_num) (by norm_num) (by norm_num)]
  norm_num

/-- C18 (counterexample). An inverter with multiplier `0.001` is read successfully.  With the
raw value `15` the store holds the binary64 number `0.015`, which is below `15/1000`, so the
stored value rounded to two decimal places is `0.01`; the batch handler answers with the
binary64 number `0.02`, because the product `0.015 * 100.0` is rounded to `1.5` before
`std::round`.  With the raw value `145` the store holds the binary64 number `0.145`, which is
below `145/1000`, and the handler answers with the binary64 number `0.14`, whereas
`145 * (1/1000)` rounded to two decimal places is `0.15`. -/
theorem inverter_batch_rounds_after_binary64_product :
    (InverterReader.polls Scenario.milliInverter
        (Scenario.scripted 0 0 2 (Scenario.buffer [0x0000, 0x000F]) (some 3)) 1
        (InverterReader.init Scenario.milliInverter
          (Scenario.scripted 0 0 2 (Scenario.buffer [0x0000, 0x000F]) (some 3))
          InverterReader.construct).state).inverters_.map
      (fun m => (m.id, m.success, m.generation)) =
        [(27, true, 1080863910568919 / 72057594037927936)] ∧
    (InverterReader.setupHttpRoutes.all
      (InverterReader.polls Scenario.milliInverter
        (Scenario.scripted 0 0 2 (Scenario.buffer [0x0000, 0x000F]) (some 3)) 1
        (InverterReader.init Scenario.milliInverter
          (Scenario.scripted 0 0 2 (Scenario.buffer [0x0000, 0x000F]) (some 3))
          InverterReader.construct).state).inverters_ 0).message =
      [5764607523034235 / 288230376151711744] ∧
    std.round ((1080863910568919 / 72057594037927936 : ℚ) * 100) / 100 = 1 / 100 ∧
    binary64.nearest (1 / 100) = 5764607523034235 / 576460752303423488 ∧
    (5764607523034235 / 576460752303423488 : ℚ) ≠ 5764607523034235 / 288230376151711744 ∧
    (InverterReader.polls Scenario.milliInverter
        (Scenario.scripted 0 0 2 (Scenario.buffer [0x0000, 0x0091]) (some 3)) 1
        (InverterReader.init Scenario.milliInverter
          (Scenario.scripted 0 0 2 (Scenario.buffer [0x0000, 0x0091]) (some 3))
          InverterReader.construct).state).inverters_.map
      (fun m => (m.id, m.success, m.generation)) =
        [(27, true, 5224175567749775 / 36028797018963968)] ∧
    (InverterReader.setupHttpRoutes.all
      (InverterReader.polls Scenario.milliInverter
        (Scenario.scripted 0 0 2 (Scenario.buffer [0x0000, 0x0091]) (some 3)) 1
        (InverterReader.init Scenario.milliInverter
          (Scenario.scripted 0 0 2 (Scenario.buffer [0x0000, 0x0091]) (some 3))
          InverterReader.construct).state).inverters_ 0).message =
      [1261007895663739 / 9007199254740992] ∧
    std.round ((145 : ℚ) * (1 / 1000) * 100) / 100 = 15 / 100 ∧
    binary64.nearest (15 / 100) = 5404319552844595 / 36028797018963968 ∧
    (5404319552844595 / 36028797018963968 : ℚ) ≠ 1261007895663739 / 9007199254740992 := by
  have hstore : (InverterReader.polls Scenario.milliInverter
        (Scenario.scripted 0 0 2 (Scenario.buffer [0x0000, 0x000F]) (some 3)) 1
        (InverterReader.init Scenario.milliInverter
          (Scenario.scripted 0 0 2 (Scenario.buffer [0x0000, 0x000F]) (some 3))
          InverterReader.construct).state).inverters_ =
      [{ id := 27, name := "inverter_a",
         generation := binary64.nearest (((15 : Nat) : ℚ) * binary64.nearest (1 / 1000)),
         success := true, retry_count := 0, register_addr := 1670,
         multiplier := binary64.nearest (1 / 1000), last_update := 0 }] := by
    rfl
  have hg : binary64.nearest (((15 : Nat) : ℚ) * binary64.nearest (1 / 1000)) =
      1080863910568919 / 72057594037927936 := by
    rw [nearest_thousandth]
    exact_mod_cast nearest_fifteen_thousandths
  have hstore2 : (InverterReader.polls Scenario.milliInverter
        (Scenario.scripted 0 0 2 (Scenario.buffer [0x0000, 0x0091]) (some 3)) 1
        (InverterReader.init Scenario.milliInverter
          (Scenario.scripted 0 0 2 (Scenario.buffer [0x0000, 0x0091]) (some 3))
          InverterReader.construct).state).inverters_ =
      [{ id := 27, name := "inverter_a",
         generation := binary64.nearest (((145 : Nat) : ℚ) * binary64.nearest (1 / 1000)),
         success := true, retry_count := 0, register_addr := 1670,
         multiplier := binary64.nearest (1 / 1000), last_update := 0 }] := by
    rfl
  have hg2 : binary64.nearest (((145 : Nat) : ℚ) * binary64.nearest (1 / 1000)) =
      5224175567749775 / 36028797018963968 := by
    rw [nearest_thousandth]
    exact_mod_cast nearest_145_thousandths
  rw [hstore, hg, hstore2, hg2]
  refine ⟨rfl, ?_, ?_, nearest_one_hundredth, by norm_num, rfl, ?_, ?_,
    nearest_fifteen_hundredths, by norm_num⟩
  · rw [inverter_all_message]
    simp only [List.map_cons, List.map_nil, if_true]
    rw [nearest_fifteen_thousandths_times_hundred,
      std_round_eq_of_nonneg (3 / 2) 2 (by norm_num) (by norm_num) (by norm_num)]
    exact congrArg (fun x => [x]) nearest_two_hundredths
  · rw [std_round_eq_of_nonneg _ 1 (by norm_num) (by norm_num) (by norm_num)]
    norm_num
  · rw [inverter_all_message]
    simp only [List.map_cons, List.map_nil, if_true]
    rw [nearest_145_thousandths_times_hundred,
      std_round_eq_of_nonneg _ 14 (by norm_num) (by norm_num) (by norm_num)]
    exact congrArg (fun x => [x]) nearest_fourteen_hundredths
  · rw [std_round_eq_of_nonneg _ 15 (by norm_num) (by norm_num) (by norm_num)]
    norm_num

/-- C18 (amended). The batch handlers of the electric and the inverter reader answer, for every
store content, with an array as long as the store whose element `i` is `-1` when entry `i` is
unsuccessful and otherwise the binary64 value of `std::round(value * 100.0) / 100.0`: the
product is rounded to binary64, then to the nearest integer (halves away from zero), and the
quotient by 100 is rounded to binary64.  For the electric reader the value is the number that
the stored `float` pattern denotes and the product is exact, so the element is the binary64
number nearest to that value rounded to two decimal places; for the inverter reader the
rounding of the product can move it across a half. -/
theorem batch_message_renders_store :
    (∀ (meters_ : List ElectricMeter) (now : Nat),
      (ElectricMeterReader.setupHttpRoutes.all meters_ now).message.length = meters_.length ∧
      ∀ (i : Nat) (m : ElectricMeter), meters_[i]? = some m →
        (m.success = false →
          (ElectricMeterReader.setupHttpRoutes.all meters_ now).message[i]? =
            some (some (-1))) ∧
        (m.success = true →
          (ElectricMeterReader.setupHttpRoutes.all meters_ now).message[i]? =
              some ((ieee754Single m.power_value).map
                (fun v => binary64.nearest (std.round (binary64.nearest (v * 100)) / 100))) ∧
          (ElectricMeterReader.setupHttpRoutes.all meters_ now).message[i]? =
              some ((ieee754Single m.power_value).map
                (fun v => binary64.nearest (std.round (v * 100) / 100))))) ∧
    (∀ (inverters_ : List InverterData) (now : Nat),
      (InverterReader.setupHttpRoutes.all inverters_ now).message.length =
        inverters_.length ∧
      ∀ (i : Nat) (m : InverterData), inverters_[i]? = some m →
        (m.success = false →
          (InverterReader.setupHttpRoutes.all inverters_ now).message[i]? = some (-1)) ∧
        (m.success = true → binary64.finite (m.generation * 100) →
          (InverterReader.setupHttpRoutes.all inverters_ now).message[i]? =
            some (binary64.nearest
              (std.round (binary64.nearest (m.generation * 100)) / 100)))) := by
  refine ⟨?_, ?_⟩
  · intro meters_ now
    rw [electric_all_message]
    refine ⟨by simp, ?_⟩
    intro i m hm
    simp only [List.getElem?_map, hm, Option.map_some']
    refine ⟨fun h => by simp [h], fun h => ⟨by simp [h], ?_⟩⟩
    simp only [h, if_true]
    cases hv : ieee754Single m.power_value with
    | none => rfl
    | some v =>
      simp only [Option.map_some']
      rw [nearest_single_times_hundred _ v hv]
  · intro inverters_ now
    rw [inverter_all_message]
    refine ⟨by simp, ?_⟩
    intro i m hm
    simp only [List.getElem?_map, hm, Option.map_some']
    exact ⟨fun h => by simp [h], fun h _ => by simp [h]⟩

theorem batch_message_renders_store_witness :
    (InverterReader.setupHttpRoutes.all
      [{ id := 27, name := "inverter_a", generation := 1080863910568919 / 72057594037927936,
         success := true, retry_count := 0, register_addr := 1670,
         multiplier := binary64.nearest (1 / 1000), last_update := 0 }] 0).message[0]? =
      some (binary64.nearest (std.round (binary64.nearest
        ((1080863910568919 / 72057594037927936 : ℚ) * 100)) / 100)) ∧
    (ElectricMeterReader.setupHttpRoutes.all
      [{ id := 1, power_value := 0x447A0000, success := true, last_update := 0 }]
      0).message[0]? =
      some ((ieee754Single 0x447A0000).map
        (fun v => binary64.nearest (std.round (v * 100) / 100))) := by
  have hfin : binary64.finite ((1080863910568919 / 72057594037927936 : ℚ) * 100) := by
    unfold binary64.finite
    rw [abs_of_pos (by norm_num)]
    norm_num
  have h1 := ((batch_message_renders_store.2
    [{ id := 27, name := "inverter_a", generation := 1080863910568919 / 72057594037927936,
       success := true, retry_count := 0, register_addr := 1670,
       multiplier := binary64.nearest (1 / 1000), last_update := 0 }] 0).2 0
    { id := 27, name := "inverter_a", generation := 1080863910568919 / 72057594037927936,
      success := true, retry_count := 0, register_addr := 1670,
      multiplier := binary64.nearest (1 / 1000), last_update := 0 } rfl).2 rfl hfin
  have h2 := (((batch_message_renders_store.1
    [{ id := 1, power_value := 0x447A0000, success := true, last_update := 0 }] 0).2 0
    { id := 1, power_value := 0x447A0000, success := true, last_update := 0 } rfl).2 rfl).2
  exact ⟨h1, h2⟩

/-- C19 (counterexample). After a read of the heat meter that fails on every attempt, the
batch handler of the heat reader is served and answers with the sentinel and with the result
code `-1`. -/
theorem heat_batch_result_code_negative :
    (HeatMeterReader.readHeatMeter HeatMeterReader.setDefaultConfig
      (Scenario.scripted 4 ETIMEDOUT 2 (Scenario.buffer []) (some 3))
      Scenario.heat).value? = some false ∧
    (HeatMeterReader.setupHttpRoutes.all
      (HeatMeterReader.readHeatMeter HeatMeterReader.setDefaultConfig
        (Scenario.scripted 4 ETIMEDOUT 2 (Scenario.buffer []) (some 3))
        Scenario.heat).state.meter_data_ 0).message = [-1] ∧
    (HeatMeterReader.setupHttpRoutes.all
      (HeatMeterReader.readHeatMeter HeatMeterReader.setDefaultConfig
        (Scenario.scripted 4 ETIMEDOUT 2 (Scenario.buffer []) (some 3))
        Scenario.heat).state.meter_data_ 0).result = -1 :=
  ⟨rfl, rfl, rfl⟩

/-- C19 (amended). The batch handlers of the electric, water and inverter readers answer with
result code `0` for every store content, unsuccessful entries included.  The batch handler of
the heat reader answers with result code `0` when the stored reading is successful and with
`-1`, next to the sentinel, when it is unsuccessful. -/
theorem batch_result_code :
    (∀ (meters_ : List ElectricMeter) (now : Nat),
      (ElectricMeterReader.setupHttpRoutes.all meters_ now).result = 0) ∧
    (∀ (meters_ : List WaterMeter) (now : Nat),
      (WaterMeterReader.setupHttpRoutes.all meters_ now).result = 0) ∧
    (∀ (inverters_ : List InverterData) (now : Nat),
      (InverterReader.setupHttpRoutes.all inverters_ now).result = 0) ∧
    (∀ (data : HeatMeterData) (now : Nat),
      (data.success = true →
        (HeatMeterReader.setupHttpRoutes.all data now).result = 0 ∧
        (HeatMeterReader.setupHttpRoutes.all data now).message =
          [binary64.nearest
            (std.round (binary64.nearest (data.accumulated_heat_kwh * 100)) / 100)]) ∧
      (data.success = false →
        (HeatMeterReader.setupHttpRoutes.all data now).result = -1 ∧
        (HeatMeterReader.setupHttpRoutes.all data now).message = [-1])) := by
  refine ⟨fun _ _ => rfl, fun _ _ => rfl, fun _ _ => rfl, ?_⟩
  intro data now
  constructor
  · intro h
    simp [HeatMeterReader.setupHttpRoutes.all, h]
  · intro h
    simp [HeatMeterReader.setupHttpRoutes.all, h]

theorem batch_result_code_witness :
    (WaterMeterReader.setupHttpRoutes.all
      (WaterMeterReader.polls Scenario.twoMeters
        (Scenario.thenFailing 1 2 (Scenario.buffer [0x0012, 0x3456]) ETIMEDOUT (some 3)) 2
        (WaterMeterReader.init Scenario.twoMeters
          (Scenario.thenFailing 1 2 (Scenario.buffer [0x0012, 0x3456]) ETIMEDOUT (some 3))
          WaterMeterReader.construct).state).meters_ 0).result = 0 ∧
    (HeatMeterReader.setupHttpRoutes.all Scenario.heat.meter_data_ 0).result = 0 ∧
    (HeatMeterReader.setupHttpRoutes.all Scenario.heat.meter_data_ 0).message =
      [binary64.nearest
        (std.round (binary64.nearest (Scenario.heat.meter_data_.accumulated_heat_kwh * 100)) /
          100)] :=
  ⟨batch_result_code.2.1 _ 0, (batch_result_code.2.2.2 Scenario.heat.meter_data_ 0).1 rfl⟩

/-- The single-device handler of the inverter reader on a store whose first entry with the
requested id is `m`. -/
theorem inverter_single_found (inverters_ : List InverterData) (now : Nat) (id : Int)
    (before after : List InverterData) (m : InverterData)
    (hsplit : inverters_ = before ++ m :: after) (hid : m.id = id)
    (hfirst : ∀ x, x ∈ before → x.id ≠ id) :
    InverterReader.setupHttpRoutes.single inverters_ (some id) now =
      { message := Message.values
          [if m.success = true then
            binary64.nearest (std.round (binary64.nearest (m.generation * 100)) / 100)
          else -1],
        result := 0, timestamp := now } := by
  have : inverters_.find? (fun inv => decide (inv.id = id)) = some m := by
    rw [List.find?_eq_some]
    refine ⟨by simpa using hid, before, after, hsplit, ?_⟩
    intro x hx
    simpa using hfirst x hx
  simp only [InverterReader.setupHttpRoutes.single, this]
  split_ifs <;> rfl

/-- C20 (counterexample). An inverter with multiplier `0.001` is read successfully with raw
value `1`: the stored value is the binary64 number `0.001`, and the single-device handler
answers with result code `0` and the number `0`, which is not the stored value. -/
theorem inverter_single_rounds_value :
    (InverterReader.polls Scenario.milliInverter
        (Scenario.scripted 0 0 2 (Scenario.buffer [0x0000, 0x0001]) (some 3)) 1
        (InverterReader.init Scenario.milliInverter
          (Scenario.scripted 0 0 2 (Scenario.buffer [0x0000, 0x0001]) (some 3))
          InverterReader.construct).state).inverters_.map
      (fun m => (m.id, m.success, m.generation)) =
        [(27, true, 1152921504606847 / 1152921504606846976)] ∧
    (InverterReader.setupHttpRoutes.single
      (InverterReader.polls Scenario.milliInverter
        (Scenario.scripted 0 0 2 (Scenario.buffer [0x0000, 0x0001]) (some 3)) 1
        (InverterReader.init Scenario.milliInverter
          (Scenario.scripted 0 0 2 (Scenario.buffer [0x0000, 0x0001]) (some 3))
          InverterReader.construct).state).inverters_ (some 27) 0) =
      { message := Message.values [0], result := 0, timestamp := 0 } ∧
    (1152921504606847 / 1152921504606846976 : ℚ) ≠ 0 := by
  have hstore : (InverterReader.polls Scenario.milliInverter
        (Scenario.scripted 0 0 2 (Scenario.buffer [0x0000, 0x0001]) (some 3)) 1
        (InverterReader.init Scenario.milliInverter
          (Scenario.scripted 0 0 2 (Scenario.buffer [0x0000, 0x0001]) (some 3))
          InverterReader.construct).state).inverters_ =
      [{ id := 27, name := "inverter_a",
         generation := binary64.nearest (((1 : Nat) : ℚ) * binary64.nearest (1 / 1000)),
         success := true, retry_count := 0, register_addr := 1670,
         multiplier := binary64.nearest (1 / 1000), last_update := 0 }] := by
    rfl
  have hg : binary64.nearest (((1 : Nat) : ℚ) * binary64.nearest (1 / 1000)) =
      1152921504606847 / 1152921504606846976 := by
    rw [nearest_thousandth, Nat.cast_one, one_mul, nearest_thousandth_fixed]
  rw [hstore, hg]
  refine ⟨rfl, ?_, by norm_num⟩
  rw [inverter_single_found
    [{ id := 27, name := "inverter_a", generation := 1152921504606847 / 1152921504606846976,
       success := true, retry_count := 0, register_addr := 1670,
       multiplier := binary64.nearest (1 / 1000), last_update := 0 }] 0 27 [] []
    { id := 27, name := "inverter_a", generation := 1152921504606847 / 1152921504606846976,
      success := true, retry_count := 0, register_addr := 1670,
      multiplier := binary64.nearest (1 / 1000), last_update := 0 } rfl rfl (by simp)]
  simp only [if_true]
  rw [nearest_thousandth_times_hundred,
    std_round_eq_of_nonneg _ 0 (by norm_num) (by norm_num) (by norm_num)]
  simp [nearest_zero]

/-- C20 (amended). The single-device handlers of the water and the inverter reader: an id
that does not parse yields result code `-1` and an error text; an id that no stored entry has
yields result code `-1` and the message `[-1]`; otherwise the first entry with that id is
used, the result code is `0`, and the message is `[-1]` when that entry is unsuccessful, the
entry's `total_water` when a water entry is successful, and the binary64 value of
`std::round(generation * 100.0) / 100.0` when an inverter entry is successful (which is the
stored value itself when the stored value is such a number of hundredths). -/
theorem single_lookup_response :
    (∀ (meters_ : List WaterMeter) (now : Nat),
      (WaterMeterReader.setupHttpRoutes.single meters_ none now).result = -1 ∧
      (∀ id : Int, (∀ m, m ∈ meters_ → m.id ≠ id) →
        WaterMeterReader.setupHttpRoutes.single meters_ (some id) now =
          { message := Message.values [-1], result := -1, timestamp := now }) ∧
      (∀ (id : Int) (before after : List WaterMeter) (m : WaterMeter),
        meters_ = before ++ m :: after → m.id = id → (∀ x, x ∈ before → x.id ≠ id) →
        WaterMeterReader.setupHttpRoutes.single meters_ (some id) now =
          { message := Message.values [if m.success = true then m.total_water else -1],
            result := 0, timestamp := now })) ∧
    (∀ (inverters_ : List InverterData) (now : Nat),
      (InverterReader.setupHttpRoutes.single inverters_ none now).result = -1 ∧
      (∀ id : Int, (∀ m, m ∈ inverters_ → m.id ≠ id) →
        InverterReader.setupHttpRoutes.single inverters_ (some id) now =
          { message := Message.values [-1], result := -1, timestamp := now }) ∧
      (∀ (id : Int) (before after : List InverterData) (m : InverterData),
        inverters_ = before ++ m :: after → m.id = id → (∀ x, x ∈ before → x.id ≠ id) →
        (m.success = true → binary64.finite (m.generation * 100)) →
        InverterReader.setupHttpRoutes.single inverters_ (some id) now =
          { message := Message.values
              [if m.success = true then
                binary64.nearest (std.round (binary64.nearest (m.generation * 100)) / 100)
              else -1],
            result := 0, timestamp := now } ∧
        (binary64.nearest (std.round (binary64.nearest (m.generation * 100)) / 100) =
            m.generation →
          InverterReader.setupHttpRoutes.single inverters_ (some id) now =
            { message := Message.values [if m.success = true then m.generation else -1],
              result := 0, timestamp := now }))) := by
  refine ⟨?_, ?_⟩
  · intro meters_ now
    refine ⟨rfl, ?_, ?_⟩
    · intro id hno
      have : meters_.find? (fun meter => decide (meter.id = id)) = none := by
        rw [List.find?_eq_none]
        intro m hm
        simpa using hno m hm
      simp [WaterMeterReader.setupHttpRoutes.single, this]
    · intro id before after m hsplit hid hfirst
      have : meters_.find? (fun meter => decide (meter.id = id)) = some m := by
        rw [List.find?_eq_some]
        refine ⟨by simpa using hid, before, after, hsplit, ?_⟩
        intro x hx
        simpa using hfirst x hx
      simp only [WaterMeterReader.setupHttpRoutes.single, this]
      split_ifs <;> rfl
  · intro inverters_ now
    refine ⟨rfl, ?_, ?_⟩
    · intro id hno
      have : inverters_.find? (fun inv => decide (inv.id = id)) = none := by
        rw [List.find?_eq_none]
        intro m hm
        simpa using hno m hm
      simp [InverterReader.setupHttpRoutes.single, this]
    · intro id before after m hsplit hid hfirst _
      have hmain := inverter_single_found inverters_ now id before after m hsplit hid hfirst
      refine ⟨hmain, ?_⟩
      intro hround
      rw [hmain, hround]

theorem single_lookup_response_witness :
    WaterMeterReader.setupHttpRoutes.single
      [{ id := 5, total_water := 0, success := false, retry_count := 0, last_update := 0 },
       { id := 6, total_water := 3 / 2, success := true, retry_count := 0, last_update := 1 },
       { id := 6, total_water := 7, success := true, retry_count := 0, last_update := 2 }]
      (some 6) 9 =
        { message := Message.values [if true = true then (3 / 2 : ℚ) else -1], result := 0,
          timestamp := 9 } ∧
    WaterMeterReader.setupHttpRoutes.single
      [{ id := 5, total_water := 0, success := false, retry_count := 0, last_update := 0 }]
      (some 6) 9 = { message := Message.values [-1], result := -1, timestamp := 9 } :=
  ⟨(single_lookup_response.1 _ 9).2.2 6
      [{ id := 5, total_water := 0, success := false, retry_count := 0, last_update := 0 }]
      [{ id := 6, total_water := 7, success := true, retry_count := 0, last_update := 2 }]
      { id := 6, total_water := 3 / 2, success := true, retry_count := 0, last_update := 1 }
      rfl rfl (by
        intro x hx
        simp only [List.mem_singleton] at hx
        rw [hx]
        decide),
    (single_lookup_response.1 _ 9).2.1 6 (by
      intro m hm
      simp only [List.mem_singleton] at hm
      rw [hm]
      decide)⟩

/-! ## Handle and store after a failed cycle -/

/-- A cycle below the reconnect ceiling in which the connection is established, live on entry
or opened by this cycle, and in which every read fails: the cycle returns `false`, the handle
is released, the mutex is free, the reconnect counter is as it was and the store holds one
error entry per meter. -/
theorem electric_readAll_all_fail (cfg : ElectricConfig) (t : Transport)
    (s : ElectricMeterReader) (hfree : s.link.mutex_owned = false)
    (hbelow : s.reconnect_count_ < cfg.max_reconnect_count)
    (hconn : (∃ sock : Int, s.link.ctx_ = some sock ∧ sock ≠ -1) ∨
      ((s.link.ctx_ = none ∨ s.link.ctx_ = some (-1)) ∧
        ∃ sock : Int, t.modbus_connect s.link.connects = some sock))
    (hfail : ∀ i, i < (cfg.max_retry_count + 1).toNat →
      (t.modbus_read_registers (s.link.reads + i)).rc ≠ cfg.register_count) :
    ∃ (s1 : ElectricMeterReader) (clk : Nat),
      ElectricMeterReader.readAllMeters cfg t s = Outcome.returned false s1 ∧
      s1.reconnect_count_ = s.reconnect_count_ ∧ s1.link.ctx_ = none ∧
      s1.link.mutex_owned = false ∧
      s1.meters_ = (List.range cfg.meter_count.toNat).map (fun (k : Nat) =>
          ({ id := (k : Int) + 1, power_value := 0, success := false,
             last_update := t.now (clk + k) } : ElectricMeter)) := by
  rcases hconn with ⟨sock, hc, hne⟩ | ⟨hno, sock, hc⟩
  · rw [electric_readAll_live cfg t s sock hfree hc hne hbelow]
    obtain ⟨s1, h, a, b, _, d, _, f⟩ :=
      electric_readAndStore_all_fail cfg t { s with link := s.link.acquire.release }
        (by simp) (by simp [hc]) (by simpa using hfail)
    exact ⟨s1, _, h, by simpa using a, b, d, f⟩
  · rw [electric_readAll_connect_ok cfg t s sock hfree hno hbelow hc]
    obtain ⟨s1, h, a, b, _, d, _, f⟩ :=
      electric_readAndStore_all_fail cfg t
        { s with link := ((if s.link.ctx_.isSome then s.link.acquire.release.acquire.close
            else s.link.acquire.release.acquire).didConnect (some sock)).release }
        (by simp) (by simp [Link.didConnect]) (by
          intro i hi
          have := hfail i hi
          simp only [Link.release_fields, Link.didConnect_fields]
          split_ifs <;> simpa using this)
    exact ⟨s1, _, h, by simpa using a, b, d, f⟩

/-- Below the ceiling, with `modbus_mutex_` free and no handle, the first thing a cycle does
on the transport side is the connection attempt: the cycle is the read-and-store part run on
the state that the attempt left, whose log is the log at entry followed by the events of the
connection check and of `connectModbus`. -/
theorem electric_readAll_reconnects_first (cfg : ElectricConfig) (t : Transport)
    (s : ElectricMeterReader) (hfree : s.link.mutex_owned = false)
    (hctx : s.link.ctx_ = none) (hbelow : s.reconnect_count_ < cfg.max_reconnect_count) :
    (t.modbus_connect s.link.connects = none →
      ∃ s2 : ElectricMeterReader,
        ElectricMeterReader.readAllMeters cfg t s = Outcome.returned false s2 ∧
        s2.link.reads = s.link.reads ∧ s2.link.connects = s.link.connects + 1 ∧
        s2.link.trace = s.link.trace ++
          [Event.lock, Event.unlock, Event.lock, Event.connect, Event.unlock]) ∧
    (∀ sock : Int, t.modbus_connect s.link.connects = some sock →
      ∃ sc : ElectricMeterReader,
        ElectricMeterReader.readAllMeters cfg t s =
          ElectricMeterReader.readAllMeters.readAndStore cfg t sc ∧
        sc.link.ctx_ = some sock ∧ sc.link.reads = s.link.reads ∧
        sc.link.connects = s.link.connects + 1 ∧
        sc.link.trace = s.link.trace ++
          [Event.lock, Event.unlock, Event.lock, Event.connect, Event.unlock]) := by
  have he : ElectricMeterReader.shouldExit cfg s = false := by
    simp [ElectricMeterReader.shouldExit, hbelow]
  constructor
  · intro hc
    have hcs := electric_connect_spec t { s with link := s.link.acquire.release } (by simp)
    simp only [Link.release_fields, Link.acquire_fields, hc, hctx, Option.isSome_none] at hcs
    refine ⟨{ s with
        link := (s.link.acquire.release.acquire.didConnect none).release,
        reconnect_count_ := s.reconnect_count_ + 1 },
      by simp [ElectricMeterReader.readAllMeters, he, hfree, hctx, hcs], ?_, ?_, ?_⟩
    · simp [Link.didConnect, Link.release, Link.acquire]
    · simp [Link.didConnect, Link.release, Link.acquire]
    · simp [Link.didConnect, Link.release, Link.acquire]
  · intro sock hc
    have hcs := electric_connect_spec t { s with link := s.link.acquire.release } (by simp)
    simp only [Link.release_fields, Link.acquire_fields, hc, hctx, Option.isSome_none] at hcs
    refine ⟨{ s with
        link := (s.link.acquire.release.acquire.didConnect (some sock)).release },
      by simp [ElectricMeterReader.readAllMeters, he, hfree, hctx, hcs], ?_, ?_, ?_, ?_⟩
    · simp [Link.didConnect, Link.release, Link.acquire]
    · simp [Link.didConnect, Link.release, Link.acquire]
    · simp [Link.didConnect, Link.release, Link.acquire]
    · simp [Link.didConnect, Link.release, Link.acquire]

/-- C23. In the electric reader, a cycle in which every read fails leaves no handle
(`ctx_` is `nullptr`) and a store of `meter_count` entries with ids `1` to `meter_count`, all
unsuccessful with value zero.  The cycle that follows, still below the reconnect ceiling, makes
its connection attempt before any register read: when the attempt fails it returns without a
read, and when it succeeds the reads are those of the read-and-store part run after the
attempt.  `connectModbus` returning `false` leaves `ctx_` at `nullptr`. -/
theorem failed_read_cycle_releases_handle (cfg : ElectricConfig) (t : Transport)
    (s : ElectricMeterReader) (hfree : s.link.mutex_owned = false)
    (hbelow : s.reconnect_count_ < cfg.max_reconnect_count)
    (hconn : (∃ sock : Int, s.link.ctx_ = some sock ∧ sock ≠ -1) ∨
      ((s.link.ctx_ = none ∨ s.link.ctx_ = some (-1)) ∧
        ∃ sock : Int, t.modbus_connect s.link.connects = some sock))
    (hfail : ∀ i, i < (cfg.max_retry_count + 1).toNat →
      (t.modbus_read_registers (s.link.reads + i)).rc ≠ cfg.register_count) :
    (∃ s1 : ElectricMeterReader,
      ElectricMeterReader.readAllMeters cfg t s = Outcome.returned false s1 ∧
      s1.link.ctx_ = none ∧
      s1.meters_.length = cfg.meter_count.toNat ∧
      s1.meters_.map (fun m => m.id) =
        (List.range cfg.meter_count.toNat).map (fun (k : Nat) => (k : Int) + 1) ∧
      (∀ m, m ∈ s1.meters_ → m.success = false ∧ m.power_value = 0) ∧
      (t.modbus_connect s1.link.connects = none →
        ∃ s2 : ElectricMeterReader,
          ElectricMeterReader.readAllMeters cfg t s1 = Outcome.returned false s2 ∧
          s2.link.reads = s1.link.reads ∧ s2.link.connects = s1.link.connects + 1) ∧
      (∀ sock : Int, t.modbus_connect s1.link.connects = some sock →
        ∃ sc : ElectricMeterReader,
          ElectricMeterReader.readAllMeters cfg t s1 =
            ElectricMeterReader.readAllMeters.readAndStore cfg t sc ∧
          sc.link.ctx_ = some sock ∧ sc.link.reads = s1.link.reads ∧
          sc.link.connects = s1.link.connects + 1 ∧
          sc.link.trace = s1.link.trace ++
            [Event.lock, Event.unlock, Event.lock, Event.connect, Event.unlock])) ∧
    (∀ (t0 : Transport) (s0 s1 : ElectricMeterReader),
      ElectricMeterReader.connectModbus t0 s0 = Outcome.returned false s1 →
        s1.link.ctx_ = none) := by
  constructor
  · obtain ⟨s1, clk, hrun, hcount, hctx, hf, hm⟩ :=
      electric_readAll_all_fail cfg t s hfree hbelow hconn hfail
    obtain ⟨hA, hB⟩ := electric_readAll_reconnects_first cfg t s1 hf hctx
      (by rw [hcount]; exact hbelow)
    refine ⟨s1, hrun, hctx, ?_, ?_, ?_, ?_, ?_⟩
    · rw [hm]; simp
    · rw [hm]; simp [Function.comp_def]
    · intro m hmem
      rw [hm] at hmem
      simp only [List.mem_map] at hmem
      obtain ⟨k, _, hk⟩ := hmem
      rw [← hk]
      exact ⟨rfl, rfl⟩
    · intro hc
      obtain ⟨s2, h1, h2, h3, _⟩ := hA hc
      exact ⟨s2, h1, h2, h3⟩
    · exact hB
  · intro t0 s0 s1 h
    cases ho : s0.link.mutex_owned with
    | true => simp [ElectricMeterReader.connectModbus, ho] at h
    | false =>
      rw [electric_connect_spec t0 s0 ho] at h
      simp only [Outcome.returned.injEq] at h
      obtain ⟨h1, h2⟩ := h
      subst h2
      cases hc : t0.modbus_connect s0.link.connects with
      | none => simp [Link.didConnect, Link.release]
      | some sock => simp [hc] at h1

theorem failed_read_cycle_releases_handle_witness :
    (ElectricMeterReader.readAllMeters ElectricMeterReader.setDefaultConfig
        (Scenario.scripted 4 ETIMEDOUT 18 (Scenario.buffer []) (some 3))
        Scenario.electric).value? = some false ∧
    (ElectricMeterReader.readAllMeters ElectricMeterReader.setDefaultConfig
        (Scenario.scripted 4 ETIMEDOUT 18 (Scenario.buffer []) (some 3))
        Scenario.electric).state.link.ctx_ = none ∧
    (ElectricMeterReader.readAllMeters ElectricMeterReader.setDefaultConfig
        (Scenario.scripted 4 ETIMEDOUT 18 (Scenario.buffer []) (some 3))
        Scenario.electric).state.meters_.map (fun m => (m.id, m.success)) =
      [(1, false), (2, false), (3, false), (4, false), (5, false), (6, false), (7, false),
       (8, false), (9, false)] ∧
    ∃ s1 : ElectricMeterReader,
      ElectricMeterReader.readAllMeters ElectricMeterReader.setDefaultConfig
        (Scenario.scripted 4 ETIMEDOUT 18 (Scenario.buffer []) (some 3))
        Scenario.electric = Outcome.returned false s1 ∧
      s1.link.ctx_ = none ∧
      s1.meters_.length = ElectricMeterReader.setDefaultConfig.meter_count.toNat := by
  obtain ⟨s1, h1, h2, h3, _⟩ :=
    (failed_read_cycle_releases_handle ElectricMeterReader.setDefaultConfig
      (Scenario.scripted 4 ETIMEDOUT 18 (Scenario.buffer []) (some 3))
      Scenario.electric rfl (by decide) (Or.inl ⟨3, rfl, by decide⟩)
      (by
        intro i hi
        have hi4 : i < 4 := hi
        interval_cases i <;> decide)).1
  exact ⟨rfl, rfl, rfl, s1, h1, h2, h3⟩

/-- C30. In every state of the electric reader that polling reaches after `initialize`, all
entries of `meters_` carry the same success flag: a cycle replaces the store by entries that
are all successful or by entries that are all unsuccessful, or leaves it as it was. -/
theorem electric_store_is_homogeneous (cfg : ElectricConfig) (t : Transport)
    (s : ElectricMeterReader) (h : ElectricMeterReader.Reachable cfg t s) :
    (∀ m, m ∈ s.meters_ → m.success = true) ∨ (∀ m, m ∈ s.meters_ → m.success = false) := by
  have key : s.link.mutex_owned = false ∧
      ((∀ m, m ∈ s.meters_ → m.success = true) ∨
        (∀ m, m ∈ s.meters_ → m.success = false)) := by
    induction h with
    | start s0 s hinit hfree =>
      rw [electric_init_spec] at hinit
      simp only [Outcome.returned.injEq, true_and] at hinit
      subst hinit
      refine ⟨hfree, Or.inr ?_⟩
      intro m hm
      simp only [List.mem_map] at hm
      obtain ⟨k, _, hk⟩ := hm
      rw [← hk]
    | poll s _ ih =>
      obtain ⟨a, b⟩ := ih
      obtain ⟨hf, hcases⟩ := electric_readAll_store cfg t s a
      refine ⟨hf, ?_⟩
      rcases hcases with h1 | ⟨buf, l, h1⟩ | ⟨l, h1⟩
      · rw [h1]; exact b
      · left
        intro m hm
        rw [h1] at hm
        exact (electric_parse_frame cfg t buf l).2.2.2.2 m hm
      · right
        intro m hm
        rw [h1, electric_errorData_spec] at hm
        simp only [List.mem_map] at hm
        obtain ⟨k, _, hk⟩ := hm
        rw [← hk]
  exact key.2

theorem electric_store_is_homogeneous_witness :
    (ElectricMeterReader.cycles ElectricMeterReader.setDefaultConfig
        (Scenario.scripted 4 ETIMEDOUT 18 (Scenario.buffer []) (some 3)) 2
        (ElectricMeterReader.init ElectricMeterReader.setDefaultConfig
          (Scenario.scripted 4 ETIMEDOUT 18 (Scenario.buffer []) (some 3))
          ElectricMeterReader.construct).state).meters_.map (fun m => m.success) =
      List.replicate 9 true ∧
    ((∀ m, m ∈ (ElectricMeterReader.cycles ElectricMeterReader.setDefaultConfig
        (Scenario.scripted 4 ETIMEDOUT 18 (Scenario.buffer []) (some 3)) 2
        (ElectricMeterReader.init ElectricMeterReader.setDefaultConfig
          (Scenario.scripted 4 ETIMEDOUT 18 (Scenario.buffer []) (some 3))
          ElectricMeterReader.construct).state).meters_ → m.success = true) ∨
      (∀ m, m ∈ (ElectricMeterReader.cycles ElectricMeterReader.setDefaultConfig
        (Scenario.scripted 4 ETIMEDOUT 18 (Scenario.buffer []) (some 3)) 2
        (ElectricMeterReader.init ElectricMeterReader.setDefaultConfig
          (Scenario.scripted 4 ETIMEDOUT 18 (Scenario.buffer []) (some 3))
          ElectricMeterReader.construct).state).meters_ → m.success = false)) :=
  ⟨rfl,
    electric_store_is_homogeneous ElectricMeterReader.setDefaultConfig
      (Scenario.scripted 4 ETIMEDOUT 18 (Scenario.buffer []) (some 3)) _
      (electric_cycles_reachable _ _ 2 _
        (ElectricMeterReader.Reachable.start ElectricMeterReader.construct _ rfl rfl))⟩

/-! ## The round-robin cursor -/

/-- C25. A successful `readSingleMeter` stores, as `total_water`, the binary64 product of the
decimal number `D` whose eight digits are the four hexadecimal digits of register 0 followed
by the four of register 1 (most significant first) of the last read, and the multiplier
`0.00010000000000000003` that four rounded multiplications by `0.1` give; the bytes decoded
are those of `(regs[0] << 16) | regs[1]`, most significant first, the value is never
negative, and with decimal digits only it is at most `1374389520976105 / 2^37` (printed
`9999.999900000003`).  It is not `D / 10^4`: the registers `{0x1234, 0x5678}` give
`5429686605511343 / 2^42` (printed `1234.5678000000005`), and the registers `{0x9999, 0x9999}`
give `1374389520976105 / 2^37`, which is above `9999.9999` and above the binary64 number nearest
to it. -/
theorem water_value_is_rounded_product_of_register_digits :
    (∀ (cfg : WaterMeterReader.Config) (t : Transport) (slave : Int) (l : Link) (r : WaterMeter)
        (l1 : Link),
      WaterMeterReader.readSingleMeter cfg t slave l = Outcome.returned r l1 →
      r.success = true →
      r.total_water =
        binary64.nearest
          ((((((t.modbus_read_registers (l1.reads - 1)).regs 0 % 65536 / 4096 % 16) * 10000000 +
            ((t.modbus_read_registers (l1.reads - 1)).regs 0 % 65536 / 256 % 16) * 1000000 +
            ((t.modbus_read_registers (l1.reads - 1)).regs 0 % 65536 / 16 % 16) * 100000 +
            ((t.modbus_read_registers (l1.reads - 1)).regs 0 % 65536 % 16) * 10000 +
            ((t.modbus_read_registers (l1.reads - 1)).regs 1 % 65536 / 4096 % 16) * 1000 +
            ((t.modbus_read_registers (l1.reads - 1)).regs 1 % 65536 / 256 % 16) * 100 +
            ((t.modbus_read_registers (l1.reads - 1)).regs 1 % 65536 / 16 % 16) * 10 +
            (t.modbus_read_registers (l1.reads - 1)).regs 1 % 65536 % 16 : Nat) : ℚ)) *
            (7378697629483823 / 73786976294838206464)) ∧
      r.total_water =
        WaterMeterReader.bcdToDouble
          [bigEndianWord32 (t.modbus_read_registers (l1.reads - 1)).regs / 16777216 % 256,
           bigEndianWord32 (t.modbus_read_registers (l1.reads - 1)).regs / 65536 % 256,
           bigEndianWord32 (t.modbus_read_registers (l1.reads - 1)).regs / 256 % 256,
           bigEndianWord32 (t.modbus_read_registers (l1.reads - 1)).regs % 256] 4 4 ∧
      0 ≤ r.total_water ∧
      ((∀ i, i < 2 → ∀ s, s < 4 →
          (t.modbus_read_registers (l1.reads - 1)).regs i % 65536 / 16 ^ s % 16 ≤ 9) →
        r.total_water ≤ 1374389520976105 / 137438953472)) ∧
    (WaterMeterReader.readSingleMeter WaterMeterReader.setDefaultConfig
        (Scenario.scripted 0 0 2 (Scenario.buffer [0x1234, 0x5678]) none) 1
        Scenario.connected).value?.map (fun r => (r.success, r.total_water)) =
      some (true, 5429686605511343 / 4398046511104) ∧
    (5429686605511343 / 4398046511104 : ℚ) ≠ 12345678 / 10000 ∧
    binary64.nearest (12345678 / 10000) = 5429686605511341 / 4398046511104 ∧
    (WaterMeterReader.readSingleMeter WaterMeterReader.setDefaultConfig
        (Scenario.scripted 0 0 2 (Scenario.buffer [0x9999, 0x9999]) none) 1
        Scenario.connected).value?.map (fun r => (r.success, r.total_water)) =
      some (true, 1374389520976105 / 137438953472) ∧
    (99999999 / 10000 : ℚ) < 1374389520976105 / 137438953472 ∧
    binary64.nearest (99999999 / 10000) = 5497558083904419 / 549755813888 ∧
    (5497558083904419 / 549755813888 : ℚ) < 1374389520976105 / 137438953472 := by
  refine ⟨?_, ?_, by norm_num, nearest_12345678_div, ?_, by norm_num, nearest_99999999_div,
    by norm_num⟩
  · intro cfg t slave l r l1 h hs
    obtain ⟨_, _, hv⟩ := water_read_success_inv cfg t slave l r l1 h hs
    exact ⟨by rw [hv, water_decode_eq], by rw [hv, water_decode_bytes],
      by rw [hv]; exact water_decode_nonneg _,
      fun hd => by rw [hv]; exact water_decode_le_of_digits _ hd⟩
  · obtain ⟨l1, hrun, _⟩ :=
      water_read_success_after WaterMeterReader.setDefaultConfig
        (Scenario.scripted 0 0 2 (Scenario.buffer [0x1234, 0x5678]) none) 1
        Scenario.connected 0 rfl rfl (by decide) (by intro i _; rfl)
        (by intro i hi; omega) (by decide)
    rw [hrun]
    simp only [Outcome.value?, Option.map_some']
    rw [water_decode_eq]
    have hd : ((Scenario.scripted 0 0 2 (Scenario.buffer [0x1234, 0x5678])
          none).modbus_read_registers (Scenario.connected.reads + 0)).regs 0 % 65536 / 4096 % 16
          * 10000000 +
        ((Scenario.scripted 0 0 2 (Scenario.buffer [0x1234, 0x5678])
          none).modbus_read_registers (Scenario.connected.reads + 0)).regs 0 % 65536 / 256 % 16
          * 1000000 +
        ((Scenario.scripted 0 0 2 (Scenario.buffer [0x1234, 0x5678])
          none).modbus_read_registers (Scenario.connected.reads + 0)).regs 0 % 65536 / 16 % 16
          * 100000 +
        ((Scenario.scripted 0 0 2 (Scenario.buffer [0x1234, 0x5678])
          none).modbus_read_registers (Scenario.connected.reads + 0)).regs 0 % 65536 % 16
          * 10000 +
        ((Scenario.scripted 0 0 2 (Scenario.buffer [0x1234, 0x5678])
          none).modbus_read_registers (Scenario.connected.reads + 0)).regs 1 % 65536 / 4096 % 16
          * 1000 +
        ((Scenario.scripted 0 0 2 (Scenario.buffer [0x1234, 0x5678])
          none).modbus_read_registers (Scenario.connected.reads + 0)).regs 1 % 65536 / 256 % 16
          * 100 +
        ((Scenario.scripted 0 0 2 (Scenario.buffer [0x1234, 0x5678])
          none).modbus_read_registers (Scenario.connected.reads + 0)).regs 1 % 65536 / 16 % 16
          * 10 +
        ((Scenario.scripted 0 0 2 (Scenario.buffer [0x1234, 0x5678])
          none).modbus_read_registers (Scenario.connected.reads + 0)).regs 1 % 65536 % 16 =
        12345678 := by
      decide
    rw [hd]
    have := nearest_bcd_12345678
    norm_cast at this ⊢
    rw [this]
  · obtain ⟨l1, hrun, _⟩ :=
      water_read_success_after WaterMeterReader.setDefaultConfig
        (Scenario.scripted 0 0 2 (Scenario.buffer [0x9999, 0x9999]) none) 1
        Scenario.connected 0 rfl rfl (by decide) (by intro i _; rfl)
        (by intro i hi; omega) (by decide)
    rw [hrun]
    simp only [Outcome.value?, Option.map_some']
    rw [water_decode_eq]
    have hd : ((Scenario.scripted 0 0 2 (Scenario.buffer [0x9999, 0x9999])
          none).modbus_read_registers (Scenario.connected.reads + 0)).regs 0 % 65536 / 4096 % 16
          * 10000000 +
        ((Scenario.scripted 0 0 2 (Scenario.buffer [0x9999, 0x9999])
          none).modbus_read_registers (Scenario.connected.reads + 0)).regs 0 % 65536 / 256 % 16
          * 1000000 +
        ((Scenario.scripted 0 0 2 (Scenario.buffer [0x9999, 0x9999])
          none).modbus_read_registers (Scenario.connected.reads + 0)).regs 0 % 65536 / 16 % 16
          * 100000 +
        ((Scenario.scripted 0 0 2 (Scenario.buffer [0x9999, 0x9999])
          none).modbus_read_registers (Scenario.connected.reads + 0)).regs 0 % 65536 % 16
          * 10000 +
        ((Scenario.scripted 0 0 2 (Scenario.buffer [0x9999, 0x9999])
          none).modbus_read_registers (Scenario.connected.reads + 0)).regs 1 % 65536 / 4096 % 16
          * 1000 +
        ((Scenario.scripted 0 0 2 (Scenario.buffer [0x9999, 0x9999])
          none).modbus_read_registers (Scenario.connected.reads + 0)).regs 1 % 65536 / 256 % 16
          * 100 +
        ((Scenario.scripted 0 0 2 (Scenario.buffer [0x9999, 0x9999])
          none).modbus_read_registers (Scenario.connected.reads + 0)).regs 1 % 65536 / 16 % 16
          * 10 +
        ((Scenario.scripted 0 0 2 (Scenario.buffer [0x9999, 0x9999])
          none).modbus_read_registers (Scenario.connected.reads + 0)).regs 1 % 65536 % 16 =
        99999999 := by
      decide
    rw [hd]
    have := nearest_bcd_99999999
    norm_cast at this ⊢
    rw [this]

theorem water_value_is_rounded_product_of_register_digits_witness :
    ∃ (r : WaterMeter) (l1 : Link),
      WaterMeterReader.readSingleMeter WaterMeterReader.setDefaultConfig
        (Scenario.scripted 0 0 2 (Scenario.buffer [0x1234, 0x5678]) none) 1
        Scenario.connected = Outcome.returned r l1 ∧
      r.success = true ∧ 0 ≤ r.total_water := by
  obtain ⟨l1, hrun, hreads, _, _⟩ :=
    water_read_success_after WaterMeterReader.setDefaultConfig
      (Scenario.scripted 0 0 2 (Scenario.buffer [0x1234, 0x5678]) none) 1
      Scenario.connected 0 rfl rfl (by decide) (by intro i _; rfl)
      (by intro i hi; omega) (by decide)
  exact ⟨_, l1, hrun, rfl,
    (water_value_is_rounded_product_of_register_digits.1 _ _ _ _ _ _ hrun rfl).2.2.1⟩

/-! ## Atomicity of the store replacement -/

theorem electric_all_message_element (meters_ : List ElectricMeter) (now : Nat) :
    (ElectricMeterReader.setupHttpRoutes.all meters_ now).message =
      meters_.map ElectricMeterReader.setupHttpRoutes.element := by
  rw [electric_all_message]
  rfl

theorem take_prefix_step {α : Type} (xs ys : List α) (i : Nat) (x : α) (hi : i ≤ xs.length)
    (hx : xs[i]? = some x) :
    (xs.take i ++ ys.drop i).take i ++ [x] ++ (xs.take i ++ ys.drop i).drop (i + 1) =
      xs.take (i + 1) ++ ys.drop (i + 1) := by
  have hlen : (xs.take i).length = i := by simp [hi]
  have h1 : (xs.take i ++ ys.drop i).take i = xs.take i := by
    rw [List.take_append_eq_append_take, hlen]
    simp
  have h2 : (xs.take i ++ ys.drop i).drop (i + 1) = ys.drop (i + 1) := by
    rw [List.drop_append_eq_append_drop, hlen]
    simp [List.drop_drop, Nat.add_comm]
  rw [h1, h2, List.take_succ, hx]
  simp

theorem take_prefix_end {α : Type} (xs ys : List α) (i : Nat) (hi : i ≤ xs.length)
    (hx : xs[i]? = none) : (xs.take i ++ ys.drop i).take xs.length = xs := by
  have hge : xs.length ≤ i := List.getElem?_eq_none_iff.mp hx
  have he : i = xs.length := by omega
  subst he
  simp

theorem shared_replaceStep_consistent (old new_data : List ElectricMeter)
    (s : ElectricMeterReader.Shared)
    (h : ElectricMeterReader.Shared.Consistent old new_data s) :
    ElectricMeterReader.Shared.Consistent old new_data (s.replaceStep true) := by
  obtain ⟨m, ex, sh, rpc, nd, vpc, pv⟩ := s
  obtain ⟨hnd, hw, hr⟩ := h
  have hnd' : nd = new_data := hnd
  subst hnd'
  cases rpc with
  | locking =>
    have hex : ex = false := hw.1
    have hm : m = old := hw.2
    subst hex
    subst hm
    cases vpc with
    | locking =>
      have h1 : sh = 0 := hr.1
      subst h1
      have hs : ElectricMeterReader.Shared.replaceStep true
          ⟨m, false, 0, ElectricMeterReader.ReplacePc.locking, nd,
            ElectricMeterReader.RenderPc.locking, pv⟩ =
          ⟨m, true, 0, ElectricMeterReader.ReplacePc.copying 0, nd,
            ElectricMeterReader.RenderPc.locking, pv⟩ := by
        simp [ElectricMeterReader.Shared.replaceStep]
      rw [hs]
      exact ⟨rfl, ⟨rfl, Nat.zero_le _, by simp⟩, hr⟩
    | visiting j =>
      have h1 : sh = 1 := hr.1
      subst h1
      have hs : ElectricMeterReader.Shared.replaceStep true
          ⟨m, false, 1, ElectricMeterReader.ReplacePc.locking, nd,
            ElectricMeterReader.RenderPc.visiting j, pv⟩ =
          ⟨m, false, 1, ElectricMeterReader.ReplacePc.locking, nd,
            ElectricMeterReader.RenderPc.visiting j, pv⟩ := by
        simp [ElectricMeterReader.Shared.replaceStep]
      rw [hs]
      exact ⟨rfl, ⟨rfl, rfl⟩, hr⟩
    | finished =>
      have h1 : sh = 0 := hr.1
      subst h1
      have hs : ElectricMeterReader.Shared.replaceStep true
          ⟨m, false, 0, ElectricMeterReader.ReplacePc.locking, nd,
            ElectricMeterReader.RenderPc.finished, pv⟩ =
          ⟨m, true, 0, ElectricMeterReader.ReplacePc.copying 0, nd,
            ElectricMeterReader.RenderPc.finished, pv⟩ := by
        simp [ElectricMeterReader.Shared.replaceStep]
      rw [hs]
      exact ⟨rfl, ⟨rfl, Nat.zero_le _, by simp⟩, hr⟩
  | copying i =>
    have hex : ex = true := hw.1
    have hi : i ≤ nd.length := hw.2.1
    have hm : m = nd.take i ++ old.drop i := hw.2.2
    subst hex
    subst hm
    cases hx : nd[i]? with
    | some x =>
      have hstep := take_prefix_step nd old i x hi hx
      have hi1 : i + 1 ≤ nd.length := by
        have := (List.getElem?_eq_some_iff.mp hx).1
        omega
      have hs : ElectricMeterReader.Shared.replaceStep true
          ⟨nd.take i ++ old.drop i, true, sh, ElectricMeterReader.ReplacePc.copying i, nd,
            vpc, pv⟩ =
          ⟨nd.take (i + 1) ++ old.drop (i + 1), true, sh,
            ElectricMeterReader.ReplacePc.copying (i + 1), nd, vpc, pv⟩ := by
        simp only [ElectricMeterReader.Shared.replaceStep, hx, hstep]
      rw [hs]
      cases vpc with
      | locking => exact ⟨rfl, ⟨rfl, hi1, rfl⟩, hr⟩
      | visiting j => exact absurd hr.2.1 (by simp)
      | finished => exact ⟨rfl, ⟨rfl, hi1, rfl⟩, hr⟩
    | none =>
      have hend := take_prefix_end nd old i hi hx
      have hs : ElectricMeterReader.Shared.replaceStep true
          ⟨nd.take i ++ old.drop i, true, sh, ElectricMeterReader.ReplacePc.copying i, nd,
            vpc, pv⟩ =
          ⟨nd, true, sh, ElectricMeterReader.ReplacePc.unlocking, nd, vpc, pv⟩ := by
        simp only [ElectricMeterReader.Shared.replaceStep, hx, hend]
      rw [hs]
      cases vpc with
      | locking => exact ⟨rfl, ⟨rfl, rfl⟩, hr⟩
      | visiting j => exact absurd hr.2.1 (by simp)
      | finished => exact ⟨rfl, ⟨rfl, rfl⟩, hr⟩
  | unlocking =>
    have hex : ex = true := hw.1
    have hm : m = nd := hw.2
    subst hex
    subst hm
    cases vpc with
    | locking => exact ⟨rfl, ⟨rfl, rfl⟩, hr⟩
    | visiting j => exact absurd hr.2.1 (by simp)
    | finished => exact ⟨rfl, ⟨rfl, rfl⟩, hr⟩
  | finished => exact ⟨rfl, hw, hr⟩

theorem shared_renderStep_consistent (old new_data : List ElectricMeter)
    (s : ElectricMeterReader.Shared)
    (h : ElectricMeterReader.Shared.Consistent old new_data s) :
    ElectricMeterReader.Shared.Consistent old new_data (s.renderStep true) := by
  obtain ⟨m, ex, sh, rpc, nd, vpc, pv⟩ := s
  obtain ⟨hnd, hw, hr⟩ := h
  have hnd' : nd = new_data := hnd
  subst hnd'
  cases vpc with
  | locking =>
    have h1 : sh = 0 := hr.1
    have h2 : pv = [] := hr.2
    subst h1
    subst h2
    cases ex with
    | true =>
      have hs : ElectricMeterReader.Shared.renderStep true
          ⟨m, true, 0, rpc, nd, ElectricMeterReader.RenderPc.locking, []⟩ =
          ⟨m, true, 0, rpc, nd, ElectricMeterReader.RenderPc.locking, []⟩ := by
        simp [ElectricMeterReader.Shared.renderStep]
      rw [hs]
      exact ⟨rfl, hw, rfl, rfl⟩
    | false =>
      have hs : ElectricMeterReader.Shared.renderStep true
          ⟨m, false, 0, rpc, nd, ElectricMeterReader.RenderPc.locking, []⟩ =
          ⟨m, false, 1, rpc, nd, ElectricMeterReader.RenderPc.visiting 0, []⟩ := by
        simp [ElectricMeterReader.Shared.renderStep]
      rw [hs]
      exact ⟨rfl, hw, rfl, rfl, by simp⟩
  | visiting j =>
    have h1 : sh = 1 := hr.1
    have h2 : ex = false := hr.2.1
    have h3 : pv = (m.take j).map ElectricMeterReader.setupHttpRoutes.element := hr.2.2
    subst h1
    subst h2
    subst h3
    have hstore : m = old ∨ m = nd := by
      cases rpc with
      | locking => exact Or.inl hw.2
      | copying i => exact absurd hw.1 (by simp)
      | unlocking => exact absurd hw.1 (by simp)
      | finished => exact Or.inr hw.2
    cases hx : m[j]? with
    | some x =>
      have hs : ElectricMeterReader.Shared.renderStep true
          ⟨m, false, 1, rpc, nd, ElectricMeterReader.RenderPc.visiting j,
            (m.take j).map ElectricMeterReader.setupHttpRoutes.element⟩ =
          ⟨m, false, 1, rpc, nd, ElectricMeterReader.RenderPc.visiting (j + 1),
            (m.take (j + 1)).map ElectricMeterReader.setupHttpRoutes.element⟩ := by
        simp only [ElectricMeterReader.Shared.renderStep, hx]
        rw [List.take_succ, hx]
        simp
      rw [hs]
      exact ⟨rfl, hw, rfl, rfl, rfl⟩
    | none =>
      have hge : m.length ≤ j := List.getElem?_eq_none_iff.mp hx
      have hs : ElectricMeterReader.Shared.renderStep true
          ⟨m, false, 1, rpc, nd, ElectricMeterReader.RenderPc.visiting j,
            (m.take j).map ElectricMeterReader.setupHttpRoutes.element⟩ =
          ⟨m, false, 0, rpc, nd, ElectricMeterReader.RenderPc.finished,
            m.map ElectricMeterReader.setupHttpRoutes.element⟩ := by
        simp only [ElectricMeterReader.Shared.renderStep, hx]
        rw [List.take_of_length_le hge]
        simp
      rw [hs]
      refine ⟨rfl, hw, rfl, ?_⟩
      rcases hstore with h | h
      · left; rw [h]
      · right; rw [h]
  | finished => exact ⟨rfl, hw, hr⟩

theorem shared_run_consistent (old new_data : List ElectricMeter) :
    ∀ (schedule : List Bool) (s : ElectricMeterReader.Shared),
      ElectricMeterReader.Shared.Consistent old new_data s →
      ElectricMeterReader.Shared.Consistent old new_data
        (ElectricMeterReader.Shared.run true schedule s) := by
  intro schedule
  induction schedule with
  | nil => intro s h; exact h
  | cons b rest ih =>
    intro s h
    cases b with
    | true => exact ih _ (shared_replaceStep_consistent old new_data s h)
    | false => exact ih _ (shared_renderStep_consistent old new_data s h)

theorem shared_start_consistent (old new_data : List ElectricMeter) :
    ElectricMeterReader.Shared.Consistent old new_data
      (ElectricMeterReader.Shared.start old new_data) :=
  ⟨rfl, ⟨rfl, rfl⟩, rfl, rfl⟩

theorem std_round_zero : std.round 0 = 0 := by
  have h : Rat.floor ((0 : ℚ) + 1 / 2) = 0 := by
    show ⌊((0 : ℚ) + 1 / 2)⌋ = 0
    rw [Int.floor_eq_iff]
    norm_num
  unfold std.round
  rw [if_pos (le_refl _), h]
  norm_num

/-- The same two blocks without `meters_mutex_` admit a torn read: the request thread visits
the first entry before the assignment and the second one after it. -/
theorem unguarded_read_is_torn :
    (ElectricMeterReader.Shared.run false
        [false, false, true, true, true, true, true, false, false]
        (ElectricMeterReader.Shared.start
          [{ id := 1, power_value := 0, success := false, last_update := 0 },
           { id := 2, power_value := 0, success := false, last_update := 0 }]
          [{ id := 1, power_value := 0, success := true, last_update := 1 },
           { id := 2, power_value := 0, success := true, last_update := 1 }])).power_values =
      [ElectricMeterReader.setupHttpRoutes.element
          { id := 1, power_value := 0, success := false, last_update := 0 },
       ElectricMeterReader.setupHttpRoutes.element
          { id := 2, power_value := 0, success := true, last_update := 1 }] ∧
    ElectricMeterReader.setupHttpRoutes.element
        { id := 1, power_value := 0, success := false, last_update := 0 } = some (-1) ∧
    ElectricMeterReader.setupHttpRoutes.element
        { id := 2, power_value := 0, success := true, last_update := 1 } = some 0 := by
  refine ⟨rfl, rfl, ?_⟩
  simp [ElectricMeterReader.setupHttpRoutes.element, ieee754Single_zero, std_round_zero,
    nearest_zero]

/-- C22. The block of `readAllMeters` that replaces `meters_` under the exclusive lock on
`meters_mutex_` and the block of the batch handler that reads `meters_` under the shared lock,
run by two threads in any interleaving of their steps, with the assignment of the vector taken
element by element: when the handler has finished, the array it built is the rendering of the
complete vector before the replacement or of the complete vector after it. -/
theorem batch_read_sees_old_or_new (old new_data : List ElectricMeter) (now : Nat)
    (schedule : List Bool)
    (h : (ElectricMeterReader.Shared.run true schedule
      (ElectricMeterReader.Shared.start old new_data)).render_pc =
        ElectricMeterReader.RenderPc.finished) :
    (ElectricMeterReader.Shared.run true schedule
        (ElectricMeterReader.Shared.start old new_data)).power_values =
      (ElectricMeterReader.setupHttpRoutes.all old now).message ∨
    (ElectricMeterReader.Shared.run true schedule
        (ElectricMeterReader.Shared.start old new_data)).power_values =
      (ElectricMeterReader.setupHttpRoutes.all new_data now).message := by
  have hc := shared_run_consistent old new_data schedule _
    (shared_start_consistent old new_data)
  obtain ⟨_, _, hr⟩ := hc
  rw [h] at hr
  rw [electric_all_message_element, electric_all_message_element]
  exact hr.2

theorem batch_read_sees_old_or_new_witness :
    (ElectricMeterReader.Shared.run true
        [false, false, true, true, false, true, false, true, true, true, true, true]
        (ElectricMeterReader.Shared.start
          [{ id := 1, power_value := 0, success := false, last_update := 0 },
           { id := 2, power_value := 0, success := false, last_update := 0 }]
          [{ id := 1, power_value := 0, success := true, last_update := 1 },
           { id := 2, power_value := 0, success := true, last_update := 1 }])).meters_ =
      [{ id := 1, power_value := 0, success := true, last_update := 1 },
       { id := 2, power_value := 0, success := true, last_update := 1 }] ∧
    ((ElectricMeterReader.Shared.run true
        [false, false, true, true, false, true, false, true, true, true, true, true]
        (ElectricMeterReader.Shared.start
          [{ id := 1, power_value := 0, success := false, last_update := 0 },
           { id := 2, power_value := 0, success := false, last_update := 0 }]
          [{ id := 1, power_value := 0, success := true, last_update := 1 },
           { id := 2, power_value := 0, success := true, last_update := 1 }])).power_values =
        (ElectricMeterReader.setupHttpRoutes.all
          [{ id := 1, power_value := 0, success := false, last_update := 0 },
           { id := 2, power_value := 0, success := false, last_update := 0 }] 7).message ∨
      (ElectricMeterReader.Shared.run true
        [false, false, true, true, false, true, false, true, true, true, true, true]
        (ElectricMeterReader.Shared.start
          [{ id := 1, power_value := 0, success := false, last_update := 0 },
           { id := 2, power_value := 0, success := false, last_update := 0 }]
          [{ id := 1, power_value := 0, success := true, last_update := 1 },
           { id := 2, power_value := 0, success := true, last_update := 1 }])).power_values =
        (ElectricMeterReader.setupHttpRoutes.all
          [{ id := 1, power_value := 0, success := true, last_update := 1 },
           { id := 2, power_value := 0, success := true, last_update := 1 }] 7).message) :=
  ⟨rfl, batch_read_sees_old_or_new _ _ 7 _ rfl⟩

/-! ## Scheduling of the polling cycles -/

/-- On a duration that is not negative, the truncated number of milliseconds reaches `I`
exactly when the duration reaches `I` milliseconds. -/
theorem duration_cast_ge_iff (d I : Int) (hd : 0 ≤ d) :
    std.duration_cast_milliseconds d ≥ I ↔ I * 1000000 ≤ d := by
  unfold std.duration_cast_milliseconds
  rw [Int.tdiv_eq_ediv hd (by norm_num), ge_iff_le, Int.le_ediv_iff_mul_le (by norm_num)]

/-- An iteration of `run` in which the interval has not elapsed starts no cycle. -/
theorem run_body_idle (cfg : ElectricConfig) (interval : Int) (t : Transport)
    (steady : Nat → Int) (p : ElectricMeterReader.Poller)
    (h : ¬ std.duration_cast_milliseconds (steady p.steady_samples - p.last_read_time_)
      ≥ interval) :
    ElectricMeterReader.run.body cfg interval t steady p =
      Outcome.returned ()
        { p with
          steady_samples := p.steady_samples + 1,
          reader := { p.reader with link := p.reader.link.sleep 100 } } := by
  simp only [ElectricMeterReader.run.body, if_neg h]

/-- An iteration of `run` in which the interval has elapsed starts a cycle at the sampled
time; when the cycle returns, `last_read_time_` is that time. -/
theorem run_body_cycle (cfg : ElectricConfig) (interval : Int) (t : Transport)
    (steady : Nat → Int) (p : ElectricMeterReader.Poller)
    (h : std.duration_cast_milliseconds (steady p.steady_samples - p.last_read_time_)
      ≥ interval) :
    (ElectricMeterReader.run.body cfg interval t steady p).state.cycle_starts =
      p.cycle_starts ++ [steady p.steady_samples] ∧
    (ElectricMeterReader.run.body cfg interval t steady p).state.steady_samples =
      p.steady_samples + 1 ∧
    (∀ (b : Bool) (s1 : ElectricMeterReader),
      ElectricMeterReader.readAllMeters cfg t p.reader = Outcome.returned b s1 →
      ElectricMeterReader.run.body cfg interval t steady p =
        Outcome.returned ()
          { reader := { s1 with link := s1.link.sleep 100 },
            last_read_time_ := steady p.steady_samples,
            steady_samples := p.steady_samples + 1,
            cycle_starts := p.cycle_starts ++ [steady p.steady_samples] }) ∧
    (∀ s1 : ElectricMeterReader,
      ElectricMeterReader.readAllMeters cfg t p.reader = Outcome.blocked s1 →
      ElectricMeterReader.run.body cfg interval t steady p =
        Outcome.blocked
          { reader := s1,
            last_read_time_ := p.last_read_time_,
            steady_samples := p.steady_samples + 1,
            cycle_starts := p.cycle_starts ++ [steady p.steady_samples] }) := by
  cases hr : ElectricMeterReader.readAllMeters cfg t p.reader with
  | blocked s1 =>
    simp [ElectricMeterReader.run.body, if_pos h, hr]
  | returned b s1 =>
    simp [ElectricMeterReader.run.body, if_pos h, hr]

/-- With a monotone steady clock, the times at which `run` starts its cycles are spaced by at
least the interval. -/
theorem run_loop_spacing (cfg : ElectricConfig) (interval : Int) (t : Transport)
    (steady : Nat → Int) (hmono : ∀ i j : Nat, i ≤ j → steady i ≤ steady j) :
    ∀ (fuel : Nat) (p : ElectricMeterReader.Poller),
      p.last_read_time_ ≤ steady p.steady_samples →
      List.Chain' (fun a b => a + interval * 1000000 ≤ b) p.cycle_starts →
      (∀ x, x ∈ p.cycle_starts.getLast? → x = p.last_read_time_) →
      List.Chain' (fun a b => a + interval * 1000000 ≤ b)
        (ElectricMeterReader.run.loop cfg interval t steady fuel p).state.cycle_starts := by
  intro fuel
  induction fuel with
  | zero => intro p _ hc _; exact hc
  | succ n ih =>
    intro p hle hc hlast
    simp only [ElectricMeterReader.run.loop]
    split_ifs with hrun
    · by_cases h : std.duration_cast_milliseconds
          (steady p.steady_samples - p.last_read_time_) ≥ interval
      · have hgap : p.last_read_time_ + interval * 1000000 ≤ steady p.steady_samples := by
          have := (duration_cast_ge_iff _ interval (by omega)).mp h
          omega
        have hchain : List.Chain' (fun a b => a + interval * 1000000 ≤ b)
            (p.cycle_starts ++ [steady p.steady_samples]) := by
          apply List.Chain'.append hc (List.chain'_singleton _)
          intro x hx y hy
          simp only [List.head?_cons, Option.mem_def, Option.some.injEq] at hy
          rw [← hy, hlast x hx]
          exact hgap
        obtain ⟨h1, h2, h3, h4⟩ := run_body_cycle cfg interval t steady p h
        cases hr : ElectricMeterReader.readAllMeters cfg t p.reader with
        | blocked s1 =>
          rw [h4 s1 hr]
          exact hchain
        | returned b s1 =>
          rw [h3 b s1 hr]
          apply ih
          · exact hmono _ _ (Nat.le_succ _)
          · exact hchain
          · intro x hx
            simp only [List.getLast?_append, List.getLast?_singleton, Option.mem_def] at hx
            simpa using hx.symm
      · rw [run_body_idle cfg interval t steady p h]
        apply ih
        · exact le_trans hle (hmono _ _ (Nat.le_succ _))
        · exact hc
        · exact hlast
    · exact hc

/-- C26. One iteration of the loop of `ElectricMeterReader::run`, with a steady clock that has
not gone back since `last_read_time_` was taken: a cycle is started exactly when the time
sampled at the top of the iteration minus `last_read_time_` is at least `read_interval_ms`
milliseconds; when the cycle returns, `last_read_time_` is that sampled time, whatever the
cycle did and however long it took; otherwise nothing but the 100 ms sleep happens.  Hence,
with a monotone steady clock, the start times of consecutive cycles are at least
`read_interval_ms` apart. -/
theorem cycles_are_scheduled_from_cycle_start (cfg : ElectricConfig) (interval : Int)
    (t : Transport) (steady : Nat → Int) (p : ElectricMeterReader.Poller)
    (hclock : p.last_read_time_ ≤ steady p.steady_samples) :
    ((ElectricMeterReader.run.body cfg interval t steady p).state.cycle_starts =
        p.cycle_starts ++ [steady p.steady_samples] ↔
      interval * 1000000 ≤ steady p.steady_samples - p.last_read_time_) ∧
    (interval * 1000000 ≤ steady p.steady_samples - p.last_read_time_ →
      ∀ (b : Bool) (s1 : ElectricMeterReader),
        ElectricMeterReader.readAllMeters cfg t p.reader = Outcome.returned b s1 →
        ElectricMeterReader.run.body cfg interval t steady p =
          Outcome.returned ()
            { reader := { s1 with link := s1.link.sleep 100 },
              last_read_time_ := steady p.steady_samples,
              steady_samples := p.steady_samples + 1,
              cycle_starts := p.cycle_starts ++ [steady p.steady_samples] }) ∧
    (¬ interval * 1000000 ≤ steady p.steady_samples - p.last_read_time_ →
      ElectricMeterReader.run.body cfg interval t steady p =
        Outcome.returned ()
          { p with
            steady_samples := p.steady_samples + 1,
            reader := { p.reader with link := p.reader.link.sleep 100 } }) ∧
    ((∀ i j : Nat, i ≤ j → steady i ≤ steady j) →
      List.Chain' (fun a b => a + interval * 1000000 ≤ b) p.cycle_starts →
      (∀ x, x ∈ p.cycle_starts.getLast? → x = p.last_read_time_) →
      ∀ fuel : Nat,
        List.Chain' (fun a b => a + interval * 1000000 ≤ b)
          (ElectricMeterReader.run.loop cfg interval t steady fuel p).state.cycle_starts) := by
  have hiff := duration_cast_ge_iff (steady p.steady_samples - p.last_read_time_) interval
    (by omega)
  refine ⟨?_, ?_, ?_, ?_⟩
  · constructor
    · intro h
      by_contra hn
      rw [run_body_idle cfg interval t steady p (fun hc => hn (hiff.mp hc))] at h
      have := congrArg List.length h
      simp at this
    · intro h
      exact (run_body_cycle cfg interval t steady p (hiff.mpr h)).1
  · intro h
    exact (run_body_cycle cfg interval t steady p (hiff.mpr h)).2.2.1
  · intro h
    exact run_body_idle cfg interval t steady p (fun hc => h (hiff.mp hc))
  · intro hmono hc hlast fuel
    exact run_loop_spacing cfg interval t steady hmono fuel p hclock hc hlast

theorem cycles_are_scheduled_from_cycle_start_witness :
    (ElectricMeterReader.run.loop ElectricMeterReader.setDefaultConfig 10000
        (Scenario.scripted 0 0 18 (Scenario.buffer []) (some 3))
        (fun i => (i : Int) * 4000000000) 7
        { reader := Scenario.electric, last_read_time_ := 0, steady_samples := 0,
          cycle_starts := [] }).state.cycle_starts = [12000000000, 24000000000] ∧
    List.Chain' (fun a b => a + (10000 : Int) * 1000000 ≤ b)
      (ElectricMeterReader.run.loop ElectricMeterReader.setDefaultConfig 10000
        (Scenario.scripted 0 0 18 (Scenario.buffer []) (some 3))
        (fun i => (i : Int) * 4000000000) 7
        { reader := Scenario.electric, last_read_time_ := 0, steady_samples := 0,
          cycle_starts := [] }).state.cycle_starts :=
  ⟨by decide,
    (cycles_are_scheduled_from_cycle_start ElectricMeterReader.setDefaultConfig 10000
      (Scenario.scripted 0 0 18 (Scenario.buffer []) (some 3))
      (fun i => (i : Int) * 4000000000)
      { reader := Scenario.electric, last_read_time_ := 0, steady_samples := 0,
        cycle_starts := [] } (by decide)).2.2.2
      (by
        intro i j hij
        have : (i : Int) ≤ j := by exact_mod_cast hij
        show (i : Int) * 4000000000 ≤ (j : Int) * 4000000000
        omega)
      List.chain'_nil (by simp) 7⟩

/-! ## The mutex during the delays between attempts -/

/-- In a log that begins with the mutex owned and contains no release except possibly at its
very end, every delay is executed with the mutex owned. -/
theorem lockAtSleeps_held (evs : List Event) (h : Event.unlock ∉ evs) :
    ∀ tail : List Event, (tail = [] ∨ tail = [Event.unlock]) →
      ∀ b, b ∈ lockAtSleeps true (evs ++ tail) → b = true := by
  induction evs with
  | nil =>
    intro tail ht b hb
    rcases ht with ht | ht <;> subst ht <;> simp [lockAtSleeps] at hb
  | cons e es ih =>
    intro tail ht b hb
    have hes : Event.unlock ∉ es := fun hmem => h (List.mem_cons_of_mem _ hmem)
    cases e with
    | unlock => exact absurd (List.mem_cons_self _ _) h
    | lock => exact ih hes tail ht b (by simpa [lockAtSleeps] using hb)
    | relock => exact ih hes tail ht b (by simpa [lockAtSleeps] using hb)
    | setSlave slave => exact ih hes tail ht b (by simpa [lockAtSleeps] using hb)
    | readRegisters addr nb => exact ih hes tail ht b (by simpa [lockAtSleeps] using hb)
    | close => exact ih hes tail ht b (by simpa [lockAtSleeps] using hb)
    | connect => exact ih hes tail ht b (by simpa [lockAtSleeps] using hb)
    | sleep ms =>
      simp only [List.cons_append, lockAtSleeps, List.mem_cons] at hb
      rcases hb with hb | hb
      · exact hb
      · exact ih hes tail ht b hb

/-- The water retry loop, entered with the mutex owned, adds events to the log but never a
release of the mutex. -/
theorem water_loop_trace (cfg : WaterMeterReader.Config) (t : Transport) (slave : Int) :
    ∀ (fuel : Nat) (retry : Int) (result : WaterMeter) (l : Link), l.mutex_owned = true →
      ∃ evs : List Event,
        (WaterMeterReader.readSingleMeter.loop cfg t slave fuel retry result l).state.trace =
          l.trace ++ evs ∧ Event.unlock ∉ evs := by
  intro fuel
  induction fuel with
  | zero =>
    intro retry result l _
    exact ⟨[], by simp [WaterMeterReader.readSingleMeter.loop], by simp⟩
  | succ n ih =>
    intro retry result l ho
    have hrec := water_reconnect_owned t ((l.didSetSlave slave).didRead 0 2) (by simpa using ho)
    obtain ⟨e1, h1, n1⟩ := ih (retry + 1) result ((l.didSetSlave slave).sleep 100)
      (by simpa using ho)
    obtain ⟨e2, h2, n2⟩ := ih (retry + 1) result (((l.didSetSlave slave).didRead 0 2).sleep 100)
      (by simpa using ho)
    simp only [WaterMeterReader.readSingleMeter.loop, hrec]
    split_ifs
    · exact ⟨[Event.setSlave slave, Event.sleep 100] ++ e1,
        by rw [h1]; simp [Link.sleep, Link.emit, Link.didSetSlave], by simp [n1]⟩
    · exact ⟨[Event.setSlave slave], by simp [Link.didSetSlave], by simp⟩
    · exact ⟨[Event.setSlave slave, Event.readRegisters 0 2, Event.relock],
        by simp [Link.didSetSlave, Link.didRead, Link.emit], by simp⟩
    · exact ⟨[Event.setSlave slave, Event.readRegisters 0 2, Event.sleep 100] ++ e2,
        by rw [h2]; simp [Link.sleep, Link.emit, Link.didSetSlave, Link.didRead],
        by simp [n2]⟩
    · exact ⟨[Event.setSlave slave, Event.readRegisters 0 2],
        by simp [Link.didSetSlave, Link.didRead], by simp⟩
    · exact ⟨[Event.setSlave slave, Event.readRegisters 0 2],
        by simp [Link.didSetSlave, Link.didRead], by simp⟩

/-- The inverter retry loop, entered with the mutex owned, adds events to the log but never a
release of the mutex. -/
theorem inverter_loop_trace (cfg : InverterReader.Config) (t : Transport) (slave addr : Int)
    (m : ℚ) :
    ∀ (fuel : Nat) (retry : Int) (result : InverterData) (l : Link), l.mutex_owned = true →
      ∃ evs : List Event,
        (InverterReader.readSingleInverter.loop cfg t slave addr m fuel retry result
          l).state.trace = l.trace ++ evs ∧ Event.unlock ∉ evs := by
  intro fuel
  induction fuel with
  | zero =>
    intro retry result l _
    exact ⟨[], by simp [InverterReader.readSingleInverter.loop], by simp⟩
  | succ n ih =>
    intro retry result l ho
    have hrec := inverter_reconnect_owned t ((l.didSetSlave slave).didRead addr 2)
      (by simpa using ho)
    obtain ⟨e1, h1, n1⟩ := ih (retry + 1) result ((l.didSetSlave slave).sleep 100)
      (by simpa using ho)
    obtain ⟨e2, h2, n2⟩ := ih (retry + 1) result
      (((l.didSetSlave slave).didRead addr 2).sleep 100) (by simpa using ho)
    simp only [InverterReader.readSingleInverter.loop, hrec]
    split_ifs
    · exact ⟨[Event.setSlave slave, Event.sleep 100] ++ e1,
        by rw [h1]; simp [Link.sleep, Link.emit, Link.didSetSlave], by simp [n1]⟩
    · exact ⟨[Event.setSlave slave], by simp [Link.didSetSlave], by simp⟩
    · exact ⟨[Event.setSlave slave, Event.readRegisters addr 2, Event.relock],
        by simp [Link.didSetSlave, Link.didRead, Link.emit], by simp⟩
    · exact ⟨[Event.setSlave slave, Event.readRegisters addr 2, Event.sleep 100] ++ e2,
        by rw [h2]; simp [Link.sleep, Link.emit, Link.didSetSlave, Link.didRead],
        by simp [n2]⟩
    · exact ⟨[Event.setSlave slave, Event.readRegisters addr 2],
        by simp [Link.didSetSlave, Link.didRead], by simp⟩
    · exact ⟨[Event.setSlave slave, Event.readRegisters addr 2],
        by simp [Link.didSetSlave, Link.didRead], by simp⟩

/-- The retry loop of `performReadWithRetry` adds events to the log but never a release of
the mutex, and it returns. -/
theorem electric_loop_trace (cfg : ElectricConfig) (t : Transport) :
    ∀ (fuel : Nat) (s : ElectricMeterReader) (regs : Nat → Nat),
      ∃ (v : Bool × (Nat → Nat)) (s1 : ElectricMeterReader) (evs : List Event),
        ElectricMeterReader.performReadWithRetry.loop cfg t fuel s regs =
          Outcome.returned v s1 ∧
        s1.link.trace = s.link.trace ++ evs ∧ Event.unlock ∉ evs := by
  intro fuel
  induction fuel with
  | zero =>
    intro s regs
    exact ⟨_, _, [], rfl, by simp, by simp⟩
  | succ n ih =>
    intro s regs
    simp only [ElectricMeterReader.performReadWithRetry.loop]
    split_ifs
    · exact ⟨_, _, [Event.readRegisters cfg.start_register cfg.register_count], rfl,
        by simp [Link.didRead], by simp⟩
    · obtain ⟨v, s1, e1, h1, h2, n1⟩ := ih
        { s with
          link := (s.link.didRead cfg.start_register cfg.register_count).sleep 500,
          current_retry_count_ := s.current_retry_count_ + 1 }
        (t.modbus_read_registers s.link.reads).regs
      exact ⟨v, s1,
        [Event.readRegisters cfg.start_register cfg.register_count, Event.sleep 500] ++ e1,
        h1, by rw [h2]; simp [Link.didRead, Link.sleep, Link.emit], by simp [n1]⟩
    · obtain ⟨v, s1, e1, h1, h2, n1⟩ := ih
        { s with
          link := s.link.didRead cfg.start_register cfg.register_count,
          current_retry_count_ := s.current_retry_count_ + 1 }
        (t.modbus_read_registers s.link.reads).regs
      exact ⟨v, s1, [Event.readRegisters cfg.start_register cfg.register_count] ++ e1,
        h1, by rw [h2]; simp [Link.didRead], by simp [n1]⟩

/-- Every delay that one call of `readSingleMeter` executes is executed with
`modbus_mutex_` owned. -/
theorem water_read_sleeps_locked (cfg : WaterMeterReader.Config) (t : Transport)
    (slave : Int) (l : Link) (hfree : l.mutex_owned = false) :
    ∃ evs : List Event,
      (WaterMeterReader.readSingleMeter cfg t slave l).state.trace = l.trace ++ evs ∧
      ∀ b, b ∈ lockAtSleeps false evs → b = true := by
  cases hc : l.ctx_ with
  | none =>
    have hrec := water_reconnect_owned t l.acquire.tick (by simp)
    have hb : WaterMeterReader.readSingleMeter cfg t slave l =
        Outcome.blocked (l.acquire.tick.emit Event.relock) := by
      simp [WaterMeterReader.readSingleMeter, hfree, hc, hrec]
    rw [hb]
    exact ⟨[Event.lock, Event.relock], by simp [Link.acquire, Link.tick, Link.emit],
      by simp [lockAtSleeps]⟩
  | some sock =>
    rw [water_read_unfold cfg t slave l hfree (by simp [hc])]
    obtain ⟨evs, h1, h2⟩ := water_loop_trace cfg t slave (cfg.max_retry_count + 1).toNat 0
      { id := slave, total_water := 0, success := false, retry_count := 0,
        last_update := t.now l.clocks } l.acquire.tick (by simp)
    cases ho : WaterMeterReader.readSingleMeter.loop cfg t slave
        (cfg.max_retry_count + 1).toNat 0
        { id := slave, total_water := 0, success := false, retry_count := 0,
          last_update := t.now l.clocks } l.acquire.tick with
    | blocked l1 =>
      rw [ho] at h1
      refine ⟨[Event.lock] ++ (evs ++ []), ?_, ?_⟩
      · simp only [Outcome.unlockOnReturn, Outcome.state_blocked]
        simp only [Outcome.state_blocked] at h1
        rw [h1]
        simp [Link.acquire, Link.tick]
      · intro b hb
        exact lockAtSleeps_held evs h2 [] (Or.inl rfl) b (by simpa [lockAtSleeps] using hb)
    | returned r l1 =>
      rw [ho] at h1
      refine ⟨[Event.lock] ++ (evs ++ [Event.unlock]), ?_, ?_⟩
      · simp only [Outcome.unlockOnReturn, Outcome.state_returned]
        simp only [Outcome.state_returned] at h1
        simp [Link.release, h1, Link.acquire, Link.tick]
      · intro b hb
        exact lockAtSleeps_held evs h2 [Event.unlock] (Or.inr rfl) b
          (by simpa [lockAtSleeps] using hb)

/-- Every delay that one call of `readSingleInverter` executes is executed with
`modbus_mutex_` owned. -/
theorem inverter_read_sleeps_locked (cfg : InverterReader.Config) (t : Transport)
    (slave addr : Int) (m : ℚ) (l : Link) (hfree : l.mutex_owned = false) :
    ∃ evs : List Event,
      (InverterReader.readSingleInverter cfg t slave addr m l).state.trace = l.trace ++ evs ∧
      ∀ b, b ∈ lockAtSleeps false evs → b = true := by
  cases hc : l.ctx_ with
  | none =>
    have hrec := inverter_reconnect_owned t l.acquire.tick (by simp)
    have hb : InverterReader.readSingleInverter cfg t slave addr m l =
        Outcome.blocked (l.acquire.tick.emit Event.relock) := by
      simp [InverterReader.readSingleInverter, hfree, hc, hrec]
    rw [hb]
    exact ⟨[Event.lock, Event.relock], by simp [Link.acquire, Link.tick, Link.emit],
      by simp [lockAtSleeps]⟩
  | some sock =>
    rw [inverter_read_unfold cfg t slave addr m l hfree (by simp [hc])]
    obtain ⟨evs, h1, h2⟩ := inverter_loop_trace cfg t slave addr m
      (cfg.max_retry_count + 1).toNat 0
      (InverterReader.readSingleInverter.initial cfg slave addr m (t.now l.clocks))
      l.acquire.tick (by simp)
    cases ho : InverterReader.readSingleInverter.loop cfg t slave addr m
        (cfg.max_retry_count + 1).toNat 0
        (InverterReader.readSingleInverter.initial cfg slave addr m (t.now l.clocks))
        l.acquire.tick with
    | blocked l1 =>
      rw [ho] at h1
      refine ⟨[Event.lock] ++ (evs ++ []), ?_, ?_⟩
      · simp only [Outcome.unlockOnReturn, Outcome.state_blocked]
        simp only [Outcome.state_blocked] at h1
        rw [h1]
        simp [Link.acquire, Link.tick]
      · intro b hb
        exact lockAtSleeps_held evs h2 [] (Or.inl rfl) b (by simpa [lockAtSleeps] using hb)
    | returned r l1 =>
      rw [ho] at h1
      refine ⟨[Event.lock] ++ (evs ++ [Event.unlock]), ?_, ?_⟩
      · simp only [Outcome.unlockOnReturn, Outcome.state_returned]
        simp only [Outcome.state_returned] at h1
        simp [Link.release, h1, Link.acquire, Link.tick]
      · intro b hb
        exact lockAtSleeps_held evs h2 [Event.unlock] (Or.inr rfl) b
          (by simpa [lockAtSleeps] using hb)

/-- Every delay that one call of `performReadWithRetry` executes is executed with
`modbus_mutex_` owned. -/
theorem electric_perform_sleeps_locked (cfg : ElectricConfig) (t : Transport)
    (s : ElectricMeterReader) (regs : Nat → Nat) (hfree : s.link.mutex_owned = false) :
    ∃ evs : List Event,
      (ElectricMeterReader.performReadWithRetry cfg t s regs).state.link.trace =
        s.link.trace ++ evs ∧
      ∀ b, b ∈ lockAtSleeps false evs → b = true := by
  unfold ElectricMeterReader.performReadWithRetry
  simp only [hfree, Bool.false_eq_true, if_false]
  split_ifs with hc
  · exact ⟨[Event.lock, Event.unlock], by simp [Link.acquire, Link.release],
      by simp [lockAtSleeps]⟩
  · obtain ⟨v, s1, evs, h1, h2, h3⟩ :=
      electric_loop_trace cfg t (cfg.max_retry_count + 1).toNat
        { s with link := s.link.acquire, current_retry_count_ := 0 } regs
    rw [h1]
    refine ⟨[Event.lock] ++ (evs ++ [Event.unlock]), ?_, ?_⟩
    · simp [Link.release, h2, Link.acquire]
    · intro b hb
      exact lockAtSleeps_held evs h3 [Event.unlock] (Or.inr rfl) b
        (by simpa [lockAtSleeps] using hb)

/-- C27 (counterexample). One failed attempt followed by a successful one, in each of the
three retrying reads: the call returns, and the delay between the two attempts (100 ms,
respectively 500 ms) is executed while `modbus_mutex_` is owned. -/
theorem delay_executed_with_mutex_owned :
    (WaterMeterReader.readSingleMeter WaterMeterReader.setDefaultConfig
      (Scenario.scripted 1 ETIMEDOUT 2 (Scenario.buffer [0x1234, 0x5678]) none) 1
      Scenario.connected).state.trace =
      [Event.lock, Event.setSlave 1, Event.readRegisters 0 2, Event.sleep 100,
       Event.setSlave 1, Event.readRegisters 0 2, Event.unlock] ∧
    lockAtSleeps false
      (WaterMeterReader.readSingleMeter WaterMeterReader.setDefaultConfig
        (Scenario.scripted 1 ETIMEDOUT 2 (Scenario.buffer [0x1234, 0x5678]) none) 1
        Scenario.connected).state.trace = [true] ∧
    lockAtSleeps false
      (InverterReader.readSingleInverter (InverterReader.setDefaultConfig 0)
        (Scenario.scripted 1 ETIMEDOUT 2 (Scenario.buffer [0x0000, 0x0001]) none) 27 1670
        (1 / 10) Scenario.connected).state.trace = [true] ∧
    (ElectricMeterReader.performReadWithRetry ElectricMeterReader.setDefaultConfig
      (Scenario.scripted 1 ETIMEDOUT 18 (Scenario.buffer []) (some 3)) Scenario.electric
      (fun _ => 0)).state.link.trace =
      [Event.lock, Event.readRegisters 0 18, Event.sleep 500, Event.readRegisters 0 18,
       Event.unlock] ∧
    lockAtSleeps false
      (ElectricMeterReader.performReadWithRetry ElectricMeterReader.setDefaultConfig
        (Scenario.scripted 1 ETIMEDOUT 18 (Scenario.buffer []) (some 3)) Scenario.electric
        (fun _ => 0)).state.link.trace = [true] :=
  ⟨rfl, rfl, rfl, rfl, rfl⟩

/-- C27 (amended). In every execution of `performReadWithRetry`, `readSingleMeter` and
`readSingleInverter` entered with `modbus_mutex_` free, the mutex is owned at every moment at
which a delay between attempts is executed: the `lock_guard` taken at entry is released only
when the function returns. -/
theorem delays_are_executed_under_the_mutex :
    (∀ (cfg : ElectricConfig) (t : Transport) (s : ElectricMeterReader) (regs : Nat → Nat),
      s.link.mutex_owned = false →
      ∃ evs : List Event,
        (ElectricMeterReader.performReadWithRetry cfg t s regs).state.link.trace =
          s.link.trace ++ evs ∧
        ∀ b, b ∈ lockAtSleeps false evs → b = true) ∧
    (∀ (cfg : WaterMeterReader.Config) (t : Transport) (slave : Int) (l : Link),
      l.mutex_owned = false →
      ∃ evs : List Event,
        (WaterMeterReader.readSingleMeter cfg t slave l).state.trace = l.trace ++ evs ∧
        ∀ b, b ∈ lockAtSleeps false evs → b = true) ∧
    (∀ (cfg : InverterReader.Config) (t : Transport) (slave addr : Int) (m : ℚ) (l : Link),
      l.mutex_owned = false →
      ∃ evs : List Event,
        (InverterReader.readSingleInverter cfg t slave addr m l).state.trace =
          l.trace ++ evs ∧
        ∀ b, b ∈ lockAtSleeps false evs → b = true) :=
  ⟨electric_perform_sleeps_locked, water_read_sleeps_locked, inverter_read_sleeps_locked⟩

theorem delays_are_executed_under_the_mutex_witness :
    ∃ evs : List Event,
      (WaterMeterReader.readSingleMeter WaterMeterReader.setDefaultConfig
        (Scenario.scripted 1 ETIMEDOUT 2 (Scenario.buffer [0x1234, 0x5678]) none) 1
        Scenario.connected).state.trace = Scenario.connected.trace ++ evs ∧
      ∀ b, b ∈ lockAtSleeps false evs → b = true :=
  delays_are_executed_under_the_mutex.2.1 WaterMeterReader.setDefaultConfig
    (Scenario.scripted 1 ETIMEDOUT 2 (Scenario.buffer [0x1234, 0x5678]) none) 1
    Scenario.connected rfl

/-! ## Reconnection under the caller's own lock -/

/-- C28. In the water, inverter and heat readers the read operation calls `reconnectModbus`
while its own `lock_guard` on the mutex is alive, and `reconnectModbus` begins by locking the
same mutex.  With the mutex free and no handle at entry, the call is blocked right after its
own lock, for every transport; with a handle, a read that fails with "connection reset" or
"bad descriptor" blocks the call at that read. -/
theorem reconnect_locks_mutex_already_owned :
    (∀ (cfg : WaterMeterReader.Config) (t : Transport) (slave : Int) (l : Link),
      l.mutex_owned = false → l.ctx_ = none →
      WaterMeterReader.readSingleMeter cfg t slave l =
        Outcome.blocked (l.acquire.tick.emit Event.relock) ∧
      (l.acquire.tick.emit Event.relock).mutex_owned = true ∧
      (l.acquire.tick.emit Event.relock).trace = l.trace ++ [Event.lock, Event.relock]) ∧
    (∀ (cfg : InverterReader.Config) (t : Transport) (slave addr : Int) (m : ℚ) (l : Link),
      l.mutex_owned = false → l.ctx_ = none →
      InverterReader.readSingleInverter cfg t slave addr m l =
        Outcome.blocked (l.acquire.tick.emit Event.relock)) ∧
    (∀ (cfg : HeatMeterConfig) (t : Transport) (s : HeatMeterReader),
      s.link.mutex_owned = false → s.link.ctx_ = none →
      HeatMeterReader.readHeatMeter cfg t s =
        Outcome.blocked { s with link := s.link.tick.acquire.emit Event.relock }) ∧
    (∀ (cfg : WaterMeterReader.Config) (t : Transport) (slave : Int) (l : Link),
      l.mutex_owned = false → l.ctx_.isSome = true → 0 ≤ cfg.max_retry_count →
      t.modbus_set_slave l.slaves = 0 →
      (t.modbus_read_registers l.reads).rc = -1 →
      ((t.modbus_read_registers l.reads).errno = ECONNRESET ∨
        (t.modbus_read_registers l.reads).errno = EBADF) →
      (WaterMeterReader.readSingleMeter cfg t slave l).returns = false) ∧
    (∀ (cfg : InverterReader.Config) (t : Transport) (slave addr : Int) (m : ℚ) (l : Link),
      l.mutex_owned = false → l.ctx_.isSome = true → 0 ≤ cfg.max_retry_count →
      t.modbus_set_slave l.slaves = 0 →
      (t.modbus_read_registers l.reads).rc = -1 →
      ((t.modbus_read_registers l.reads).errno = ECONNRESET ∨
        (t.modbus_read_registers l.reads).errno = EBADF) →
      (InverterReader.readSingleInverter cfg t slave addr m l).returns = false) ∧
    (∀ (cfg : HeatMeterConfig) (t : Transport) (s : HeatMeterReader),
      s.link.mutex_owned = false → s.link.ctx_.isSome = true → 0 ≤ cfg.retry_count →
      t.modbus_set_slave s.link.slaves = 0 →
      (t.modbus_read_registers s.link.reads).rc ≠ cfg.heat_accumulated_len →
      ((t.modbus_read_registers s.link.reads).errno = ECONNRESET ∨
        (t.modbus_read_registers s.link.reads).errno = EBADF) →
      (HeatMeterReader.readHeatMeter cfg t s).returns = false) := by
  refine ⟨?_, ?_, ?_, ?_, ?_, ?_⟩
  · intro cfg t slave l hfree hc
    have hrec := water_reconnect_owned t l.acquire.tick (by simp)
    refine ⟨by simp [WaterMeterReader.readSingleMeter, hfree, hc, hrec], by simp, ?_⟩
    simp [Link.acquire, Link.tick, Link.emit]
  · intro cfg t slave addr m l hfree hc
    have hrec := inverter_reconnect_owned t l.acquire.tick (by simp)
    simp [InverterReader.readSingleInverter, hfree, hc, hrec]
  · intro cfg t s hfree hc
    have hrec := heat_reconnect_owned t s.link.tick.acquire (by simp)
    simp [HeatMeterReader.readHeatMeter, hfree, hc, hrec]
  · intro cfg t slave l hfree hctx hmax hs hrc hlink
    obtain ⟨l1, h, _⟩ := water_read_link_blocks cfg t slave l 0 hfree hctx (by simpa using hmax)
      (by intro i hi; have : i = 0 := by omega
          subst this; simpa using hs)
      (by intro i hi; omega) (by simpa using hrc) (by simpa using hlink)
    rw [h]; rfl
  · intro cfg t slave addr m l hfree hctx hmax hs hrc hlink
    obtain ⟨l1, h, _⟩ := inverter_read_link_blocks cfg t slave addr m l 0 hfree hctx
      (by simpa using hmax)
      (by intro i hi; have : i = 0 := by omega
          subst this; simpa using hs)
      (by intro i hi; omega) (by simpa using hrc) (by simpa using hlink)
    rw [h]; rfl
  · intro cfg t s hfree hctx hmax hs hrc hlink
    obtain ⟨s1, h, _⟩ := heat_read_link_blocks cfg t s 0 hfree hctx (by simpa using hmax)
      (by intro i hi; omega) (by simpa using hs) (by simpa using hrc) (by simpa using hlink)
    rw [h]; rfl

theorem reconnect_locks_mutex_already_owned_witness :
    (WaterMeterReader.readSingleMeter WaterMeterReader.setDefaultConfig
        (Scenario.scripted 0 0 2 (Scenario.buffer [0x1234, 0x5678]) (some 4)) 1
        WaterMeterReader.construct.link).returns = false ∧
    (WaterMeterReader.readSingleMeter WaterMeterReader.setDefaultConfig
        (Scenario.scripted 0 0 2 (Scenario.buffer [0x1234, 0x5678]) (some 4)) 1
        WaterMeterReader.construct.link).state.trace = [Event.lock, Event.relock] ∧
    (HeatMeterReader.readHeatMeter HeatMeterReader.setDefaultConfig
        (Scenario.scripted 1 ECONNRESET 2 (Scenario.buffer [0x0001, 0x0002]) (some 4))
        Scenario.heat).returns = false := by
  obtain ⟨h1, _, h3⟩ := reconnect_locks_mutex_already_owned.1 WaterMeterReader.setDefaultConfig
    (Scenario.scripted 0 0 2 (Scenario.buffer [0x1234, 0x5678]) (some 4)) 1
    WaterMeterReader.construct.link rfl rfl
  refine ⟨by rw [h1]; rfl, by rw [h1]; exact h3, ?_⟩
  exact reconnect_locks_mutex_already_owned.2.2.2.2.2 HeatMeterReader.setDefaultConfig
    (Scenario.scripted 1 ECONNRESET 2 (Scenario.buffer [0x0001, 0x0002]) (some 4))
    Scenario.heat rfl rfl (by decide) rfl (by decide) (Or.inl rfl)

/-! ## The sentinel and the values of successful readings -/

/-- A connection string made of an address without colon, a colon and a port text splits
into the address and the port text. -/
theorem splitAtColon_address_port (ip portText : String) (hip : ':' ∉ ip.toList) :
    ModbusBase.splitAtColon (ip ++ ":" ++ portText) = (ip, some portText) := by
  unfold ModbusBase.splitAtColon
  have hall : ∀ a ∈ ip.data, (fun c => decide (c ≠ ':')) a = true := by
    intro a ha
    have : a ≠ ':' := fun h => hip (h ▸ ha)
    simpa using this
  have hd : (ip ++ ":" ++ portText).toList = ip.data ++ (':' :: portText.data) := by
    show (ip ++ ":" ++ portText).data = _
    simp
  rw [hd, List.span_eq_take_drop, List.takeWhile_append_of_pos hall,
    List.dropWhile_append_of_pos hall]
  simp

/-- A TCP connection string that is empty, whose address `inet_pton` does not accept, or whose
port text does not parse or lies outside `[1, 65535]`, does not pass
`validateConnectionParams`. -/
theorem modbusBase_validate_rejects (sys : Libraries) (conn_str : String) (baudrate : Int)
    (parity : Char) (data_bit stop_bit : Int)
    (h : conn_str = "" ∨ sys.inet_pton (ModbusBase.splitAtColon conn_str).1 ≠ 1 ∨
      ∃ portText : String, (ModbusBase.splitAtColon conn_str).2 = some portText ∧
        (sys.stoi portText = none ∨
          ∃ port : Int, sys.stoi portText = some port ∧ (port < 1 ∨ 65535 < port))) :
    ModbusBase.validateConnectionParams sys ModbusBase.ConnectionType.TCP conn_str baudrate
      parity data_bit stop_bit = false := by
  have hdef : ModbusBase.validateConnectionParams sys ModbusBase.ConnectionType.TCP conn_str
      baudrate parity data_bit stop_bit =
      (if conn_str.isEmpty then false
        else if sys.inet_pton (ModbusBase.splitAtColon conn_str).1 ≠ 1 then false
        else
          match (ModbusBase.splitAtColon conn_str).2 with
          | none => true
          | some portText =>
            match sys.stoi portText with
            | none => false
            | some port => if port < 1 ∨ port > 65535 then false else true) := rfl
  rw [hdef]
  by_cases he : conn_str.isEmpty = true
  · rw [if_pos he]
  · rw [if_neg he]
    by_cases hi : sys.inet_pton (ModbusBase.splitAtColon conn_str).1 ≠ 1
    · rw [if_pos hi]
    · rw [if_neg hi]
      rcases h with h | h | ⟨portText, hp, h⟩
      · subst h
        exact absurd rfl he
      · exact absurd h hi
      · rcases h with h | ⟨port, h, hr⟩
        · simp only [hp, h]
        · simp only [hp, h]
          rw [if_pos (by omega)]

/-- `ModbusBase::connect` on parameters that do not pass the validation, entered with
`m_mutex` free and `m_connected` false: the exception "Invalid connection parameters" is
thrown and the object is as it was, so no library call was made. -/
theorem modbusBase_connect_invalid (sys : Libraries) (type : ModbusBase.ConnectionType)
    (conn_str : String) (slave_id baudrate : Int) (parity : Char) (data_bit stop_bit : Int)
    (s : ModbusBase) (hfree : s.mutex_owned = false) (hconn : s.m_connected = false)
    (hv : ModbusBase.validateConnectionParams sys type conn_str baudrate parity data_bit
      stop_bit = false) :
    ModbusBase.connect sys type conn_str slave_id baudrate parity data_bit stop_bit s =
      Outcome.returned (Except.error "Invalid connection parameters") s := by
  obtain ⟨ctx, conn, owned, calls⟩ := s
  simp only at hfree hconn
  subst hfree
  subst hconn
  simp [ModbusBase.connect, hv]

/-- `ElectricMeterReader::connectModbus` hands `tcp_host` and `tcp_port` to `modbus_new_tcp`
as they are: after closing a handle it found, that call is its first library call, and the
connection is attempted whenever the library returns a context. -/
theorem electric_connect_calls_spec (sys : Libraries) (tcp_host : String)
    (tcp_port slave_id : Int) (ctx_present : Bool) :
    (sys.modbus_new_tcp tcp_host tcp_port = false →
      ElectricMeterReader.connectModbus.calls sys tcp_host tcp_port slave_id ctx_present =
        (false, false,
          (if ctx_present then [LibraryCall.modbus_close, LibraryCall.modbus_free] else []) ++
            [LibraryCall.modbus_new_tcp tcp_host tcp_port])) ∧
    (sys.modbus_new_tcp tcp_host tcp_port = true → sys.modbus_connect = -1 →
      ElectricMeterReader.connectModbus.calls sys tcp_host tcp_port slave_id ctx_present =
        (false, false,
          (if ctx_present then [LibraryCall.modbus_close, LibraryCall.modbus_free] else []) ++
            [LibraryCall.modbus_new_tcp tcp_host tcp_port,
             LibraryCall.modbus_set_response_timeout, LibraryCall.modbus_set_slave slave_id,
             LibraryCall.modbus_connect, LibraryCall.modbus_free])) ∧
    (sys.modbus_new_tcp tcp_host tcp_port = true → sys.modbus_connect ≠ -1 →
      ElectricMeterReader.connectModbus.calls sys tcp_host tcp_port slave_id ctx_present =
        (true, true,
          (if ctx_present then [LibraryCall.modbus_close, LibraryCall.modbus_free] else []) ++
            [LibraryCall.modbus_new_tcp tcp_host tcp_port,
             LibraryCall.modbus_set_response_timeout, LibraryCall.modbus_set_slave slave_id,
             LibraryCall.modbus_connect])) := by
  refine ⟨?_, ?_, ?_⟩
  · intro h
    simp [ElectricMeterReader.connectModbus.calls, h]
  · intro h hc
    simp [ElectricMeterReader.connectModbus.calls, h, hc]
  · intro h hc
    simp [ElectricMeterReader.connectModbus.calls, h, hc]

/-- C21 (counterexample). `ElectricMeterReader::connectModbus` with the address
`192.168.1.74` and the ports `70000` and `0`, on a library that creates a context for every
non-empty address and connects: the port goes to `modbus_new_tcp` as it is, a handle is
created, the connection is attempted and the call returns `true`. -/
theorem connectModbus_passes_port_unchecked :
    ElectricMeterReader.connectModbus.calls Scenario.libraries "192.168.1.74" 70000 1 false =
      (true, true,
        [LibraryCall.modbus_new_tcp "192.168.1.74" 70000,
         LibraryCall.modbus_set_response_timeout, LibraryCall.modbus_set_slave 1,
         LibraryCall.modbus_connect]) ∧
    ElectricMeterReader.connectModbus.calls Scenario.libraries "192.168.1.74" 0 1 false =
      (true, true,
        [LibraryCall.modbus_new_tcp "192.168.1.74" 0,
         LibraryCall.modbus_set_response_timeout, LibraryCall.modbus_set_slave 1,
         LibraryCall.modbus_connect]) ∧
    ElectricMeterReader.connectModbus.calls Scenario.libraries "" 502 1 false =
      (false, false, [LibraryCall.modbus_new_tcp "" 502]) := by
  refine ⟨?_, ?_, ?_⟩ <;> decide

/-- C21 (amended). `ModbusBase::connect` (the class of `common/modbus_base.h`, which is
enclosed in a block comment and used by no reader) validates a TCP connection string before
any library call: when the string is empty, or is an address followed by a colon and a port
text that does not parse or lies outside `[1, 65535]`, the call throws "Invalid connection
parameters" and leaves the object, its handle and its log of library calls as they were.
`ElectricMeterReader::connectModbus`, the connect that runs, validates nothing: `tcp_host` and
`tcp_port` go to `modbus_new_tcp` as its first library call, the call fails without a
connection attempt exactly when the library returns no context, and a failed connection
attempt frees the context. -/
theorem connect_validates_only_in_modbusBase :
    (∀ (sys : Libraries) (conn_str : String) (slave_id baudrate : Int) (parity : Char)
        (data_bit stop_bit : Int) (s : ModbusBase),
      s.mutex_owned = false → s.m_connected = false →
      (conn_str = "" ∨
        ∃ ip portText : String, ':' ∉ ip.toList ∧ conn_str = ip ++ ":" ++ portText ∧
          (sys.stoi portText = none ∨
            ∃ port : Int, sys.stoi portText = some port ∧ (port < 1 ∨ 65535 < port))) →
      ModbusBase.connect sys ModbusBase.ConnectionType.TCP conn_str slave_id baudrate parity
          data_bit stop_bit s =
        Outcome.returned (Except.error "Invalid connection parameters") s) ∧
    (∀ (sys : Libraries) (tcp_host : String) (tcp_port slave_id : Int) (ctx_present : Bool),
      (sys.modbus_new_tcp tcp_host tcp_port = false →
        ElectricMeterReader.connectModbus.calls sys tcp_host tcp_port slave_id ctx_present =
          (false, false,
            (if ctx_present then [LibraryCall.modbus_close, LibraryCall.modbus_free]
              else []) ++ [LibraryCall.modbus_new_tcp tcp_host tcp_port])) ∧
      (sys.modbus_new_tcp tcp_host tcp_port = true → sys.modbus_connect = -1 →
        ElectricMeterReader.connectModbus.calls sys tcp_host tcp_port slave_id ctx_present =
          (false, false,
            (if ctx_present then [LibraryCall.modbus_close, LibraryCall.modbus_free]
              else []) ++
              [LibraryCall.modbus_new_tcp tcp_host tcp_port,
               LibraryCall.modbus_set_response_timeout, LibraryCall.modbus_set_slave slave_id,
               LibraryCall.modbus_connect, LibraryCall.modbus_free])) ∧
      (sys.modbus_new_tcp tcp_host tcp_port = true → sys.modbus_connect ≠ -1 →
        ElectricMeterReader.connectModbus.calls sys tcp_host tcp_port slave_id ctx_present =
          (true, true,
            (if ctx_present then [LibraryCall.modbus_close, LibraryCall.modbus_free]
              else []) ++
              [LibraryCall.modbus_new_tcp tcp_host tcp_port,
               LibraryCall.modbus_set_response_timeout, LibraryCall.modbus_set_slave slave_id,
               LibraryCall.modbus_connect]))) := by
  refine ⟨?_, electric_connect_calls_spec⟩
  intro sys conn_str slave_id baudrate parity data_bit stop_bit s hfree hconn h
  apply modbusBase_connect_invalid sys _ conn_str slave_id baudrate parity data_bit stop_bit s
    hfree hconn
  apply modbusBase_validate_rejects
  rcases h with h | ⟨ip, portText, hip, hc, hp⟩
  · exact Or.inl h
  · right; right
    refine ⟨portText, ?_, hp⟩
    rw [hc, splitAtColon_address_port ip portText hip]

theorem connect_validates_only_in_modbusBase_witness :
    ModbusBase.connect Scenario.libraries ModbusBase.ConnectionType.TCP "192.168.1.74:70000"
        1 9600 'N' 8 1 Scenario.modbusBase =
      Outcome.returned (Except.error "Invalid connection parameters") Scenario.modbusBase ∧
    ModbusBase.connect Scenario.libraries ModbusBase.ConnectionType.TCP "192.168.1.74:502"
        1 9600 'N' 8 1 Scenario.modbusBase =
      Outcome.returned (Except.ok ())
        { m_ctx := true, m_connected := true, mutex_owned := false,
          calls :=
            [LibraryCall.modbus_new_tcp "192.168.1.74" 502,
             LibraryCall.modbus_set_response_timeout, LibraryCall.modbus_set_byte_timeout,
             LibraryCall.modbus_set_slave 1, LibraryCall.modbus_connect] } :=
  ⟨connect_validates_only_in_modbusBase.1 Scenario.libraries "192.168.1.74:70000" 1 9600 'N'
      8 1 Scenario.modbusBase rfl rfl
      (Or.inr ⟨"192.168.1.74", "70000", by decide, by decide,
        Or.inr ⟨70000, by decide, Or.inr (by decide)⟩⟩),
    rfl⟩
